import Mathlib

/-!
FluidSynth per-voice rendering core (`src/rvoice/fluid_rvoice_dsp.c`) and system
utilities (`src/utils/fluid_sys.c`, `src/utils/fluid_sys.h`).

A shallow embedding of the four interpolation kernels
`fluid_rvoice_dsp_interpolate_none`, `_linear`, `_4th_order`, `_7th_order`, and of
`fluid_strtok`, `fluid_align_ptr`, `fluid_profile_start_stop`, `fluid_istream_gets` and
`fluid_shell_parse_argv_internal`.

Conventions of the embedding:

* `fluid_phase_t` (unsigned 64 bit) is a `Nat`, every operation reduced `% 2^64`;
  `unsigned int` values are `Nat` reduced `% 2^32`.
* `fluid_real_t` is `ℚ`: the arithmetic of the kernels is taken exactly.
* The sample indices `start`, `end`, `loopstart`, `loopend` of the voice are C `int`s
  holding non-negative offsets into the waveform; they are `Nat` here and the
  `int` expressions of the source are evaluated in `Int` before the conversion
  to `unsigned int`.
* `has_looped` is a flag, a `Bool` as in the data model of the specification.
* The inner `for` loops are bounded by `FLUID_BUFSIZE - dsp_i` (every iteration
  increments `dsp_i` and the guard contains `dsp_i < FLUID_BUFSIZE`); the outer
  `while(1)` takes explicit fuel and returns `none` when it runs out; its body is the
  function `*_iter`, one pass from the top of the loop to a `break` or to its end.
* `raws` and `wraps` are history variables: the interpolated values in the order they
  were produced and the number of executed `fluid_phase_sub_int`; no kernel reads them.
* In the system utilities a `char` is its code, memory is a list of bytes and a pointer
  an offset into it, `NULL` is `none`; a loop over a string recurses on the rest of the
  string.
-/

/-! ## Phase arithmetic (`fluid_phase.h`) -/

/-- Modelled from the spec: `fluid_phase.h` is not among the sources. Truncated integer
index of a 32.32 fixed-point phase (`indexFloor`), cast to `unsigned int`. -/
def fluid_phase_index (x : Nat) : Nat := (x / 2 ^ 32) % 2 ^ 32

/-- Modelled from the spec: `fluid_phase.h` is not among the sources. Fractional part of a
32.32 fixed-point phase. -/
def fluid_phase_fract (x : Nat) : Nat := x % 2 ^ 32

/-- Modelled from the spec: `fluid_phase.h` is not among the sources. Round-to-nearest
index (`indexRounded`): one half is added in 64 bit arithmetic, then the phase is
truncated. -/
def fluid_phase_index_round (x : Nat) : Nat := (((x + 2 ^ 31) % 2 ^ 64) / 2 ^ 32) % 2 ^ 32

/-- Modelled from the spec: `fluid_phase.h` is not among the sources. Row of the
coefficient tables selected by the fractional part (`fractionalRow`, 256 rows: the top
8 bits of the fraction). -/
def fluid_phase_fract_to_tablerow (x : Nat) : Nat := fluid_phase_fract x / 2 ^ 24

/-- Modelled from the spec: `fluid_phase.h` is not among the sources. `a += b` on
`unsigned long long` (`advance`). -/
def fluid_phase_incr (a b : Nat) : Nat := (a + b) % 2 ^ 64

/-- Modelled from the spec: `fluid_phase.h` is not among the sources. `a -= b` on
`unsigned long long`. -/
def fluid_phase_decr (a b : Nat) : Nat := (((a : Int) - (b : Int)) % 2 ^ 64).toNat

/-- Modelled from the spec: `fluid_phase.h` is not among the sources. Subtract the integer
sample count `b` (an `int`) from the phase (`retreatByLoopLength`):
`a -= (unsigned long long)b << 32`. -/
def fluid_phase_sub_int (a : Nat) (b : Int) : Nat := (((a : Int) - b * 2 ^ 32) % 2 ^ 64).toNat

/-- Modelled from the spec: `fluid_phase.h` is not among the sources. Conversion of the
playback speed to a fixed-point increment: integer part in the upper 32 bits, the
fraction scaled by `2^32` in the lower 32 bits. -/
def fluid_phase_set_float (b : ℚ) : Nat :=
  ((⌊b⌋.toNat % 2 ^ 32) * 2 ^ 32 + ⌊(b - ⌊b⌋) * 2 ^ 32⌋.toNat % 2 ^ 32) % 2 ^ 64

/-- Conversion of an `int` expression to `unsigned int`. -/
def to_uint (x : Int) : Nat := (x % 2 ^ 32).toNat

/-! ## Data model (`fluid_rvoice.h`, `fluid_sfont.h`) -/

/-- Waveform of a sample: the 16 bit words `data` and the optional low-order bytes
`data24`. -/
structure fluid_sample_t where
  data : Nat → Int
  data24 : Option (Nat → Int)

/-- Per-voice DSP state (`fluid_rvoice_dsp_t`). -/
structure fluid_rvoice_dsp_t where
  phase : Nat
  phase_incr : ℚ
  amp : ℚ
  amp_incr : ℚ
  has_looped : Bool
  start : Nat
  end_ : Nat
  loopstart : Nat
  loopend : Nat
  output_rate : ℚ
  sample : fluid_sample_t

/-- A voice: its DSP state and its two filters (`fluid_rvoice_t`); `F` is the state type
of `fluid_iir_filter_t`. -/
structure fluid_rvoice_t (F : Type) where
  dsp : fluid_rvoice_dsp_t
  resonant_filter : F
  resonant_custom_filter : F

/-- What the kernels use and the sources do not define: the block size, the sample
accessor of `fluid_rvoice.h`, one step of `fluid_iir_filter_apply` (filter state, input
sample and output rate to new state and filtered sample) and the coefficient tables of
`fluid_rvoice_dsp_tables.inc.h` (row, column). -/
structure DspEnv (F : Type) where
  FLUID_BUFSIZE : Nat
  fluid_rvoice_get_sample : (Nat → Int) → Option (Nat → Int) → Nat → Int
  fluid_iir_filter_apply : F → ℚ → ℚ → F × ℚ
  interp_coeff_linear : Nat → Nat → ℚ
  interp_coeff : Nat → Nat → ℚ
  sinc_table7 : Nat → Nat → ℚ

/-- The local variables of a render call that its loops change, the filters, the output
buffer and `voice->has_looped`; `raws` and `wraps` are history variables. -/
structure DspState (F : Type) where
  dsp_phase : Nat
  dsp_amp : ℚ
  dsp_i : Nat
  dsp_phase_index : Nat
  dsp_buf : Nat → ℚ
  resonant_filter : F
  resonant_custom_filter : F
  has_looped : Bool
  raws : List ℚ
  wraps : Nat

/-- What a render call leaves behind: the returned count, the voice, the output buffer,
and the two history variables. -/
structure RenderOut (F : Type) where
  ret : Nat
  rvoice : fluid_rvoice_t F
  dsp_buf : Nat → ℚ
  raws : List ℚ
  wraps : Nat

section kernels

variable {F : Type}

/-- Sample value at `idx` as a real (`fluid_rvoice_get_float_sample`). -/
def fluid_rvoice_get_float_sample (E : DspEnv F) (dsp_msb : Nat → Int)
    (dsp_lsb : Option (Nat → Int)) (idx : Nat) : ℚ :=
  ((E.fluid_rvoice_get_sample dsp_msb dsp_lsb idx : Int) : ℚ)

/-- The part of every loop body after `sample` has been interpolated: both filters, the
store into `dsp_buf[dsp_i]`, the phase and amplitude increments and `dsp_i++`; `idx` is
the index macro of the kernel. -/
def dsp_write (E : DspEnv F) (idx : Nat → Nat) (incr : Nat) (amp_incr rate : ℚ)
    (sample : ℚ) (s : DspState F) : DspState F :=
  let r1 := E.fluid_iir_filter_apply s.resonant_filter sample rate
  let r2 := E.fluid_iir_filter_apply s.resonant_custom_filter r1.2 rate
  let ph := fluid_phase_incr s.dsp_phase incr
  { dsp_phase := ph
    dsp_amp := s.dsp_amp + amp_incr
    dsp_i := s.dsp_i + 1
    dsp_phase_index := idx ph
    dsp_buf := Function.update s.dsp_buf s.dsp_i (s.dsp_amp * r2.2)
    resonant_filter := r1.1
    resonant_custom_filter := r2.1
    has_looped := s.has_looped
    raws := s.raws ++ [sample]
    wraps := s.wraps }

/-- A loop `for(; dsp_i < FLUID_BUFSIZE && cond; dsp_i++) { sample = raw; ... }` run for at
most `n` iterations. -/
def dsp_for (E : DspEnv F) (idx : Nat → Nat) (incr : Nat) (amp_incr rate : ℚ)
    (cond : Nat → Bool) (raw : DspState F → ℚ) : Nat → DspState F → DspState F
  | 0, s => s
  | n + 1, s =>
    if s.dsp_i < E.FLUID_BUFSIZE ∧ cond s.dsp_phase_index = true then
      dsp_for E idx incr amp_incr rate cond raw n (dsp_write E idx incr amp_incr rate (raw s) s)
    else s

/-- The loop `for(; dsp_i < FLUID_BUFSIZE && cond; dsp_i++)` itself: `FLUID_BUFSIZE - dsp_i`
iterations are all it can make. -/
def dsp_loop (E : DspEnv F) (idx : Nat → Nat) (incr : Nat) (amp_incr rate : ℚ)
    (cond : Nat → Bool) (raw : DspState F → ℚ) (s : DspState F) : DspState F :=
  dsp_for E idx incr amp_incr rate cond raw (E.FLUID_BUFSIZE - s.dsp_i) s

/-- The statement `fluid_phase_sub_int(dsp_phase, voice->loopend - voice->loopstart);
voice->has_looped = 1;` (go back to loop start). -/
def dsp_wrap (v : fluid_rvoice_dsp_t) (s : DspState F) : DspState F :=
  { s with
    dsp_phase := fluid_phase_sub_int s.dsp_phase ((v.loopend : Int) - (v.loopstart : Int))
    has_looped := true
    wraps := s.wraps + 1 }

/-- State of the locals on entry of a render call. -/
def dsp_init (rvoice : fluid_rvoice_t F) (dsp_buf : Nat → ℚ) (dsp_phase : Nat) : DspState F :=
  { dsp_phase := dsp_phase
    dsp_amp := rvoice.dsp.amp
    dsp_i := 0
    dsp_phase_index := 0
    dsp_buf := dsp_buf
    resonant_filter := rvoice.resonant_filter
    resonant_custom_filter := rvoice.resonant_custom_filter
    has_looped := rvoice.dsp.has_looped
    raws := []
    wraps := 0 }

/-- The epilogue `voice->phase = dsp_phase; voice->amp = dsp_amp; return (dsp_i);`. -/
def dsp_finish (rvoice : fluid_rvoice_t F) (dsp_phase : Nat) (s : DspState F) : RenderOut F :=
  { ret := s.dsp_i
    rvoice :=
      { dsp := { rvoice.dsp with phase := dsp_phase, amp := s.dsp_amp, has_looped := s.has_looped }
        resonant_filter := s.resonant_filter
        resonant_custom_filter := s.resonant_custom_filter }
    dsp_buf := s.dsp_buf
    raws := s.raws
    wraps := s.wraps }

/-- The expression `fluid_rvoice_get_float_sample(dsp_data, dsp_data24, idx)` with
`dsp_data = voice->sample->data` and `dsp_data24 = voice->sample->data24`. -/
def dsp_data_at (E : DspEnv F) (v : fluid_rvoice_dsp_t) (idx : Nat) : ℚ :=
  fluid_rvoice_get_float_sample E v.sample.data v.sample.data24 idx

/-- Sum `a + b` of two `unsigned int`. -/
def uint_add (a b : Nat) : Nat := (a + b) % 2 ^ 32

/-- Difference `a - b` of two `unsigned int`. -/
def uint_sub (a b : Nat) : Nat := (((a : Int) - (b : Int)) % 2 ^ 32).toNat

/-! ## No interpolation -/

/-- Interpolated value of the loop of `fluid_rvoice_dsp_interpolate_none`. -/
def none_raw (E : DspEnv F) (v : fluid_rvoice_dsp_t) (t : DspState F) : ℚ :=
  dsp_data_at E v t.dsp_phase_index

/-- One pass through the body of the `while(1)` of `fluid_rvoice_dsp_interpolate_none`:
the state after it, and `none` when a `break` was taken, `some ()` when the loop goes on. -/
def none_iter (E : DspEnv F) (v : fluid_rvoice_dsp_t) (looping : Bool)
    (incr end_index : Nat) (s : DspState F) : Option Unit × DspState F :=
  let s1 := { s with dsp_phase_index := fluid_phase_index_round s.dsp_phase }
  let s2 := dsp_loop E fluid_phase_index_round incr v.amp_incr v.output_rate
    (fun i => decide (i ≤ end_index)) (none_raw E v) s1
  if looping = false then (none, s2)
  else
    let s3 := if s2.dsp_phase_index > end_index then dsp_wrap v s2 else s2
    if s3.dsp_i ≥ E.FLUID_BUFSIZE then (none, s3)
    else (some (), s3)

/-- The `while(1)` of `fluid_rvoice_dsp_interpolate_none`. -/
def none_while (E : DspEnv F) (v : fluid_rvoice_dsp_t) (looping : Bool)
    (incr end_index : Nat) : Nat → DspState F → Option (DspState F)
  | 0, _ => none
  | fuel + 1, s =>
    match none_iter E v looping incr end_index s with
    | (none, t) => some t
    | (some _, t) => none_while E v looping incr end_index fuel t

/-- The render function `fluid_rvoice_dsp_interpolate_none`. -/
def fluid_rvoice_dsp_interpolate_none (E : DspEnv F) (fuel : Nat) (rvoice : fluid_rvoice_t F)
    (dsp_buf : Nat → ℚ) (looping : Bool) : Option (RenderOut F) :=
  let voice := rvoice.dsp
  let dsp_phase_incr := fluid_phase_set_float voice.phase_incr
  let end_index := to_uint (if looping then (voice.loopend : Int) - 1 else (voice.end_ : Int))
  (none_while E voice looping dsp_phase_incr end_index fuel
    (dsp_init rvoice dsp_buf voice.phase)).map
    (fun s => dsp_finish rvoice s.dsp_phase s)

/-! ## Straight line interpolation -/

/-- Interpolated value of the first loop of the linear kernel. -/
def linear_raw (E : DspEnv F) (v : fluid_rvoice_dsp_t) (t : DspState F) : ℚ :=
  let row := fluid_phase_fract_to_tablerow t.dsp_phase
  E.interp_coeff_linear row 0 * dsp_data_at E v t.dsp_phase_index
    + E.interp_coeff_linear row 1 * dsp_data_at E v (uint_add t.dsp_phase_index 1)

/-- Interpolated value of the loop "interpolate within last point" of the linear kernel. -/
def linear_raw_last (E : DspEnv F) (v : fluid_rvoice_dsp_t) (point : ℚ) (t : DspState F) : ℚ :=
  let row := fluid_phase_fract_to_tablerow t.dsp_phase
  E.interp_coeff_linear row 0 * dsp_data_at E v t.dsp_phase_index
    + E.interp_coeff_linear row 1 * point

/-- One pass through the body of the `while(1)` of `fluid_rvoice_dsp_interpolate_linear`:
the state after it, and `none` when a `break` was taken, else the `end_index` the next
pass starts with. -/
def linear_iter (E : DspEnv F) (v : fluid_rvoice_dsp_t) (looping : Bool)
    (incr : Nat) (point : ℚ) (end_index : Nat) (s : DspState F) : Option Nat × DspState F :=
  let s1 := { s with dsp_phase_index := fluid_phase_index s.dsp_phase }
  let s2 := dsp_loop E fluid_phase_index incr v.amp_incr v.output_rate
    (fun i => decide (i ≤ end_index)) (linear_raw E v) s1
  if s2.dsp_i ≥ E.FLUID_BUFSIZE then (none, s2)
  else
    let end_index1 := uint_add end_index 1
    let s3 := dsp_loop E fluid_phase_index incr v.amp_incr v.output_rate
      (fun i => decide (i ≤ end_index1)) (linear_raw_last E v point) s2
    if looping = false then (none, s3)
    else
      let s4 := if s3.dsp_phase_index > end_index1 then dsp_wrap v s3 else s3
      if s4.dsp_i ≥ E.FLUID_BUFSIZE then (none, s4)
      else (some (uint_sub end_index1 1), s4)

/-- The `while(1)` of `fluid_rvoice_dsp_interpolate_linear`. -/
def linear_while (E : DspEnv F) (v : fluid_rvoice_dsp_t) (looping : Bool)
    (incr : Nat) (point : ℚ) : Nat → Nat → DspState F → Option (DspState F)
  | 0, _, _ => none
  | fuel + 1, end_index, s =>
    match linear_iter E v looping incr point end_index s with
    | (none, t) => some t
    | (some end_index1, t) => linear_while E v looping incr point fuel end_index1 t

/-- The render function `fluid_rvoice_dsp_interpolate_linear`. -/
def fluid_rvoice_dsp_interpolate_linear (E : DspEnv F) (fuel : Nat) (rvoice : fluid_rvoice_t F)
    (dsp_buf : Nat → ℚ) (looping : Bool) : Option (RenderOut F) :=
  let voice := rvoice.dsp
  let dsp_phase_incr := fluid_phase_set_float voice.phase_incr
  let end_index :=
    to_uint ((if looping then (voice.loopend : Int) - 1 else (voice.end_ : Int)) - 1)
  let point :=
    if looping then dsp_data_at E voice (to_uint voice.loopstart)
    else dsp_data_at E voice (to_uint voice.end_)
  (linear_while E voice looping dsp_phase_incr point fuel end_index
    (dsp_init rvoice dsp_buf voice.phase)).map
    (fun s => dsp_finish rvoice s.dsp_phase s)

/-! ## 4th order (cubic) interpolation -/

/-- Interpolated value of the loop "interpolate first sample point" of the cubic kernel. -/
def cubic_raw_first (E : DspEnv F) (v : fluid_rvoice_dsp_t) (start_point : ℚ)
    (t : DspState F) : ℚ :=
  let row := fluid_phase_fract_to_tablerow t.dsp_phase
  E.interp_coeff row 0 * start_point
    + E.interp_coeff row 1 * dsp_data_at E v t.dsp_phase_index
    + E.interp_coeff row 2 * dsp_data_at E v (uint_add t.dsp_phase_index 1)
    + E.interp_coeff row 3 * dsp_data_at E v (uint_add t.dsp_phase_index 2)

/-- Interpolated value of the loop "interpolate the sequence of sample points" of the
cubic kernel. -/
def cubic_raw (E : DspEnv F) (v : fluid_rvoice_dsp_t) (t : DspState F) : ℚ :=
  let row := fluid_phase_fract_to_tablerow t.dsp_phase
  E.interp_coeff row 0 * dsp_data_at E v (uint_sub t.dsp_phase_index 1)
    + E.interp_coeff row 1 * dsp_data_at E v t.dsp_phase_index
    + E.interp_coeff row 2 * dsp_data_at E v (uint_add t.dsp_phase_index 1)
    + E.interp_coeff row 3 * dsp_data_at E v (uint_add t.dsp_phase_index 2)

/-- Interpolated value of the loop "interpolate within 2nd to last point" of the cubic
kernel. -/
def cubic_raw_last2 (E : DspEnv F) (v : fluid_rvoice_dsp_t) (end_point1 : ℚ)
    (t : DspState F) : ℚ :=
  let row := fluid_phase_fract_to_tablerow t.dsp_phase
  E.interp_coeff row 0 * dsp_data_at E v (uint_sub t.dsp_phase_index 1)
    + E.interp_coeff row 1 * dsp_data_at E v t.dsp_phase_index
    + E.interp_coeff row 2 * dsp_data_at E v (uint_add t.dsp_phase_index 1)
    + E.interp_coeff row 3 * end_point1

/-- Interpolated value of the loop "interpolate within the last point" of the cubic
kernel. -/
def cubic_raw_last (E : DspEnv F) (v : fluid_rvoice_dsp_t) (end_point1 end_point2 : ℚ)
    (t : DspState F) : ℚ :=
  let row := fluid_phase_fract_to_tablerow t.dsp_phase
  E.interp_coeff row 0 * dsp_data_at E v (uint_sub t.dsp_phase_index 1)
    + E.interp_coeff row 1 * dsp_data_at E v t.dsp_phase_index
    + E.interp_coeff row 2 * end_point1
    + E.interp_coeff row 3 * end_point2

/-- The variables `start_index`, `start_point` and `end_index` of the cubic kernel. -/
structure CubicVars where
  start_index : Nat
  start_point : ℚ
  end_index : Nat

/-- One pass through the body of the `while(1)` of
`fluid_rvoice_dsp_interpolate_4th_order`: the state after it, and `none` when a `break`
was taken, else the variables the next pass starts with. -/
def cubic_iter (E : DspEnv F) (v : fluid_rvoice_dsp_t) (looping : Bool)
    (incr : Nat) (end_point1 end_point2 : ℚ) (c : CubicVars) (s : DspState F) :
    Option CubicVars × DspState F :=
  let start_index := c.start_index
  let start_point := c.start_point
  let end_index := c.end_index
  let s1 := { s with dsp_phase_index := fluid_phase_index s.dsp_phase }
  let s2 := dsp_loop E fluid_phase_index incr v.amp_incr v.output_rate
    (fun i => decide (i = start_index)) (cubic_raw_first E v start_point) s1
  let s3 := dsp_loop E fluid_phase_index incr v.amp_incr v.output_rate
    (fun i => decide (i ≤ end_index)) (cubic_raw E v) s2
  if s3.dsp_i ≥ E.FLUID_BUFSIZE then (none, s3)
  else
    let end_index1 := uint_add end_index 1
    let s4 := dsp_loop E fluid_phase_index incr v.amp_incr v.output_rate
      (fun i => decide (i ≤ end_index1)) (cubic_raw_last2 E v end_point1) s3
    let end_index2 := uint_add end_index1 1
    let s5 := dsp_loop E fluid_phase_index incr v.amp_incr v.output_rate
      (fun i => decide (i ≤ end_index2)) (cubic_raw_last E v end_point1 end_point2) s4
    if looping = false then (none, s5)
    else
      let wrapped := decide (s5.dsp_phase_index > end_index2)
      let s6 := if wrapped then dsp_wrap v s5 else s5
      let renew := wrapped && !s5.has_looped
      let start_index1 := if renew then to_uint v.loopstart else start_index
      let start_point1 :=
        if renew then dsp_data_at E v (to_uint ((v.loopend : Int) - 1)) else start_point
      if s6.dsp_i ≥ E.FLUID_BUFSIZE then (none, s6)
      else (some { start_index := start_index1, start_point := start_point1,
                   end_index := uint_sub end_index2 2 }, s6)

/-- The `while(1)` of `fluid_rvoice_dsp_interpolate_4th_order`. -/
def cubic_while (E : DspEnv F) (v : fluid_rvoice_dsp_t) (looping : Bool)
    (incr : Nat) (end_point1 end_point2 : ℚ) :
    Nat → CubicVars → DspState F → Option (DspState F)
  | 0, _, _ => none
  | fuel + 1, c, s =>
    match cubic_iter E v looping incr end_point1 end_point2 c s with
    | (none, t) => some t
    | (some c1, t) => cubic_while E v looping incr end_point1 end_point2 fuel c1 t

/-- The values of `start_index`, `start_point` and `end_index` before the `while(1)` of
the cubic kernel: the last index before the 4th interpolation point, and the start of
the sample or, once the voice has looped, of the loop. -/
def cubic_vars_init (E : DspEnv F) (voice : fluid_rvoice_dsp_t) (looping : Bool) : CubicVars :=
  { end_index :=
      to_uint ((if looping then (voice.loopend : Int) - 1 else (voice.end_ : Int)) - 2)
    start_index := if voice.has_looped then to_uint voice.loopstart else to_uint voice.start
    start_point :=
      if voice.has_looped then dsp_data_at E voice (to_uint ((voice.loopend : Int) - 1))
      else dsp_data_at E voice (to_uint voice.start) }

/-- The value of `end_point1`: the loop start if looping, the duplicated end otherwise. -/
def cubic_end_point1 (E : DspEnv F) (voice : fluid_rvoice_dsp_t) (looping : Bool) : ℚ :=
  if looping then dsp_data_at E voice (to_uint voice.loopstart)
  else dsp_data_at E voice (to_uint voice.end_)

/-- The value of `end_point2`. -/
def cubic_end_point2 (E : DspEnv F) (voice : fluid_rvoice_dsp_t) (looping : Bool) : ℚ :=
  if looping then dsp_data_at E voice (to_uint ((voice.loopstart : Int) + 1))
  else cubic_end_point1 E voice looping

/-- The render function `fluid_rvoice_dsp_interpolate_4th_order`. -/
def fluid_rvoice_dsp_interpolate_4th_order (E : DspEnv F) (fuel : Nat)
    (rvoice : fluid_rvoice_t F) (dsp_buf : Nat → ℚ) (looping : Bool) : Option (RenderOut F) :=
  let voice := rvoice.dsp
  let dsp_phase_incr := fluid_phase_set_float voice.phase_incr
  (cubic_while E voice looping dsp_phase_incr (cubic_end_point1 E voice looping)
    (cubic_end_point2 E voice looping) fuel (cubic_vars_init E voice looping)
    (dsp_init rvoice dsp_buf voice.phase)).map
    (fun s => dsp_finish rvoice s.dsp_phase s)

/-! ## 7th order interpolation -/

/-- The three substitutes `start_points[0..2]` or `end_points[0..2]`. -/
structure Points where
  p0 : ℚ
  p1 : ℚ
  p2 : ℚ

/-- The sum `coeffs[0] * x0 + ... + coeffs[6] * x6` of the 7th order kernel, `coeffs` the
row of `sinc_table7` selected by the phase. -/
def sinc_sum (E : DspEnv F) (dsp_phase : Nat) (x0 x1 x2 x3 x4 x5 x6 : ℚ) : ℚ :=
  let row := fluid_phase_fract_to_tablerow dsp_phase
  E.sinc_table7 row 0 * x0 + E.sinc_table7 row 1 * x1 + E.sinc_table7 row 2 * x2
    + E.sinc_table7 row 3 * x3 + E.sinc_table7 row 4 * x4 + E.sinc_table7 row 5 * x5
    + E.sinc_table7 row 6 * x6

/-- Interpolated value of the loop "interpolate first sample point". -/
def sinc_raw_first (E : DspEnv F) (v : fluid_rvoice_dsp_t) (sp : Points) (t : DspState F) : ℚ :=
  sinc_sum E t.dsp_phase sp.p2 sp.p1 sp.p0
    (dsp_data_at E v t.dsp_phase_index)
    (dsp_data_at E v (uint_add t.dsp_phase_index 1))
    (dsp_data_at E v (uint_add t.dsp_phase_index 2))
    (dsp_data_at E v (uint_add t.dsp_phase_index 3))

/-- Interpolated value of the loop "interpolate 2nd to first sample point". -/
def sinc_raw_first2 (E : DspEnv F) (v : fluid_rvoice_dsp_t) (sp : Points) (t : DspState F) : ℚ :=
  sinc_sum E t.dsp_phase sp.p1 sp.p0
    (dsp_data_at E v (uint_sub t.dsp_phase_index 1))
    (dsp_data_at E v t.dsp_phase_index)
    (dsp_data_at E v (uint_add t.dsp_phase_index 1))
    (dsp_data_at E v (uint_add t.dsp_phase_index 2))
    (dsp_data_at E v (uint_add t.dsp_phase_index 3))

/-- Interpolated value of the loop "interpolate 3rd to first sample point". -/
def sinc_raw_first3 (E : DspEnv F) (v : fluid_rvoice_dsp_t) (sp : Points) (t : DspState F) : ℚ :=
  sinc_sum E t.dsp_phase sp.p0
    (dsp_data_at E v (uint_sub t.dsp_phase_index 2))
    (dsp_data_at E v (uint_sub t.dsp_phase_index 1))
    (dsp_data_at E v t.dsp_phase_index)
    (dsp_data_at E v (uint_add t.dsp_phase_index 1))
    (dsp_data_at E v (uint_add t.dsp_phase_index 2))
    (dsp_data_at E v (uint_add t.dsp_phase_index 3))

/-- Interpolated value of the loop "interpolate the sequence of sample points". -/
def sinc_raw (E : DspEnv F) (v : fluid_rvoice_dsp_t) (t : DspState F) : ℚ :=
  sinc_sum E t.dsp_phase
    (dsp_data_at E v (uint_sub t.dsp_phase_index 3))
    (dsp_data_at E v (uint_sub t.dsp_phase_index 2))
    (dsp_data_at E v (uint_sub t.dsp_phase_index 1))
    (dsp_data_at E v t.dsp_phase_index)
    (dsp_data_at E v (uint_add t.dsp_phase_index 1))
    (dsp_data_at E v (uint_add t.dsp_phase_index 2))
    (dsp_data_at E v (uint_add t.dsp_phase_index 3))

/-- Interpolated value of the loop "interpolate within 3rd to last point". -/
def sinc_raw_last3 (E : DspEnv F) (v : fluid_rvoice_dsp_t) (ep : Points) (t : DspState F) : ℚ :=
  sinc_sum E t.dsp_phase
    (dsp_data_at E v (uint_sub t.dsp_phase_index 3))
    (dsp_data_at E v (uint_sub t.dsp_phase_index 2))
    (dsp_data_at E v (uint_sub t.dsp_phase_index 1))
    (dsp_data_at E v t.dsp_phase_index)
    (dsp_data_at E v (uint_add t.dsp_phase_index 1))
    (dsp_data_at E v (uint_add t.dsp_phase_index 2))
    ep.p0

/-- Interpolated value of the loop "interpolate within 2nd to last point". -/
def sinc_raw_last2 (E : DspEnv F) (v : fluid_rvoice_dsp_t) (ep : Points) (t : DspState F) : ℚ :=
  sinc_sum E t.dsp_phase
    (dsp_data_at E v (uint_sub t.dsp_phase_index 3))
    (dsp_data_at E v (uint_sub t.dsp_phase_index 2))
    (dsp_data_at E v (uint_sub t.dsp_phase_index 1))
    (dsp_data_at E v t.dsp_phase_index)
    (dsp_data_at E v (uint_add t.dsp_phase_index 1))
    ep.p0 ep.p1

/-- Interpolated value of the loop "interpolate within last point". -/
def sinc_raw_last (E : DspEnv F) (v : fluid_rvoice_dsp_t) (ep : Points) (t : DspState F) : ℚ :=
  sinc_sum E t.dsp_phase
    (dsp_data_at E v (uint_sub t.dsp_phase_index 3))
    (dsp_data_at E v (uint_sub t.dsp_phase_index 2))
    (dsp_data_at E v (uint_sub t.dsp_phase_index 1))
    (dsp_data_at E v t.dsp_phase_index)
    ep.p0 ep.p1 ep.p2

/-- The values `start_points[0..2]` once the voice has looped: the last three points of
the loop. -/
def sinc_loop_points (E : DspEnv F) (v : fluid_rvoice_dsp_t) : Points :=
  { p0 := dsp_data_at E v (to_uint ((v.loopend : Int) - 1))
    p1 := dsp_data_at E v (to_uint ((v.loopend : Int) - 2))
    p2 := dsp_data_at E v (to_uint ((v.loopend : Int) - 3)) }

/-- The variables `start_index`, `start_points` and `end_index` of the 7th order
kernel. -/
structure SincVars where
  start_index : Nat
  start_points : Points
  end_index : Nat

/-- One pass through the body of the `while(1)` of
`fluid_rvoice_dsp_interpolate_7th_order`: the state after it, and `none` when a `break`
was taken, else the variables the next pass starts with. -/
def sinc_iter (E : DspEnv F) (v : fluid_rvoice_dsp_t) (looping : Bool)
    (incr : Nat) (ep : Points) (c : SincVars) (s : DspState F) :
    Option SincVars × DspState F :=
  let start_index := c.start_index
  let sp := c.start_points
  let end_index := c.end_index
  let s1 := { s with dsp_phase_index := fluid_phase_index s.dsp_phase }
  let s2 := dsp_loop E fluid_phase_index incr v.amp_incr v.output_rate
    (fun i => decide (i = start_index)) (sinc_raw_first E v sp) s1
  let start_index1 := uint_add start_index 1
  let s3 := dsp_loop E fluid_phase_index incr v.amp_incr v.output_rate
    (fun i => decide (i = start_index1)) (sinc_raw_first2 E v sp) s2
  let start_index2 := uint_add start_index1 1
  let s4 := dsp_loop E fluid_phase_index incr v.amp_incr v.output_rate
    (fun i => decide (i = start_index2)) (sinc_raw_first3 E v sp) s3
  let start_index3 := uint_sub start_index2 2
  let s5 := dsp_loop E fluid_phase_index incr v.amp_incr v.output_rate
    (fun i => decide (i ≤ end_index)) (sinc_raw E v) s4
  if s5.dsp_i ≥ E.FLUID_BUFSIZE then (none, s5)
  else
    let end_index1 := uint_add end_index 1
    let s6 := dsp_loop E fluid_phase_index incr v.amp_incr v.output_rate
      (fun i => decide (i ≤ end_index1)) (sinc_raw_last3 E v ep) s5
    let end_index2 := uint_add end_index1 1
    let s7 := dsp_loop E fluid_phase_index incr v.amp_incr v.output_rate
      (fun i => decide (i ≤ end_index2)) (sinc_raw_last2 E v ep) s6
    let end_index3 := uint_add end_index2 1
    let s8 := dsp_loop E fluid_phase_index incr v.amp_incr v.output_rate
      (fun i => decide (i ≤ end_index3)) (sinc_raw_last E v ep) s7
    if looping = false then (none, s8)
    else
      let wrapped := decide (s8.dsp_phase_index > end_index3)
      let s9 := if wrapped then dsp_wrap v s8 else s8
      let renew := wrapped && !s8.has_looped
      let start_index4 := if renew then to_uint v.loopstart else start_index3
      let sp1 := if renew then sinc_loop_points E v else sp
      if s9.dsp_i ≥ E.FLUID_BUFSIZE then (none, s9)
      else (some { start_index := start_index4, start_points := sp1,
                   end_index := uint_sub end_index3 3 }, s9)

/-- The `while(1)` of `fluid_rvoice_dsp_interpolate_7th_order`. -/
def sinc_while (E : DspEnv F) (v : fluid_rvoice_dsp_t) (looping : Bool)
    (incr : Nat) (ep : Points) :
    Nat → SincVars → DspState F → Option (DspState F)
  | 0, _, _ => none
  | fuel + 1, c, s =>
    match sinc_iter E v looping incr ep c s with
    | (none, t) => some t
    | (some c1, t) => sinc_while E v looping incr ep fuel c1 t

/-- The values of `start_index`, `start_points` and `end_index` before the `while(1)` of
the 7th order kernel. -/
def sinc_vars_init (E : DspEnv F) (voice : fluid_rvoice_dsp_t) (looping : Bool) : SincVars :=
  { end_index :=
      to_uint ((if looping then (voice.loopend : Int) - 1 else (voice.end_ : Int)) - 3)
    start_index := if voice.has_looped then to_uint voice.loopstart else to_uint voice.start
    start_points :=
      if voice.has_looped then sinc_loop_points E voice
      else
        { p0 := dsp_data_at E voice (to_uint voice.start)
          p1 := dsp_data_at E voice (to_uint voice.start)
          p2 := dsp_data_at E voice (to_uint voice.start) } }

/-- The values `end_points[0..2]`: the first three points of the loop if looping, the
duplicated end otherwise. -/
def sinc_end_points (E : DspEnv F) (voice : fluid_rvoice_dsp_t) (looping : Bool) : Points :=
  if looping then
    { p0 := dsp_data_at E voice (to_uint voice.loopstart)
      p1 := dsp_data_at E voice (to_uint ((voice.loopstart : Int) + 1))
      p2 := dsp_data_at E voice (to_uint ((voice.loopstart : Int) + 2)) }
  else
    { p0 := dsp_data_at E voice (to_uint voice.end_)
      p1 := dsp_data_at E voice (to_uint voice.end_)
      p2 := dsp_data_at E voice (to_uint voice.end_) }

/-- The render function `fluid_rvoice_dsp_interpolate_7th_order`: the phase is advanced by
half a sample on entry and taken back by half a sample before it is stored. -/
def fluid_rvoice_dsp_interpolate_7th_order (E : DspEnv F) (fuel : Nat)
    (rvoice : fluid_rvoice_t F) (dsp_buf : Nat → ℚ) (looping : Bool) : Option (RenderOut F) :=
  let voice := rvoice.dsp
  let dsp_phase_incr := fluid_phase_set_float voice.phase_incr
  let dsp_phase := fluid_phase_incr voice.phase 0x80000000
  (sinc_while E voice looping dsp_phase_incr (sinc_end_points E voice looping) fuel
    (sinc_vars_init E voice looping) (dsp_init rvoice dsp_buf dsp_phase)).map
    (fun s => dsp_finish rvoice (fluid_phase_decr s.dsp_phase 0x80000000) s)

end kernels

/-! ## Concrete inputs -/

/-- An environment to run the kernels in: blocks of 64 samples, a sample accessor that
returns the stored 16 bit word, filters that pass their input through, the linear
coefficients `1 - r/256`, `r/256` and no cubic or sinc coefficients. -/
def exEnv : DspEnv Unit :=
  { FLUID_BUFSIZE := 64
    fluid_rvoice_get_sample := fun msb _ i => msb i
    fluid_iir_filter_apply := fun f x _ => (f, x)
    interp_coeff_linear := fun r c => if c = 0 then 1 - (r : ℚ) / 256 else (r : ℚ) / 256
    interp_coeff := fun _ _ => 0
    sinc_table7 := fun _ _ => 0 }

/-- A voice over the samples `[0, 100, 200, 300]`: `start = 0`, `end = 3`, the loop
`[0, 4)`, entered at phase 0 with unit pitch, amplitude 1 and no amplitude ramp. -/
def exVoice : fluid_rvoice_t Unit :=
  { dsp :=
      { phase := 0, phase_incr := 1, amp := 1, amp_incr := 0, has_looped := false
        start := 0, end_ := 3, loopstart := 0, loopend := 4, output_rate := 44100
        sample := { data := fun i => ([0, 100, 200, 300] : List Int).getD i 0, data24 := none } }
    resonant_filter := ()
    resonant_custom_filter := () }

/-- The voice `exVoice` over a loop of 128 points, played at twice the recorded speed. -/
def exSkipVoice : fluid_rvoice_t Unit :=
  { exVoice with dsp := { exVoice.dsp with phase_incr := 2, loopend := 128, end_ := 127 } }

/-- The voice `exVoice` played at five times the recorded speed. -/
def exFastVoice : fluid_rvoice_t Unit :=
  { exVoice with dsp := { exVoice.dsp with phase_incr := 5 } }

/-- The voice `exVoice` entered half a sample before its last point. -/
def exHalfVoice : fluid_rvoice_t Unit :=
  { exVoice with dsp := { exVoice.dsp with phase := 3 * 2 ^ 32 + 2 ^ 31 } }

/-! ## Specification of the filter cascade -/

section cascade

variable {F : Type}

/-- One sample through the cascade: the primary filter first, the auxiliary filter on its
output; the filtered value is appended to the outputs. -/
def cascade_step (E : DspEnv F) (rate : ℚ) (acc : (F × F) × List ℚ) (x : ℚ) :
    (F × F) × List ℚ :=
  let r1 := E.fluid_iir_filter_apply acc.1.1 x rate
  let r2 := E.fluid_iir_filter_apply acc.1.2 r1.2 rate
  ((r1.1, r2.1), acc.2 ++ [r2.2])

/-- The cascade run over a sequence of interpolated values, in order, from the filter
states `f`: the final filter states and the filtered values. -/
def cascade_run (E : DspEnv F) (rate : ℚ) (f : F × F) (raws : List ℚ) : (F × F) × List ℚ :=
  raws.foldl (cascade_step E rate) (f, [])

end cascade

/-! ## Vocabulary of the statements -/

section vocabulary

variable {F : Type}

/-- Facts on one `for` loop of a kernel, from the state `s` before it to the state `t`
after it. -/
structure LoopPost (E : DspEnv F) (idx : Nat → Nat) (cond : Nat → Bool)
    (s t : DspState F) : Prop where
  mono : s.dsp_i ≤ t.dsp_i
  bound : s.dsp_i ≤ E.FLUID_BUFSIZE → t.dsp_i ≤ E.FLUID_BUFSIZE
  same : t.dsp_i = s.dsp_i → t = s
  index : s.dsp_phase_index = idx s.dsp_phase → t.dsp_phase_index = idx t.dsp_phase
  exit : E.FLUID_BUFSIZE ≤ t.dsp_i ∨ cond t.dsp_phase_index = false

/-- A property `P` of the loop state kept by the elementary steps of a kernel whose
index macro is `idxf`: a sample written while `dsp_phase_index` satisfies `G`, a wrap back
to the loop start taken while `dsp_phase_index` satisfies `W`, and a new value of
`dsp_phase_index`. -/
structure GuardedClosed (E : DspEnv F) (v : fluid_rvoice_dsp_t) (incr : Nat)
    (idxf : Nat → Nat) (G W : Nat → Prop) (P : DspState F → Prop) : Prop where
  write : ∀ (x : ℚ) (s : DspState F), s.dsp_i < E.FLUID_BUFSIZE →
    s.dsp_phase_index = idxf s.dsp_phase → G s.dsp_phase_index → P s →
    P (dsp_write E idxf incr v.amp_incr v.output_rate x s)
  wrap : ∀ s : DspState F, s.dsp_phase_index = idxf s.dsp_phase → W s.dsp_phase_index →
    P s → P (dsp_wrap v s)
  reindex : ∀ (s : DspState F) (j : Nat), P s → P { s with dsp_phase_index := j }

/-- The three indices the leading loops of the 7th order kernel compare with, for the
start index `i`, satisfy `G`. -/
def SincStart (G : Nat → Prop) (i : Nat) : Prop :=
  G i ∧ G (uint_add i 1) ∧ G (uint_add (uint_add i 1) 1)

/-- What holds of the loop state all through a render call that was entered with the
voice state `v`, the loop phase `ph0`, the filter states `f0` and the output buffer
`buf0`. -/
structure RenderInv (E : DspEnv F) (v : fluid_rvoice_dsp_t) (incr ph0 : Nat) (f0 : F × F)
    (buf0 : Nat → ℚ) (s : DspState F) : Prop where
  count_le : s.dsp_i ≤ E.FLUID_BUFSIZE
  raws_len : s.raws.length = s.dsp_i
  amp : s.dsp_amp = v.amp + (s.dsp_i : ℚ) * v.amp_incr
  phase : ∃ q : Int, (s.dsp_phase : Int) = (ph0 : Int) + (s.dsp_i : Int) * (incr : Int)
    - (s.wraps : Int) * (((v.loopend : Int) - (v.loopstart : Int)) * 2 ^ 32) + q * 2 ^ 64
  phase_lt : ph0 < 2 ^ 64 → s.dsp_phase < 2 ^ 64
  looped : s.has_looped = (v.has_looped || decide (0 < s.wraps))
  filters : (cascade_run E v.output_rate f0 s.raws).1
    = (s.resonant_filter, s.resonant_custom_filter)
  outs_len : (cascade_run E v.output_rate f0 s.raws).2.length = s.dsp_i
  written : ∀ i, i < s.dsp_i → s.dsp_buf i
    = (v.amp + (i : ℚ) * v.amp_incr) * (cascade_run E v.output_rate f0 s.raws).2.getD i 0
  untouched : ∀ i, s.dsp_i ≤ i → s.dsp_buf i = buf0 i

/-- Measure that decreases from one pass of the `while(1)` to the next when the voice
loops: the free slots of the output buffer, then the index of the phase. -/
def loop_measure (E : DspEnv F) (idxf : Nat → Nat) (s : DspState F) : Nat :=
  (E.FLUID_BUFSIZE - s.dsp_i) * 2 ^ 32 + idxf s.dsp_phase

/-- A render call, as a function of its fuel, returns, and every result it gives reports a
full block. -/
def RendersFull (E : DspEnv F) (render : Nat → Option (RenderOut F)) : Prop :=
  (∃ fuel out, render fuel = some out) ∧
    ∀ fuel out, render fuel = some out → out.ret = E.FLUID_BUFSIZE

/-- The postcondition of a render call entered with the voice `rvoice` and the output
buffer `buf0`, in terms of what it leaves behind. -/
structure RenderPost (E : DspEnv F) (rvoice : fluid_rvoice_t F) (buf0 : Nat → ℚ)
    (out : RenderOut F) : Prop where
  ret_le : out.ret ≤ E.FLUID_BUFSIZE
  raws_len : out.raws.length = out.ret
  amp : out.rvoice.dsp.amp = rvoice.dsp.amp + (out.ret : ℚ) * rvoice.dsp.amp_incr
  phase : rvoice.dsp.phase < 2 ^ 64 → (out.rvoice.dsp.phase : Int)
    = ((rvoice.dsp.phase : Int)
        + (out.ret : Int) * (fluid_phase_set_float rvoice.dsp.phase_incr : Int)
        - (out.wraps : Int) * (((rvoice.dsp.loopend : Int) - (rvoice.dsp.loopstart : Int))
            * 2 ^ 32)) % 2 ^ 64
  looped : out.rvoice.dsp.has_looped = (rvoice.dsp.has_looped || decide (0 < out.wraps))
  filters : (cascade_run E rvoice.dsp.output_rate
      (rvoice.resonant_filter, rvoice.resonant_custom_filter) out.raws).1
    = (out.rvoice.resonant_filter, out.rvoice.resonant_custom_filter)
  outs_len : (cascade_run E rvoice.dsp.output_rate
      (rvoice.resonant_filter, rvoice.resonant_custom_filter) out.raws).2.length = out.ret
  written : ∀ i, i < out.ret → out.dsp_buf i
    = (rvoice.dsp.amp + (i : ℚ) * rvoice.dsp.amp_incr)
      * (cascade_run E rvoice.dsp.output_rate
          (rvoice.resonant_filter, rvoice.resonant_custom_filter) out.raws).2.getD i 0
  untouched : ∀ i, out.ret ≤ i → out.dsp_buf i = buf0 i

/-- A render call, as a function of its fuel, returns. -/
def Returns (render : Nat → Option (RenderOut F)) : Prop :=
  ∃ fuel out, render fuel = some out

/-- The loop of the voice is usable by a render call with the flag `looping`: nothing is
asked when the voice does not loop, else `loopstart < loopend` with `loopend` in the range
of `int`. -/
def LoopOk (v : fluid_rvoice_dsp_t) (looping : Bool) : Prop :=
  looping = false ∨ (v.loopstart < v.loopend ∧ v.loopend < 2 ^ 31)

/-- The statement `Q` holds of each of the four render functions. -/
def four_kernels (E : DspEnv F)
    (Q : (Nat → fluid_rvoice_t F → (Nat → ℚ) → Bool → Option (RenderOut F)) → Prop) : Prop :=
  Q (fluid_rvoice_dsp_interpolate_none E) ∧ Q (fluid_rvoice_dsp_interpolate_linear E) ∧
    Q (fluid_rvoice_dsp_interpolate_4th_order E) ∧ Q (fluid_rvoice_dsp_interpolate_7th_order E)

/-- The state the only loop of the nearest-neighbour kernel ends in when the voice does
not loop. -/
def none_final (E : DspEnv F) (rvoice : fluid_rvoice_t F) (buf0 : Nat → ℚ) : DspState F :=
  dsp_loop E fluid_phase_index_round (fluid_phase_set_float rvoice.dsp.phase_incr)
    rvoice.dsp.amp_incr rvoice.dsp.output_rate
    (fun i => decide (i ≤ to_uint (rvoice.dsp.end_ : Int))) (none_raw E rvoice.dsp)
    { dsp_init rvoice buf0 rvoice.dsp.phase with
      dsp_phase_index := fluid_phase_index_round rvoice.dsp.phase }

/-- Invariant of the loop of the nearest-neighbour kernel when the voice does not loop,
entered at the phase `ph0` with an empty block. -/
structure NearestInv (E : DspEnv F) (v : fluid_rvoice_dsp_t) (ph0 incr e : Nat)
    (t : DspState F) : Prop where
  phase : t.dsp_phase % 2 ^ 64 = (ph0 + t.dsp_i * incr) % 2 ^ 64
  index : t.dsp_phase_index = fluid_phase_index_round (ph0 + t.dsp_i * incr)
  before : ∀ k, k < t.dsp_i → fluid_phase_index_round (ph0 + k * incr) ≤ e
  raws : t.raws = (List.range t.dsp_i).map
    (fun k => dsp_data_at E v (fluid_phase_index_round (ph0 + k * incr)))

/-- The index `idxf` of the loop phase lies between `start` and `end + 1`. -/
def InRange (idxf : Nat → Nat) (v : fluid_rvoice_dsp_t) (t : DspState F) : Prop :=
  v.start ≤ idxf t.dsp_phase ∧ idxf t.dsp_phase ≤ v.end_ + 1

/-- The index `i` is at or past the end of a non-empty loop that starts inside the
sample. -/
def WrapOk (v : fluid_rvoice_dsp_t) (i : Nat) : Prop :=
  v.start ≤ v.loopstart ∧ v.loopstart < v.loopend ∧ v.loopend ≤ i

/-- The preconditions under which a kernel with `taps` trailing taps keeps the phase index
in range: `end + 1` is an `int`, the sample has more than `taps` points, the playback
speed is at most 1.0, and the loop, when it is used (the voice loops or has looped), lies
inside the sample and has more than `taps` points. -/
def RangeOk (v : fluid_rvoice_dsp_t) (looping : Bool) (taps : Nat) : Prop :=
  v.end_ + 1 < 2 ^ 31 ∧ v.start + taps ≤ v.end_ ∧
    fluid_phase_set_float v.phase_incr ≤ 2 ^ 32 ∧
    ((looping = true ∨ v.has_looped = true) →
      v.start ≤ v.loopstart ∧ v.loopstart + taps < v.loopend ∧ v.loopend ≤ v.end_ + 1)

/-- A render function keeps the phase index `idxf` between `start` and `end + 1` under the
preconditions `RangeOk` for `taps` trailing taps, and returns. -/
def KeepsRange (idxf : Nat → Nat) (taps : Nat)
    (render : Nat → fluid_rvoice_t F → (Nat → ℚ) → Bool → Option (RenderOut F)) : Prop :=
  ∀ (rvoice : fluid_rvoice_t F) (buf0 : Nat → ℚ) (looping : Bool),
    RangeOk rvoice.dsp looping taps →
    rvoice.dsp.start ≤ idxf rvoice.dsp.phase → idxf rvoice.dsp.phase ≤ rvoice.dsp.end_ + 1 →
    Returns (fun fuel => render fuel rvoice buf0 looping) ∧
    ∀ fuel out, render fuel rvoice buf0 looping = some out →
      out.rvoice.dsp.start ≤ idxf out.rvoice.dsp.phase ∧
      idxf out.rvoice.dsp.phase ≤ out.rvoice.dsp.end_ + 1

/-- While no wrap has been made the loop phase is the entry phase `ph0` advanced once per
written sample, and every sample was interpolated at an index `idxf` of at most `m`. -/
def NoWrapInv (idxf : Nat → Nat) (ph0 incr m : Nat) (t : DspState F) : Prop :=
  t.wraps = 0 → t.dsp_phase % 2 ^ 64 = (ph0 + t.dsp_i * incr) % 2 ^ 64 ∧
    ∀ k, k < t.dsp_i → idxf (ph0 + k * incr) ≤ m

/-- The loop of the voice is usable by a looping render of a kernel with `taps` trailing
taps: it has more than `taps` points, `loopend` is an `int`, and for the kernels with
leading taps (`2 ≤ taps`) a voice that has not looped yet starts more than `taps` points
before the loop end. -/
def LoopHolds (v : fluid_rvoice_dsp_t) (taps : Nat) : Prop :=
  v.loopstart + taps < v.loopend ∧ v.loopend < 2 ^ 31 ∧
    (2 ≤ taps → v.has_looped = false → v.start + taps < v.loopend)

/-- A looping render of a kernel with index `idxf` and `taps` trailing taps: it returns;
the wraps it makes leave the fraction of the phase untouched and lower its integer part
by `loopend - loopstart` each; `has_looped` is set when a wrap was made and unchanged
otherwise; and a wrap was made when the index of `entry phase + k * phase_incr` is past
`loopend - 1` for a written sample `k < count` (for `k = count` too when `last`). -/
def WrapsWhenPast (idxf : Nat → Nat) (taps : Nat) (last : Bool)
    (render : Nat → fluid_rvoice_t F → (Nat → ℚ) → Bool → Option (RenderOut F)) : Prop :=
  ∀ (rvoice : fluid_rvoice_t F) (buf0 : Nat → ℚ),
    rvoice.dsp.phase < 2 ^ 64 → LoopHolds rvoice.dsp taps →
    Returns (fun fuel => render fuel rvoice buf0 true) ∧
    ∀ fuel out, render fuel rvoice buf0 true = some out →
      fluid_phase_fract out.rvoice.dsp.phase
        = fluid_phase_fract
          (rvoice.dsp.phase + out.ret * fluid_phase_set_float rvoice.dsp.phase_incr) ∧
      (fluid_phase_index out.rvoice.dsp.phase : Int)
        = ((fluid_phase_index
              (rvoice.dsp.phase + out.ret * fluid_phase_set_float rvoice.dsp.phase_incr) : Int)
            - (out.wraps : Int) * ((rvoice.dsp.loopend : Int) - (rvoice.dsp.loopstart : Int)))
          % 2 ^ 32 ∧
      (0 < out.wraps → out.rvoice.dsp.has_looped = true) ∧
      (out.wraps = 0 → out.rvoice.dsp.has_looped = rvoice.dsp.has_looped) ∧
      ∀ k, (k < out.ret ∨ (last = true ∧ k = out.ret)) →
        rvoice.dsp.loopend - 1
          < idxf (rvoice.dsp.phase + k * fluid_phase_set_float rvoice.dsp.phase_incr) →
        0 < out.wraps

/-- The fields of the voice a render call has no business with are the same in the voice
`w` left behind as in the voice `u` the call was entered with. -/
def FrameKept (u w : fluid_rvoice_t F) : Prop :=
  w.dsp.start = u.dsp.start ∧ w.dsp.end_ = u.dsp.end_ ∧ w.dsp.loopstart = u.dsp.loopstart ∧
    w.dsp.loopend = u.dsp.loopend ∧ w.dsp.phase_incr = u.dsp.phase_incr ∧
    w.dsp.amp_incr = u.dsp.amp_incr ∧ w.dsp.output_rate = u.dsp.output_rate ∧
    w.dsp.sample = u.dsp.sample

/-- The first index a voice plays: the start of the loop once the voice has looped (`hl`),
the start of the sample before. -/
def first_index (v : fluid_rvoice_dsp_t) (hl : Bool) : Nat :=
  if hl then v.loopstart else v.start

/-- The effective end index: the last point of the loop when the voice loops, the last
point of the sample otherwise. -/
def last_index (v : fluid_rvoice_dsp_t) (looping : Bool) : Nat :=
  if looping then v.loopend - 1 else v.end_

/-- Sample `k` of a render call was interpolated at the loop phase `p`, after `w` wraps:
`p` is the entry loop phase `ph0` advanced `k` times by `incr` and taken back by `w` loop
lengths, its index lies between the first index the voice plays at that time and the
effective end, and the interpolated value stands in the relation `R` to the value of
`has_looped` at that time and to `p`. -/
def TraceAt (v : fluid_rvoice_dsp_t) (looping : Bool) (ph0 incr : Nat)
    (R : Bool → Nat → ℚ → Prop) (raws : List ℚ) (wraps k : Nat) : Prop :=
  ∃ p w : Nat, w ≤ wraps ∧
    (p : Int) = ((ph0 : Int) + (k : Int) * (incr : Int)
      - (w : Int) * (((v.loopend : Int) - (v.loopstart : Int)) * 2 ^ 32)) % 2 ^ 64 ∧
    first_index v (v.has_looped || decide (0 < w)) ≤ fluid_phase_index p ∧
    fluid_phase_index p ≤ last_index v looping ∧
    R (v.has_looped || decide (0 < w)) p (raws.getD k 0)

/-- The invariant of a render call together with the trace of every sample written so
far. -/
structure TraceInv (E : DspEnv F) (v : fluid_rvoice_dsp_t) (looping : Bool) (incr ph0 : Nat)
    (f0 : F × F) (buf0 : Nat → ℚ) (R : Bool → Nat → ℚ → Prop) (s : DspState F) : Prop where
  inv : RenderInv E v incr ph0 f0 buf0 s
  trace : ∀ k, k < s.dsp_i → TraceAt v looping ph0 incr R s.raws s.wraps k

/-- The invariant `TraceInv` inside one pass of the `while(1)`: `dsp_phase_index` is
current and, while the block is not full, it is at least the first index the voice plays
and satisfies `Lo`. -/
structure PassInv (E : DspEnv F) (v : fluid_rvoice_dsp_t) (looping : Bool) (incr ph0 : Nat)
    (f0 : F × F) (buf0 : Nat → ℚ) (R : Bool → Nat → ℚ → Prop) (hl : Bool)
    (Lo : Nat → Prop) (s : DspState F) : Prop where
  base : TraceInv E v looping incr ph0 f0 buf0 R s
  looped : s.has_looped = hl
  index : s.dsp_phase_index = fluid_phase_index s.dsp_phase
  first : s.dsp_i < E.FLUID_BUFSIZE → first_index v hl ≤ s.dsp_phase_index
  lower : s.dsp_i < E.FLUID_BUFSIZE → Lo s.dsp_phase_index

/-- The value `hl` is one `has_looped` takes in a render call with the flag `looping`: the
value on entry, or set once the voice loops. -/
def PlayedAs (v : fluid_rvoice_dsp_t) (looping hl : Bool) : Prop :=
  hl = v.has_looped ∨ (looping = true ∧ hl = true)

/-- What the trace of a render call asks of the voice, for a kernel with `trail` trailing
taps entered with the loop phase `ph0`: the phase is a 64 bit value, the increment is
below `2^31` samples, the effective end index is an `int` and at least `trail`, the loop
is not empty when the voice loops, and the entry index is not before the first index the
voice plays. -/
def TraceOk (v : fluid_rvoice_dsp_t) (looping : Bool) (ph0 incr trail : Nat) : Prop :=
  ph0 < 2 ^ 64 ∧ incr ≤ 2 ^ 63 ∧ last_index v looping < 2 ^ 31 ∧
    trail ≤ last_index v looping ∧ (looping = true → v.loopstart < v.loopend) ∧
    first_index v v.has_looped ≤ fluid_phase_index ph0

/-- The leading loops of a kernel, at the first index the voice plays and the `lead`
indices after it, stay at or below the effective end index. -/
def LeadOk (v : fluid_rvoice_dsp_t) (looping : Bool) (lead : Nat) : Prop :=
  ∀ hl, PlayedAs v looping hl → first_index v hl + lead ≤ last_index v looping

/-- Every sample of the block `out` has a trace `TraceAt`. -/
def Traced (v : fluid_rvoice_dsp_t) (looping : Bool) (ph0 incr : Nat)
    (R : Bool → Nat → ℚ → Prop) (out : RenderOut F) : Prop :=
  ∀ k, k < out.ret → TraceAt v looping ph0 incr R out.raws out.wraps k

/-- The value of `start_point` of the cubic kernel while `has_looped` is `hl`: the last
point of the loop once the voice has looped, the duplicated start before. -/
def cubic_start_point (E : DspEnv F) (v : fluid_rvoice_dsp_t) (hl : Bool) : ℚ :=
  if hl then dsp_data_at E v (to_uint ((v.loopend : Int) - 1))
  else dsp_data_at E v (to_uint v.start)

/-- The values of `start_points[0..2]` of the 7th order kernel while `has_looped` is
`hl`. -/
def sinc_start_points (E : DspEnv F) (v : fluid_rvoice_dsp_t) (hl : Bool) : Points :=
  if hl then sinc_loop_points E v
  else
    { p0 := dsp_data_at E v (to_uint v.start)
      p1 := dsp_data_at E v (to_uint v.start)
      p2 := dsp_data_at E v (to_uint v.start) }

/-- The loop states `s` and `t` differ at most in the output buffer. -/
def BufEq (s t : DspState F) : Prop := ∃ b, t = { s with dsp_buf := b }

/-- The interpolated value `raw` does not depend on the output buffer. -/
def BufFree (raw : DspState F → ℚ) : Prop :=
  ∀ (s : DspState F) (b : Nat → ℚ), raw { s with dsp_buf := b } = raw s

/-- The voices `u` and `w` are equal field by field: the DSP state, the sample data and
the states of the two filters. -/
def FieldsEq (u w : fluid_rvoice_t F) : Prop :=
  u.dsp.phase = w.dsp.phase ∧ u.dsp.phase_incr = w.dsp.phase_incr ∧ u.dsp.amp = w.dsp.amp ∧
    u.dsp.amp_incr = w.dsp.amp_incr ∧ u.dsp.has_looped = w.dsp.has_looped ∧
    u.dsp.start = w.dsp.start ∧ u.dsp.end_ = w.dsp.end_ ∧
    u.dsp.loopstart = w.dsp.loopstart ∧ u.dsp.loopend = w.dsp.loopend ∧
    u.dsp.output_rate = w.dsp.output_rate ∧
    (∀ i, u.dsp.sample.data i = w.dsp.sample.data i) ∧
    u.dsp.sample.data24 = w.dsp.sample.data24 ∧
    u.resonant_filter = w.resonant_filter ∧
    u.resonant_custom_filter = w.resonant_custom_filter

/-- Two results of a render call agree in everything but the output buffer, or the call
ran out of fuel both times. -/
def SameBut (a b : Option (RenderOut F)) : Prop :=
  (a = none ∧ b = none) ∨
    ∃ o1 o2, a = some o1 ∧ b = some o2 ∧ o1.ret = o2.ret ∧ o1.rvoice = o2.rvoice ∧
      o1.raws = o2.raws ∧ o1.wraps = o2.wraps

/-- A voice over the 16 points `data[i] = i`, `start = 0`, `end = 15`, the loop `[0, 16)`,
entered at phase 4.5 with unit pitch. -/
def exRampVoice : fluid_rvoice_t Unit :=
  { exVoice with dsp := { exVoice.dsp with
      phase := 4 * 2 ^ 32 + 2 ^ 31, end_ := 15, loopend := 16
      sample := { data := fun i => (i : Int), data24 := none } } }

/-- A voice over the single point `data[0]`: `start = end = 0`, entered at phase 0 with
unit pitch. -/
def exPointVoice : fluid_rvoice_t Unit :=
  { exVoice with dsp := { exVoice.dsp with end_ := 0 } }

/-- The block `out` of a call entered at the loop phase `ph0` stops when the sample runs
out: the count is at most `FLUID_BUFSIZE`, no sample `k < count` has the index of
`ph0 + k * incr` past `end`, and the index of `ph0 + count * incr` is past `end` when
`count < FLUID_BUFSIZE`; so the count is `min(FLUID_BUFSIZE, n)` for the least `n` whose
index is past `end`, and `FLUID_BUFSIZE` when there is no such `n`. -/
def StopsAtEnd (E : DspEnv F) (v : fluid_rvoice_dsp_t) (ph0 incr : Nat)
    (out : RenderOut F) : Prop :=
  out.ret ≤ E.FLUID_BUFSIZE ∧
  (∀ k, k < out.ret → fluid_phase_index (ph0 + k * incr) ≤ v.end_) ∧
  (out.ret < E.FLUID_BUFSIZE → v.end_ < fluid_phase_index (ph0 + out.ret * incr)) ∧
  (∀ n, v.end_ < fluid_phase_index (ph0 + n * incr) →
    (∀ k, k < n → fluid_phase_index (ph0 + k * incr) ≤ v.end_) →
    out.ret = min E.FLUID_BUFSIZE n) ∧
  ((∀ k, fluid_phase_index (ph0 + k * incr) ≤ v.end_) → out.ret = E.FLUID_BUFSIZE)

end vocabulary

/-! ## System utilities (`fluid_sys.c`, `fluid_sys.h`) -/

section sys

/-! ### Strings

A `char` is its code, a natural number; a C string in memory is a list of bytes, read up
to its first NUL byte. A read at or past the end of the list gives the terminator. -/

/-- The C string that starts at the address `p` of the memory `mem`: the bytes from `p` up
to the first NUL byte. -/
def cstr (mem : List Nat) (p : Nat) : List Nat :=
  (mem.drop p).takeWhile (fun c => c ≠ 0)

/-- The pieces of `s` between the characters that satisfy `p`, the empty pieces dropped:
the maximal non-empty runs of characters of `s` that do not satisfy `p`. -/
def split_runs (p : Nat → Bool) (s : List Nat) : List (List Nat) :=
  (s.splitOnP p).filter (fun t => !t.isEmpty)

/-! ### `fluid_strtok` -/

/-- The loop `for(d = delim; *d; d++)` with the test `c == *d` of `fluid_strtok`: true
when the loop is left through `break` or `return` (the character `c` matches a delimiter),
false when it ends at the terminator of `delim`. -/
def delim_match (c : Nat) : List Nat → Bool
  | [] => false
  | d :: ds => if d = 0 then false else if c = d then true else delim_match c ds

/-- The `do ... while(*d)` loop of `fluid_strtok` that skips the delimiter characters at
the beginning of the token; `rest` is the memory from the address `s` on. The result is
the address of the first character that is no delimiter, `none` when the end of the source
string is reached first. -/
def skip_delim (delim : List Nat) : List Nat → Nat → Option Nat
  | [], _ => none
  | c :: rest, s =>
    if c = 0 then none
    else if delim_match c delim then skip_delim delim rest (s + 1)
    else some s

/-- The loop `for(s = s + 1; *s; s++)` of `fluid_strtok` that searches the next delimiter
character; `rest` is the memory from the address `s` on. The result is the address of that
delimiter, `none` when the source string ends first. -/
def find_delim (delim : List Nat) : List Nat → Nat → Option Nat
  | [], _ => none
  | c :: rest, s =>
    if c = 0 then none
    else if delim_match c delim then some s
    else find_delim delim rest (s + 1)

/-- What a call of `fluid_strtok` leaves: the returned pointer `token` (`none` for `NULL`),
the argument `str` with the string pointer `*str` it points to (`none` for a `NULL`
argument, `some none` for `*str = NULL`), and the memory. -/
structure strtok_result where
  token : Option Nat
  str : Option (Option Nat)
  mem : List Nat
deriving DecidableEq

/-- The function `fluid_strtok(str, delim)` on the memory `mem`; `str` is `none` for a
`NULL` argument and `some p` for a pointer to the string pointer `p`, `delim` is `none`
for `NULL` and else the bytes of the delimiter string. The log message of the error
branch is left out. -/
def fluid_strtok (mem : List Nat) (str : Option (Option Nat)) (delim : Option (List Nat)) :
    strtok_result :=
  match str, delim with
  | none, _ => { token := none, str := str, mem := mem }
  | some _, none => { token := none, str := str, mem := mem }
  | some p, some d =>
    if d.headD 0 = 0 then { token := none, str := str, mem := mem }
    else
      match p with
      | none => { token := none, str := str, mem := mem }
      | some s =>
        match skip_delim d (mem.drop s) s with
        | none => { token := none, str := some none, mem := mem }
        | some token =>
          match find_delim d (mem.drop (token + 1)) (token + 1) with
          | some q => { token := some token, str := some (some (q + 1)), mem := mem.set q 0 }
          | none => { token := some token, str := some none, mem := mem }

/-- The results of `n` successive calls `fluid_strtok(&p, delim)` on the same string
pointer `p`: for each call the token it returned, read as a C string right after the
call, or `none` for `NULL`. -/
def strtok_calls (d : List Nat) : Nat → List Nat → Option Nat → List (Option (List Nat))
  | 0, _, _ => []
  | n + 1, mem, p =>
    (fluid_strtok mem (some p) (some d)).token.map
        (cstr (fluid_strtok mem (some p) (some d)).mem)
      :: strtok_calls d n (fluid_strtok mem (some p) (some d)).mem
          (fluid_strtok mem (some p) (some d)).str.join

/-- The string `a,` in memory. -/
def exTrailingDelim : List Nat := [97, 44, 0]

/-- The string `,,ab,c,` in memory. -/
def exTokens : List Nat := [44, 44, 97, 98, 44, 99, 44, 0]

/-! ### `fluid_align_ptr` -/

/-- The function `fluid_align_ptr(ptr, alignment)` on a target whose `uintptr_t` has
`bits` bits; `alignment` is an `unsigned int`. The assertion is left out. -/
def fluid_align_ptr (bits ptr alignment : Nat) : Nat :=
  let ptr_int := ptr % 2 ^ bits
  let offset := (ptr_int &&& uint_sub alignment 1) % 2 ^ 32
  let add := uint_sub alignment offset &&& uint_sub alignment 1
  (ptr_int + add) % 2 ^ bits

/-! ### Profiling -/

/-- Entry of the table of profiling data: `fluid_profile_data_t`, a `double` taken as a
rational. -/
structure fluid_profile_data_t where
  description : String
  min : ℚ
  max : ℚ
  total : ℚ
  count : Nat
  n_voices : Nat
  n_samples : Nat
deriving DecidableEq

/-- Command to stop a profiling measure. -/
def PROFILE_STOP : Nat := 0

/-- Command to start a profiling measure. -/
def PROFILE_START : Nat := 1

/-- Status of a finished profiling measure. -/
def PROFILE_READY : Nat := 2

/-- Number of profile probes. -/
def FLUID_PROFILE_NBR : Nat := 9

/-- The global variables of the profiling interface. -/
structure profile_globals where
  fluid_profile_status : Nat
  fluid_profile_end_ticks : Nat
  fluid_profile_data : Nat → fluid_profile_data_t

/-- The table `fluid_profile_data` as it is initialised, entries past the table being
given an empty description. -/
def fluid_profile_data_init (i : Nat) : fluid_profile_data_t :=
  { description := (["synth_write_* ------------>", "synth_one_block ---------->",
      "synth_one_block:clear ---->", "synth_one_block:one voice->",
      "synth_one_block:all voices>", "synth_one_block:reverb --->",
      "synth_one_block:chorus --->", "voice:note --------------->",
      "voice:release ------------>"] : List String).getD i ""
    min := 10000000000, max := 0, total := 0, count := 0, n_voices := 0, n_samples := 0 }

/-- The body of the loop that clears profile data, on entry `i`. -/
def profile_clear_entry (data : Nat → fluid_profile_data_t) (i : Nat) :
    Nat → fluid_profile_data_t :=
  fun j => if j = i then
    { data i with min := 10000000000, max := 0, total := 0, count := 0, n_voices := 0,
                  n_samples := 0 }
  else data j

/-- The loop `for(i = 0; i < FLUID_PROFILE_NBR; i++)` that clears profile data, with `n`
iterations left from `i` on. -/
def profile_clear_loop : Nat → Nat → (Nat → fluid_profile_data_t) → Nat → fluid_profile_data_t
  | 0, _, data => data
  | n + 1, i, data => profile_clear_loop n (i + 1) (profile_clear_entry data i)

/-- The function `fluid_profile_start_stop(end_ticks, clear_data)` on the globals `g`. -/
def fluid_profile_start_stop (g : profile_globals) (end_ticks : Nat) (clear_data : Int) :
    profile_globals :=
  if end_ticks ≠ 0 then
    if g.fluid_profile_status ≠ PROFILE_START then
      { fluid_profile_status := PROFILE_START
        fluid_profile_end_ticks := end_ticks
        fluid_profile_data :=
          if clear_data = 0 then profile_clear_loop FLUID_PROFILE_NBR 0 g.fluid_profile_data
          else g.fluid_profile_data }
    else g
  else { g with fluid_profile_status := PROFILE_STOP }

/-- Globals of a measure that was run: status `PROFILE_READY` and one recorded
duration in every entry. -/
def exProfile : profile_globals :=
  { fluid_profile_status := PROFILE_READY
    fluid_profile_end_ticks := 100
    fluid_profile_data := fun i =>
      { fluid_profile_data_init i with min := 5, max := 7, total := 12, count := 2,
                                       n_voices := 3, n_samples := 128 } }

/-! ### `fluid_istream_gets` -/

/-- States of the scan of a command line. -/
inductive parse_state
  | STATE_NORMAL
  | STATE_ESCAPE_NORMAL
  | STATE_ESCAPE_DOUBLE_QUOTE
  | STATE_SINGLE_QUOTE
  | STATE_DOUBLE_QUOTE
  | STATE_COMMENT
deriving DecidableEq

/-- The variables of `fluid_shell_parse_argv_internal`: `buffer` holds the characters
`buffer[0 .. length)` of the token under construction, `argv` the `argc` arguments stored
so far, `max` the number of slots allocated for them. -/
structure parse_vars where
  state : parse_state
  buffer : List Nat
  argc : Nat
  argv : List (List Nat)
  max : Nat
deriving DecidableEq

/-- The variable `length` of `fluid_shell_parse_argv_internal`. -/
def parse_vars.length (v : parse_vars) : Nat := v.buffer.length

/-- The copy `FLUID_STRDUP(buffer)` made after `buffer[length] = 0`: the characters of
`buffer` up to the first NUL. -/
def buffer_strdup (buffer : List Nat) : List Nat :=
  cstr (buffer ++ [0]) 0

/-- The body of the `switch (state)` of `fluid_shell_parse_argv_internal` for the
character `current`, every allocation succeeding. The characters are: 92 backslash,
39 single quote, 34 double quote, 32 space, 9 tab, 10 newline, 35 hash, 96 backquote,
36 dollar. -/
def parse_char (v : parse_vars) (current : Nat) : parse_vars :=
  match v.state with
  | .STATE_NORMAL =>
    if current = 92 then { v with state := .STATE_ESCAPE_NORMAL }
    else if current = 39 then { v with state := .STATE_SINGLE_QUOTE }
    else if current = 34 then { v with state := .STATE_DOUBLE_QUOTE }
    else if current = 32 ∨ current = 9 ∨ current = 10 ∨ current = 0 then
      if v.length = 0 then v
      else
        { v with
          max := if v.max ≤ v.argc then v.max + 10 else v.max
          argv := v.argv ++ [buffer_strdup v.buffer]
          argc := v.argc + 1
          buffer := [] }
    else if current = 35 ∧ v.length = 0 then { v with state := .STATE_COMMENT }
    else { v with buffer := v.buffer ++ [current] }
  | .STATE_ESCAPE_NORMAL =>
    if current = 10 then { v with state := .STATE_NORMAL }
    else { v with state := .STATE_NORMAL, buffer := v.buffer ++ [current] }
  | .STATE_ESCAPE_DOUBLE_QUOTE =>
    if current = 34 ∨ current = 92 ∨ current = 96 ∨ current = 36 ∨ current = 10 then
      { v with state := .STATE_DOUBLE_QUOTE, buffer := v.buffer ++ [current] }
    else { v with state := .STATE_DOUBLE_QUOTE, buffer := (v.buffer ++ [92]) ++ [current] }
  | .STATE_SINGLE_QUOTE =>
    if current = 39 then { v with state := .STATE_NORMAL }
    else { v with buffer := v.buffer ++ [current] }
  | .STATE_DOUBLE_QUOTE =>
    if current = 92 then { v with state := .STATE_ESCAPE_DOUBLE_QUOTE }
    else if current = 34 then { v with state := .STATE_NORMAL }
    else { v with buffer := v.buffer ++ [current] }
  | .STATE_COMMENT => v

/-- The `do ... while (current != 0)` loop of `fluid_shell_parse_argv_internal` over the
rest `line` of the command line: at the terminator the loop is left, before the `switch`
when the state is not `STATE_NORMAL`, after it otherwise. -/
def parse_loop (v : parse_vars) : List Nat → parse_vars
  | [] => if v.state ≠ .STATE_NORMAL then v else parse_char v 0
  | current :: line =>
    if current = 0 then (if v.state ≠ .STATE_NORMAL then v else parse_char v 0)
    else parse_loop (parse_char v current) line

/-- The variables of `fluid_shell_parse_argv_internal` before the scan. -/
def parse_init : parse_vars :=
  { state := .STATE_NORMAL, buffer := [], argc := 0, argv := [], max := 0 }

/-- What a call of `fluid_shell_parse_argv_internal` leaves: the returned value, `*argcp`
and the strings of `*argvp`, each `none` when it was not written; `argv` is `none` as well
once the arguments are freed. -/
structure parse_result where
  ret : Bool
  argc : Option Nat
  argv : Option (List (List Nat))
deriving DecidableEq

/-- The function `fluid_shell_parse_argv_internal(line, argcp, argvp)` with `argcp` and
`argvp` valid pointers and every allocation succeeding; `line` is `none` for `NULL`. -/
def fluid_shell_parse_argv_internal (line : Option (List Nat)) : parse_result :=
  match line with
  | none => { ret := false, argc := none, argv := none }
  | some l =>
    if l.headD 0 = 0 then { ret := false, argc := none, argv := none }
    else
      if (parse_loop parse_init l).state ≠ .STATE_NORMAL
          ∧ (parse_loop parse_init l).state ≠ .STATE_COMMENT then
        { ret := false, argc := some (parse_loop parse_init l).argc, argv := none }
      else
        { ret := decide (0 < (parse_loop parse_init l).argc)
          argc := some (parse_loop parse_init l).argc
          argv := some (parse_loop parse_init l).argv }

/-- The characters at which `fluid_shell_parse_argv_internal` ends an argument: space, tab
and newline. -/
def is_blank (c : Nat) : Bool := decide (c = 32 ∨ c = 9 ∨ c = 10)

/-- A character that `fluid_shell_parse_argv_internal` treats as itself in
`STATE_NORMAL`: no NUL, backslash, single quote, double quote or hash. -/
def is_plain (c : Nat) : Bool := decide (c ≠ 0 ∧ c ≠ 92 ∧ c ≠ 39 ∧ c ≠ 34 ∧ c ≠ 35)

/-- The variables of `fluid_shell_parse_argv_internal` after the scan of the characters
`pre`, none of them NUL. -/
def parse_scan (pre : List Nat) : parse_vars := pre.foldl parse_char parse_init

/-- The command line `load  a.sf2` followed by a tab and `b`, and a newline. -/
def exPlainLine : List Nat := [108, 111, 97, 100, 32, 32, 97, 46, 115, 102, 50, 9, 98, 10]

/-- The indices of `buffer` that the body of the `switch (state)` of
`fluid_shell_parse_argv_internal` writes for the character `current`: `length` for
`append()`, `length` and `length + 1` for the branch of `STATE_ESCAPE_DOUBLE_QUOTE` that
fills back the dropped backslash, and `length` for the terminator `buffer[length] = 0`
written when an argument is stored. -/
def parse_writes (v : parse_vars) (current : Nat) : List Nat :=
  match v.state with
  | .STATE_NORMAL =>
    if current = 92 then []
    else if current = 39 then []
    else if current = 34 then []
    else if current = 32 ∨ current = 9 ∨ current = 10 ∨ current = 0 then
      if v.length = 0 then [] else [v.length]
    else if current = 35 ∧ v.length = 0 then []
    else [v.length]
  | .STATE_ESCAPE_NORMAL => if current = 10 then [] else [v.length]
  | .STATE_ESCAPE_DOUBLE_QUOTE =>
    if current = 34 ∨ current = 92 ∨ current = 96 ∨ current = 36 ∨ current = 10 then
      [v.length]
    else [v.length, v.length + 1]
  | .STATE_SINGLE_QUOTE => if current = 39 then [] else [v.length]
  | .STATE_DOUBLE_QUOTE =>
    if current = 92 then [] else if current = 34 then [] else [v.length]
  | .STATE_COMMENT => []

/-- The number of consumed characters that a state of the scan holds back: the backslash
that opened an escape is consumed but not yet in `buffer`. -/
def parse_pending (state : parse_state) : Nat :=
  match state with
  | .STATE_ESCAPE_NORMAL => 1
  | .STATE_ESCAPE_DOUBLE_QUOTE => 1
  | _ => 0

/-- The command line `a "" b`. -/
def exEmptyQuotes : List Nat := [97, 32, 34, 34, 32, 98]

/-- The command line `say "a\tb"`, with a backslash and the letter `t` between the quotes. -/
def exEscapeLine : List Nat := [115, 97, 121, 32, 34, 97, 92, 116, 98, 34]

end sys

/-! ## Lemmas on the loops -/

section loops

variable {F : Type}

theorem dsp_for_induction (E : DspEnv F) (idx : Nat → Nat) (incr : Nat) (amp_incr rate : ℚ)
    (cond : Nat → Bool) (raw : DspState F → ℚ) (P : DspState F → Prop)
    (hstep : ∀ t, P t → t.dsp_i < E.FLUID_BUFSIZE → cond t.dsp_phase_index = true →
      P (dsp_write E idx incr amp_incr rate (raw t) t)) :
    ∀ n s, P s → P (dsp_for E idx incr amp_incr rate cond raw n s) := by
  intro n
  induction n with
  | zero => intro s h; simpa [dsp_for] using h
  | succ n ih =>
    intro s h
    simp only [dsp_for]
    split
    · rename_i hc
      exact ih _ (hstep s h hc.1 hc.2)
    · exact h

theorem dsp_loop_induction (E : DspEnv F) (idx : Nat → Nat) (incr : Nat) (amp_incr rate : ℚ)
    (cond : Nat → Bool) (raw : DspState F → ℚ) (P : DspState F → Prop)
    (hstep : ∀ t, P t → t.dsp_i < E.FLUID_BUFSIZE → cond t.dsp_phase_index = true →
      P (dsp_write E idx incr amp_incr rate (raw t) t))
    (s : DspState F) (h : P s) : P (dsp_loop E idx incr amp_incr rate cond raw s) :=
  dsp_for_induction E idx incr amp_incr rate cond raw P hstep _ s h

theorem dsp_for_exit (E : DspEnv F) (idx : Nat → Nat) (incr : Nat) (amp_incr rate : ℚ)
    (cond : Nat → Bool) (raw : DspState F → ℚ) :
    ∀ n s, E.FLUID_BUFSIZE - s.dsp_i ≤ n →
      E.FLUID_BUFSIZE ≤ (dsp_for E idx incr amp_incr rate cond raw n s).dsp_i ∨
      cond (dsp_for E idx incr amp_incr rate cond raw n s).dsp_phase_index = false := by
  intro n
  induction n with
  | zero => intro s h; left; simp only [dsp_for]; omega
  | succ n ih =>
    intro s h
    simp only [dsp_for]
    split
    · apply ih
      simp only [dsp_write]
      omega
    · rename_i hc
      by_cases h1 : s.dsp_i < E.FLUID_BUFSIZE
      · right
        cases hcs : cond s.dsp_phase_index
        · rfl
        · exact absurd ⟨h1, hcs⟩ hc
      · left; omega

theorem dsp_loop_post (E : DspEnv F) (idx : Nat → Nat) (incr : Nat) (amp_incr rate : ℚ)
    (cond : Nat → Bool) (raw : DspState F → ℚ) (s : DspState F) :
    LoopPost E idx cond s (dsp_loop E idx incr amp_incr rate cond raw s) := by
  have h := dsp_loop_induction E idx incr amp_incr rate cond raw
    (fun t => s.dsp_i ≤ t.dsp_i ∧ (s.dsp_i ≤ E.FLUID_BUFSIZE → t.dsp_i ≤ E.FLUID_BUFSIZE) ∧
      (t.dsp_i = s.dsp_i → t = s) ∧
      (s.dsp_phase_index = idx s.dsp_phase → t.dsp_phase_index = idx t.dsp_phase))
    (by
      intro t ht hlt _
      simp only [dsp_write]
      exact ⟨by omega, fun _ => by omega, fun h => by omega, fun _ => trivial⟩)
    s ⟨le_refl _, fun h => h, fun _ => rfl, fun h => h⟩
  exact ⟨h.1, h.2.1, h.2.2.1, h.2.2.2,
    dsp_for_exit E idx incr amp_incr rate cond raw _ s (le_refl _)⟩

theorem guardedClosed_loop {E : DspEnv F} {v : fluid_rvoice_dsp_t} {incr : Nat}
    {idxf : Nat → Nat} {G W : Nat → Prop} {P : DspState F → Prop}
    (h : GuardedClosed E v incr idxf G W P) (cond : Nat → Bool) (raw : DspState F → ℚ)
    (hc : ∀ i, cond i = true → G i) (s : DspState F)
    (hi : s.dsp_phase_index = idxf s.dsp_phase) (hs : P s) :
    P (dsp_loop E idxf incr v.amp_incr v.output_rate cond raw s) := by
  have := dsp_loop_induction E idxf incr v.amp_incr v.output_rate cond raw
    (fun t => P t ∧ t.dsp_phase_index = idxf t.dsp_phase)
    (fun t ht hlt hcond => ⟨h.write (raw t) t hlt ht.2 (hc _ hcond) ht.1, rfl⟩) s ⟨hs, hi⟩
  exact this.1

theorem none_iter_guarded {E : DspEnv F} {v : fluid_rvoice_dsp_t} {incr : Nat}
    {G W : Nat → Prop} {P : DspState F → Prop} (looping : Bool) (end_index : Nat)
    (h : GuardedClosed E v incr fluid_phase_index_round G W P)
    (hG : ∀ i, i ≤ end_index → G i) (hW : looping = true → ∀ i, i > end_index → W i)
    (s : DspState F) (hs : P s) : P (none_iter E v looping incr end_index s).2 := by
  simp only [none_iter]
  set s1 : DspState F := { s with dsp_phase_index := fluid_phase_index_round s.dsp_phase }
  have h1 : P s1 := h.reindex s _ hs
  have i1 : s1.dsp_phase_index = fluid_phase_index_round s1.dsp_phase := rfl
  have p2 := dsp_loop_post E fluid_phase_index_round incr v.amp_incr v.output_rate
    (fun i => decide (i ≤ end_index)) (none_raw E v) s1
  have h2 := guardedClosed_loop h (fun i => decide (i ≤ end_index)) (none_raw E v)
    (fun i hi => hG i (by simpa using hi)) s1 i1 h1
  set s2 := dsp_loop E fluid_phase_index_round incr v.amp_incr v.output_rate
    (fun i => decide (i ≤ end_index)) (none_raw E v) s1
  have i2 := p2.index i1
  by_cases c2 : looping = false
  · rw [if_pos c2]; exact h2
  · rw [if_neg c2]
    have h3 : P (if s2.dsp_phase_index > end_index then dsp_wrap v s2 else s2) := by
      split
      · rename_i hw
        exact h.wrap s2 i2 (hW (by simpa using c2) _ hw) h2
      · exact h2
    generalize (if s2.dsp_phase_index > end_index then dsp_wrap v s2 else s2) = s3 at h3 ⊢
    split <;> exact h3

theorem none_while_guarded {E : DspEnv F} {v : fluid_rvoice_dsp_t} {incr : Nat}
    {G W : Nat → Prop} {P : DspState F → Prop} (looping : Bool) (end_index : Nat)
    (h : GuardedClosed E v incr fluid_phase_index_round G W P)
    (hG : ∀ i, i ≤ end_index → G i) (hW : looping = true → ∀ i, i > end_index → W i) :
    ∀ (fuel : Nat) (s r : DspState F), P s →
      none_while E v looping incr end_index fuel s = some r → P r := by
  intro fuel
  induction fuel with
  | zero => intro s r _ hr; simp [none_while] at hr
  | succ fuel ih =>
    intro s r hs hr
    have h1 := none_iter_guarded looping end_index h hG hW s hs
    simp only [none_while] at hr
    split at hr
    · rename_i t heq
      rw [heq] at h1
      cases hr
      exact h1
    · rename_i u t heq
      rw [heq] at h1
      exact ih t r h1 hr

theorem linear_iter_guarded {E : DspEnv F} {v : fluid_rvoice_dsp_t} {incr : Nat}
    {G W : Nat → Prop} {P : DspState F → Prop} (looping : Bool) (point : ℚ) (e : Nat)
    (h : GuardedClosed E v incr fluid_phase_index G W P)
    (hG : ∀ i, i ≤ e ∨ i ≤ uint_add e 1 → G i)
    (hW : looping = true → ∀ i, i > uint_add e 1 → W i)
    (s : DspState F) (hs : P s) : P (linear_iter E v looping incr point e s).2 := by
  simp only [linear_iter]
  set s1 : DspState F := { s with dsp_phase_index := fluid_phase_index s.dsp_phase }
  have h1 : P s1 := h.reindex s _ hs
  have i1 : s1.dsp_phase_index = fluid_phase_index s1.dsp_phase := rfl
  have p2 := dsp_loop_post E fluid_phase_index incr v.amp_incr v.output_rate
    (fun i => decide (i ≤ e)) (linear_raw E v) s1
  have h2 := guardedClosed_loop h (fun i => decide (i ≤ e)) (linear_raw E v)
    (fun i hi => hG i (Or.inl (by simpa using hi))) s1 i1 h1
  set s2 := dsp_loop E fluid_phase_index incr v.amp_incr v.output_rate
    (fun i => decide (i ≤ e)) (linear_raw E v) s1
  have i2 := p2.index i1
  split
  · exact h2
  · have p3 := dsp_loop_post E fluid_phase_index incr v.amp_incr v.output_rate
      (fun i => decide (i ≤ uint_add e 1)) (linear_raw_last E v point) s2
    have h3 := guardedClosed_loop h (fun i => decide (i ≤ uint_add e 1)) (linear_raw_last E v point)
      (fun i hi => hG i (Or.inr (by simpa using hi))) s2 i2 h2
    set s3 := dsp_loop E fluid_phase_index incr v.amp_incr v.output_rate
      (fun i => decide (i ≤ uint_add e 1)) (linear_raw_last E v point) s2
    have i3 := p3.index i2
    by_cases c2 : looping = false
    · rw [if_pos c2]; exact h3
    · rw [if_neg c2]
      have h4 : P (if s3.dsp_phase_index > uint_add e 1 then dsp_wrap v s3 else s3) := by
        split
        · rename_i hw
          exact h.wrap s3 i3 (hW (by simpa using c2) _ hw) h3
        · exact h3
      generalize (if s3.dsp_phase_index > uint_add e 1 then dsp_wrap v s3 else s3) = s4
        at h4 ⊢
      split <;> exact h4

theorem uint_sub_add_one (e : Nat) (he : e < 2 ^ 32) : uint_sub (uint_add e 1) 1 = e := by
  unfold uint_sub uint_add
  omega

theorem uint_sub_add_two (e : Nat) (he : e < 2 ^ 32) :
    uint_sub (uint_add (uint_add e 1) 1) 2 = e := by
  unfold uint_sub uint_add
  omega

theorem uint_sub_add_three (e : Nat) (he : e < 2 ^ 32) :
    uint_sub (uint_add (uint_add (uint_add e 1) 1) 1) 3 = e := by
  unfold uint_sub uint_add
  omega

theorem to_uint_lt (x : Int) : to_uint x < 2 ^ 32 := by
  unfold to_uint
  omega

theorem linear_iter_end (E : DspEnv F) (v : fluid_rvoice_dsp_t) (looping : Bool) (incr : Nat)
    (point : ℚ) (e : Nat) (he : e < 2 ^ 32) (s : DspState F) (e1 : Nat)
    (h : (linear_iter E v looping incr point e s).1 = some e1) : e1 = e := by
  simp only [linear_iter] at h
  set s1 : DspState F := { s with dsp_phase_index := fluid_phase_index s.dsp_phase }
  set s2 := dsp_loop E fluid_phase_index incr v.amp_incr v.output_rate
    (fun i => decide (i ≤ e)) (linear_raw E v) s1
  set s3 := dsp_loop E fluid_phase_index incr v.amp_incr v.output_rate
    (fun i => decide (i ≤ uint_add e 1)) (linear_raw_last E v point) s2
  generalize (if s3.dsp_phase_index > uint_add e 1 then dsp_wrap v s3 else s3) = s4 at h
  by_cases c1 : s2.dsp_i ≥ E.FLUID_BUFSIZE
  · rw [if_pos c1] at h; cases h
  · rw [if_neg c1] at h
    by_cases c2 : looping = false
    · rw [if_pos c2] at h; cases h
    · rw [if_neg c2] at h
      by_cases c3 : s4.dsp_i ≥ E.FLUID_BUFSIZE
      · rw [if_pos c3] at h; cases h
      · rw [if_neg c3] at h
        simp only [Option.some.injEq] at h
        rw [← h]
        exact uint_sub_add_one e he

theorem linear_while_guarded {E : DspEnv F} {v : fluid_rvoice_dsp_t} {incr : Nat}
    {G W : Nat → Prop} {P : DspState F → Prop} (looping : Bool) (point : ℚ) (e : Nat)
    (he : e < 2 ^ 32)
    (h : GuardedClosed E v incr fluid_phase_index G W P)
    (hG : ∀ i, i ≤ e ∨ i ≤ uint_add e 1 → G i)
    (hW : looping = true → ∀ i, i > uint_add e 1 → W i) :
    ∀ (fuel : Nat) (s r : DspState F), P s →
      linear_while E v looping incr point fuel e s = some r → P r := by
  intro fuel
  induction fuel with
  | zero => intro s r _ hr; simp [linear_while] at hr
  | succ fuel ih =>
    intro s r hs hr
    have h1 := linear_iter_guarded looping point e h hG hW s hs
    have h2 := linear_iter_end E v looping incr point e he s
    simp only [linear_while] at hr
    split at hr
    · rename_i t heq
      rw [heq] at h1
      cases hr
      exact h1
    · rename_i e1 t heq
      rw [heq] at h1 h2
      rw [h2 e1 rfl] at hr
      exact ih t r h1 hr

theorem none_iter_nonlooping (E : DspEnv F) (v : fluid_rvoice_dsp_t) (incr e : Nat)
    (s : DspState F) : (none_iter E v false incr e s).1 = none := by
  simp [none_iter]

theorem linear_iter_nonlooping (E : DspEnv F) (v : fluid_rvoice_dsp_t) (incr : Nat)
    (point : ℚ) (e : Nat) (s : DspState F) :
    (linear_iter E v false incr point e s).1 = none := by
  simp only [linear_iter, if_true]
  split <;> rfl

theorem cubic_iter_nonlooping (E : DspEnv F) (v : fluid_rvoice_dsp_t) (incr : Nat)
    (ep1 ep2 : ℚ) (c : CubicVars) (s : DspState F) :
    (cubic_iter E v false incr ep1 ep2 c s).1 = none := by
  simp only [cubic_iter, if_true]
  split <;> rfl

theorem sinc_iter_nonlooping (E : DspEnv F) (v : fluid_rvoice_dsp_t) (incr : Nat)
    (ep : Points) (c : SincVars) (s : DspState F) :
    (sinc_iter E v false incr ep c s).1 = none := by
  simp only [sinc_iter, if_true]
  split <;> rfl

theorem cubic_iter_guarded {E : DspEnv F} {v : fluid_rvoice_dsp_t} {incr : Nat}
    {G W : Nat → Prop} {P : DspState F → Prop} (looping : Bool) (ep1 ep2 : ℚ) (c : CubicVars)
    (h : GuardedClosed E v incr fluid_phase_index G W P)
    (hG : ∀ i, i = c.start_index ∨ i ≤ c.end_index ∨ i ≤ uint_add c.end_index 1 ∨
      i ≤ uint_add (uint_add c.end_index 1) 1 → G i)
    (hW : looping = true → ∀ i, i > uint_add (uint_add c.end_index 1) 1 → W i)
    (s : DspState F) (hs : P s) : P (cubic_iter E v looping incr ep1 ep2 c s).2 := by
  simp only [cubic_iter]
  set s1 : DspState F := { s with dsp_phase_index := fluid_phase_index s.dsp_phase }
  have h1 : P s1 := h.reindex s _ hs
  have i1 : s1.dsp_phase_index = fluid_phase_index s1.dsp_phase := rfl
  have p2 := dsp_loop_post E fluid_phase_index incr v.amp_incr v.output_rate
    (fun i => decide (i = c.start_index)) (cubic_raw_first E v c.start_point) s1
  have h2 := guardedClosed_loop h (fun i => decide (i = c.start_index)) (cubic_raw_first E v c.start_point)
    (fun i hi => hG i (Or.inl (by simpa using hi))) s1 i1 h1
  set s2 := dsp_loop E fluid_phase_index incr v.amp_incr v.output_rate
    (fun i => decide (i = c.start_index)) (cubic_raw_first E v c.start_point) s1
  have i2 := p2.index i1
  have p3 := dsp_loop_post E fluid_phase_index incr v.amp_incr v.output_rate
    (fun i => decide (i ≤ c.end_index)) (cubic_raw E v) s2
  have h3 := guardedClosed_loop h (fun i => decide (i ≤ c.end_index)) (cubic_raw E v)
    (fun i hi => hG i (Or.inr (Or.inl (by simpa using hi)))) s2 i2 h2
  set s3 := dsp_loop E fluid_phase_index incr v.amp_incr v.output_rate
    (fun i => decide (i ≤ c.end_index)) (cubic_raw E v) s2
  have i3 := p3.index i2
  by_cases c1 : s3.dsp_i ≥ E.FLUID_BUFSIZE
  · rw [if_pos c1]; exact h3
  · rw [if_neg c1]
    have p4 := dsp_loop_post E fluid_phase_index incr v.amp_incr v.output_rate
      (fun i => decide (i ≤ uint_add c.end_index 1)) (cubic_raw_last2 E v ep1) s3
    have h4 := guardedClosed_loop h (fun i => decide (i ≤ uint_add c.end_index 1)) (cubic_raw_last2 E v ep1)
      (fun i hi => hG i (Or.inr (Or.inr (Or.inl (by simpa using hi))))) s3 i3 h3
    set s4 := dsp_loop E fluid_phase_index incr v.amp_incr v.output_rate
      (fun i => decide (i ≤ uint_add c.end_index 1)) (cubic_raw_last2 E v ep1) s3
    have i4 := p4.index i3
    have p5 := dsp_loop_post E fluid_phase_index incr v.amp_incr v.output_rate
      (fun i => decide (i ≤ uint_add (uint_add c.end_index 1) 1))
      (cubic_raw_last E v ep1 ep2) s4
    have h5 := guardedClosed_loop h (fun i => decide (i ≤ uint_add (uint_add c.end_index 1) 1))
      (cubic_raw_last E v ep1 ep2)
      (fun i hi => hG i (Or.inr (Or.inr (Or.inr (by simpa using hi))))) s4 i4 h4
    set s5 := dsp_loop E fluid_phase_index incr v.amp_incr v.output_rate
      (fun i => decide (i ≤ uint_add (uint_add c.end_index 1) 1))
      (cubic_raw_last E v ep1 ep2) s4
    have i5 := p5.index i4
    by_cases c2 : looping = false
    · rw [if_pos c2]; exact h5
    · rw [if_neg c2]
      have h6 : P (if decide (s5.dsp_phase_index > uint_add (uint_add c.end_index 1) 1) = true
          then dsp_wrap v s5 else s5) := by
        split
        · rename_i hw
          exact h.wrap s5 i5 (hW (by simpa using c2) _ (by simpa using hw)) h5
        · exact h5
      generalize (if decide (s5.dsp_phase_index > uint_add (uint_add c.end_index 1) 1) = true
          then dsp_wrap v s5 else s5) = s6 at h6 ⊢
      split <;> exact h6

theorem cubic_iter_vars (E : DspEnv F) (v : fluid_rvoice_dsp_t) (looping : Bool) (incr : Nat)
    (ep1 ep2 : ℚ) (c : CubicVars) (he : c.end_index < 2 ^ 32) (s : DspState F)
    (c1 : CubicVars) (h : (cubic_iter E v looping incr ep1 ep2 c s).1 = some c1) :
    c1.end_index = c.end_index ∧
      (c1.start_index = c.start_index ∨ c1.start_index = to_uint v.loopstart) := by
  simp only [cubic_iter] at h
  set s1 : DspState F := { s with dsp_phase_index := fluid_phase_index s.dsp_phase }
  set s2 := dsp_loop E fluid_phase_index incr v.amp_incr v.output_rate
    (fun i => decide (i = c.start_index)) (cubic_raw_first E v c.start_point) s1
  set s3 := dsp_loop E fluid_phase_index incr v.amp_incr v.output_rate
    (fun i => decide (i ≤ c.end_index)) (cubic_raw E v) s2
  set s4 := dsp_loop E fluid_phase_index incr v.amp_incr v.output_rate
    (fun i => decide (i ≤ uint_add c.end_index 1)) (cubic_raw_last2 E v ep1) s3
  set s5 := dsp_loop E fluid_phase_index incr v.amp_incr v.output_rate
    (fun i => decide (i ≤ uint_add (uint_add c.end_index 1) 1))
    (cubic_raw_last E v ep1 ep2) s4
  generalize (if decide (s5.dsp_phase_index > uint_add (uint_add c.end_index 1) 1) = true
    then dsp_wrap v s5 else s5) = s6 at h
  by_cases c1 : s3.dsp_i ≥ E.FLUID_BUFSIZE
  · rw [if_pos c1] at h; cases h
  · rw [if_neg c1] at h
    by_cases c2 : looping = false
    · rw [if_pos c2] at h; cases h
    · rw [if_neg c2] at h
      by_cases c3 : s6.dsp_i ≥ E.FLUID_BUFSIZE
      · rw [if_pos c3] at h; cases h
      · rw [if_neg c3] at h
        simp only [Option.some.injEq] at h
        rw [← h]
        refine ⟨uint_sub_add_two _ he, ?_⟩
        dsimp only
        split
        · right; rfl
        · left; rfl

theorem cubic_while_guarded {E : DspEnv F} {v : fluid_rvoice_dsp_t} {incr : Nat}
    {G W : Nat → Prop} {P : DspState F → Prop} (looping : Bool) (ep1 ep2 : ℚ) (e : Nat)
    (he : e < 2 ^ 32)
    (h : GuardedClosed E v incr fluid_phase_index G W P)
    (hG : ∀ i, i ≤ e ∨ i ≤ uint_add e 1 ∨ i ≤ uint_add (uint_add e 1) 1 → G i)
    (hS : looping = true → G (to_uint v.loopstart))
    (hW : looping = true → ∀ i, i > uint_add (uint_add e 1) 1 → W i) :
    ∀ (fuel : Nat) (c : CubicVars) (s r : DspState F), c.end_index = e → G c.start_index →
      P s → cubic_while E v looping incr ep1 ep2 fuel c s = some r → P r := by
  intro fuel
  induction fuel with
  | zero => intro c s r _ _ _ hr; simp [cubic_while] at hr
  | succ fuel ih =>
    intro c s r hce hcs hs hr
    subst hce
    have h1 := cubic_iter_guarded looping ep1 ep2 c h
      (fun i hi => by
        rcases hi with hi | hi
        · rw [hi]; exact hcs
        · exact hG i hi) hW s hs
    have h2 := cubic_iter_vars E v looping incr ep1 ep2 c he s
    simp only [cubic_while] at hr
    split at hr
    · rename_i t heq
      rw [heq] at h1
      cases hr
      exact h1
    · rename_i c1 t heq
      rw [heq] at h1 h2
      have h3 := h2 c1 rfl
      have hlp : looping = true := by
        cases looping with
        | true => rfl
        | false =>
          have hn := cubic_iter_nonlooping E v incr ep1 ep2 c s
          rw [heq] at hn
          cases hn
      refine ih c1 t r h3.1 ?_ h1 hr
      rcases h3.2 with h4 | h4
      · rw [h4]; exact hcs
      · rw [h4]; exact hS hlp

theorem sinc_iter_guarded {E : DspEnv F} {v : fluid_rvoice_dsp_t} {incr : Nat}
    {G W : Nat → Prop} {P : DspState F → Prop} (looping : Bool) (ep : Points) (c : SincVars)
    (h : GuardedClosed E v incr fluid_phase_index G W P)
    (hG : ∀ i, i = c.start_index ∨ i = uint_add c.start_index 1 ∨
      i = uint_add (uint_add c.start_index 1) 1 ∨ i ≤ c.end_index ∨
      i ≤ uint_add c.end_index 1 ∨ i ≤ uint_add (uint_add c.end_index 1) 1 ∨
      i ≤ uint_add (uint_add (uint_add c.end_index 1) 1) 1 → G i)
    (hW : looping = true → ∀ i, i > uint_add (uint_add (uint_add c.end_index 1) 1) 1 → W i)
    (s : DspState F) (hs : P s) : P (sinc_iter E v looping incr ep c s).2 := by
  simp only [sinc_iter]
  have h1 : P { s with dsp_phase_index := fluid_phase_index s.dsp_phase } := h.reindex s _ hs
  have i1 : ({ s with dsp_phase_index := fluid_phase_index s.dsp_phase } :
      DspState F).dsp_phase_index = fluid_phase_index
      ({ s with dsp_phase_index := fluid_phase_index s.dsp_phase } : DspState F).dsp_phase := rfl
  generalize ({ s with dsp_phase_index := fluid_phase_index s.dsp_phase } : DspState F) = s1
    at h1 i1 ⊢
  have p2 := dsp_loop_post E fluid_phase_index incr v.amp_incr v.output_rate
    (fun i => decide (i = c.start_index)) (sinc_raw_first E v c.start_points) s1
  have h2 := guardedClosed_loop h (fun i => decide (i = c.start_index)) (sinc_raw_first E v c.start_points)
    (fun i hi => hG i (Or.inl (by simpa using hi))) s1 i1 h1
  generalize dsp_loop E fluid_phase_index incr v.amp_incr v.output_rate
    (fun i => decide (i = c.start_index)) (sinc_raw_first E v c.start_points) s1 = s2 at p2 h2 ⊢
  have i2 := p2.index i1
  have p3 := dsp_loop_post E fluid_phase_index incr v.amp_incr v.output_rate
    (fun i => decide (i = uint_add c.start_index 1)) (sinc_raw_first2 E v c.start_points) s2
  have h3 := guardedClosed_loop h (fun i => decide (i = uint_add c.start_index 1)) (sinc_raw_first2 E v c.start_points)
    (fun i hi => hG i (Or.inr (Or.inl (by simpa using hi)))) s2 i2 h2
  generalize dsp_loop E fluid_phase_index incr v.amp_incr v.output_rate
    (fun i => decide (i = uint_add c.start_index 1)) (sinc_raw_first2 E v c.start_points) s2 = s3 at p3 h3 ⊢
  have i3 := p3.index i2
  have p4 := dsp_loop_post E fluid_phase_index incr v.amp_incr v.output_rate
    (fun i => decide (i = uint_add (uint_add c.start_index 1) 1)) (sinc_raw_first3 E v c.start_points) s3
  have h4 := guardedClosed_loop h (fun i => decide (i = uint_add (uint_add c.start_index 1) 1)) (sinc_raw_first3 E v c.start_points)
    (fun i hi => hG i (Or.inr (Or.inr (Or.inl (by simpa using hi))))) s3 i3 h3
  generalize dsp_loop E fluid_phase_index incr v.amp_incr v.output_rate
    (fun i => decide (i = uint_add (uint_add c.start_index 1) 1)) (sinc_raw_first3 E v c.start_points) s3 = s4 at p4 h4 ⊢
  have i4 := p4.index i3
  have p5 := dsp_loop_post E fluid_phase_index incr v.amp_incr v.output_rate
    (fun i => decide (i ≤ c.end_index)) (sinc_raw E v) s4
  have h5 := guardedClosed_loop h (fun i => decide (i ≤ c.end_index)) (sinc_raw E v)
    (fun i hi => hG i (Or.inr (Or.inr (Or.inr (Or.inl (by simpa using hi)))))) s4 i4 h4
  generalize dsp_loop E fluid_phase_index incr v.amp_incr v.output_rate
    (fun i => decide (i ≤ c.end_index)) (sinc_raw E v) s4 = s5 at p5 h5 ⊢
  have i5 := p5.index i4
  by_cases c1 : s5.dsp_i ≥ E.FLUID_BUFSIZE
  · rw [if_pos c1]; exact h5
  · rw [if_neg c1]
    have p6 := dsp_loop_post E fluid_phase_index incr v.amp_incr v.output_rate
      (fun i => decide (i ≤ uint_add c.end_index 1)) (sinc_raw_last3 E v ep) s5
    have h6 := guardedClosed_loop h (fun i => decide (i ≤ uint_add c.end_index 1)) (sinc_raw_last3 E v ep)
      (fun i hi => hG i (Or.inr (Or.inr (Or.inr (Or.inr (Or.inl (by simpa using hi))))))) s5 i5 h5
    generalize dsp_loop E fluid_phase_index incr v.amp_incr v.output_rate
      (fun i => decide (i ≤ uint_add c.end_index 1)) (sinc_raw_last3 E v ep) s5 = s6 at p6 h6 ⊢
    have i6 := p6.index i5
    have p7 := dsp_loop_post E fluid_phase_index incr v.amp_incr v.output_rate
      (fun i => decide (i ≤ uint_add (uint_add c.end_index 1) 1)) (sinc_raw_last2 E v ep) s6
    have h7 := guardedClosed_loop h (fun i => decide (i ≤ uint_add (uint_add c.end_index 1) 1)) (sinc_raw_last2 E v ep)
      (fun i hi => hG i (Or.inr (Or.inr (Or.inr (Or.inr (Or.inr (Or.inl (by simpa using hi)))))))) s6 i6 h6
    generalize dsp_loop E fluid_phase_index incr v.amp_incr v.output_rate
      (fun i => decide (i ≤ uint_add (uint_add c.end_index 1) 1)) (sinc_raw_last2 E v ep) s6 = s7 at p7 h7 ⊢
    have i7 := p7.index i6
    have p8 := dsp_loop_post E fluid_phase_index incr v.amp_incr v.output_rate
      (fun i => decide (i ≤ uint_add (uint_add (uint_add c.end_index 1) 1) 1)) (sinc_raw_last E v ep) s7
    have h8 := guardedClosed_loop h (fun i => decide (i ≤ uint_add (uint_add (uint_add c.end_index 1) 1) 1)) (sinc_raw_last E v ep)
      (fun i hi => hG i (Or.inr (Or.inr (Or.inr (Or.inr (Or.inr (Or.inr ((by simpa using hi))))))))) s7 i7 h7
    generalize dsp_loop E fluid_phase_index incr v.amp_incr v.output_rate
      (fun i => decide (i ≤ uint_add (uint_add (uint_add c.end_index 1) 1) 1)) (sinc_raw_last E v ep) s7 = s8 at p8 h8 ⊢
    have i8 := p8.index i7
    by_cases c2 : looping = false
    · rw [if_pos c2]; exact h8
    · rw [if_neg c2]
      have h9 : P (if decide (s8.dsp_phase_index > uint_add (uint_add (uint_add c.end_index 1) 1) 1) = true
          then dsp_wrap v s8 else s8) := by
        split
        · rename_i hw
          exact h.wrap s8 i8 (hW (by simpa using c2) _ (by simpa using hw)) h8
        · exact h8
      generalize (if decide (s8.dsp_phase_index > uint_add (uint_add (uint_add c.end_index 1) 1) 1) = true
          then dsp_wrap v s8 else s8) = s9 at h9 ⊢
      split <;> exact h9

theorem sinc_iter_vars (E : DspEnv F) (v : fluid_rvoice_dsp_t) (looping : Bool) (incr : Nat)
    (ep : Points) (c : SincVars) (he : c.end_index < 2 ^ 32) (hs : c.start_index < 2 ^ 32)
    (s : DspState F) (c1 : SincVars) (h : (sinc_iter E v looping incr ep c s).1 = some c1) :
    c1.end_index = c.end_index ∧
      (c1.start_index = c.start_index ∨ c1.start_index = to_uint v.loopstart) := by
  simp only [sinc_iter] at h
  generalize ({ s with dsp_phase_index := fluid_phase_index s.dsp_phase } : DspState F) = s1
    at h
  generalize dsp_loop E fluid_phase_index incr v.amp_incr v.output_rate
    (fun i => decide (i = c.start_index)) (sinc_raw_first E v c.start_points) s1 = s2 at h
  generalize dsp_loop E fluid_phase_index incr v.amp_incr v.output_rate
    (fun i => decide (i = uint_add c.start_index 1)) (sinc_raw_first2 E v c.start_points) s2 = s3 at h
  generalize dsp_loop E fluid_phase_index incr v.amp_incr v.output_rate
    (fun i => decide (i = uint_add (uint_add c.start_index 1) 1)) (sinc_raw_first3 E v c.start_points) s3 = s4 at h
  generalize dsp_loop E fluid_phase_index incr v.amp_incr v.output_rate
    (fun i => decide (i ≤ c.end_index)) (sinc_raw E v) s4 = s5 at h
  generalize dsp_loop E fluid_phase_index incr v.amp_incr v.output_rate
    (fun i => decide (i ≤ uint_add c.end_index 1)) (sinc_raw_last3 E v ep) s5 = s6 at h
  generalize dsp_loop E fluid_phase_index incr v.amp_incr v.output_rate
    (fun i => decide (i ≤ uint_add (uint_add c.end_index 1) 1)) (sinc_raw_last2 E v ep) s6 = s7 at h
  generalize dsp_loop E fluid_phase_index incr v.amp_incr v.output_rate
    (fun i => decide (i ≤ uint_add (uint_add (uint_add c.end_index 1) 1) 1)) (sinc_raw_last E v ep) s7 = s8 at h
  generalize (if decide (s8.dsp_phase_index > uint_add (uint_add (uint_add c.end_index 1) 1) 1) = true
    then dsp_wrap v s8 else s8) = s9 at h
  by_cases c1 : s5.dsp_i ≥ E.FLUID_BUFSIZE
  · rw [if_pos c1] at h; cases h
  · rw [if_neg c1] at h
    by_cases c2 : looping = false
    · rw [if_pos c2] at h; cases h
    · rw [if_neg c2] at h
      by_cases c3 : s9.dsp_i ≥ E.FLUID_BUFSIZE
      · rw [if_pos c3] at h; cases h
      · rw [if_neg c3] at h
        simp only [Option.some.injEq] at h
        rw [← h]
        refine ⟨uint_sub_add_three _ he, ?_⟩
        dsimp only
        split
        · right; rfl
        · left; exact uint_sub_add_two _ hs

theorem sinc_while_guarded {E : DspEnv F} {v : fluid_rvoice_dsp_t} {incr : Nat}
    {G W : Nat → Prop} {P : DspState F → Prop} (looping : Bool) (ep : Points) (e : Nat)
    (he : e < 2 ^ 32)
    (h : GuardedClosed E v incr fluid_phase_index G W P)
    (hG : ∀ i, i ≤ e ∨ i ≤ uint_add e 1 ∨ i ≤ uint_add (uint_add e 1) 1 ∨
      i ≤ uint_add (uint_add (uint_add e 1) 1) 1 → G i)
    (hS : looping = true → SincStart G (to_uint v.loopstart))
    (hW : looping = true → ∀ i, i > uint_add (uint_add (uint_add e 1) 1) 1 → W i) :
    ∀ (fuel : Nat) (c : SincVars) (s r : DspState F), c.end_index = e →
      c.start_index < 2 ^ 32 → SincStart G c.start_index →
      P s → sinc_while E v looping incr ep fuel c s = some r → P r := by
  intro fuel
  induction fuel with
  | zero => intro c s r _ _ _ _ hr; simp [sinc_while] at hr
  | succ fuel ih =>
    intro c s r hce hlt hcs hs hr
    subst hce
    have h1 := sinc_iter_guarded looping ep c h
      (fun i hi => by
        rcases hi with hi | hi | hi | hi
        · rw [hi]; exact hcs.1
        · rw [hi]; exact hcs.2.1
        · rw [hi]; exact hcs.2.2
        · exact hG i hi) hW s hs
    have h2 := sinc_iter_vars E v looping incr ep c he hlt s
    simp only [sinc_while] at hr
    split at hr
    · rename_i t heq
      rw [heq] at h1
      cases hr
      exact h1
    · rename_i c1 t heq
      rw [heq] at h1 h2
      have h3 := h2 c1 rfl
      have hlp : looping = true := by
        cases looping with
        | true => rfl
        | false =>
          have hn := sinc_iter_nonlooping E v incr ep c s
          rw [heq] at hn
          cases hn
      rcases h3.2 with h4 | h4
      · exact ih c1 t r h3.1 (by rw [h4]; exact hlt) (by rw [h4]; exact hcs) h1 hr
      · exact ih c1 t r h3.1 (by rw [h4]; exact to_uint_lt _) (by rw [h4]; exact hS hlp) h1 hr

/-! ## The invariant of a render call -/

theorem cascade_run_snoc (E : DspEnv F) (rate : ℚ) (f : F × F) (raws : List ℚ) (x : ℚ) :
    cascade_run E rate f (raws ++ [x]) = cascade_step E rate (cascade_run E rate f raws) x := by
  simp [cascade_run, List.foldl_append]

theorem renderInv_init (E : DspEnv F) (rvoice : fluid_rvoice_t F) (incr ph0 : Nat)
    (buf0 : Nat → ℚ) :
    RenderInv E rvoice.dsp incr ph0 (rvoice.resonant_filter, rvoice.resonant_custom_filter)
      buf0 (dsp_init rvoice buf0 ph0) where
  count_le := Nat.zero_le _
  raws_len := rfl
  amp := by simp [dsp_init]
  phase := ⟨0, by simp [dsp_init]⟩
  phase_lt := fun h => h
  looped := by simp [dsp_init]
  filters := rfl
  outs_len := rfl
  written := fun i hi => absurd hi (Nat.not_lt_zero i)
  untouched := fun _ _ => rfl

theorem renderInv_closed (E : DspEnv F) (v : fluid_rvoice_dsp_t) (incr ph0 : Nat) (f0 : F × F)
    (buf0 : Nat → ℚ) (idxf : Nat → Nat) :
    GuardedClosed E v incr idxf (fun _ => True) (fun _ => True)
      (RenderInv E v incr ph0 f0 buf0) where
  write := by
    intro x s hlt _ _ hs
    have hrun := cascade_run_snoc E v.output_rate f0 s.raws x
    have hf := hs.filters
    have hl := hs.outs_len
    refine
      { count_le := by simp only [dsp_write]; omega
        raws_len := by simp [dsp_write, hs.raws_len]
        amp := by simp only [dsp_write]; rw [hs.amp]; push_cast; ring
        phase := ?_
        phase_lt := by
          intro _
          simp only [dsp_write, fluid_phase_incr]
          omega
        looped := by simp only [dsp_write]; exact hs.looped
        filters := ?_
        outs_len := ?_
        written := ?_
        untouched := ?_ }
    · obtain ⟨q, hq⟩ := hs.phase
      refine ⟨q - (((s.dsp_phase + incr) / 2 ^ 64 : Nat) : Int), ?_⟩
      simp only [dsp_write, fluid_phase_incr]
      push_cast at hq ⊢
      have e1 : ((s.dsp_i : Int) + 1) * (incr : Int) = (s.dsp_i : Int) * incr + incr := by ring
      rw [e1]
      generalize (s.dsp_i : Int) * (incr : Int) = A at hq ⊢
      generalize (s.wraps : Int) * (((v.loopend : Int) - (v.loopstart : Int)) * 4294967296) = B
        at hq ⊢
      omega
    · simp only [dsp_write]
      rw [hrun]
      simp only [cascade_step, hf]
    · simp only [dsp_write]
      rw [hrun]
      simp only [cascade_step, List.length_append, List.length_singleton, hl]
    · intro i hi
      simp only [dsp_write] at hi ⊢
      rw [hrun]
      simp only [cascade_step, hf]
      by_cases hii : i = s.dsp_i
      · subst hii
        rw [Function.update_same, List.getD_append_right _ _ _ _ (by omega)]
        simp [hl, hs.amp]
      · rw [Function.update_noteq hii, List.getD_append _ _ _ _ (by omega)]
        exact hs.written i (by omega)
    · intro i hi
      simp only [dsp_write] at hi ⊢
      rw [Function.update_noteq (by omega)]
      exact hs.untouched i (by omega)
  wrap := by
    intro s _ _ hs
    refine
      { count_le := hs.count_le
        raws_len := hs.raws_len
        amp := hs.amp
        phase := ?_
        phase_lt := by
          intro _
          simp only [dsp_wrap, fluid_phase_sub_int]
          omega
        looped := by simp [dsp_wrap]
        filters := hs.filters
        outs_len := hs.outs_len
        written := hs.written
        untouched := hs.untouched }
    obtain ⟨q, hq⟩ := hs.phase
    refine ⟨q - ((s.dsp_phase : Int) - ((v.loopend : Int) - (v.loopstart : Int)) * 2 ^ 32)
      / 2 ^ 64, ?_⟩
    simp only [dsp_wrap, fluid_phase_sub_int]
    push_cast at hq ⊢
    have e1 : ((s.wraps : Int) + 1) * (((v.loopend : Int) - (v.loopstart : Int)) * 4294967296)
        = (s.wraps : Int) * (((v.loopend : Int) - (v.loopstart : Int)) * 4294967296)
          + ((v.loopend : Int) - (v.loopstart : Int)) * 4294967296 := by ring
    rw [e1]
    generalize (s.dsp_i : Int) * (incr : Int) = A at hq ⊢
    generalize (s.wraps : Int) * (((v.loopend : Int) - (v.loopstart : Int)) * 4294967296) = B
      at hq ⊢
    omega
  reindex := by
    intro s j hs
    exact
      { count_le := hs.count_le
        raws_len := hs.raws_len
        amp := hs.amp
        phase := hs.phase
        phase_lt := hs.phase_lt
        looped := hs.looped
        filters := hs.filters
        outs_len := hs.outs_len
        written := hs.written
        untouched := hs.untouched }

/-! ## Termination of the looping render -/

theorem fluid_phase_index_lt (p : Nat) : fluid_phase_index p < 2 ^ 32 := by
  unfold fluid_phase_index
  omega

theorem fluid_phase_index_round_lt (p : Nat) : fluid_phase_index_round p < 2 ^ 32 := by
  unfold fluid_phase_index_round
  omega

theorem fluid_phase_index_sub_int (p a b : Nat) (hab : a < b)
    (h : b - a ≤ fluid_phase_index p) :
    fluid_phase_index (fluid_phase_sub_int p ((b : Int) - (a : Int)))
      = fluid_phase_index p - (b - a) := by
  unfold fluid_phase_index fluid_phase_sub_int at *
  omega

theorem fluid_phase_index_round_sub_int (p a b : Nat) (hab : a < b)
    (h : b - a ≤ fluid_phase_index_round p) :
    fluid_phase_index_round (fluid_phase_sub_int p ((b : Int) - (a : Int)))
      = fluid_phase_index_round p - (b - a) := by
  unfold fluid_phase_index_round fluid_phase_sub_int at *
  omega

theorem none_iter_progress (E : DspEnv F) (v : fluid_rvoice_dsp_t) (incr end_index : Nat)
    (hl : v.loopstart < v.loopend) (he : end_index + 1 = v.loopend)
    (s : DspState F) (hs : s.dsp_i ≤ E.FLUID_BUFSIZE) :
    ((none_iter E v true incr end_index s).1 = none →
        (none_iter E v true incr end_index s).2.dsp_i = E.FLUID_BUFSIZE) ∧
      ((none_iter E v true incr end_index s).1 ≠ none →
        (none_iter E v true incr end_index s).2.dsp_i ≤ E.FLUID_BUFSIZE ∧
        loop_measure E fluid_phase_index_round (none_iter E v true incr end_index s).2
          < loop_measure E fluid_phase_index_round s) := by
  simp only [none_iter]
  have i1 : ({ s with dsp_phase_index := fluid_phase_index_round s.dsp_phase } :
      DspState F).dsp_phase_index = fluid_phase_index_round
      ({ s with dsp_phase_index := fluid_phase_index_round s.dsp_phase } : DspState F).dsp_phase :=
    rfl
  have j1 : ({ s with dsp_phase_index := fluid_phase_index_round s.dsp_phase } :
      DspState F).dsp_i = s.dsp_i := rfl
  have k1 : ({ s with dsp_phase_index := fluid_phase_index_round s.dsp_phase } :
      DspState F).dsp_phase = s.dsp_phase := rfl
  generalize ({ s with dsp_phase_index := fluid_phase_index_round s.dsp_phase } : DspState F) = s1
    at i1 j1 k1 ⊢
  have p2 := dsp_loop_post E fluid_phase_index_round incr v.amp_incr v.output_rate
    (fun i => decide (i ≤ end_index)) (none_raw E v) s1
  generalize dsp_loop E fluid_phase_index_round incr v.amp_incr v.output_rate
    (fun i => decide (i ≤ end_index)) (none_raw E v) s1 = s2 at p2 ⊢
  have i2 := p2.index i1
  have b2 := p2.bound (by omega)
  have m2 := p2.mono
  have r2 := fluid_phase_index_round_lt s2.dsp_phase
  rw [if_neg (by simp)]
  by_cases hw : s2.dsp_phase_index > end_index
  · rw [if_pos hw]
    have hsub := fluid_phase_index_round_sub_int s2.dsp_phase v.loopstart v.loopend hl
      (by omega)
    by_cases hb : (dsp_wrap v s2).dsp_i ≥ E.FLUID_BUFSIZE
    · rw [if_pos hb]
      dsimp only [dsp_wrap] at hb ⊢
      exact ⟨fun _ => by omega, fun h => absurd rfl h⟩
    · rw [if_neg hb]
      dsimp only [dsp_wrap] at hb ⊢
      refine ⟨fun h => (by cases h), fun _ => ⟨b2, ?_⟩⟩
      simp only [loop_measure]
      rw [hsub]
      by_cases hsame : s2.dsp_i = s1.dsp_i
      · have := p2.same hsame
        subst this
        rw [k1, j1]
        rw [k1] at i2
        omega
      · have := fluid_phase_index_round_lt s.dsp_phase
        omega
  · rw [if_neg hw]
    have hx := p2.exit
    have hb : s2.dsp_i ≥ E.FLUID_BUFSIZE := by
      rcases hx with hx | hx
      · exact hx
      · simp only [decide_eq_false_iff_not] at hx
        omega
    rw [if_pos hb]
    dsimp only
    exact ⟨fun _ => by omega, fun h => absurd rfl h⟩

theorem none_while_total (E : DspEnv F) (v : fluid_rvoice_dsp_t) (incr end_index : Nat)
    (hl : v.loopstart < v.loopend) (he : end_index + 1 = v.loopend) :
    ∀ (fuel : Nat) (s : DspState F), s.dsp_i ≤ E.FLUID_BUFSIZE →
      loop_measure E fluid_phase_index_round s < fuel →
      ∃ r, none_while E v true incr end_index fuel s = some r := by
  intro fuel
  induction fuel with
  | zero => intro s _ h; omega
  | succ fuel ih =>
    intro s hs hm
    have h1 := none_iter_progress E v incr end_index hl he s hs
    simp only [none_while]
    split
    · exact ⟨_, rfl⟩
    · rename_i u t heq
      rw [heq] at h1
      have h2 := h1.2 (by simp)
      dsimp only at h2
      exact ih t h2.1 (by omega)

theorem none_while_full (E : DspEnv F) (v : fluid_rvoice_dsp_t) (incr end_index : Nat)
    (hl : v.loopstart < v.loopend) (he : end_index + 1 = v.loopend) :
    ∀ (fuel : Nat) (s r : DspState F), s.dsp_i ≤ E.FLUID_BUFSIZE →
      none_while E v true incr end_index fuel s = some r → r.dsp_i = E.FLUID_BUFSIZE := by
  intro fuel
  induction fuel with
  | zero => intro s r _ hr; simp [none_while] at hr
  | succ fuel ih =>
    intro s r hs hr
    have h1 := none_iter_progress E v incr end_index hl he s hs
    simp only [none_while] at hr
    split at hr
    · rename_i t heq
      rw [heq] at h1
      cases hr
      exact h1.1 rfl
    · rename_i u t heq
      rw [heq] at h1
      exact ih t r (h1.2 (by simp)).1 hr

theorem uint_add_small (a b : Nat) (h : a + b < 2 ^ 32) : uint_add a b = a + b := by
  unfold uint_add
  omega

theorem end_index_eq (e loopend k : Nat) (he : e = to_uint ((loopend : Int) - 1 - k))
    (h1 : 1 ≤ loopend) (hle : loopend ≤ 2 ^ 31) (hf : e + k < 2 ^ 32) : e + k + 1 = loopend := by
  unfold to_uint at he
  omega

theorem linear_iter_progress (E : DspEnv F) (v : fluid_rvoice_dsp_t) (incr : Nat)
    (point : ℚ) (e : Nat)
    (hl : v.loopstart < v.loopend) (hle : v.loopend ≤ 2 ^ 31)
    (he : e = to_uint ((v.loopend : Int) - 1 - 1))
    (s : DspState F) (hs : s.dsp_i ≤ E.FLUID_BUFSIZE) :
    ((linear_iter E v true incr point e s).1 = none →
        (linear_iter E v true incr point e s).2.dsp_i = E.FLUID_BUFSIZE) ∧
      ((linear_iter E v true incr point e s).1 ≠ none →
        (linear_iter E v true incr point e s).2.dsp_i ≤ E.FLUID_BUFSIZE ∧
        loop_measure E fluid_phase_index (linear_iter E v true incr point e s).2
          < loop_measure E fluid_phase_index s) := by
  simp only [linear_iter]
  have i1 : ({ s with dsp_phase_index := fluid_phase_index s.dsp_phase } :
      DspState F).dsp_phase_index = fluid_phase_index
      ({ s with dsp_phase_index := fluid_phase_index s.dsp_phase } : DspState F).dsp_phase :=
    rfl
  have j1 : ({ s with dsp_phase_index := fluid_phase_index s.dsp_phase } :
      DspState F).dsp_i = s.dsp_i := rfl
  have k1 : ({ s with dsp_phase_index := fluid_phase_index s.dsp_phase } :
      DspState F).dsp_phase = s.dsp_phase := rfl
  generalize ({ s with dsp_phase_index := fluid_phase_index s.dsp_phase } : DspState F) = s1
    at i1 j1 k1 ⊢
  have b1 : s1.dsp_i ≤ E.FLUID_BUFSIZE := by omega
  have p2 := dsp_loop_post E fluid_phase_index incr v.amp_incr v.output_rate
    (fun i => decide (i ≤ e)) (linear_raw E v) s1
  generalize dsp_loop E fluid_phase_index incr v.amp_incr v.output_rate
    (fun i => decide (i ≤ e)) (linear_raw E v) s1 = s2 at p2 ⊢
  have i2 := p2.index i1
  have b2 := p2.bound b1
  have m2 := p2.mono
  have q2 : s2.dsp_i = s1.dsp_i → s2.dsp_phase = s1.dsp_phase :=
    fun hq => by rw [p2.same hq]
  by_cases c1 : s2.dsp_i ≥ E.FLUID_BUFSIZE
  · rw [if_pos c1]
    dsimp only
    exact ⟨fun _ => Nat.le_antisymm b2 c1, fun h => absurd rfl h⟩
  · rw [if_neg c1]
    have y2 : e < s2.dsp_phase_index := by
      have := p2.exit
      simp only [decide_eq_false_iff_not, not_le] at this
      exact this.resolve_left c1
    have p3 := dsp_loop_post E fluid_phase_index incr v.amp_incr v.output_rate
      (fun i => decide (i ≤ uint_add e 1)) (linear_raw_last E v point) s2
    generalize dsp_loop E fluid_phase_index incr v.amp_incr v.output_rate
      (fun i => decide (i ≤ uint_add e 1)) (linear_raw_last E v point) s2 = s3 at p3 ⊢
    have i3 := p3.index i2
    have b3 := p3.bound b2
    have m3 := p3.mono
    have q3 : s3.dsp_i = s2.dsp_i → s3.dsp_phase = s2.dsp_phase :=
      fun hq => by rw [p3.same hq]
    rw [if_neg (by simp)]
    by_cases hw : s3.dsp_phase_index > uint_add e 1
    · rw [if_pos hw]
      simp only [decide_eq_true_eq] at hw
      by_cases hb : (dsp_wrap v s3).dsp_i ≥ E.FLUID_BUFSIZE
      · rw [if_pos hb]
        dsimp only [dsp_wrap] at hb ⊢
        exact ⟨fun _ => Nat.le_antisymm b3 hb, fun h => absurd rfl h⟩
      · rw [if_neg hb]
        dsimp only [dsp_wrap] at hb ⊢
        have f0 : e + 1 < 2 ^ 32 := by
          have := fluid_phase_index_lt s2.dsp_phase
          omega
        simp only [uint_add_small _ _ f0] at hw
        have hE := end_index_eq e v.loopend 1 he (by omega) hle (by omega)
        have r3 := fluid_phase_index_lt s3.dsp_phase
        have hsub := fluid_phase_index_sub_int s3.dsp_phase v.loopstart v.loopend hl
          (by omega)
        refine ⟨fun h => (by cases h), fun _ => ⟨b3, ?_⟩⟩
        simp only [loop_measure]
        rw [hsub]
        by_cases hsame : s3.dsp_i = s1.dsp_i
        · have z : s3.dsp_phase = s.dsp_phase := by
            rw [q3 (by omega), q2 (by omega), k1]
          rw [z] at i3 ⊢
          omega
        · have := fluid_phase_index_lt s.dsp_phase
          omega
    · rw [if_neg hw]
      have hb : s3.dsp_i ≥ E.FLUID_BUFSIZE := by
        have := p3.exit
        simp only [decide_eq_false_iff_not, not_le] at this
        simp only [decide_eq_true_eq, not_lt] at hw
        exact this.resolve_right (by omega)
      rw [if_pos hb]
      dsimp only
      exact ⟨fun _ => Nat.le_antisymm b3 hb, fun h => absurd rfl h⟩

theorem cubic_iter_progress (E : DspEnv F) (v : fluid_rvoice_dsp_t) (incr : Nat)
    (ep1 ep2 : ℚ) (c : CubicVars)
    (hl : v.loopstart < v.loopend) (hle : v.loopend ≤ 2 ^ 31)
    (he : c.end_index = to_uint ((v.loopend : Int) - 1 - 2))
    (s : DspState F) (hs : s.dsp_i ≤ E.FLUID_BUFSIZE) :
    ((cubic_iter E v true incr ep1 ep2 c s).1 = none →
        (cubic_iter E v true incr ep1 ep2 c s).2.dsp_i = E.FLUID_BUFSIZE) ∧
      ((cubic_iter E v true incr ep1 ep2 c s).1 ≠ none →
        (cubic_iter E v true incr ep1 ep2 c s).2.dsp_i ≤ E.FLUID_BUFSIZE ∧
        loop_measure E fluid_phase_index (cubic_iter E v true incr ep1 ep2 c s).2
          < loop_measure E fluid_phase_index s) := by
  simp only [cubic_iter]
  have i1 : ({ s with dsp_phase_index := fluid_phase_index s.dsp_phase } :
      DspState F).dsp_phase_index = fluid_phase_index
      ({ s with dsp_phase_index := fluid_phase_index s.dsp_phase } : DspState F).dsp_phase :=
    rfl
  have j1 : ({ s with dsp_phase_index := fluid_phase_index s.dsp_phase } :
      DspState F).dsp_i = s.dsp_i := rfl
  have k1 : ({ s with dsp_phase_index := fluid_phase_index s.dsp_phase } :
      DspState F).dsp_phase = s.dsp_phase := rfl
  generalize ({ s with dsp_phase_index := fluid_phase_index s.dsp_phase } : DspState F) = s1
    at i1 j1 k1 ⊢
  have b1 : s1.dsp_i ≤ E.FLUID_BUFSIZE := by omega
  have p2 := dsp_loop_post E fluid_phase_index incr v.amp_incr v.output_rate
    (fun i => decide (i = c.start_index)) (cubic_raw_first E v c.start_point) s1
  generalize dsp_loop E fluid_phase_index incr v.amp_incr v.output_rate
    (fun i => decide (i = c.start_index)) (cubic_raw_first E v c.start_point) s1 = s2 at p2 ⊢
  have i2 := p2.index i1
  have b2 := p2.bound b1
  have m2 := p2.mono
  have q2 : s2.dsp_i = s1.dsp_i → s2.dsp_phase = s1.dsp_phase :=
    fun hq => by rw [p2.same hq]
  have p3 := dsp_loop_post E fluid_phase_index incr v.amp_incr v.output_rate
    (fun i => decide (i ≤ c.end_index)) (cubic_raw E v) s2
  generalize dsp_loop E fluid_phase_index incr v.amp_incr v.output_rate
    (fun i => decide (i ≤ c.end_index)) (cubic_raw E v) s2 = s3 at p3 ⊢
  have i3 := p3.index i2
  have b3 := p3.bound b2
  have m3 := p3.mono
  have q3 : s3.dsp_i = s2.dsp_i → s3.dsp_phase = s2.dsp_phase :=
    fun hq => by rw [p3.same hq]
  by_cases c1 : s3.dsp_i ≥ E.FLUID_BUFSIZE
  · rw [if_pos c1]
    dsimp only
    exact ⟨fun _ => Nat.le_antisymm b3 c1, fun h => absurd rfl h⟩
  · rw [if_neg c1]
    have y3 : c.end_index < s3.dsp_phase_index := by
      have := p3.exit
      simp only [decide_eq_false_iff_not, not_le] at this
      exact this.resolve_left c1
    have p4 := dsp_loop_post E fluid_phase_index incr v.amp_incr v.output_rate
      (fun i => decide (i ≤ uint_add c.end_index 1)) (cubic_raw_last2 E v ep1) s3
    generalize dsp_loop E fluid_phase_index incr v.amp_incr v.output_rate
      (fun i => decide (i ≤ uint_add c.end_index 1)) (cubic_raw_last2 E v ep1) s3 = s4 at p4 ⊢
    have i4 := p4.index i3
    have b4 := p4.bound b3
    have m4 := p4.mono
    have q4 : s4.dsp_i = s3.dsp_i → s4.dsp_phase = s3.dsp_phase :=
      fun hq => by rw [p4.same hq]
    have p5 := dsp_loop_post E fluid_phase_index incr v.amp_incr v.output_rate
      (fun i => decide (i ≤ uint_add (uint_add c.end_index 1) 1)) (cubic_raw_last E v ep1 ep2) s4
    generalize dsp_loop E fluid_phase_index incr v.amp_incr v.output_rate
      (fun i => decide (i ≤ uint_add (uint_add c.end_index 1) 1)) (cubic_raw_last E v ep1 ep2) s4 = s5 at p5 ⊢
    have i5 := p5.index i4
    have b5 := p5.bound b4
    have m5 := p5.mono
    have q5 : s5.dsp_i = s4.dsp_i → s5.dsp_phase = s4.dsp_phase :=
      fun hq => by rw [p5.same hq]
    rw [if_neg (by simp)]
    by_cases hw : decide (s5.dsp_phase_index > uint_add (uint_add c.end_index 1) 1) = true
    · rw [if_pos hw]
      simp only [decide_eq_true_eq] at hw
      by_cases hb : (dsp_wrap v s5).dsp_i ≥ E.FLUID_BUFSIZE
      · rw [if_pos hb]
        dsimp only [dsp_wrap] at hb ⊢
        exact ⟨fun _ => Nat.le_antisymm b5 hb, fun h => absurd rfl h⟩
      · rw [if_neg hb]
        dsimp only [dsp_wrap] at hb ⊢
        have f0 : c.end_index + 1 < 2 ^ 32 := by
          have := fluid_phase_index_lt s3.dsp_phase
          omega
        have y4 : c.end_index + 1 < s4.dsp_phase_index := by
          have := p4.exit
          simp only [decide_eq_false_iff_not, not_le, uint_add_small _ _ f0] at this
          exact this.resolve_left (by omega)
        have f1 : c.end_index + 1 + 1 < 2 ^ 32 := by
          have := fluid_phase_index_lt s4.dsp_phase
          omega
        simp only [uint_add_small _ _ f0, uint_add_small _ _ f1] at hw
        have hE := end_index_eq c.end_index v.loopend 2 he (by omega) hle (by omega)
        have r5 := fluid_phase_index_lt s5.dsp_phase
        have hsub := fluid_phase_index_sub_int s5.dsp_phase v.loopstart v.loopend hl
          (by omega)
        refine ⟨fun h => (by cases h), fun _ => ⟨b5, ?_⟩⟩
        simp only [loop_measure]
        rw [hsub]
        by_cases hsame : s5.dsp_i = s1.dsp_i
        · have z : s5.dsp_phase = s.dsp_phase := by
            rw [q5 (by omega), q4 (by omega), q3 (by omega), q2 (by omega), k1]
          rw [z] at i5 ⊢
          omega
        · have := fluid_phase_index_lt s.dsp_phase
          omega
    · rw [if_neg hw]
      have hb : s5.dsp_i ≥ E.FLUID_BUFSIZE := by
        have := p5.exit
        simp only [decide_eq_false_iff_not, not_le] at this
        simp only [decide_eq_true_eq, not_lt] at hw
        exact this.resolve_right (by omega)
      rw [if_pos hb]
      dsimp only
      exact ⟨fun _ => Nat.le_antisymm b5 hb, fun h => absurd rfl h⟩

theorem sinc_iter_progress (E : DspEnv F) (v : fluid_rvoice_dsp_t) (incr : Nat)
    (ep : Points) (c : SincVars)
    (hl : v.loopstart < v.loopend) (hle : v.loopend ≤ 2 ^ 31)
    (he : c.end_index = to_uint ((v.loopend : Int) - 1 - 3))
    (s : DspState F) (hs : s.dsp_i ≤ E.FLUID_BUFSIZE) :
    ((sinc_iter E v true incr ep c s).1 = none →
        (sinc_iter E v true incr ep c s).2.dsp_i = E.FLUID_BUFSIZE) ∧
      ((sinc_iter E v true incr ep c s).1 ≠ none →
        (sinc_iter E v true incr ep c s).2.dsp_i ≤ E.FLUID_BUFSIZE ∧
        loop_measure E fluid_phase_index (sinc_iter E v true incr ep c s).2
          < loop_measure E fluid_phase_index s) := by
  simp only [sinc_iter]
  have i1 : ({ s with dsp_phase_index := fluid_phase_index s.dsp_phase } :
      DspState F).dsp_phase_index = fluid_phase_index
      ({ s with dsp_phase_index := fluid_phase_index s.dsp_phase } : DspState F).dsp_phase :=
    rfl
  have j1 : ({ s with dsp_phase_index := fluid_phase_index s.dsp_phase } :
      DspState F).dsp_i = s.dsp_i := rfl
  have k1 : ({ s with dsp_phase_index := fluid_phase_index s.dsp_phase } :
      DspState F).dsp_phase = s.dsp_phase := rfl
  generalize ({ s with dsp_phase_index := fluid_phase_index s.dsp_phase } : DspState F) = s1
    at i1 j1 k1 ⊢
  have b1 : s1.dsp_i ≤ E.FLUID_BUFSIZE := by omega
  have p2 := dsp_loop_post E fluid_phase_index incr v.amp_incr v.output_rate
    (fun i => decide (i = c.start_index)) (sinc_raw_first E v c.start_points) s1
  generalize dsp_loop E fluid_phase_index incr v.amp_incr v.output_rate
    (fun i => decide (i = c.start_index)) (sinc_raw_first E v c.start_points) s1 = s2 at p2 ⊢
  have i2 := p2.index i1
  have b2 := p2.bound b1
  have m2 := p2.mono
  have q2 : s2.dsp_i = s1.dsp_i → s2.dsp_phase = s1.dsp_phase :=
    fun hq => by rw [p2.same hq]
  have p3 := dsp_loop_post E fluid_phase_index incr v.amp_incr v.output_rate
    (fun i => decide (i = uint_add c.start_index 1)) (sinc_raw_first2 E v c.start_points) s2
  generalize dsp_loop E fluid_phase_index incr v.amp_incr v.output_rate
    (fun i => decide (i = uint_add c.start_index 1)) (sinc_raw_first2 E v c.start_points) s2 = s3 at p3 ⊢
  have i3 := p3.index i2
  have b3 := p3.bound b2
  have m3 := p3.mono
  have q3 : s3.dsp_i = s2.dsp_i → s3.dsp_phase = s2.dsp_phase :=
    fun hq => by rw [p3.same hq]
  have p4 := dsp_loop_post E fluid_phase_index incr v.amp_incr v.output_rate
    (fun i => decide (i = uint_add (uint_add c.start_index 1) 1)) (sinc_raw_first3 E v c.start_points) s3
  generalize dsp_loop E fluid_phase_index incr v.amp_incr v.output_rate
    (fun i => decide (i = uint_add (uint_add c.start_index 1) 1)) (sinc_raw_first3 E v c.start_points) s3 = s4 at p4 ⊢
  have i4 := p4.index i3
  have b4 := p4.bound b3
  have m4 := p4.mono
  have q4 : s4.dsp_i = s3.dsp_i → s4.dsp_phase = s3.dsp_phase :=
    fun hq => by rw [p4.same hq]
  have p5 := dsp_loop_post E fluid_phase_index incr v.amp_incr v.output_rate
    (fun i => decide (i ≤ c.end_index)) (sinc_raw E v) s4
  generalize dsp_loop E fluid_phase_index incr v.amp_incr v.output_rate
    (fun i => decide (i ≤ c.end_index)) (sinc_raw E v) s4 = s5 at p5 ⊢
  have i5 := p5.index i4
  have b5 := p5.bound b4
  have m5 := p5.mono
  have q5 : s5.dsp_i = s4.dsp_i → s5.dsp_phase = s4.dsp_phase :=
    fun hq => by rw [p5.same hq]
  by_cases c1 : s5.dsp_i ≥ E.FLUID_BUFSIZE
  · rw [if_pos c1]
    dsimp only
    exact ⟨fun _ => Nat.le_antisymm b5 c1, fun h => absurd rfl h⟩
  · rw [if_neg c1]
    have y5 : c.end_index < s5.dsp_phase_index := by
      have := p5.exit
      simp only [decide_eq_false_iff_not, not_le] at this
      exact this.resolve_left c1
    have p6 := dsp_loop_post E fluid_phase_index incr v.amp_incr v.output_rate
      (fun i => decide (i ≤ uint_add c.end_index 1)) (sinc_raw_last3 E v ep) s5
    generalize dsp_loop E fluid_phase_index incr v.amp_incr v.output_rate
      (fun i => decide (i ≤ uint_add c.end_index 1)) (sinc_raw_last3 E v ep) s5 = s6 at p6 ⊢
    have i6 := p6.index i5
    have b6 := p6.bound b5
    have m6 := p6.mono
    have q6 : s6.dsp_i = s5.dsp_i → s6.dsp_phase = s5.dsp_phase :=
      fun hq => by rw [p6.same hq]
    have p7 := dsp_loop_post E fluid_phase_index incr v.amp_incr v.output_rate
      (fun i => decide (i ≤ uint_add (uint_add c.end_index 1) 1)) (sinc_raw_last2 E v ep) s6
    generalize dsp_loop E fluid_phase_index incr v.amp_incr v.output_rate
      (fun i => decide (i ≤ uint_add (uint_add c.end_index 1) 1)) (sinc_raw_last2 E v ep) s6 = s7 at p7 ⊢
    have i7 := p7.index i6
    have b7 := p7.bound b6
    have m7 := p7.mono
    have q7 : s7.dsp_i = s6.dsp_i → s7.dsp_phase = s6.dsp_phase :=
      fun hq => by rw [p7.same hq]
    have p8 := dsp_loop_post E fluid_phase_index incr v.amp_incr v.output_rate
      (fun i => decide (i ≤ uint_add (uint_add (uint_add c.end_index 1) 1) 1)) (sinc_raw_last E v ep) s7
    generalize dsp_loop E fluid_phase_index incr v.amp_incr v.output_rate
      (fun i => decide (i ≤ uint_add (uint_add (uint_add c.end_index 1) 1) 1)) (sinc_raw_last E v ep) s7 = s8 at p8 ⊢
    have i8 := p8.index i7
    have b8 := p8.bound b7
    have m8 := p8.mono
    have q8 : s8.dsp_i = s7.dsp_i → s8.dsp_phase = s7.dsp_phase :=
      fun hq => by rw [p8.same hq]
    rw [if_neg (by simp)]
    by_cases hw : decide (s8.dsp_phase_index > uint_add (uint_add (uint_add c.end_index 1) 1) 1) = true
    · rw [if_pos hw]
      simp only [decide_eq_true_eq] at hw
      by_cases hb : (dsp_wrap v s8).dsp_i ≥ E.FLUID_BUFSIZE
      · rw [if_pos hb]
        dsimp only [dsp_wrap] at hb ⊢
        exact ⟨fun _ => Nat.le_antisymm b8 hb, fun h => absurd rfl h⟩
      · rw [if_neg hb]
        dsimp only [dsp_wrap] at hb ⊢
        have f0 : c.end_index + 1 < 2 ^ 32 := by
          have := fluid_phase_index_lt s5.dsp_phase
          omega
        have y6 : c.end_index + 1 < s6.dsp_phase_index := by
          have := p6.exit
          simp only [decide_eq_false_iff_not, not_le, uint_add_small _ _ f0] at this
          exact this.resolve_left (by omega)
        have f1 : c.end_index + 1 + 1 < 2 ^ 32 := by
          have := fluid_phase_index_lt s6.dsp_phase
          omega
        have y7 : c.end_index + 1 + 1 < s7.dsp_phase_index := by
          have := p7.exit
          simp only [decide_eq_false_iff_not, not_le, uint_add_small _ _ f0, uint_add_small _ _ f1] at this
          exact this.resolve_left (by omega)
        have f2 : c.end_index + 1 + 1 + 1 < 2 ^ 32 := by
          have := fluid_phase_index_lt s7.dsp_phase
          omega
        simp only [uint_add_small _ _ f0, uint_add_small _ _ f1, uint_add_small _ _ f2] at hw
        have hE := end_index_eq c.end_index v.loopend 3 he (by omega) hle (by omega)
        have r8 := fluid_phase_index_lt s8.dsp_phase
        have hsub := fluid_phase_index_sub_int s8.dsp_phase v.loopstart v.loopend hl
          (by omega)
        refine ⟨fun h => (by cases h), fun _ => ⟨b8, ?_⟩⟩
        simp only [loop_measure]
        rw [hsub]
        by_cases hsame : s8.dsp_i = s1.dsp_i
        · have z : s8.dsp_phase = s.dsp_phase := by
            rw [q8 (by omega), q7 (by omega), q6 (by omega), q5 (by omega), q4 (by omega), q3 (by omega), q2 (by omega), k1]
          rw [z] at i8 ⊢
          omega
        · have := fluid_phase_index_lt s.dsp_phase
          omega
    · rw [if_neg hw]
      have hb : s8.dsp_i ≥ E.FLUID_BUFSIZE := by
        have := p8.exit
        simp only [decide_eq_false_iff_not, not_le] at this
        simp only [decide_eq_true_eq, not_lt] at hw
        exact this.resolve_right (by omega)
      rw [if_pos hb]
      dsimp only
      exact ⟨fun _ => Nat.le_antisymm b8 hb, fun h => absurd rfl h⟩

theorem linear_while_looping (E : DspEnv F) (v : fluid_rvoice_dsp_t) (incr : Nat) (point : ℚ)
    (e : Nat) (hl : v.loopstart < v.loopend) (hle : v.loopend ≤ 2 ^ 31)
    (he : e = to_uint ((v.loopend : Int) - 1 - 1)) :
    ∀ (fuel : Nat) (s : DspState F), s.dsp_i ≤ E.FLUID_BUFSIZE →
      (loop_measure E fluid_phase_index s < fuel →
        ∃ r, linear_while E v true incr point fuel e s = some r) ∧
      (∀ r, linear_while E v true incr point fuel e s = some r →
        r.dsp_i = E.FLUID_BUFSIZE) := by
  intro fuel
  induction fuel with
  | zero =>
    intro s _
    exact ⟨fun h => absurd h (Nat.not_lt_zero _), fun r hr => by simp [linear_while] at hr⟩
  | succ fuel ih =>
    intro s hs
    have h1 := linear_iter_progress E v incr point e hl hle he s hs
    have hv := linear_iter_end E v true incr point e (by rw [he]; exact to_uint_lt _) s
    simp only [linear_while]
    split
    · rename_i t heq
      rw [heq] at h1
      exact ⟨fun _ => ⟨_, rfl⟩, fun r hr => by cases hr; exact h1.1 rfl⟩
    · rename_i e1 t heq
      rw [heq] at h1 hv
      have hv1 := hv e1 rfl
      subst hv1
      have h2 := h1.2 (by simp)
      dsimp only at h2
      have h3 := ih t h2.1
      exact ⟨fun hm => h3.1 (by omega), h3.2⟩

theorem cubic_while_looping (E : DspEnv F) (v : fluid_rvoice_dsp_t) (incr : Nat)
    (ep1 ep2 : ℚ) (hl : v.loopstart < v.loopend) (hle : v.loopend ≤ 2 ^ 31) :
    ∀ (fuel : Nat) (c : CubicVars) (s : DspState F),
      c.end_index = to_uint ((v.loopend : Int) - 1 - 2) → s.dsp_i ≤ E.FLUID_BUFSIZE →
      (loop_measure E fluid_phase_index s < fuel →
        ∃ r, cubic_while E v true incr ep1 ep2 fuel c s = some r) ∧
      (∀ r, cubic_while E v true incr ep1 ep2 fuel c s = some r →
        r.dsp_i = E.FLUID_BUFSIZE) := by
  intro fuel
  induction fuel with
  | zero =>
    intro c s _ _
    exact ⟨fun h => absurd h (Nat.not_lt_zero _), fun r hr => by simp [cubic_while] at hr⟩
  | succ fuel ih =>
    intro c s he hs
    have h1 := cubic_iter_progress E v incr ep1 ep2 c hl hle he s hs
    have hv := cubic_iter_vars E v true incr ep1 ep2 c (by rw [he]; exact to_uint_lt _) s
    simp only [cubic_while]
    split
    · rename_i t heq
      rw [heq] at h1
      exact ⟨fun _ => ⟨_, rfl⟩, fun r hr => by cases hr; exact h1.1 rfl⟩
    · rename_i c1 t heq
      rw [heq] at h1 hv
      have hv1 := (hv c1 rfl).1
      have h2 := h1.2 (by simp)
      dsimp only at h2
      have h3 := ih c1 t (by rw [hv1]; exact he) h2.1
      exact ⟨fun hm => h3.1 (by omega), h3.2⟩

theorem sinc_while_looping (E : DspEnv F) (v : fluid_rvoice_dsp_t) (incr : Nat)
    (ep : Points) (hl : v.loopstart < v.loopend) (hle : v.loopend ≤ 2 ^ 31) :
    ∀ (fuel : Nat) (c : SincVars) (s : DspState F),
      c.end_index = to_uint ((v.loopend : Int) - 1 - 3) → c.start_index < 2 ^ 32 →
      s.dsp_i ≤ E.FLUID_BUFSIZE →
      (loop_measure E fluid_phase_index s < fuel →
        ∃ r, sinc_while E v true incr ep fuel c s = some r) ∧
      (∀ r, sinc_while E v true incr ep fuel c s = some r →
        r.dsp_i = E.FLUID_BUFSIZE) := by
  intro fuel
  induction fuel with
  | zero =>
    intro c s _ _ _
    exact ⟨fun h => absurd h (Nat.not_lt_zero _), fun r hr => by simp [sinc_while] at hr⟩
  | succ fuel ih =>
    intro c s he hsi hs
    have h1 := sinc_iter_progress E v incr ep c hl hle he s hs
    have hv := sinc_iter_vars E v true incr ep c (by rw [he]; exact to_uint_lt _) hsi s
    simp only [sinc_while]
    split
    · rename_i t heq
      rw [heq] at h1
      exact ⟨fun _ => ⟨_, rfl⟩, fun r hr => by cases hr; exact h1.1 rfl⟩
    · rename_i c1 t heq
      rw [heq] at h1 hv
      have hv1 := hv c1 rfl
      have h2 := h1.2 (by simp)
      dsimp only at h2
      have hsi1 : c1.start_index < 2 ^ 32 := by
        rcases hv1.2 with h4 | h4
        · rw [h4]; exact hsi
        · rw [h4]; exact to_uint_lt _
      have h3 := ih c1 t (by rw [hv1.1]; exact he) hsi1 h2.1
      exact ⟨fun hm => h3.1 (by omega), h3.2⟩

/-! ## The render functions when the voice loops -/

theorem to_uint_pred (n : Nat) (h1 : 1 ≤ n) (h2 : n ≤ 2 ^ 31) :
    to_uint ((n : Int) - 1) + 1 = n := by
  unfold to_uint
  omega

theorem none_render_looping (E : DspEnv F) (rvoice : fluid_rvoice_t F) (dsp_buf : Nat → ℚ)
    (hl : rvoice.dsp.loopstart < rvoice.dsp.loopend) (hle : rvoice.dsp.loopend ≤ 2 ^ 31) :
    RendersFull E (fun fuel => fluid_rvoice_dsp_interpolate_none E fuel rvoice dsp_buf true) := by
  have he := to_uint_pred rvoice.dsp.loopend (by omega) hle
  constructor
  · obtain ⟨r, hr⟩ := none_while_total E rvoice.dsp
      (fluid_phase_set_float rvoice.dsp.phase_incr) _ hl he _
      (dsp_init rvoice dsp_buf rvoice.dsp.phase) (Nat.zero_le _) (Nat.lt_succ_self _)
    refine ⟨loop_measure E fluid_phase_index_round (dsp_init rvoice dsp_buf rvoice.dsp.phase)
      + 1, dsp_finish rvoice r.dsp_phase r, ?_⟩
    simp only [fluid_rvoice_dsp_interpolate_none, if_true]
    rw [hr]
    rfl
  · intro fuel out hout
    simp only [fluid_rvoice_dsp_interpolate_none, if_true, Option.map_eq_some'] at hout
    obtain ⟨r, hr, rfl⟩ := hout
    exact none_while_full E rvoice.dsp _ _ hl he fuel _ r (Nat.zero_le _) hr

theorem linear_render_looping (E : DspEnv F) (rvoice : fluid_rvoice_t F) (dsp_buf : Nat → ℚ)
    (hl : rvoice.dsp.loopstart < rvoice.dsp.loopend) (hle : rvoice.dsp.loopend ≤ 2 ^ 31) :
    RendersFull E
      (fun fuel => fluid_rvoice_dsp_interpolate_linear E fuel rvoice dsp_buf true) := by
  have key := fun fuel => linear_while_looping E rvoice.dsp
    (fluid_phase_set_float rvoice.dsp.phase_incr)
    (dsp_data_at E rvoice.dsp (to_uint rvoice.dsp.loopstart)) _ hl hle rfl fuel
    (dsp_init rvoice dsp_buf rvoice.dsp.phase) (Nat.zero_le _)
  constructor
  · obtain ⟨r, hr⟩ := (key _).1 (Nat.lt_succ_self _)
    refine ⟨loop_measure E fluid_phase_index (dsp_init rvoice dsp_buf rvoice.dsp.phase)
      + 1, dsp_finish rvoice r.dsp_phase r, ?_⟩
    simp only [fluid_rvoice_dsp_interpolate_linear, if_true]
    rw [hr]
    rfl
  · intro fuel out hout
    simp only [fluid_rvoice_dsp_interpolate_linear, if_true, Option.map_eq_some'] at hout
    obtain ⟨r, hr, rfl⟩ := hout
    exact (key fuel).2 r hr

theorem sinc_vars_init_start_lt (E : DspEnv F) (voice : fluid_rvoice_dsp_t) (looping : Bool) :
    (sinc_vars_init E voice looping).start_index < 2 ^ 32 := by
  simp only [sinc_vars_init]
  split <;> exact to_uint_lt _

theorem cubic_render_looping (E : DspEnv F) (rvoice : fluid_rvoice_t F) (dsp_buf : Nat → ℚ)
    (hl : rvoice.dsp.loopstart < rvoice.dsp.loopend) (hle : rvoice.dsp.loopend ≤ 2 ^ 31) :
    RendersFull E
      (fun fuel => fluid_rvoice_dsp_interpolate_4th_order E fuel rvoice dsp_buf true) := by
  have key := fun fuel => cubic_while_looping E rvoice.dsp
    (fluid_phase_set_float rvoice.dsp.phase_incr)
    (cubic_end_point1 E rvoice.dsp true) (cubic_end_point2 E rvoice.dsp true) hl hle fuel
    (cubic_vars_init E rvoice.dsp true)
    (dsp_init rvoice dsp_buf rvoice.dsp.phase) rfl (Nat.zero_le _)
  constructor
  · obtain ⟨r, hr⟩ := (key _).1 (Nat.lt_succ_self _)
    refine ⟨loop_measure E fluid_phase_index (dsp_init rvoice dsp_buf rvoice.dsp.phase)
      + 1, dsp_finish rvoice r.dsp_phase r, ?_⟩
    simp only [fluid_rvoice_dsp_interpolate_4th_order]
    rw [hr]
    rfl
  · intro fuel out hout
    simp only [fluid_rvoice_dsp_interpolate_4th_order, Option.map_eq_some'] at hout
    obtain ⟨r, hr, rfl⟩ := hout
    exact (key fuel).2 r hr

theorem sinc_render_looping (E : DspEnv F) (rvoice : fluid_rvoice_t F) (dsp_buf : Nat → ℚ)
    (hl : rvoice.dsp.loopstart < rvoice.dsp.loopend) (hle : rvoice.dsp.loopend ≤ 2 ^ 31) :
    RendersFull E
      (fun fuel => fluid_rvoice_dsp_interpolate_7th_order E fuel rvoice dsp_buf true) := by
  have key := fun fuel => sinc_while_looping E rvoice.dsp
    (fluid_phase_set_float rvoice.dsp.phase_incr)
    (sinc_end_points E rvoice.dsp true) hl hle fuel (sinc_vars_init E rvoice.dsp true)
    (dsp_init rvoice dsp_buf (fluid_phase_incr rvoice.dsp.phase 0x80000000)) rfl
    (sinc_vars_init_start_lt E rvoice.dsp true) (Nat.zero_le _)
  constructor
  · obtain ⟨r, hr⟩ := (key _).1 (Nat.lt_succ_self _)
    refine ⟨loop_measure E fluid_phase_index
      (dsp_init rvoice dsp_buf (fluid_phase_incr rvoice.dsp.phase 0x80000000)) + 1,
      dsp_finish rvoice (fluid_phase_decr r.dsp_phase 0x80000000) r, ?_⟩
    simp only [fluid_rvoice_dsp_interpolate_7th_order]
    rw [hr]
    rfl
  · intro fuel out hout
    simp only [fluid_rvoice_dsp_interpolate_7th_order, Option.map_eq_some'] at hout
    obtain ⟨r, hr, rfl⟩ := hout
    exact (key fuel).2 r hr

/-! ## What a render call establishes -/

theorem renderPost_of_inv (E : DspEnv F) (rvoice : fluid_rvoice_t F) (buf0 : Nat → ℚ)
    (s : DspState F)
    (h : RenderInv E rvoice.dsp (fluid_phase_set_float rvoice.dsp.phase_incr) rvoice.dsp.phase
      (rvoice.resonant_filter, rvoice.resonant_custom_filter) buf0 s) :
    RenderPost E rvoice buf0 (dsp_finish rvoice s.dsp_phase s) where
  ret_le := h.count_le
  raws_len := h.raws_len
  amp := h.amp
  phase := by
    intro hlt
    have h1 := h.phase_lt hlt
    obtain ⟨q, hq⟩ := h.phase
    simp only [dsp_finish]
    push_cast at hq ⊢
    generalize (s.dsp_i : Int) * (fluid_phase_set_float rvoice.dsp.phase_incr : Int) = A
      at hq ⊢
    generalize (s.wraps : Int) * (((rvoice.dsp.loopend : Int) - (rvoice.dsp.loopstart : Int))
      * 4294967296) = B at hq ⊢
    omega
  looped := h.looped
  filters := h.filters
  outs_len := h.outs_len
  written := h.written
  untouched := h.untouched

theorem renderPost_of_inv_sinc (E : DspEnv F) (rvoice : fluid_rvoice_t F) (buf0 : Nat → ℚ)
    (s : DspState F)
    (h : RenderInv E rvoice.dsp (fluid_phase_set_float rvoice.dsp.phase_incr)
      (fluid_phase_incr rvoice.dsp.phase 0x80000000)
      (rvoice.resonant_filter, rvoice.resonant_custom_filter) buf0 s) :
    RenderPost E rvoice buf0
      (dsp_finish rvoice (fluid_phase_decr s.dsp_phase 0x80000000) s) where
  ret_le := h.count_le
  raws_len := h.raws_len
  amp := h.amp
  phase := by
    intro _
    obtain ⟨q, hq⟩ := h.phase
    simp only [dsp_finish, fluid_phase_decr, fluid_phase_incr] at hq ⊢
    push_cast at hq ⊢
    generalize (s.dsp_i : Int) * (fluid_phase_set_float rvoice.dsp.phase_incr : Int) = A
      at hq ⊢
    generalize (s.wraps : Int) * (((rvoice.dsp.loopend : Int) - (rvoice.dsp.loopstart : Int))
      * 4294967296) = B at hq ⊢
    omega
  looped := h.looped
  filters := h.filters
  outs_len := h.outs_len
  written := h.written
  untouched := h.untouched

theorem none_render_post (E : DspEnv F) (rvoice : fluid_rvoice_t F) (buf0 : Nat → ℚ)
    (looping : Bool) (fuel : Nat) (out : RenderOut F)
    (h : fluid_rvoice_dsp_interpolate_none E fuel rvoice buf0 looping = some out) :
    RenderPost E rvoice buf0 out := by
  simp only [fluid_rvoice_dsp_interpolate_none, Option.map_eq_some'] at h
  obtain ⟨r, hr, rfl⟩ := h
  exact renderPost_of_inv E rvoice buf0 r
    (none_while_guarded looping _ (renderInv_closed E rvoice.dsp _ _ _ buf0 _)
      (fun _ _ => trivial) (fun _ _ _ => trivial) fuel _ r (renderInv_init E rvoice _ _ buf0) hr)

theorem linear_render_post (E : DspEnv F) (rvoice : fluid_rvoice_t F) (buf0 : Nat → ℚ)
    (looping : Bool) (fuel : Nat) (out : RenderOut F)
    (h : fluid_rvoice_dsp_interpolate_linear E fuel rvoice buf0 looping = some out) :
    RenderPost E rvoice buf0 out := by
  simp only [fluid_rvoice_dsp_interpolate_linear, Option.map_eq_some'] at h
  obtain ⟨r, hr, rfl⟩ := h
  exact renderPost_of_inv E rvoice buf0 r
    (linear_while_guarded looping _ _ (to_uint_lt _)
      (renderInv_closed E rvoice.dsp _ _ _ buf0 _)
      (fun _ _ => trivial) (fun _ _ _ => trivial) fuel _ r (renderInv_init E rvoice _ _ buf0) hr)

theorem cubic_render_post (E : DspEnv F) (rvoice : fluid_rvoice_t F) (buf0 : Nat → ℚ)
    (looping : Bool) (fuel : Nat) (out : RenderOut F)
    (h : fluid_rvoice_dsp_interpolate_4th_order E fuel rvoice buf0 looping = some out) :
    RenderPost E rvoice buf0 out := by
  simp only [fluid_rvoice_dsp_interpolate_4th_order, Option.map_eq_some'] at h
  obtain ⟨r, hr, rfl⟩ := h
  exact renderPost_of_inv E rvoice buf0 r
    (cubic_while_guarded looping _ _ _ (to_uint_lt _)
      (renderInv_closed E rvoice.dsp _ _ _ buf0 _)
      (fun _ _ => trivial) (fun _ => trivial) (fun _ _ _ => trivial) fuel _ _ r rfl trivial
      (renderInv_init E rvoice _ _ buf0) hr)

theorem sinc_render_post (E : DspEnv F) (rvoice : fluid_rvoice_t F) (buf0 : Nat → ℚ)
    (looping : Bool) (fuel : Nat) (out : RenderOut F)
    (h : fluid_rvoice_dsp_interpolate_7th_order E fuel rvoice buf0 looping = some out) :
    RenderPost E rvoice buf0 out := by
  simp only [fluid_rvoice_dsp_interpolate_7th_order, Option.map_eq_some'] at h
  obtain ⟨r, hr, rfl⟩ := h
  exact renderPost_of_inv_sinc E rvoice buf0 r
    (sinc_while_guarded looping _ _ (to_uint_lt _)
      (renderInv_closed E rvoice.dsp _ _ _ buf0 _)
      (fun _ _ => trivial) (fun _ => ⟨trivial, trivial, trivial⟩) (fun _ _ _ => trivial) fuel _ _ r rfl
      (sinc_vars_init_start_lt E rvoice.dsp looping) ⟨trivial, trivial, trivial⟩
      (renderInv_init E rvoice _ _ buf0) hr)

/-! ## The render functions when the voice does not loop -/

theorem none_render_nonlooping (E : DspEnv F) (rvoice : fluid_rvoice_t F)
    (buf0 : Nat → ℚ) :
    Returns (fun fuel => fluid_rvoice_dsp_interpolate_none E fuel rvoice buf0 false) := by
  refine ⟨1, ?_⟩
  simp only [fluid_rvoice_dsp_interpolate_none, none_while]
  split
  · exact ⟨_, rfl⟩
  · rename_i u t heq
    have := none_iter_nonlooping E rvoice.dsp (fluid_phase_set_float rvoice.dsp.phase_incr)
      (to_uint (if false = true then (rvoice.dsp.loopend : Int) - 1 else rvoice.dsp.end_))
      (dsp_init rvoice buf0 rvoice.dsp.phase)
    rw [heq] at this
    cases this

theorem none_render_returns (E : DspEnv F) (rvoice : fluid_rvoice_t F) (buf0 : Nat → ℚ)
    (looping : Bool) (h : LoopOk rvoice.dsp looping) :
    Returns (fun fuel => fluid_rvoice_dsp_interpolate_none E fuel rvoice buf0 looping) := by
  cases looping with
  | false => exact none_render_nonlooping E rvoice buf0
  | true =>
    rcases h with h | h
    · cases h
    · exact (none_render_looping E rvoice buf0 h.1 (Nat.le_of_lt h.2)).1

theorem linear_render_nonlooping (E : DspEnv F) (rvoice : fluid_rvoice_t F)
    (buf0 : Nat → ℚ) :
    Returns (fun fuel => fluid_rvoice_dsp_interpolate_linear E fuel rvoice buf0 false) := by
  refine ⟨1, ?_⟩
  simp only [fluid_rvoice_dsp_interpolate_linear, linear_while]
  split
  · exact ⟨_, rfl⟩
  · rename_i u t heq
    have := linear_iter_nonlooping E rvoice.dsp (fluid_phase_set_float rvoice.dsp.phase_incr)
      (if false = true then dsp_data_at E rvoice.dsp (to_uint rvoice.dsp.loopstart)
        else dsp_data_at E rvoice.dsp (to_uint rvoice.dsp.end_))
      (to_uint ((if false = true then (rvoice.dsp.loopend : Int) - 1 else rvoice.dsp.end_) - 1))
      (dsp_init rvoice buf0 rvoice.dsp.phase)
    rw [heq] at this
    cases this

theorem linear_render_returns (E : DspEnv F) (rvoice : fluid_rvoice_t F) (buf0 : Nat → ℚ)
    (looping : Bool) (h : LoopOk rvoice.dsp looping) :
    Returns (fun fuel => fluid_rvoice_dsp_interpolate_linear E fuel rvoice buf0 looping) := by
  cases looping with
  | false => exact linear_render_nonlooping E rvoice buf0
  | true =>
    rcases h with h | h
    · cases h
    · exact (linear_render_looping E rvoice buf0 h.1 (Nat.le_of_lt h.2)).1

theorem cubic_render_nonlooping (E : DspEnv F) (rvoice : fluid_rvoice_t F)
    (buf0 : Nat → ℚ) :
    Returns (fun fuel => fluid_rvoice_dsp_interpolate_4th_order E fuel rvoice buf0 false) := by
  refine ⟨1, ?_⟩
  simp only [fluid_rvoice_dsp_interpolate_4th_order, cubic_while]
  split
  · exact ⟨_, rfl⟩
  · rename_i u t heq
    have := cubic_iter_nonlooping E rvoice.dsp (fluid_phase_set_float rvoice.dsp.phase_incr)
      (cubic_end_point1 E rvoice.dsp false) (cubic_end_point2 E rvoice.dsp false)
      (cubic_vars_init E rvoice.dsp false) (dsp_init rvoice buf0 rvoice.dsp.phase)
    rw [heq] at this
    cases this

theorem cubic_render_returns (E : DspEnv F) (rvoice : fluid_rvoice_t F) (buf0 : Nat → ℚ)
    (looping : Bool) (h : LoopOk rvoice.dsp looping) :
    Returns (fun fuel => fluid_rvoice_dsp_interpolate_4th_order E fuel rvoice buf0 looping) := by
  cases looping with
  | false => exact cubic_render_nonlooping E rvoice buf0
  | true =>
    rcases h with h | h
    · cases h
    · exact (cubic_render_looping E rvoice buf0 h.1 (Nat.le_of_lt h.2)).1

theorem sinc_render_nonlooping (E : DspEnv F) (rvoice : fluid_rvoice_t F)
    (buf0 : Nat → ℚ) :
    Returns (fun fuel => fluid_rvoice_dsp_interpolate_7th_order E fuel rvoice buf0 false) := by
  refine ⟨1, ?_⟩
  simp only [fluid_rvoice_dsp_interpolate_7th_order, sinc_while]
  split
  · exact ⟨_, rfl⟩
  · rename_i u t heq
    have := sinc_iter_nonlooping E rvoice.dsp (fluid_phase_set_float rvoice.dsp.phase_incr)
      (sinc_end_points E rvoice.dsp false) (sinc_vars_init E rvoice.dsp false)
      (dsp_init rvoice buf0 (fluid_phase_incr rvoice.dsp.phase 0x80000000))
    rw [heq] at this
    cases this

theorem sinc_render_returns (E : DspEnv F) (rvoice : fluid_rvoice_t F) (buf0 : Nat → ℚ)
    (looping : Bool) (h : LoopOk rvoice.dsp looping) :
    Returns (fun fuel => fluid_rvoice_dsp_interpolate_7th_order E fuel rvoice buf0 looping) := by
  cases looping with
  | false => exact sinc_render_nonlooping E rvoice buf0
  | true =>
    rcases h with h | h
    · cases h
    · exact (sinc_render_looping E rvoice buf0 h.1 (Nat.le_of_lt h.2)).1

/-- What every render call of the four kernels establishes: the call returns when the
loop of the voice is usable, and every result satisfies the postcondition. -/
theorem four_kernels_post (E : DspEnv F) :
    four_kernels E (fun render => ∀ (rvoice : fluid_rvoice_t F) (buf0 : Nat → ℚ)
      (looping : Bool),
      (LoopOk rvoice.dsp looping → Returns (fun fuel => render fuel rvoice buf0 looping)) ∧
      ∀ fuel out, render fuel rvoice buf0 looping = some out →
        RenderPost E rvoice buf0 out) :=
  ⟨fun rvoice buf0 looping => ⟨none_render_returns E rvoice buf0 looping,
      fun fuel out h => none_render_post E rvoice buf0 looping fuel out h⟩,
    fun rvoice buf0 looping => ⟨linear_render_returns E rvoice buf0 looping,
      fun fuel out h => linear_render_post E rvoice buf0 looping fuel out h⟩,
    fun rvoice buf0 looping => ⟨cubic_render_returns E rvoice buf0 looping,
      fun fuel out h => cubic_render_post E rvoice buf0 looping fuel out h⟩,
    fun rvoice buf0 looping => ⟨sinc_render_returns E rvoice buf0 looping,
      fun fuel out h => sinc_render_post E rvoice buf0 looping fuel out h⟩⟩

theorem four_kernels_mono (E : DspEnv F)
    {Q R : (Nat → fluid_rvoice_t F → (Nat → ℚ) → Bool → Option (RenderOut F)) → Prop}
    (h : ∀ render, Q render → R render) (hq : four_kernels E Q) : four_kernels E R :=
  ⟨h _ hq.1, h _ hq.2.1, h _ hq.2.2.1, h _ hq.2.2.2⟩

/-! ## The nearest-neighbour kernel when the voice does not loop -/

theorem none_render_nonlooping_eq (E : DspEnv F) (rvoice : fluid_rvoice_t F)
    (buf0 : Nat → ℚ) (fuel : Nat) :
    fluid_rvoice_dsp_interpolate_none E (fuel + 1) rvoice buf0 false
      = some (dsp_finish rvoice (none_final E rvoice buf0).dsp_phase
          (none_final E rvoice buf0)) := by
  simp [fluid_rvoice_dsp_interpolate_none, none_while, none_iter, none_final, dsp_init]

theorem fluid_phase_index_round_congr (a b : Nat) (h : a % 2 ^ 64 = b % 2 ^ 64) :
    fluid_phase_index_round a = fluid_phase_index_round b := by
  unfold fluid_phase_index_round
  omega

theorem none_final_inv (E : DspEnv F) (rvoice : fluid_rvoice_t F) (buf0 : Nat → ℚ) :
    NearestInv E rvoice.dsp rvoice.dsp.phase (fluid_phase_set_float rvoice.dsp.phase_incr)
      (to_uint (rvoice.dsp.end_ : Int)) (none_final E rvoice buf0) := by
  unfold none_final
  apply dsp_loop_induction
  · intro t ht hlt hc
    simp only [decide_eq_true_eq] at hc
    have hph : (fluid_phase_incr t.dsp_phase (fluid_phase_set_float rvoice.dsp.phase_incr))
        % 2 ^ 64 = (rvoice.dsp.phase
          + (t.dsp_i + 1) * fluid_phase_set_float rvoice.dsp.phase_incr) % 2 ^ 64 := by
      have h1 := ht.phase
      unfold fluid_phase_incr
      rw [Nat.add_mul, Nat.one_mul]
      generalize t.dsp_i * fluid_phase_set_float rvoice.dsp.phase_incr = A at h1 ⊢
      omega
    refine ⟨hph, ?_, ?_, ?_⟩
    · simp only [dsp_write]
      exact fluid_phase_index_round_congr _ _ (by
        have : fluid_phase_incr t.dsp_phase (fluid_phase_set_float rvoice.dsp.phase_incr)
            < 2 ^ 64 := by
          unfold fluid_phase_incr
          omega
        omega)
    · intro k hk
      simp only [dsp_write] at hk
      by_cases hkk : k = t.dsp_i
      · subst hkk
        rw [← ht.index]
        exact hc
      · exact ht.before k (by omega)
    · simp only [dsp_write, none_raw, List.range_succ, List.map_append, List.map_cons,
        List.map_nil]
      rw [ht.raws, ht.index]
  · exact
      { phase := by simp [dsp_init]
        index := by simp [dsp_init]
        before := fun k hk => by simp [dsp_init] at hk
        raws := by simp [dsp_init] }

theorem none_final_exit (E : DspEnv F) (rvoice : fluid_rvoice_t F) (buf0 : Nat → ℚ) :
    (none_final E rvoice buf0).dsp_i ≤ E.FLUID_BUFSIZE ∧
      ((none_final E rvoice buf0).dsp_i < E.FLUID_BUFSIZE →
        to_uint (rvoice.dsp.end_ : Int) < fluid_phase_index_round (rvoice.dsp.phase
          + (none_final E rvoice buf0).dsp_i * fluid_phase_set_float rvoice.dsp.phase_incr)) := by
  have hinv := none_final_inv E rvoice buf0
  have hp : LoopPost E fluid_phase_index_round
      (fun i => decide (i ≤ to_uint (rvoice.dsp.end_ : Int)))
      { dsp_init rvoice buf0 rvoice.dsp.phase with
        dsp_phase_index := fluid_phase_index_round rvoice.dsp.phase }
      (none_final E rvoice buf0) :=
    dsp_loop_post E fluid_phase_index_round
      (fluid_phase_set_float rvoice.dsp.phase_incr)
      rvoice.dsp.amp_incr rvoice.dsp.output_rate
      (fun i => decide (i ≤ to_uint (rvoice.dsp.end_ : Int))) (none_raw E rvoice.dsp) _
  refine ⟨hp.bound (Nat.zero_le _), fun hlt => ?_⟩
  have hx := hp.exit
  simp only [decide_eq_false_iff_not, not_le] at hx
  rw [← hinv.index]
  exact hx.resolve_left (Nat.not_le.mpr hlt)

theorem to_uint_of_lt (n : Nat) (h : n < 2 ^ 32) : to_uint (n : Int) = n := by
  unfold to_uint
  omega

theorem cascade_foldl_id (E : DspEnv F) (rate : ℚ)
    (hid : ∀ (f : F) (x r : ℚ), E.fluid_iir_filter_apply f x r = (f, x)) (raws : List ℚ) :
    ∀ (f : F × F) (acc : List ℚ),
      raws.foldl (cascade_step E rate) (f, acc) = (f, acc ++ raws) := by
  induction raws with
  | nil => intro f acc; simp
  | cons x xs ih =>
    intro f acc
    simp only [List.foldl_cons, cascade_step, hid]
    rw [ih]
    simp

theorem cascade_run_id (E : DspEnv F) (rate : ℚ)
    (hid : ∀ (f : F) (x r : ℚ), E.fluid_iir_filter_apply f x r = (f, x)) (f : F × F)
    (raws : List ℚ) : cascade_run E rate f raws = (f, raws) := by
  unfold cascade_run
  rw [cascade_foldl_id E rate hid raws f []]
  simp

theorem fluid_phase_set_float_one : fluid_phase_set_float 1 = 2 ^ 32 := by
  norm_num [fluid_phase_set_float]

theorem fluid_phase_index_round_whole (i k : Nat) :
    fluid_phase_index_round (i * 2 ^ 32 + k * 2 ^ 32) = (i + k) % 2 ^ 32 := by
  unfold fluid_phase_index_round
  omega

/-! ## The range of the phase index -/

theorem fluid_phase_index_step (p incr m : Nat) (hi : incr ≤ 2 ^ 32) (hm : m + 1 < 2 ^ 32)
    (h : fluid_phase_index p ≤ m) :
    fluid_phase_index p ≤ fluid_phase_index (fluid_phase_incr p incr) ∧
      fluid_phase_index (fluid_phase_incr p incr) ≤ fluid_phase_index p + 1 := by
  unfold fluid_phase_index fluid_phase_incr at *
  omega

theorem fluid_phase_index_round_step (p incr m : Nat) (hi : incr ≤ 2 ^ 32)
    (hm : m + 1 < 2 ^ 32) (h : fluid_phase_index_round p ≤ m) :
    fluid_phase_index_round p ≤ fluid_phase_index_round (fluid_phase_incr p incr) ∧
      fluid_phase_index_round (fluid_phase_incr p incr) ≤ fluid_phase_index_round p + 1 := by
  unfold fluid_phase_index_round fluid_phase_incr at *
  omega

theorem fluid_phase_index_shift (p : Nat) :
    fluid_phase_index (fluid_phase_incr p 0x80000000) = fluid_phase_index_round p := by
  unfold fluid_phase_index fluid_phase_index_round fluid_phase_incr
  omega

theorem fluid_phase_index_round_unshift (p : Nat) :
    fluid_phase_index_round (fluid_phase_decr p 0x80000000) = fluid_phase_index p := by
  unfold fluid_phase_index fluid_phase_index_round fluid_phase_decr
  omega

theorem inRange_closed (E : DspEnv F) (v : fluid_rvoice_dsp_t) (incr : Nat) (idxf : Nat → Nat)
    (hstep : ∀ p m, m + 1 < 2 ^ 32 → idxf p ≤ m →
      idxf p ≤ idxf (fluid_phase_incr p incr) ∧ idxf (fluid_phase_incr p incr) ≤ idxf p + 1)
    (hsub : ∀ p a b : Nat, a < b → b - a ≤ idxf p →
      idxf (fluid_phase_sub_int p ((b : Int) - (a : Int))) = idxf p - (b - a))
    (hend : v.end_ + 1 < 2 ^ 32) :
    GuardedClosed E v incr idxf (fun i => i ≤ v.end_) (WrapOk v) (InRange idxf v) where
  write := by
    intro x s _ hi hg hs
    rw [hi] at hg
    have := hstep s.dsp_phase v.end_ hend hg
    simp only [InRange, dsp_write] at hs ⊢
    omega
  wrap := by
    intro s hi hw hs
    rw [hi] at hw
    obtain ⟨h1, h2, h3⟩ := hw
    have := hsub s.dsp_phase v.loopstart v.loopend h2 (by omega)
    simp only [InRange, dsp_wrap] at hs ⊢
    omega
  reindex := fun _ _ hs => hs

theorem rangeOk_loopOk (v : fluid_rvoice_dsp_t) (looping : Bool) (taps : Nat)
    (h : RangeOk v looping taps) : LoopOk v looping := by
  cases looping with
  | false => exact Or.inl rfl
  | true =>
    obtain ⟨h1, _, _, h4⟩ := h
    obtain ⟨_, h5, h6⟩ := h4 (Or.inl rfl)
    exact Or.inr ⟨by omega, by omega⟩

theorem none_keeps_range (E : DspEnv F) :
    KeepsRange fluid_phase_index_round 0 (fluid_rvoice_dsp_interpolate_none E) := by
  intro rvoice buf0 looping hok hlo hhi
  refine ⟨none_render_returns E rvoice buf0 looping (rangeOk_loopOk _ _ _ hok), ?_⟩
  intro fuel out h
  obtain ⟨h1, h2, h3, h4⟩ := hok
  simp only [fluid_rvoice_dsp_interpolate_none, Option.map_eq_some'] at h
  obtain ⟨r, hr, rfl⟩ := h
  exact none_while_guarded looping _
    (inRange_closed E rvoice.dsp _ fluid_phase_index_round
      (fun p m hm hp => fluid_phase_index_round_step p _ m h3 hm hp)
      fluid_phase_index_round_sub_int (by omega))
    (fun i hi => by
      cases looping with
      | false => simp only [to_uint] at hi; simp only [Bool.false_eq_true, if_false] at hi; omega
      | true =>
        have := h4 (Or.inl rfl)
        simp only [to_uint, if_true] at hi
        omega)
    (fun hl i hi => by
      subst hl
      have := h4 (Or.inl rfl)
      simp only [to_uint, if_true] at hi
      exact ⟨this.1, by omega, by omega⟩)
    fuel _ r (show InRange fluid_phase_index_round rvoice.dsp
      (dsp_init rvoice buf0 rvoice.dsp.phase) from ⟨hlo, hhi⟩) hr

theorem linear_keeps_range (E : DspEnv F) :
    KeepsRange fluid_phase_index 1 (fluid_rvoice_dsp_interpolate_linear E) := by
  intro rvoice buf0 looping hok hlo hhi
  refine ⟨linear_render_returns E rvoice buf0 looping (rangeOk_loopOk _ _ _ hok), ?_⟩
  intro fuel out h
  obtain ⟨h1, h2, h3, h4⟩ := hok
  simp only [fluid_rvoice_dsp_interpolate_linear, Option.map_eq_some'] at h
  obtain ⟨r, hr, rfl⟩ := h
  exact linear_while_guarded looping _
    (to_uint ((if looping = true then (rvoice.dsp.loopend : Int) - 1
      else (rvoice.dsp.end_ : Int)) - 1)) (to_uint_lt _)
    (inRange_closed E rvoice.dsp _ fluid_phase_index
      (fun p m hm hp => fluid_phase_index_step p _ m h3 hm hp)
      fluid_phase_index_sub_int (by omega))
    (fun i hi => by
      cases looping with
      | false =>
        simp only [to_uint, uint_add, Bool.false_eq_true, if_false] at hi
        omega
      | true =>
        have := h4 (Or.inl rfl)
        simp only [to_uint, uint_add, if_true] at hi
        omega)
    (fun hl i hi => by
      subst hl
      have := h4 (Or.inl rfl)
      simp only [to_uint, uint_add, if_true] at hi
      exact ⟨this.1, by omega, by omega⟩)
    fuel _ r (show InRange fluid_phase_index rvoice.dsp
      (dsp_init rvoice buf0 rvoice.dsp.phase) from ⟨hlo, hhi⟩) hr

theorem cubic_keeps_range (E : DspEnv F) :
    KeepsRange fluid_phase_index 2 (fluid_rvoice_dsp_interpolate_4th_order E) := by
  intro rvoice buf0 looping hok hlo hhi
  refine ⟨cubic_render_returns E rvoice buf0 looping (rangeOk_loopOk _ _ _ hok), ?_⟩
  intro fuel out h
  obtain ⟨h1, h2, h3, h4⟩ := hok
  simp only [fluid_rvoice_dsp_interpolate_4th_order, Option.map_eq_some'] at h
  obtain ⟨r, hr, rfl⟩ := h
  exact cubic_while_guarded looping _ _
    (to_uint ((if looping = true then (rvoice.dsp.loopend : Int) - 1
      else (rvoice.dsp.end_ : Int)) - 2)) (to_uint_lt _)
    (inRange_closed E rvoice.dsp _ fluid_phase_index
      (fun p m hm hp => fluid_phase_index_step p _ m h3 hm hp)
      fluid_phase_index_sub_int (by omega))
    (fun i hi => by
      cases looping with
      | false =>
        simp only [to_uint, uint_add, Bool.false_eq_true, if_false] at hi
        omega
      | true =>
        have := h4 (Or.inl rfl)
        simp only [to_uint, uint_add, if_true] at hi
        omega)
    (fun hl => by
      have := h4 (Or.inl hl)
      show to_uint (rvoice.dsp.loopstart : Int) ≤ rvoice.dsp.end_
      simp only [to_uint]
      omega)
    (fun hl i hi => by
      subst hl
      have := h4 (Or.inl rfl)
      simp only [to_uint, uint_add, if_true] at hi
      exact ⟨this.1, by omega, by omega⟩)
    fuel (cubic_vars_init E rvoice.dsp looping) _ r rfl
    (by
      show (cubic_vars_init E rvoice.dsp looping).start_index ≤ rvoice.dsp.end_
      simp only [cubic_vars_init]
      split
      · rename_i hl
        have := h4 (Or.inr hl)
        simp only [to_uint]
        omega
      · simp only [to_uint]
        omega)
    (show InRange fluid_phase_index rvoice.dsp
      (dsp_init rvoice buf0 rvoice.dsp.phase) from ⟨hlo, hhi⟩) hr

theorem sinc_keeps_range (E : DspEnv F) :
    KeepsRange fluid_phase_index_round 3 (fluid_rvoice_dsp_interpolate_7th_order E) := by
  intro rvoice buf0 looping hok hlo hhi
  refine ⟨sinc_render_returns E rvoice buf0 looping (rangeOk_loopOk _ _ _ hok), ?_⟩
  intro fuel out h
  obtain ⟨h1, h2, h3, h4⟩ := hok
  simp only [fluid_rvoice_dsp_interpolate_7th_order, Option.map_eq_some'] at h
  obtain ⟨r, hr, rfl⟩ := h
  have key := sinc_while_guarded looping _
    (to_uint ((if looping = true then (rvoice.dsp.loopend : Int) - 1
      else (rvoice.dsp.end_ : Int)) - 3)) (to_uint_lt _)
    (inRange_closed E rvoice.dsp _ fluid_phase_index
      (fun p m hm hp => fluid_phase_index_step p _ m h3 hm hp)
      fluid_phase_index_sub_int (by omega))
    (fun i hi => by
      cases looping with
      | false =>
        simp only [to_uint, uint_add, Bool.false_eq_true, if_false] at hi
        omega
      | true =>
        have := h4 (Or.inl rfl)
        simp only [to_uint, uint_add, if_true] at hi
        omega)
    (fun hl => by
      have := h4 (Or.inl hl)
      show SincStart (fun i => i ≤ rvoice.dsp.end_) (to_uint (rvoice.dsp.loopstart : Int))
      simp only [SincStart, to_uint, uint_add]
      omega)
    (fun hl i hi => by
      subst hl
      have := h4 (Or.inl rfl)
      simp only [to_uint, uint_add, if_true] at hi
      exact ⟨this.1, by omega, by omega⟩)
    fuel (sinc_vars_init E rvoice.dsp looping) _ r rfl
    (sinc_vars_init_start_lt E rvoice.dsp looping)
    (by
      show SincStart (fun i => i ≤ rvoice.dsp.end_)
        (sinc_vars_init E rvoice.dsp looping).start_index
      simp only [sinc_vars_init]
      split
      · rename_i hl
        have := h4 (Or.inr hl)
        simp only [SincStart, to_uint, uint_add]
        omega
      · simp only [SincStart, to_uint, uint_add]
        omega)
    (show InRange fluid_phase_index rvoice.dsp
      (dsp_init rvoice buf0 (fluid_phase_incr rvoice.dsp.phase 0x80000000)) from by
        simp only [InRange, dsp_init, fluid_phase_index_shift]
        exact ⟨hlo, hhi⟩) hr
  simp only [InRange] at key
  simp only [dsp_finish, fluid_phase_index_round_unshift]
  exact key

/-! ## When a wrap is made -/

theorem wrapped_phase_parts (entry a out : Nat) (c : Int)
    (h : (out : Int) = ((entry : Int) + (a : Int) - c * 2 ^ 32) % 2 ^ 64) :
    fluid_phase_fract out = fluid_phase_fract (entry + a) ∧
      (fluid_phase_index out : Int)
        = ((fluid_phase_index (entry + a) : Int) - c) % 2 ^ 32 := by
  unfold fluid_phase_fract fluid_phase_index
  omega

theorem fluid_phase_index_congr (a b : Nat) (h : a % 2 ^ 64 = b % 2 ^ 64) :
    fluid_phase_index a = fluid_phase_index b := by
  unfold fluid_phase_index
  omega

theorem noWrap_closed (E : DspEnv F) (v : fluid_rvoice_dsp_t) (incr : Nat) (idxf : Nat → Nat)
    (hcongr : ∀ a b, a % 2 ^ 64 = b % 2 ^ 64 → idxf a = idxf b) (ph0 m : Nat) :
    GuardedClosed E v incr idxf (fun i => i ≤ m) (fun _ => True)
      (NoWrapInv idxf ph0 incr m) where
  write := by
    intro x s _ hi hg hs hw
    obtain ⟨h1, h2⟩ := hs hw
    refine ⟨?_, ?_⟩
    · simp only [dsp_write, fluid_phase_incr]
      rw [Nat.add_mul, Nat.one_mul]
      generalize s.dsp_i * incr = A at h1 ⊢
      omega
    · intro k hk
      simp only [dsp_write] at hk
      by_cases hkk : k = s.dsp_i
      · subst hkk
        rw [← hcongr _ _ h1, ← hi]
        exact hg
      · exact h2 k (by omega)
  wrap := by
    intro s _ _ _ hw
    simp only [dsp_wrap] at hw
    omega
  reindex := fun _ _ hs => hs

theorem loopHolds_loopOk (v : fluid_rvoice_dsp_t) (taps : Nat) (h : LoopHolds v taps) :
    LoopOk v true :=
  Or.inr ⟨by have := h.1; omega, h.2.1⟩

theorem none_iter_last (E : DspEnv F) (v : fluid_rvoice_dsp_t) (incr e : Nat)
    (s : DspState F) (hw : (none_iter E v true incr e s).2.wraps = 0) :
    fluid_phase_index_round (none_iter E v true incr e s).2.dsp_phase ≤ e := by
  simp only [none_iter] at hw ⊢
  have i1 : ({ s with dsp_phase_index := fluid_phase_index_round s.dsp_phase } :
      DspState F).dsp_phase_index = fluid_phase_index_round
      ({ s with dsp_phase_index := fluid_phase_index_round s.dsp_phase } : DspState F).dsp_phase :=
    rfl
  generalize ({ s with dsp_phase_index := fluid_phase_index_round s.dsp_phase } : DspState F) = s1
    at i1 hw ⊢
  have p2 := dsp_loop_post E fluid_phase_index_round incr v.amp_incr v.output_rate
    (fun i => decide (i ≤ e)) (none_raw E v) s1
  generalize dsp_loop E fluid_phase_index_round incr v.amp_incr v.output_rate
    (fun i => decide (i ≤ e)) (none_raw E v) s1 = s2 at p2 hw ⊢
  have i2 := p2.index i1
  rw [if_neg (by simp)] at hw ⊢
  by_cases c : s2.dsp_phase_index > e
  · rw [if_pos c] at hw
    have : (dsp_wrap v s2).wraps = 0 := by
      split at hw <;> exact hw
    simp only [dsp_wrap] at this
    omega
  · rw [if_neg c]
    have : (if s2.dsp_i ≥ E.FLUID_BUFSIZE then ((none : Option Unit), s2)
        else (some (), s2)).2 = s2 := by
      split <;> rfl
    rw [this, ← i2]
    omega

theorem none_while_last (E : DspEnv F) (v : fluid_rvoice_dsp_t) (incr e : Nat) :
    ∀ (fuel : Nat) (s r : DspState F), none_while E v true incr e fuel s = some r →
      r.wraps = 0 → fluid_phase_index_round r.dsp_phase ≤ e := by
  intro fuel
  induction fuel with
  | zero => intro s r hr; simp [none_while] at hr
  | succ fuel ih =>
    intro s r hr
    have h1 := none_iter_last E v incr e s
    simp only [none_while] at hr
    split at hr
    · rename_i t heq
      rw [heq] at h1
      cases hr
      exact h1
    · exact ih _ r hr

theorem wrapsWhenPast_of (E : DspEnv F) (rvoice : fluid_rvoice_t F) (buf0 : Nat → ℚ)
    (out : RenderOut F) (idxf : Nat → Nat) (last : Bool) (hph : rvoice.dsp.phase < 2 ^ 64)
    (hp : RenderPost E rvoice buf0 out)
    (hnw : out.wraps = 0 → ∀ k, (k < out.ret ∨ (last = true ∧ k = out.ret)) →
      idxf (rvoice.dsp.phase + k * fluid_phase_set_float rvoice.dsp.phase_incr)
        ≤ rvoice.dsp.loopend - 1) :
    fluid_phase_fract out.rvoice.dsp.phase
        = fluid_phase_fract
          (rvoice.dsp.phase + out.ret * fluid_phase_set_float rvoice.dsp.phase_incr) ∧
      (fluid_phase_index out.rvoice.dsp.phase : Int)
        = ((fluid_phase_index
              (rvoice.dsp.phase + out.ret * fluid_phase_set_float rvoice.dsp.phase_incr) : Int)
            - (out.wraps : Int) * ((rvoice.dsp.loopend : Int) - (rvoice.dsp.loopstart : Int)))
          % 2 ^ 32 ∧
      (0 < out.wraps → out.rvoice.dsp.has_looped = true) ∧
      (out.wraps = 0 → out.rvoice.dsp.has_looped = rvoice.dsp.has_looped) ∧
      ∀ k, (k < out.ret ∨ (last = true ∧ k = out.ret)) →
        rvoice.dsp.loopend - 1
          < idxf (rvoice.dsp.phase + k * fluid_phase_set_float rvoice.dsp.phase_incr) →
        0 < out.wraps := by
  have h1 : (out.rvoice.dsp.phase : Int)
      = ((rvoice.dsp.phase : Int)
          + ((out.ret * fluid_phase_set_float rvoice.dsp.phase_incr : Nat) : Int)
          - ((out.wraps : Int) * ((rvoice.dsp.loopend : Int) - (rvoice.dsp.loopstart : Int)))
            * 2 ^ 32) % 2 ^ 64 := by
    rw [hp.phase hph]
    congr 1
    push_cast
    ring
  have h2 := wrapped_phase_parts _ _ _ _ h1
  refine ⟨h2.1, h2.2, fun hw => ?_, fun hw => ?_, fun k hk hlt => ?_⟩
  · rw [hp.looped]
    simp [hw]
  · rw [hp.looped]
    simp [hw]
  · by_contra hc
    have := hnw (by omega) k hk
    omega

theorem none_wraps_when_past (E : DspEnv F) :
    WrapsWhenPast fluid_phase_index_round 0 true (fluid_rvoice_dsp_interpolate_none E) := by
  intro rvoice buf0 hph hok
  refine ⟨none_render_returns E rvoice buf0 true (loopHolds_loopOk _ _ hok), ?_⟩
  intro fuel out h
  have hp := none_render_post E rvoice buf0 true fuel out h
  refine wrapsWhenPast_of E rvoice buf0 out _ true hph hp ?_
  obtain ⟨h1, h2, _⟩ := hok
  simp only [fluid_rvoice_dsp_interpolate_none, Option.map_eq_some', if_true] at h
  obtain ⟨r, hr, rfl⟩ := h
  have he : to_uint ((rvoice.dsp.loopend : Int) - 1) = rvoice.dsp.loopend - 1 := by
    simp only [to_uint]
    omega
  rw [he] at hr
  have hinv := none_while_guarded true (rvoice.dsp.loopend - 1)
    (noWrap_closed E rvoice.dsp _ fluid_phase_index_round fluid_phase_index_round_congr
      rvoice.dsp.phase (rvoice.dsp.loopend - 1))
    (fun i hi => hi) (fun _ _ _ => trivial) fuel _ r
    (show NoWrapInv fluid_phase_index_round rvoice.dsp.phase _ (rvoice.dsp.loopend - 1)
      (dsp_init rvoice buf0 rvoice.dsp.phase) from fun _ =>
        ⟨by simp [dsp_init], fun k hk => by simp [dsp_init] at hk⟩) hr
  have hlast := none_while_last E rvoice.dsp _ _ fuel _ r hr
  intro hw k hk
  simp only [dsp_finish] at hw hk
  obtain ⟨hi1, hi2⟩ := hinv hw
  rcases hk with hk | hk
  · exact hi2 k hk
  · rw [hk.2, ← fluid_phase_index_round_congr _ _ hi1]
    exact hlast hw

theorem linear_wraps_when_past (E : DspEnv F) :
    WrapsWhenPast fluid_phase_index 1 false (fluid_rvoice_dsp_interpolate_linear E) := by
  intro rvoice buf0 hph hok
  refine ⟨linear_render_returns E rvoice buf0 true (loopHolds_loopOk _ _ hok), ?_⟩
  intro fuel out h
  have hp := linear_render_post E rvoice buf0 true fuel out h
  refine wrapsWhenPast_of E rvoice buf0 out _ false hph hp ?_
  obtain ⟨h1, h2, _⟩ := hok
  simp only [fluid_rvoice_dsp_interpolate_linear, Option.map_eq_some'] at h
  obtain ⟨r, hr, rfl⟩ := h
  have hinv := linear_while_guarded true _
    (to_uint ((if true = true then (rvoice.dsp.loopend : Int) - 1
      else (rvoice.dsp.end_ : Int)) - 1)) (to_uint_lt _)
    (noWrap_closed E rvoice.dsp _ fluid_phase_index fluid_phase_index_congr
      rvoice.dsp.phase (rvoice.dsp.loopend - 1))
    (fun i hi => by
      simp only [to_uint, uint_add, if_true] at hi
      show i ≤ rvoice.dsp.loopend - 1
      omega)
    (fun _ _ _ => trivial) fuel _ r
    (show NoWrapInv fluid_phase_index rvoice.dsp.phase _ (rvoice.dsp.loopend - 1)
      (dsp_init rvoice buf0 rvoice.dsp.phase) from fun _ =>
        ⟨by simp [dsp_init], fun k hk => by simp [dsp_init] at hk⟩) hr
  intro hw k hk
  simp only [dsp_finish] at hw hk
  rcases hk with hk | hk
  · exact (hinv hw).2 k hk
  · exact absurd hk.1 (by simp)

theorem cubic_wraps_when_past (E : DspEnv F) :
    WrapsWhenPast fluid_phase_index 2 false (fluid_rvoice_dsp_interpolate_4th_order E) := by
  intro rvoice buf0 hph hok
  refine ⟨cubic_render_returns E rvoice buf0 true (loopHolds_loopOk _ _ hok), ?_⟩
  intro fuel out h
  have hp := cubic_render_post E rvoice buf0 true fuel out h
  refine wrapsWhenPast_of E rvoice buf0 out _ false hph hp ?_
  obtain ⟨h1, h2, h3⟩ := hok
  simp only [fluid_rvoice_dsp_interpolate_4th_order, Option.map_eq_some'] at h
  obtain ⟨r, hr, rfl⟩ := h
  have hinv := cubic_while_guarded true _ _
    (to_uint ((if true = true then (rvoice.dsp.loopend : Int) - 1
      else (rvoice.dsp.end_ : Int)) - 2)) (to_uint_lt _)
    (noWrap_closed E rvoice.dsp _ fluid_phase_index fluid_phase_index_congr
      rvoice.dsp.phase (rvoice.dsp.loopend - 1))
    (fun i hi => by
      simp only [to_uint, uint_add, if_true] at hi
      show i ≤ rvoice.dsp.loopend - 1
      omega)
    (fun _ => by
      show to_uint (rvoice.dsp.loopstart : Int) ≤ rvoice.dsp.loopend - 1
      simp only [to_uint]
      omega)
    (fun _ _ _ => trivial) fuel (cubic_vars_init E rvoice.dsp true) _ r rfl
    (by
      show (cubic_vars_init E rvoice.dsp true).start_index ≤ rvoice.dsp.loopend - 1
      simp only [cubic_vars_init]
      split
      · simp only [to_uint]
        omega
      · rename_i hl
        have := h3 (le_refl _) (by simpa using hl)
        simp only [to_uint]
        omega)
    (show NoWrapInv fluid_phase_index rvoice.dsp.phase _ (rvoice.dsp.loopend - 1)
      (dsp_init rvoice buf0 rvoice.dsp.phase) from fun _ =>
        ⟨by simp [dsp_init], fun k hk => by simp [dsp_init] at hk⟩) hr
  intro hw k hk
  simp only [dsp_finish] at hw hk
  rcases hk with hk | hk
  · exact (hinv hw).2 k hk
  · exact absurd hk.1 (by simp)

theorem fluid_phase_index_shift_add (p a : Nat) :
    fluid_phase_index (fluid_phase_incr p 0x80000000 + a) = fluid_phase_index_round (p + a) := by
  unfold fluid_phase_index fluid_phase_index_round fluid_phase_incr
  omega

theorem sinc_wraps_when_past (E : DspEnv F) :
    WrapsWhenPast fluid_phase_index_round 3 false (fluid_rvoice_dsp_interpolate_7th_order E) := by
  intro rvoice buf0 hph hok
  refine ⟨sinc_render_returns E rvoice buf0 true (loopHolds_loopOk _ _ hok), ?_⟩
  intro fuel out h
  have hp := sinc_render_post E rvoice buf0 true fuel out h
  refine wrapsWhenPast_of E rvoice buf0 out _ false hph hp ?_
  obtain ⟨h1, h2, h3⟩ := hok
  simp only [fluid_rvoice_dsp_interpolate_7th_order, Option.map_eq_some'] at h
  obtain ⟨r, hr, rfl⟩ := h
  have hinv := sinc_while_guarded true _
    (to_uint ((if true = true then (rvoice.dsp.loopend : Int) - 1
      else (rvoice.dsp.end_ : Int)) - 3)) (to_uint_lt _)
    (noWrap_closed E rvoice.dsp _ fluid_phase_index fluid_phase_index_congr
      (fluid_phase_incr rvoice.dsp.phase 0x80000000) (rvoice.dsp.loopend - 1))
    (fun i hi => by
      simp only [to_uint, uint_add, if_true] at hi
      show i ≤ rvoice.dsp.loopend - 1
      omega)
    (fun _ => by
      show SincStart (fun i => i ≤ rvoice.dsp.loopend - 1)
        (to_uint (rvoice.dsp.loopstart : Int))
      simp only [SincStart, to_uint, uint_add]
      omega)
    (fun _ _ _ => trivial) fuel (sinc_vars_init E rvoice.dsp true) _ r rfl
    (sinc_vars_init_start_lt E rvoice.dsp true)
    (by
      show SincStart (fun i => i ≤ rvoice.dsp.loopend - 1)
        (sinc_vars_init E rvoice.dsp true).start_index
      simp only [sinc_vars_init]
      split
      · simp only [SincStart, to_uint, uint_add]
        omega
      · rename_i hl
        have := h3 (by omega) (by simpa using hl)
        simp only [SincStart, to_uint, uint_add]
        omega)
    (show NoWrapInv fluid_phase_index (fluid_phase_incr rvoice.dsp.phase 0x80000000) _
      (rvoice.dsp.loopend - 1)
      (dsp_init rvoice buf0 (fluid_phase_incr rvoice.dsp.phase 0x80000000)) from fun _ =>
        ⟨by simp [dsp_init], fun k hk => by simp [dsp_init] at hk⟩) hr
  intro hw k hk
  simp only [dsp_finish] at hw hk
  rcases hk with hk | hk
  · have := (hinv hw).2 k hk
    rw [fluid_phase_index_shift_add] at this
    exact this
  · exact absurd hk.1 (by simp)

theorem four_kernels_finish (E : DspEnv F) :
    four_kernels E (fun render => ∀ (rvoice : fluid_rvoice_t F) (buf0 : Nat → ℚ)
      (looping : Bool) (fuel : Nat) (out : RenderOut F),
      render fuel rvoice buf0 looping = some out →
        ∃ ph s, out = dsp_finish rvoice ph s) := by
  refine ⟨?_, ?_, ?_, ?_⟩
  · intro rvoice buf0 looping fuel out h
    simp only [fluid_rvoice_dsp_interpolate_none, Option.map_eq_some'] at h
    obtain ⟨r, _, rfl⟩ := h
    exact ⟨_, _, rfl⟩
  · intro rvoice buf0 looping fuel out h
    simp only [fluid_rvoice_dsp_interpolate_linear, Option.map_eq_some'] at h
    obtain ⟨r, _, rfl⟩ := h
    exact ⟨_, _, rfl⟩
  · intro rvoice buf0 looping fuel out h
    simp only [fluid_rvoice_dsp_interpolate_4th_order, Option.map_eq_some'] at h
    obtain ⟨r, _, rfl⟩ := h
    exact ⟨_, _, rfl⟩
  · intro rvoice buf0 looping fuel out h
    simp only [fluid_rvoice_dsp_interpolate_7th_order, Option.map_eq_some'] at h
    obtain ⟨r, _, rfl⟩ := h
    exact ⟨_, _, rfl⟩

theorem four_kernels_and (E : DspEnv F)
    {Q R : (Nat → fluid_rvoice_t F → (Nat → ℚ) → Bool → Option (RenderOut F)) → Prop}
    (hq : four_kernels E Q) (hr : four_kernels E R) :
    four_kernels E (fun render => Q render ∧ R render) :=
  ⟨⟨hq.1, hr.1⟩, ⟨hq.2.1, hr.2.1⟩, ⟨hq.2.2.1, hr.2.2.1⟩, ⟨hq.2.2.2, hr.2.2.2⟩⟩

theorem wrapFree_closed (E : DspEnv F) (v : fluid_rvoice_dsp_t) (incr : Nat)
    (idxf : Nat → Nat) :
    GuardedClosed E v incr idxf (fun _ => True) (fun _ => False)
      (fun s : DspState F => s.wraps = 0) where
  write := fun _ _ _ _ _ h => h
  wrap := fun _ _ hw _ => hw.elim
  reindex := fun _ _ h => h

theorem four_kernels_nonlooping (E : DspEnv F) :
    four_kernels E (fun render => ∀ (rvoice : fluid_rvoice_t F) (buf0 : Nat → ℚ)
      (fuel : Nat) (out : RenderOut F),
      render fuel rvoice buf0 false = some out → out.wraps = 0) := by
  refine ⟨?_, ?_, ?_, ?_⟩
  · intro rvoice buf0 fuel out h
    simp only [fluid_rvoice_dsp_interpolate_none, Option.map_eq_some'] at h
    obtain ⟨r, hr, rfl⟩ := h
    exact none_while_guarded false _ (wrapFree_closed E rvoice.dsp _ _)
      (fun _ _ => trivial) (fun hl => by cases hl) fuel _ r rfl hr
  · intro rvoice buf0 fuel out h
    simp only [fluid_rvoice_dsp_interpolate_linear, Option.map_eq_some'] at h
    obtain ⟨r, hr, rfl⟩ := h
    exact linear_while_guarded false _ _ (to_uint_lt _) (wrapFree_closed E rvoice.dsp _ _)
      (fun _ _ => trivial) (fun hl => by cases hl) fuel _ r rfl hr
  · intro rvoice buf0 fuel out h
    simp only [fluid_rvoice_dsp_interpolate_4th_order, Option.map_eq_some'] at h
    obtain ⟨r, hr, rfl⟩ := h
    exact cubic_while_guarded false _ _ _ (to_uint_lt _) (wrapFree_closed E rvoice.dsp _ _)
      (fun _ _ => trivial) (fun _ => trivial) (fun hl => by cases hl) fuel _ _ r rfl trivial
      rfl hr
  · intro rvoice buf0 fuel out h
    simp only [fluid_rvoice_dsp_interpolate_7th_order, Option.map_eq_some'] at h
    obtain ⟨r, hr, rfl⟩ := h
    exact sinc_while_guarded false _ _ (to_uint_lt _) (wrapFree_closed E rvoice.dsp _ _)
      (fun _ _ => trivial) (fun _ => ⟨trivial, trivial, trivial⟩) (fun hl => by cases hl)
      fuel _ _ r rfl (sinc_vars_init_start_lt E rvoice.dsp false) ⟨trivial, trivial, trivial⟩
      rfl hr

theorem traceAt_mono (v : fluid_rvoice_dsp_t) (looping : Bool) (ph0 incr : Nat)
    (R : Bool → Nat → ℚ → Prop) (raws : List ℚ) (x : List ℚ) (w1 w2 k : Nat) (hw : w1 ≤ w2)
    (hk : k < raws.length) (h : TraceAt v looping ph0 incr R raws w1 k) :
    TraceAt v looping ph0 incr R (raws ++ x) w2 k := by
  obtain ⟨p, w, h1, h2, h3, h4, h5⟩ := h
  refine ⟨p, w, le_trans h1 hw, h2, h3, h4, ?_⟩
  rw [List.getD_append _ _ _ _ hk]
  exact h5

theorem fluid_phase_index_mono (p incr m : Nat) (hp : p < 2 ^ 64) (hi : incr ≤ 2 ^ 63)
    (hm : m < 2 ^ 31) (h : fluid_phase_index p ≤ m) :
    fluid_phase_index p ≤ fluid_phase_index (fluid_phase_incr p incr) := by
  unfold fluid_phase_index fluid_phase_incr at *
  omega

theorem passInv_write {E : DspEnv F} {v : fluid_rvoice_dsp_t} {looping : Bool}
    {incr ph0 : Nat} {f0 : F × F} {buf0 : Nat → ℚ} {R : Bool → Nat → ℚ → Prop} {hl : Bool}
    {Lo : Nat → Prop} (hph0 : ph0 < 2 ^ 64) (hincr : incr ≤ 2 ^ 63)
    (hlast : last_index v looping < 2 ^ 31) (hup : ∀ i j, i ≤ j → Lo i → Lo j) (x : ℚ)
    (t : DspState F) (ht : PassInv E v looping incr ph0 f0 buf0 R hl Lo t) (hlt : t.dsp_i < E.FLUID_BUFSIZE)
    (hhi : t.dsp_phase_index ≤ last_index v looping) (hR : R hl t.dsp_phase x) :
    PassInv E v looping incr ph0 f0 buf0 R hl Lo
      (dsp_write E fluid_phase_index incr v.amp_incr v.output_rate x t) := by
  have hinv := ht.base.inv
  have hplt := hinv.phase_lt hph0
  have hidx := ht.index
  have hmono := fluid_phase_index_mono t.dsp_phase incr _ hplt hincr hlast (hidx ▸ hhi)
  refine
    { base :=
        { inv := (renderInv_closed E v incr ph0 f0 buf0 fluid_phase_index).write x t hlt
            ht.index trivial hinv
          trace := ?_ }
      looped := ht.looped
      index := rfl
      first := fun _ => le_trans (ht.first hlt) (by rw [hidx]; exact hmono)
      lower := fun _ => hup _ _ (by rw [hidx]; exact hmono) (ht.lower hlt) }
  intro k hk
  simp only [dsp_write] at hk ⊢
  by_cases hkk : k < t.dsp_i
  · exact traceAt_mono v looping ph0 incr R t.raws [x] _ _ k (le_refl _)
      (by rw [hinv.raws_len]; exact hkk) (ht.base.trace k hkk)
  · have hke : k = t.dsp_i := by omega
    subst hke
    have hloop : (v.has_looped || decide (0 < t.wraps)) = hl := by
      rw [← hinv.looped]; exact ht.looped
    refine ⟨t.dsp_phase, t.wraps, le_refl _, ?_, ?_, ?_, ?_⟩
    · obtain ⟨q, hq⟩ := hinv.phase
      push_cast at hq ⊢
      generalize (t.dsp_i : Int) * (incr : Int) = A at hq ⊢
      generalize (t.wraps : Int) * (((v.loopend : Int) - (v.loopstart : Int)) * 4294967296) = B
        at hq ⊢
      omega
    · rw [hloop, ← hidx]; exact ht.first hlt
    · rw [← hidx]; exact hhi
    · rw [hloop, List.getD_append_right _ _ _ _ (by rw [hinv.raws_len])]
      simpa [hinv.raws_len] using hR

theorem passInv_loop {E : DspEnv F} {v : fluid_rvoice_dsp_t} {looping : Bool}
    {incr ph0 : Nat} {f0 : F × F} {buf0 : Nat → ℚ} {R : Bool → Nat → ℚ → Prop} {hl : Bool}
    {Lo : Nat → Prop} (hph0 : ph0 < 2 ^ 64) (hincr : incr ≤ 2 ^ 63)
    (hlast : last_index v looping < 2 ^ 31) (hup : ∀ i j, i ≤ j → Lo i → Lo j)
    (cond : Nat → Bool) (raw : DspState F → ℚ)
    (hR : ∀ t : DspState F, t.dsp_phase_index = fluid_phase_index t.dsp_phase →
      first_index v hl ≤ t.dsp_phase_index → Lo t.dsp_phase_index →
      cond t.dsp_phase_index = true →
      t.dsp_phase_index ≤ last_index v looping ∧ R hl t.dsp_phase (raw t))
    (s : DspState F) (hs : PassInv E v looping incr ph0 f0 buf0 R hl Lo s) :
    PassInv E v looping incr ph0 f0 buf0 R hl Lo
      (dsp_loop E fluid_phase_index incr v.amp_incr v.output_rate cond raw s) := by
  apply dsp_loop_induction
  · intro t ht hlt hc
    have h := hR t ht.index (ht.first hlt) (ht.lower hlt) hc
    exact passInv_write hph0 hincr hlast hup (raw t) t ht hlt h.1 h.2
  · exact hs

theorem passInv_bump {E : DspEnv F} {v : fluid_rvoice_dsp_t} {looping : Bool}
    {incr ph0 : Nat} {f0 : F × F} {buf0 : Nat → ℚ} {R : Bool → Nat → ℚ → Prop} {hl : Bool}
    {Lo : Nat → Prop} (Lo1 : Nat → Prop) (s : DspState F)
    (hs : PassInv E v looping incr ph0 f0 buf0 R hl Lo s)
    (h : s.dsp_i < E.FLUID_BUFSIZE → Lo s.dsp_phase_index → Lo1 s.dsp_phase_index) :
    PassInv E v looping incr ph0 f0 buf0 R hl Lo1 s :=
  { base := hs.base, looped := hs.looped, index := hs.index, first := hs.first,
    lower := fun hlt => h hlt (hs.lower hlt) }

theorem traceInv_wrap {E : DspEnv F} {v : fluid_rvoice_dsp_t} {looping : Bool}
    {incr ph0 : Nat} {f0 : F × F} {buf0 : Nat → ℚ} {R : Bool → Nat → ℚ → Prop} {hl : Bool}
    {Lo : Nat → Prop} (s : DspState F) (hs : PassInv E v looping incr ph0 f0 buf0 R hl Lo s)
    (hloop : v.loopstart < v.loopend) (hpast : v.loopend ≤ s.dsp_phase_index) :
    TraceInv E v looping incr ph0 f0 buf0 R (dsp_wrap v s) ∧
      v.loopstart ≤ fluid_phase_index (dsp_wrap v s).dsp_phase := by
  refine ⟨⟨(renderInv_closed E v incr ph0 f0 buf0 fluid_phase_index).wrap s hs.index trivial
    hs.base.inv, ?_⟩, ?_⟩
  · intro k hk
    have := traceAt_mono v looping ph0 incr R s.raws [] s.wraps (s.wraps + 1) k
      (Nat.le_succ _) (by rw [hs.base.inv.raws_len]; exact hk) (hs.base.trace k hk)
    simpa [dsp_wrap] using this
  · simp only [dsp_wrap]
    rw [fluid_phase_index_sub_int _ _ _ hloop (by rw [← hs.index]; omega), ← hs.index]
    omega

theorem passInv_start {E : DspEnv F} {v : fluid_rvoice_dsp_t} {looping : Bool}
    {incr ph0 : Nat} {f0 : F × F} {buf0 : Nat → ℚ} {R : Bool → Nat → ℚ → Prop}
    (s : DspState F) (hs : TraceInv E v looping incr ph0 f0 buf0 R s)
    (hlow : s.dsp_i < E.FLUID_BUFSIZE →
      first_index v s.has_looped ≤ fluid_phase_index s.dsp_phase) :
    PassInv E v looping incr ph0 f0 buf0 R s.has_looped (fun _ => True)
      { s with dsp_phase_index := fluid_phase_index s.dsp_phase } :=
  { base :=
      { inv := (renderInv_closed E v incr ph0 f0 buf0 fluid_phase_index).reindex s _ hs.inv
        trace := hs.trace }
    looped := rfl
    index := rfl
    first := hlow
    lower := fun _ => trivial }

theorem linear_iter_traced {E : DspEnv F} {v : fluid_rvoice_dsp_t} {looping : Bool}
    {incr ph0 : Nat} {f0 : F × F} {buf0 : Nat → ℚ} {R : Bool → Nat → ℚ → Prop}
    (hph0 : ph0 < 2 ^ 64) (hincr : incr ≤ 2 ^ 63) (hlast : last_index v looping < 2 ^ 31)
    (hloop : looping = true → v.loopstart < v.loopend)
    (point : ℚ) (e : Nat) (he : e + 1 = last_index v looping) (s : DspState F)
    (hR1 : ∀ t : DspState F, t.dsp_phase_index = fluid_phase_index t.dsp_phase →
      first_index v s.has_looped ≤ t.dsp_phase_index → t.dsp_phase_index ≤ e →
      R s.has_looped t.dsp_phase (linear_raw E v t))
    (hR2 : ∀ t : DspState F, t.dsp_phase_index = fluid_phase_index t.dsp_phase →
      first_index v s.has_looped ≤ t.dsp_phase_index → t.dsp_phase_index = e + 1 →
      R s.has_looped t.dsp_phase (linear_raw_last E v point t))
    (hs : TraceInv E v looping incr ph0 f0 buf0 R s)
    (hlow : s.dsp_i < E.FLUID_BUFSIZE →
      first_index v s.has_looped ≤ fluid_phase_index s.dsp_phase) :
    TraceInv E v looping incr ph0 f0 buf0 R (linear_iter E v looping incr point e s).2 ∧
      (looping = false → (linear_iter E v looping incr point e s).2.dsp_i < E.FLUID_BUFSIZE →
        last_index v looping
          < fluid_phase_index (linear_iter E v looping incr point e s).2.dsp_phase) ∧
      ((linear_iter E v looping incr point e s).1 ≠ none →
        (linear_iter E v looping incr point e s).2.has_looped = true ∧
        ((linear_iter E v looping incr point e s).2.dsp_i < E.FLUID_BUFSIZE →
          v.loopstart ≤ fluid_phase_index (linear_iter E v looping incr point e s).2.dsp_phase)) := by
  simp only [linear_iter]
  rw [uint_add_small e 1 (by omega)]
  have h1 := passInv_start s hs hlow
  generalize ({ s with dsp_phase_index := fluid_phase_index s.dsp_phase } : DspState F) = s1
    at h1 ⊢
  have p2 := dsp_loop_post E fluid_phase_index incr v.amp_incr v.output_rate
    (fun i => decide (i ≤ e)) (linear_raw E v) s1
  have h2 := passInv_loop hph0 hincr hlast (fun _ _ _ _ => trivial) (fun i => decide (i ≤ e))
    (linear_raw E v)
    (fun t hi hf _ hc => by
      simp only [decide_eq_true_eq] at hc
      exact ⟨by omega, hR1 t hi hf hc⟩) s1 h1
  generalize dsp_loop E fluid_phase_index incr v.amp_incr v.output_rate
    (fun i => decide (i ≤ e)) (linear_raw E v) s1 = s2 at p2 h2 ⊢
  by_cases c1 : s2.dsp_i ≥ E.FLUID_BUFSIZE
  · rw [if_pos c1]
    exact ⟨h2.base, fun _ hlt => absurd c1 (by dsimp only at hlt; omega),
      fun h => absurd rfl h⟩
  · rw [if_neg c1]
    have hx := p2.exit.resolve_left c1
    simp only [decide_eq_false_iff_not, not_le] at hx
    have h2b := passInv_bump (fun i => e + 1 ≤ i) s2 h2 (fun _ _ => hx)
    have p3 := dsp_loop_post E fluid_phase_index incr v.amp_incr v.output_rate
      (fun i => decide (i ≤ e + 1)) (linear_raw_last E v point) s2
    have h3 := passInv_loop hph0 hincr hlast (fun i j hij (hi : e + 1 ≤ i) => le_trans hi hij)
      (fun i => decide (i ≤ e + 1))
      (linear_raw_last E v point)
      (fun t hi hf hlo hc => by
        simp only [decide_eq_true_eq] at hc
        exact ⟨by omega, hR2 t hi hf (by omega)⟩) s2 h2b
    generalize dsp_loop E fluid_phase_index incr v.amp_incr v.output_rate
      (fun i => decide (i ≤ e + 1)) (linear_raw_last E v point) s2 = s3 at p3 h3 ⊢
    have hx3 := p3.exit
    simp only [decide_eq_false_iff_not, not_le] at hx3
    by_cases c2 : looping = false
    · rw [if_pos c2]
      refine ⟨h3.base, fun _ hlt => ?_, fun h => absurd rfl h⟩
      dsimp only at hlt ⊢
      rw [← h3.index]
      have := hx3.resolve_left (by omega)
      omega
    · rw [if_neg c2]
      have hlp : looping = true := by simpa using c2
      have hl1 := hloop hlp
      have he1 : e + 2 = v.loopend := by
        rw [hlp] at he
        simp only [last_index, if_true] at he
        omega
      by_cases cw : s3.dsp_phase_index > e + 1
      · rw [if_pos cw]
        have hw := traceInv_wrap s3 h3 hl1 (by omega)
        refine ⟨?_, fun hf => absurd hf c2, fun _ => ?_⟩
        · split <;> exact hw.1
        · split
          · exact ⟨rfl, fun _ => hw.2⟩
          · exact ⟨rfl, fun _ => hw.2⟩
      · rw [if_neg cw]
        have hfull : s3.dsp_i ≥ E.FLUID_BUFSIZE := by
          by_contra hc
          exact cw (hx3.resolve_left hc)
        rw [if_pos hfull]
        exact ⟨h3.base, fun hf => absurd hf c2, fun h => absurd rfl h⟩

theorem cubic_iter_traced {E : DspEnv F} {v : fluid_rvoice_dsp_t} {looping : Bool}
    {incr ph0 : Nat} {f0 : F × F} {buf0 : Nat → ℚ} {R : Bool → Nat → ℚ → Prop}
    (hph0 : ph0 < 2 ^ 64) (hincr : incr ≤ 2 ^ 63) (hlast : last_index v looping < 2 ^ 31)
    (hloop : looping = true → v.loopstart < v.loopend)
    (ep1 ep2 : ℚ) (c : CubicVars) (s : DspState F)
    (he : c.end_index + 2 = last_index v looping)
    (hcs : c.start_index = first_index v s.has_looped)
    (hspan : first_index v s.has_looped ≤ last_index v looping)
    (hA : ∀ t : DspState F, t.dsp_phase_index = fluid_phase_index t.dsp_phase →
      t.dsp_phase_index = first_index v s.has_looped →
      R s.has_looped t.dsp_phase (cubic_raw_first E v c.start_point t))
    (hB : ∀ t : DspState F, t.dsp_phase_index = fluid_phase_index t.dsp_phase →
      first_index v s.has_looped < t.dsp_phase_index → t.dsp_phase_index ≤ c.end_index →
      R s.has_looped t.dsp_phase (cubic_raw E v t))
    (hC : ∀ t : DspState F, t.dsp_phase_index = fluid_phase_index t.dsp_phase →
      first_index v s.has_looped < t.dsp_phase_index → t.dsp_phase_index = c.end_index + 1 →
      R s.has_looped t.dsp_phase (cubic_raw_last2 E v ep1 t))
    (hD : ∀ t : DspState F, t.dsp_phase_index = fluid_phase_index t.dsp_phase →
      first_index v s.has_looped < t.dsp_phase_index → t.dsp_phase_index = c.end_index + 2 →
      R s.has_looped t.dsp_phase (cubic_raw_last E v ep1 ep2 t))
    (hs : TraceInv E v looping incr ph0 f0 buf0 R s)
    (hlow : s.dsp_i < E.FLUID_BUFSIZE →
      first_index v s.has_looped ≤ fluid_phase_index s.dsp_phase) :
    TraceInv E v looping incr ph0 f0 buf0 R (cubic_iter E v looping incr ep1 ep2 c s).2 ∧
      (looping = false → (cubic_iter E v looping incr ep1 ep2 c s).2.dsp_i < E.FLUID_BUFSIZE →
        last_index v looping
          < fluid_phase_index (cubic_iter E v looping incr ep1 ep2 c s).2.dsp_phase) ∧
      (∀ c1, (cubic_iter E v looping incr ep1 ep2 c s).1 = some c1 →
        (cubic_iter E v looping incr ep1 ep2 c s).2.has_looped = true ∧
        ((cubic_iter E v looping incr ep1 ep2 c s).2.dsp_i < E.FLUID_BUFSIZE →
          v.loopstart
            ≤ fluid_phase_index (cubic_iter E v looping incr ep1 ep2 c s).2.dsp_phase) ∧
        c1.end_index = c.end_index ∧ c1.start_index = v.loopstart ∧
        c1.start_point = (if s.has_looped = true then c.start_point
          else dsp_data_at E v (to_uint ((v.loopend : Int) - 1)))) := by
  simp only [cubic_iter]
  rw [uint_add_small c.end_index 1 (by omega), uint_add_small (c.end_index + 1) 1 (by omega)]
  have h1 := passInv_start s hs hlow
  generalize ({ s with dsp_phase_index := fluid_phase_index s.dsp_phase } : DspState F) = s1
    at h1 ⊢
  have p2 := dsp_loop_post E fluid_phase_index incr v.amp_incr v.output_rate
    (fun i => decide (i = c.start_index)) (cubic_raw_first E v c.start_point) s1
  have h2 := passInv_loop hph0 hincr hlast (fun _ _ _ _ => trivial)
    (fun i => decide (i = c.start_index)) (cubic_raw_first E v c.start_point)
    (fun t hi hf _ hc => by
      simp only [decide_eq_true_eq] at hc
      exact ⟨by omega, hA t hi (by omega)⟩) s1 h1
  generalize dsp_loop E fluid_phase_index incr v.amp_incr v.output_rate
    (fun i => decide (i = c.start_index)) (cubic_raw_first E v c.start_point) s1 = s2
    at p2 h2 ⊢
  have hx2 := p2.exit
  simp only [decide_eq_false_iff_not] at hx2
  have h2b := passInv_bump (fun i => first_index v s.has_looped < i) s2 h2
    (fun hlt _ => by
      have := h2.first hlt
      have := hx2.resolve_left (by omega)
      omega)
  have hup : ∀ i j, i ≤ j → first_index v s.has_looped < i → first_index v s.has_looped < j :=
    fun i j hij hi => lt_of_lt_of_le hi hij
  have p3 := dsp_loop_post E fluid_phase_index incr v.amp_incr v.output_rate
    (fun i => decide (i ≤ c.end_index)) (cubic_raw E v) s2
  have h3 := passInv_loop hph0 hincr hlast hup
    (fun i => decide (i ≤ c.end_index)) (cubic_raw E v)
    (fun t hi _ hlo hc => by
      simp only [decide_eq_true_eq] at hc
      exact ⟨by omega, hB t hi hlo hc⟩) s2 h2b
  generalize dsp_loop E fluid_phase_index incr v.amp_incr v.output_rate
    (fun i => decide (i ≤ c.end_index)) (cubic_raw E v) s2 = s3 at p3 h3 ⊢
  by_cases c1 : s3.dsp_i ≥ E.FLUID_BUFSIZE
  · rw [if_pos c1]
    exact ⟨h3.base, fun _ hlt => absurd c1 (by dsimp only at hlt; omega),
      fun _ h => by cases h⟩
  · rw [if_neg c1]
    have hx3 := p3.exit.resolve_left c1
    simp only [decide_eq_false_iff_not, not_le] at hx3
    have h3b := passInv_bump
      (fun i => first_index v s.has_looped < i ∧ c.end_index + 1 ≤ i) s3 h3
      (fun _ h => ⟨h, hx3⟩)
    have p4 := dsp_loop_post E fluid_phase_index incr v.amp_incr v.output_rate
      (fun i => decide (i ≤ c.end_index + 1)) (cubic_raw_last2 E v ep1) s3
    have h4 := passInv_loop hph0 hincr hlast
      (fun i j hij (hi : first_index v s.has_looped < i ∧ c.end_index + 1 ≤ i) =>
        ⟨lt_of_lt_of_le hi.1 hij, le_trans hi.2 hij⟩)
      (fun i => decide (i ≤ c.end_index + 1)) (cubic_raw_last2 E v ep1)
      (fun t hi _ hlo hc => by
        simp only [decide_eq_true_eq] at hc
        exact ⟨by omega, hC t hi hlo.1 (by omega)⟩) s3 h3b
    generalize dsp_loop E fluid_phase_index incr v.amp_incr v.output_rate
      (fun i => decide (i ≤ c.end_index + 1)) (cubic_raw_last2 E v ep1) s3 = s4 at p4 h4 ⊢
    have hx4 := p4.exit
    simp only [decide_eq_false_iff_not, not_le] at hx4
    have h4b := passInv_bump
      (fun i => first_index v s.has_looped < i ∧ c.end_index + 2 ≤ i) s4 h4
      (fun hlt h => ⟨h.1, hx4.resolve_left (by omega)⟩)
    have p5 := dsp_loop_post E fluid_phase_index incr v.amp_incr v.output_rate
      (fun i => decide (i ≤ c.end_index + 1 + 1)) (cubic_raw_last E v ep1 ep2) s4
    have h5 := passInv_loop hph0 hincr hlast
      (fun i j hij (hi : first_index v s.has_looped < i ∧ c.end_index + 2 ≤ i) =>
        ⟨lt_of_lt_of_le hi.1 hij, le_trans hi.2 hij⟩)
      (fun i => decide (i ≤ c.end_index + 1 + 1)) (cubic_raw_last E v ep1 ep2)
      (fun t hi _ hlo hc => by
        simp only [decide_eq_true_eq] at hc
        exact ⟨by omega, hD t hi hlo.1 (by omega)⟩) s4 h4b
    generalize dsp_loop E fluid_phase_index incr v.amp_incr v.output_rate
      (fun i => decide (i ≤ c.end_index + 1 + 1)) (cubic_raw_last E v ep1 ep2) s4 = s5
      at p5 h5 ⊢
    have hx5 := p5.exit
    simp only [decide_eq_false_iff_not, not_le] at hx5
    by_cases c2 : looping = false
    · rw [if_pos c2]
      refine ⟨h5.base, fun _ hlt => ?_, fun _ h => by cases h⟩
      dsimp only at hlt ⊢
      rw [← h5.index]
      have := hx5.resolve_left (by omega)
      omega
    · rw [if_neg c2]
      have hlp : looping = true := by simpa using c2
      have hl1 := hloop hlp
      have he1 : c.end_index + 3 = v.loopend := by
        rw [hlp] at he
        simp only [last_index, if_true] at he
        omega
      by_cases cw : s5.dsp_phase_index > c.end_index + 1 + 1
      · have hw := traceInv_wrap s5 h5 hl1 (by omega)
        have hd : decide (s5.dsp_phase_index > c.end_index + 1 + 1) = true :=
          decide_eq_true cw
        rw [hd]
        simp only [if_true, Bool.true_and]
        refine ⟨?_, fun hf => absurd hf c2, fun c1 hc1 => ?_⟩
        · split <;> exact hw.1
        · by_cases c3 : (dsp_wrap v s5).dsp_i ≥ E.FLUID_BUFSIZE
          · rw [if_pos c3] at hc1; cases hc1
          · rw [if_neg c3] at hc1 ⊢
            simp only [Option.some.injEq] at hc1
            subst hc1
            dsimp only
            refine ⟨rfl, fun _ => hw.2, ?_, ?_, ?_⟩
            · unfold uint_sub; omega
            · rw [h5.looped]
              cases hsl : s.has_looped
              · simp only [Bool.not_false, if_true]
                unfold to_uint; omega
              · simp only [Bool.not_true, Bool.false_eq_true, if_false]
                rw [hcs, hsl]; simp [first_index]
            · rw [h5.looped]
              cases hsl : s.has_looped <;> simp
      · have hd : decide (s5.dsp_phase_index > c.end_index + 1 + 1) = false :=
          decide_eq_false cw
        rw [hd]
        simp only [Bool.false_eq_true, if_false, Bool.false_and]
        have hfull : s5.dsp_i ≥ E.FLUID_BUFSIZE := by
          by_contra hc
          exact cw (hx5.resolve_left hc)
        rw [if_pos hfull]
        exact ⟨h5.base, fun hf => absurd hf c2, fun _ h => by cases h⟩

theorem sinc_iter_traced {E : DspEnv F} {v : fluid_rvoice_dsp_t} {looping : Bool}
    {incr ph0 : Nat} {f0 : F × F} {buf0 : Nat → ℚ} {R : Bool → Nat → ℚ → Prop}
    (hph0 : ph0 < 2 ^ 64) (hincr : incr ≤ 2 ^ 63) (hlast : last_index v looping < 2 ^ 31)
    (hloop : looping = true → v.loopstart < v.loopend)
    (ep : Points) (c : SincVars) (s : DspState F)
    (he : c.end_index + 3 = last_index v looping)
    (hcs : c.start_index = first_index v s.has_looped)
    (hspan : first_index v s.has_looped + 2 ≤ last_index v looping)
    (hA : ∀ t : DspState F, t.dsp_phase_index = fluid_phase_index t.dsp_phase →
      t.dsp_phase_index = first_index v s.has_looped →
      R s.has_looped t.dsp_phase (sinc_raw_first E v c.start_points t))
    (hA2 : ∀ t : DspState F, t.dsp_phase_index = fluid_phase_index t.dsp_phase →
      t.dsp_phase_index = first_index v s.has_looped + 1 →
      R s.has_looped t.dsp_phase (sinc_raw_first2 E v c.start_points t))
    (hA3 : ∀ t : DspState F, t.dsp_phase_index = fluid_phase_index t.dsp_phase →
      t.dsp_phase_index = first_index v s.has_looped + 2 →
      R s.has_looped t.dsp_phase (sinc_raw_first3 E v c.start_points t))
    (hB : ∀ t : DspState F, t.dsp_phase_index = fluid_phase_index t.dsp_phase →
      first_index v s.has_looped + 2 < t.dsp_phase_index → t.dsp_phase_index ≤ c.end_index →
      R s.has_looped t.dsp_phase (sinc_raw E v t))
    (hC : ∀ t : DspState F, t.dsp_phase_index = fluid_phase_index t.dsp_phase →
      first_index v s.has_looped + 2 < t.dsp_phase_index →
      t.dsp_phase_index = c.end_index + 1 →
      R s.has_looped t.dsp_phase (sinc_raw_last3 E v ep t))
    (hD : ∀ t : DspState F, t.dsp_phase_index = fluid_phase_index t.dsp_phase →
      first_index v s.has_looped + 2 < t.dsp_phase_index →
      t.dsp_phase_index = c.end_index + 2 →
      R s.has_looped t.dsp_phase (sinc_raw_last2 E v ep t))
    (hE : ∀ t : DspState F, t.dsp_phase_index = fluid_phase_index t.dsp_phase →
      first_index v s.has_looped + 2 < t.dsp_phase_index →
      t.dsp_phase_index = c.end_index + 3 →
      R s.has_looped t.dsp_phase (sinc_raw_last E v ep t))
    (hs : TraceInv E v looping incr ph0 f0 buf0 R s)
    (hlow : s.dsp_i < E.FLUID_BUFSIZE →
      first_index v s.has_looped ≤ fluid_phase_index s.dsp_phase) :
    TraceInv E v looping incr ph0 f0 buf0 R (sinc_iter E v looping incr ep c s).2 ∧
      (looping = false → (sinc_iter E v looping incr ep c s).2.dsp_i < E.FLUID_BUFSIZE →
        last_index v looping
          < fluid_phase_index (sinc_iter E v looping incr ep c s).2.dsp_phase) ∧
      (∀ c1, (sinc_iter E v looping incr ep c s).1 = some c1 →
        (sinc_iter E v looping incr ep c s).2.has_looped = true ∧
        ((sinc_iter E v looping incr ep c s).2.dsp_i < E.FLUID_BUFSIZE →
          v.loopstart ≤ fluid_phase_index (sinc_iter E v looping incr ep c s).2.dsp_phase) ∧
        c1.end_index = c.end_index ∧ c1.start_index = v.loopstart ∧
        c1.start_points = (if s.has_looped = true then c.start_points
          else sinc_loop_points E v)) := by
  simp only [sinc_iter]
  rw [uint_add_small c.end_index 1 (by omega), uint_add_small (c.end_index + 1) 1 (by omega),
    uint_add_small (c.end_index + 1 + 1) 1 (by omega),
    uint_add_small c.start_index 1 (by omega), uint_add_small (c.start_index + 1) 1 (by omega)]
  have h1 := passInv_start s hs hlow
  generalize ({ s with dsp_phase_index := fluid_phase_index s.dsp_phase } : DspState F) = s1
    at h1 ⊢
  -- first sample point
  have p2 := dsp_loop_post E fluid_phase_index incr v.amp_incr v.output_rate
    (fun i => decide (i = c.start_index)) (sinc_raw_first E v c.start_points) s1
  have h2 := passInv_loop hph0 hincr hlast (fun _ _ _ _ => trivial)
    (fun i => decide (i = c.start_index)) (sinc_raw_first E v c.start_points)
    (fun t hi hf _ hc => by
      simp only [decide_eq_true_eq] at hc
      exact ⟨by omega, hA t hi (by omega)⟩) s1 h1
  generalize dsp_loop E fluid_phase_index incr v.amp_incr v.output_rate
    (fun i => decide (i = c.start_index)) (sinc_raw_first E v c.start_points) s1 = s2
    at p2 h2 ⊢
  have hx2 := p2.exit
  simp only [decide_eq_false_iff_not] at hx2
  have h2b := passInv_bump (fun i => first_index v s.has_looped < i) s2 h2
    (fun hlt _ => by
      have := h2.first hlt
      have := hx2.resolve_left (by omega)
      omega)
  -- 2nd to first sample point
  have p3 := dsp_loop_post E fluid_phase_index incr v.amp_incr v.output_rate
    (fun i => decide (i = c.start_index + 1)) (sinc_raw_first2 E v c.start_points) s2
  have h3 := passInv_loop hph0 hincr hlast
    (fun i j hij (hi : first_index v s.has_looped < i) => lt_of_lt_of_le hi hij)
    (fun i => decide (i = c.start_index + 1)) (sinc_raw_first2 E v c.start_points)
    (fun t hi hf _ hc => by
      simp only [decide_eq_true_eq] at hc
      exact ⟨by omega, hA2 t hi (by omega)⟩) s2 h2b
  generalize dsp_loop E fluid_phase_index incr v.amp_incr v.output_rate
    (fun i => decide (i = c.start_index + 1)) (sinc_raw_first2 E v c.start_points) s2 = s3
    at p3 h3 ⊢
  have hx3 := p3.exit
  simp only [decide_eq_false_iff_not] at hx3
  have h3b := passInv_bump (fun i => first_index v s.has_looped + 1 < i) s3 h3
    (fun hlt (h : first_index v s.has_looped < s3.dsp_phase_index) => by
      have := hx3.resolve_left (by omega)
      show first_index v s.has_looped + 1 < s3.dsp_phase_index
      omega)
  -- 3rd to first sample point
  have p4 := dsp_loop_post E fluid_phase_index incr v.amp_incr v.output_rate
    (fun i => decide (i = c.start_index + 1 + 1)) (sinc_raw_first3 E v c.start_points) s3
  have h4 := passInv_loop hph0 hincr hlast
    (fun i j hij (hi : first_index v s.has_looped + 1 < i) => lt_of_lt_of_le hi hij)
    (fun i => decide (i = c.start_index + 1 + 1)) (sinc_raw_first3 E v c.start_points)
    (fun t hi hf _ hc => by
      simp only [decide_eq_true_eq] at hc
      exact ⟨by omega, hA3 t hi (by omega)⟩) s3 h3b
  generalize dsp_loop E fluid_phase_index incr v.amp_incr v.output_rate
    (fun i => decide (i = c.start_index + 1 + 1)) (sinc_raw_first3 E v c.start_points) s3 = s4
    at p4 h4 ⊢
  have hx4 := p4.exit
  simp only [decide_eq_false_iff_not] at hx4
  have h4b := passInv_bump (fun i => first_index v s.has_looped + 2 < i) s4 h4
    (fun hlt (h : first_index v s.has_looped + 1 < s4.dsp_phase_index) => by
      have := hx4.resolve_left (by omega)
      show first_index v s.has_looped + 2 < s4.dsp_phase_index
      omega)
  have hup : ∀ i j, i ≤ j → first_index v s.has_looped + 2 < i →
      first_index v s.has_looped + 2 < j := fun i j hij hi => lt_of_lt_of_le hi hij
  -- the sequence of sample points
  have p5 := dsp_loop_post E fluid_phase_index incr v.amp_incr v.output_rate
    (fun i => decide (i ≤ c.end_index)) (sinc_raw E v) s4
  have h5 := passInv_loop hph0 hincr hlast hup
    (fun i => decide (i ≤ c.end_index)) (sinc_raw E v)
    (fun t hi _ hlo hc => by
      simp only [decide_eq_true_eq] at hc
      exact ⟨by omega, hB t hi hlo hc⟩) s4 h4b
  generalize dsp_loop E fluid_phase_index incr v.amp_incr v.output_rate
    (fun i => decide (i ≤ c.end_index)) (sinc_raw E v) s4 = s5 at p5 h5 ⊢
  by_cases c1 : s5.dsp_i ≥ E.FLUID_BUFSIZE
  · rw [if_pos c1]
    exact ⟨h5.base, fun _ hlt => absurd c1 (by dsimp only at hlt; omega),
      fun _ h => by cases h⟩
  · rw [if_neg c1]
    have hx5 := p5.exit.resolve_left c1
    simp only [decide_eq_false_iff_not, not_le] at hx5
    have hup2 : ∀ n i j, i ≤ j → first_index v s.has_looped + 2 < i ∧ c.end_index + n ≤ i →
        first_index v s.has_looped + 2 < j ∧ c.end_index + n ≤ j :=
      fun n i j hij hi => ⟨lt_of_lt_of_le hi.1 hij, le_trans hi.2 hij⟩
    have h5b := passInv_bump
      (fun i => first_index v s.has_looped + 2 < i ∧ c.end_index + 1 ≤ i) s5 h5
      (fun _ h => ⟨h, hx5⟩)
    -- 3rd to last point
    have p6 := dsp_loop_post E fluid_phase_index incr v.amp_incr v.output_rate
      (fun i => decide (i ≤ c.end_index + 1)) (sinc_raw_last3 E v ep) s5
    have h6 := passInv_loop hph0 hincr hlast (hup2 1)
      (fun i => decide (i ≤ c.end_index + 1)) (sinc_raw_last3 E v ep)
      (fun t hi _ hlo hc => by
        simp only [decide_eq_true_eq] at hc
        exact ⟨by omega, hC t hi hlo.1 (by omega)⟩) s5 h5b
    generalize dsp_loop E fluid_phase_index incr v.amp_incr v.output_rate
      (fun i => decide (i ≤ c.end_index + 1)) (sinc_raw_last3 E v ep) s5 = s6 at p6 h6 ⊢
    have hx6 := p6.exit
    simp only [decide_eq_false_iff_not, not_le] at hx6
    have h6b := passInv_bump
      (fun i => first_index v s.has_looped + 2 < i ∧ c.end_index + 2 ≤ i) s6 h6
      (fun hlt h => ⟨h.1, hx6.resolve_left (by omega)⟩)
    -- 2nd to last point
    have p7 := dsp_loop_post E fluid_phase_index incr v.amp_incr v.output_rate
      (fun i => decide (i ≤ c.end_index + 1 + 1)) (sinc_raw_last2 E v ep) s6
    have h7 := passInv_loop hph0 hincr hlast (hup2 2)
      (fun i => decide (i ≤ c.end_index + 1 + 1)) (sinc_raw_last2 E v ep)
      (fun t hi _ hlo hc => by
        simp only [decide_eq_true_eq] at hc
        exact ⟨by omega, hD t hi hlo.1 (by omega)⟩) s6 h6b
    generalize dsp_loop E fluid_phase_index incr v.amp_incr v.output_rate
      (fun i => decide (i ≤ c.end_index + 1 + 1)) (sinc_raw_last2 E v ep) s6 = s7 at p7 h7 ⊢
    have hx7 := p7.exit
    simp only [decide_eq_false_iff_not, not_le] at hx7
    have h7b := passInv_bump
      (fun i => first_index v s.has_looped + 2 < i ∧ c.end_index + 3 ≤ i) s7 h7
      (fun hlt h => ⟨h.1, by have := hx7.resolve_left (by omega); omega⟩)
    -- last point
    have p8 := dsp_loop_post E fluid_phase_index incr v.amp_incr v.output_rate
      (fun i => decide (i ≤ c.end_index + 1 + 1 + 1)) (sinc_raw_last E v ep) s7
    have h8 := passInv_loop hph0 hincr hlast (hup2 3)
      (fun i => decide (i ≤ c.end_index + 1 + 1 + 1)) (sinc_raw_last E v ep)
      (fun t hi _ hlo hc => by
        simp only [decide_eq_true_eq] at hc
        exact ⟨by omega, hE t hi hlo.1 (by omega)⟩) s7 h7b
    generalize dsp_loop E fluid_phase_index incr v.amp_incr v.output_rate
      (fun i => decide (i ≤ c.end_index + 1 + 1 + 1)) (sinc_raw_last E v ep) s7 = s8
      at p8 h8 ⊢
    have hx8 := p8.exit
    simp only [decide_eq_false_iff_not, not_le] at hx8
    by_cases c2 : looping = false
    · rw [if_pos c2]
      refine ⟨h8.base, fun _ hlt => ?_, fun _ h => by cases h⟩
      dsimp only at hlt ⊢
      rw [← h8.index]
      have := hx8.resolve_left (by omega)
      omega
    · rw [if_neg c2]
      have hlp : looping = true := by simpa using c2
      have hl1 := hloop hlp
      have he1 : c.end_index + 4 = v.loopend := by
        rw [hlp] at he
        simp only [last_index, if_true] at he
        omega
      by_cases cw : s8.dsp_phase_index > c.end_index + 1 + 1 + 1
      · have hw := traceInv_wrap s8 h8 hl1 (by omega)
        have hd : decide (s8.dsp_phase_index > c.end_index + 1 + 1 + 1) = true :=
          decide_eq_true cw
        rw [hd]
        simp only [if_true, Bool.true_and]
        refine ⟨?_, fun hf => absurd hf c2, fun c1 hc1 => ?_⟩
        · split <;> exact hw.1
        · by_cases c3 : (dsp_wrap v s8).dsp_i ≥ E.FLUID_BUFSIZE
          · rw [if_pos c3] at hc1; cases hc1
          · rw [if_neg c3] at hc1 ⊢
            simp only [Option.some.injEq] at hc1
            subst hc1
            dsimp only
            refine ⟨rfl, fun _ => hw.2, ?_, ?_, ?_⟩
            · unfold uint_sub; omega
            · rw [h8.looped]
              cases hsl : s.has_looped
              · simp only [Bool.not_false, if_true]
                unfold to_uint; omega
              · simp only [Bool.not_true, Bool.false_eq_true, if_false]
                rw [hcs, hsl]
                simp only [first_index, if_true]
                unfold uint_sub; omega
            · rw [h8.looped]
              cases hsl : s.has_looped <;> simp
      · have hd : decide (s8.dsp_phase_index > c.end_index + 1 + 1 + 1) = false :=
          decide_eq_false cw
        rw [hd]
        simp only [Bool.false_eq_true, if_false, Bool.false_and]
        have hfull : s8.dsp_i ≥ E.FLUID_BUFSIZE := by
          by_contra hc
          exact cw (hx8.resolve_left hc)
        rw [if_pos hfull]
        exact ⟨h8.base, fun hf => absurd hf c2, fun _ h => by cases h⟩

theorem end_index_last (v : fluid_rvoice_dsp_t) (looping : Bool) (trail : Nat) (k : Int)
    (hk : k = trail) (h1 : trail ≤ last_index v looping) (h2 : last_index v looping < 2 ^ 31)
    (h3 : looping = true → v.loopstart < v.loopend) :
    to_uint ((if looping = true then (v.loopend : Int) - 1 else (v.end_ : Int)) - k) + trail
      = last_index v looping := by
  subst hk
  cases looping with
  | false =>
    simp only [last_index, Bool.false_eq_true, if_false] at *
    unfold to_uint
    omega
  | true =>
    have := h3 rfl
    simp only [last_index, if_true] at *
    unfold to_uint
    omega

theorem traceInv_init (E : DspEnv F) (rvoice : fluid_rvoice_t F) (looping : Bool)
    (incr ph0 : Nat) (buf0 : Nat → ℚ) (R : Bool → Nat → ℚ → Prop) :
    TraceInv E rvoice.dsp looping incr ph0
      (rvoice.resonant_filter, rvoice.resonant_custom_filter) buf0 R
      (dsp_init rvoice buf0 ph0) :=
  { inv := renderInv_init E rvoice incr ph0 buf0
    trace := fun k hk => absurd hk (Nat.not_lt_zero k) }

theorem linear_while_traced {E : DspEnv F} {v : fluid_rvoice_dsp_t} {looping : Bool}
    {incr ph0 : Nat} {f0 : F × F} {buf0 : Nat → ℚ} {R : Bool → Nat → ℚ → Prop}
    (hph0 : ph0 < 2 ^ 64) (hincr : incr ≤ 2 ^ 63) (hlast : last_index v looping < 2 ^ 31)
    (hloop : looping = true → v.loopstart < v.loopend)
    (point : ℚ) (e : Nat) (he : e + 1 = last_index v looping)
    (hR1 : ∀ hl, PlayedAs v looping hl → ∀ t : DspState F,
      t.dsp_phase_index = fluid_phase_index t.dsp_phase →
      first_index v hl ≤ t.dsp_phase_index → t.dsp_phase_index ≤ e →
      R hl t.dsp_phase (linear_raw E v t))
    (hR2 : ∀ hl, PlayedAs v looping hl → ∀ t : DspState F,
      t.dsp_phase_index = fluid_phase_index t.dsp_phase →
      first_index v hl ≤ t.dsp_phase_index → t.dsp_phase_index = e + 1 →
      R hl t.dsp_phase (linear_raw_last E v point t)) :
    ∀ (fuel : Nat) (s r : DspState F), TraceInv E v looping incr ph0 f0 buf0 R s →
      PlayedAs v looping s.has_looped →
      (s.dsp_i < E.FLUID_BUFSIZE → first_index v s.has_looped ≤ fluid_phase_index s.dsp_phase) →
      linear_while E v looping incr point fuel e s = some r →
      TraceInv E v looping incr ph0 f0 buf0 R r ∧
        (looping = false → r.dsp_i < E.FLUID_BUFSIZE →
          last_index v looping < fluid_phase_index r.dsp_phase) := by
  intro fuel
  induction fuel with
  | zero => intro s r _ _ _ hr; simp [linear_while] at hr
  | succ fuel ih =>
    intro s r hs hpl hlow hr
    have h1 := linear_iter_traced hph0 hincr hlast hloop point e he s (hR1 _ hpl) (hR2 _ hpl)
      hs hlow
    have h2 := linear_iter_end E v looping incr point e (by omega) s
    simp only [linear_while] at hr
    split at hr
    · rename_i t heq
      rw [heq] at h1
      cases hr
      exact ⟨h1.1, h1.2.1⟩
    · rename_i e1 t heq
      rw [heq] at h1 h2
      rw [h2 e1 rfl] at hr
      have h3 := h1.2.2 (by simp)
      have hlp : looping = true := by
        cases looping with
        | true => rfl
        | false =>
          have hn := linear_iter_nonlooping E v incr point e s
          rw [heq] at hn
          cases hn
      dsimp only at h3
      refine ih t r h1.1 (Or.inr ⟨hlp, h3.1⟩) ?_ hr
      rw [h3.1]
      exact h3.2

theorem cubic_while_traced {E : DspEnv F} {v : fluid_rvoice_dsp_t} {looping : Bool}
    {incr ph0 : Nat} {f0 : F × F} {buf0 : Nat → ℚ} {R : Bool → Nat → ℚ → Prop}
    (hph0 : ph0 < 2 ^ 64) (hincr : incr ≤ 2 ^ 63) (hlast : last_index v looping < 2 ^ 31)
    (hloop : looping = true → v.loopstart < v.loopend)
    (ep1 ep2 : ℚ) (e : Nat) (he : e + 2 = last_index v looping) (hlead : LeadOk v looping 0)
    (hA : ∀ hl, PlayedAs v looping hl → ∀ t : DspState F,
      t.dsp_phase_index = fluid_phase_index t.dsp_phase →
      t.dsp_phase_index = first_index v hl →
      R hl t.dsp_phase (cubic_raw_first E v (cubic_start_point E v hl) t))
    (hB : ∀ hl, PlayedAs v looping hl → ∀ t : DspState F,
      t.dsp_phase_index = fluid_phase_index t.dsp_phase →
      first_index v hl < t.dsp_phase_index → t.dsp_phase_index ≤ e →
      R hl t.dsp_phase (cubic_raw E v t))
    (hC : ∀ hl, PlayedAs v looping hl → ∀ t : DspState F,
      t.dsp_phase_index = fluid_phase_index t.dsp_phase →
      first_index v hl < t.dsp_phase_index → t.dsp_phase_index = e + 1 →
      R hl t.dsp_phase (cubic_raw_last2 E v ep1 t))
    (hD : ∀ hl, PlayedAs v looping hl → ∀ t : DspState F,
      t.dsp_phase_index = fluid_phase_index t.dsp_phase →
      first_index v hl < t.dsp_phase_index → t.dsp_phase_index = e + 2 →
      R hl t.dsp_phase (cubic_raw_last E v ep1 ep2 t)) :
    ∀ (fuel : Nat) (c : CubicVars) (s r : DspState F), c.end_index = e →
      c.start_index = first_index v s.has_looped →
      c.start_point = cubic_start_point E v s.has_looped →
      TraceInv E v looping incr ph0 f0 buf0 R s →
      PlayedAs v looping s.has_looped →
      (s.dsp_i < E.FLUID_BUFSIZE → first_index v s.has_looped ≤ fluid_phase_index s.dsp_phase) →
      cubic_while E v looping incr ep1 ep2 fuel c s = some r →
      TraceInv E v looping incr ph0 f0 buf0 R r ∧
        (looping = false → r.dsp_i < E.FLUID_BUFSIZE →
          last_index v looping < fluid_phase_index r.dsp_phase) := by
  intro fuel
  induction fuel with
  | zero => intro c s r _ _ _ _ _ _ hr; simp [cubic_while] at hr
  | succ fuel ih =>
    intro c s r hce hcs hcp hs hpl hlow hr
    subst hce
    have h1 := cubic_iter_traced hph0 hincr hlast hloop ep1 ep2 c s he hcs
      (by have := hlead _ hpl; omega) (by rw [hcp]; exact hA _ hpl) (hB _ hpl) (hC _ hpl)
      (hD _ hpl) hs hlow
    simp only [cubic_while] at hr
    split at hr
    · rename_i t heq
      rw [heq] at h1
      cases hr
      exact ⟨h1.1, h1.2.1⟩
    · rename_i c1 t heq
      rw [heq] at h1
      have h3 := h1.2.2 c1 rfl
      have hlp : looping = true := by
        cases looping with
        | true => rfl
        | false =>
          have hn := cubic_iter_nonlooping E v incr ep1 ep2 c s
          rw [heq] at hn
          cases hn
      dsimp only at h3
      refine ih c1 t r h3.2.2.1 ?_ ?_ h1.1 (Or.inr ⟨hlp, h3.1⟩) ?_ hr
      · rw [h3.1, h3.2.2.2.1]; simp [first_index]
      · rw [h3.1, h3.2.2.2.2, hcp]
        cases s.has_looped <;> simp [cubic_start_point]
      · rw [h3.1]
        exact h3.2.1

theorem sinc_while_traced {E : DspEnv F} {v : fluid_rvoice_dsp_t} {looping : Bool}
    {incr ph0 : Nat} {f0 : F × F} {buf0 : Nat → ℚ} {R : Bool → Nat → ℚ → Prop}
    (hph0 : ph0 < 2 ^ 64) (hincr : incr ≤ 2 ^ 63) (hlast : last_index v looping < 2 ^ 31)
    (hloop : looping = true → v.loopstart < v.loopend)
    (ep : Points) (e : Nat) (he : e + 3 = last_index v looping) (hlead : LeadOk v looping 2)
    (hA : ∀ hl, PlayedAs v looping hl → ∀ t : DspState F,
      t.dsp_phase_index = fluid_phase_index t.dsp_phase →
      t.dsp_phase_index = first_index v hl →
      R hl t.dsp_phase (sinc_raw_first E v (sinc_start_points E v hl) t))
    (hA2 : ∀ hl, PlayedAs v looping hl → ∀ t : DspState F,
      t.dsp_phase_index = fluid_phase_index t.dsp_phase →
      t.dsp_phase_index = first_index v hl + 1 →
      R hl t.dsp_phase (sinc_raw_first2 E v (sinc_start_points E v hl) t))
    (hA3 : ∀ hl, PlayedAs v looping hl → ∀ t : DspState F,
      t.dsp_phase_index = fluid_phase_index t.dsp_phase →
      t.dsp_phase_index = first_index v hl + 2 →
      R hl t.dsp_phase (sinc_raw_first3 E v (sinc_start_points E v hl) t))
    (hB : ∀ hl, PlayedAs v looping hl → ∀ t : DspState F,
      t.dsp_phase_index = fluid_phase_index t.dsp_phase →
      first_index v hl + 2 < t.dsp_phase_index → t.dsp_phase_index ≤ e →
      R hl t.dsp_phase (sinc_raw E v t))
    (hC : ∀ hl, PlayedAs v looping hl → ∀ t : DspState F,
      t.dsp_phase_index = fluid_phase_index t.dsp_phase →
      first_index v hl + 2 < t.dsp_phase_index → t.dsp_phase_index = e + 1 →
      R hl t.dsp_phase (sinc_raw_last3 E v ep t))
    (hD : ∀ hl, PlayedAs v looping hl → ∀ t : DspState F,
      t.dsp_phase_index = fluid_phase_index t.dsp_phase →
      first_index v hl + 2 < t.dsp_phase_index → t.dsp_phase_index = e + 2 →
      R hl t.dsp_phase (sinc_raw_last2 E v ep t))
    (hE : ∀ hl, PlayedAs v looping hl → ∀ t : DspState F,
      t.dsp_phase_index = fluid_phase_index t.dsp_phase →
      first_index v hl + 2 < t.dsp_phase_index → t.dsp_phase_index = e + 3 →
      R hl t.dsp_phase (sinc_raw_last E v ep t)) :
    ∀ (fuel : Nat) (c : SincVars) (s r : DspState F), c.end_index = e →
      c.start_index = first_index v s.has_looped →
      c.start_points = sinc_start_points E v s.has_looped →
      TraceInv E v looping incr ph0 f0 buf0 R s →
      PlayedAs v looping s.has_looped →
      (s.dsp_i < E.FLUID_BUFSIZE → first_index v s.has_looped ≤ fluid_phase_index s.dsp_phase) →
      sinc_while E v looping incr ep fuel c s = some r →
      TraceInv E v looping incr ph0 f0 buf0 R r ∧
        (looping = false → r.dsp_i < E.FLUID_BUFSIZE →
          last_index v looping < fluid_phase_index r.dsp_phase) := by
  intro fuel
  induction fuel with
  | zero => intro c s r _ _ _ _ _ _ hr; simp [sinc_while] at hr
  | succ fuel ih =>
    intro c s r hce hcs hcp hs hpl hlow hr
    subst hce
    have h1 := sinc_iter_traced hph0 hincr hlast hloop ep c s he hcs (hlead _ hpl)
      (by rw [hcp]; exact hA _ hpl) (by rw [hcp]; exact hA2 _ hpl)
      (by rw [hcp]; exact hA3 _ hpl) (hB _ hpl) (hC _ hpl) (hD _ hpl) (hE _ hpl) hs hlow
    simp only [sinc_while] at hr
    split at hr
    · rename_i t heq
      rw [heq] at h1
      cases hr
      exact ⟨h1.1, h1.2.1⟩
    · rename_i c1 t heq
      rw [heq] at h1
      have h3 := h1.2.2 c1 rfl
      have hlp : looping = true := by
        cases looping with
        | true => rfl
        | false =>
          have hn := sinc_iter_nonlooping E v incr ep c s
          rw [heq] at hn
          cases hn
      dsimp only at h3
      refine ih c1 t r h3.2.2.1 ?_ ?_ h1.1 (Or.inr ⟨hlp, h3.1⟩) ?_ hr
      · rw [h3.1, h3.2.2.2.1]; simp [first_index]
      · rw [h3.1, h3.2.2.2.2, hcp]
        cases s.has_looped <;> simp [sinc_start_points]
      · rw [h3.1]
        exact h3.2.1

theorem linear_render_traced (E : DspEnv F) (rvoice : fluid_rvoice_t F) (buf0 : Nat → ℚ)
    (looping : Bool) (R : Bool → Nat → ℚ → Prop)
    (hok : TraceOk rvoice.dsp looping rvoice.dsp.phase
      (fluid_phase_set_float rvoice.dsp.phase_incr) 1)
    (hR1 : ∀ hl, PlayedAs rvoice.dsp looping hl → ∀ t : DspState F,
      t.dsp_phase_index = fluid_phase_index t.dsp_phase →
      first_index rvoice.dsp hl ≤ t.dsp_phase_index →
      t.dsp_phase_index + 1 ≤ last_index rvoice.dsp looping →
      R hl t.dsp_phase (linear_raw E rvoice.dsp t))
    (hR2 : ∀ hl, PlayedAs rvoice.dsp looping hl → ∀ t : DspState F,
      t.dsp_phase_index = fluid_phase_index t.dsp_phase →
      first_index rvoice.dsp hl ≤ t.dsp_phase_index →
      t.dsp_phase_index = last_index rvoice.dsp looping →
      R hl t.dsp_phase (linear_raw_last E rvoice.dsp
        (if looping = true then dsp_data_at E rvoice.dsp (to_uint rvoice.dsp.loopstart)
          else dsp_data_at E rvoice.dsp (to_uint rvoice.dsp.end_)) t))
    (fuel : Nat) (out : RenderOut F)
    (h : fluid_rvoice_dsp_interpolate_linear E fuel rvoice buf0 looping = some out) :
    Traced rvoice.dsp looping rvoice.dsp.phase (fluid_phase_set_float rvoice.dsp.phase_incr)
        R out ∧
      (looping = false → out.ret < E.FLUID_BUFSIZE →
        last_index rvoice.dsp looping < fluid_phase_index out.rvoice.dsp.phase) := by
  obtain ⟨hph, hincr, hlast, htrail, hloop, hfirst⟩ := hok
  simp only [fluid_rvoice_dsp_interpolate_linear, Option.map_eq_some'] at h
  obtain ⟨r, hr, rfl⟩ := h
  have he := end_index_last rvoice.dsp looping 1 1 rfl htrail hlast hloop
  have := linear_while_traced hph hincr hlast hloop _ _ he
    (fun hl hpl t hi hf hle => hR1 hl hpl t hi hf (by omega))
    (fun hl hpl t hi hf hle => hR2 hl hpl t hi hf (by omega))
    fuel _ r (traceInv_init E rvoice looping _ _ buf0 R) (Or.inl rfl) (fun _ => hfirst) hr
  exact ⟨this.1.trace, this.2⟩

theorem cubic_render_traced (E : DspEnv F) (rvoice : fluid_rvoice_t F) (buf0 : Nat → ℚ)
    (looping : Bool) (R : Bool → Nat → ℚ → Prop)
    (hok : TraceOk rvoice.dsp looping rvoice.dsp.phase
      (fluid_phase_set_float rvoice.dsp.phase_incr) 2)
    (hlead : LeadOk rvoice.dsp looping 0)
    (hA : ∀ hl, PlayedAs rvoice.dsp looping hl → ∀ t : DspState F,
      t.dsp_phase_index = fluid_phase_index t.dsp_phase →
      t.dsp_phase_index = first_index rvoice.dsp hl →
      R hl t.dsp_phase (cubic_raw_first E rvoice.dsp (cubic_start_point E rvoice.dsp hl) t))
    (hB : ∀ hl, PlayedAs rvoice.dsp looping hl → ∀ t : DspState F,
      t.dsp_phase_index = fluid_phase_index t.dsp_phase →
      first_index rvoice.dsp hl < t.dsp_phase_index →
      t.dsp_phase_index + 2 ≤ last_index rvoice.dsp looping →
      R hl t.dsp_phase (cubic_raw E rvoice.dsp t))
    (hC : ∀ hl, PlayedAs rvoice.dsp looping hl → ∀ t : DspState F,
      t.dsp_phase_index = fluid_phase_index t.dsp_phase →
      first_index rvoice.dsp hl < t.dsp_phase_index →
      t.dsp_phase_index + 1 = last_index rvoice.dsp looping →
      R hl t.dsp_phase (cubic_raw_last2 E rvoice.dsp (cubic_end_point1 E rvoice.dsp looping) t))
    (hD : ∀ hl, PlayedAs rvoice.dsp looping hl → ∀ t : DspState F,
      t.dsp_phase_index = fluid_phase_index t.dsp_phase →
      first_index rvoice.dsp hl < t.dsp_phase_index →
      t.dsp_phase_index = last_index rvoice.dsp looping →
      R hl t.dsp_phase (cubic_raw_last E rvoice.dsp (cubic_end_point1 E rvoice.dsp looping)
        (cubic_end_point2 E rvoice.dsp looping) t))
    (fuel : Nat) (out : RenderOut F)
    (h : fluid_rvoice_dsp_interpolate_4th_order E fuel rvoice buf0 looping = some out) :
    Traced rvoice.dsp looping rvoice.dsp.phase (fluid_phase_set_float rvoice.dsp.phase_incr)
        R out ∧
      (looping = false → out.ret < E.FLUID_BUFSIZE →
        last_index rvoice.dsp looping < fluid_phase_index out.rvoice.dsp.phase) := by
  obtain ⟨hph, hincr, hlast, htrail, hloop, hfirst⟩ := hok
  simp only [fluid_rvoice_dsp_interpolate_4th_order, Option.map_eq_some'] at h
  obtain ⟨r, hr, rfl⟩ := h
  have he := end_index_last rvoice.dsp looping 2 2 rfl htrail hlast hloop
  have hfl : first_index rvoice.dsp rvoice.dsp.has_looped < 2 ^ 32 :=
    lt_of_le_of_lt hfirst (fluid_phase_index_lt _)
  have := cubic_while_traced hph hincr hlast hloop _ _ _ he hlead hA
    (fun hl hpl t hi hf hle => hB hl hpl t hi hf (by omega))
    (fun hl hpl t hi hf hle => hC hl hpl t hi hf (by omega))
    (fun hl hpl t hi hf hle => hD hl hpl t hi hf (by omega))
    fuel (cubic_vars_init E rvoice.dsp looping) _ r rfl
    (by
      simp only [cubic_vars_init, dsp_init, first_index] at hfl ⊢
      by_cases hsl : rvoice.dsp.has_looped = true
      · rw [if_pos hsl] at hfl ⊢
        rw [if_pos hsl]
        exact to_uint_of_lt _ hfl
      · rw [if_neg hsl] at hfl ⊢
        rw [if_neg hsl]
        exact to_uint_of_lt _ hfl)
    (by simp only [cubic_vars_init, dsp_init, cubic_start_point])
    (traceInv_init E rvoice looping _ _ buf0 R) (Or.inl rfl) (fun _ => hfirst) hr
  exact ⟨this.1.trace, this.2⟩

theorem sinc_render_traced (E : DspEnv F) (rvoice : fluid_rvoice_t F) (buf0 : Nat → ℚ)
    (looping : Bool) (R : Bool → Nat → ℚ → Prop)
    (hok : TraceOk rvoice.dsp looping (fluid_phase_incr rvoice.dsp.phase 0x80000000)
      (fluid_phase_set_float rvoice.dsp.phase_incr) 3)
    (hlead : LeadOk rvoice.dsp looping 2)
    (hA : ∀ hl, PlayedAs rvoice.dsp looping hl → ∀ t : DspState F,
      t.dsp_phase_index = fluid_phase_index t.dsp_phase →
      t.dsp_phase_index = first_index rvoice.dsp hl →
      R hl t.dsp_phase (sinc_raw_first E rvoice.dsp (sinc_start_points E rvoice.dsp hl) t))
    (hA2 : ∀ hl, PlayedAs rvoice.dsp looping hl → ∀ t : DspState F,
      t.dsp_phase_index = fluid_phase_index t.dsp_phase →
      t.dsp_phase_index = first_index rvoice.dsp hl + 1 →
      R hl t.dsp_phase (sinc_raw_first2 E rvoice.dsp (sinc_start_points E rvoice.dsp hl) t))
    (hA3 : ∀ hl, PlayedAs rvoice.dsp looping hl → ∀ t : DspState F,
      t.dsp_phase_index = fluid_phase_index t.dsp_phase →
      t.dsp_phase_index = first_index rvoice.dsp hl + 2 →
      R hl t.dsp_phase (sinc_raw_first3 E rvoice.dsp (sinc_start_points E rvoice.dsp hl) t))
    (hB : ∀ hl, PlayedAs rvoice.dsp looping hl → ∀ t : DspState F,
      t.dsp_phase_index = fluid_phase_index t.dsp_phase →
      first_index rvoice.dsp hl + 2 < t.dsp_phase_index →
      t.dsp_phase_index + 3 ≤ last_index rvoice.dsp looping →
      R hl t.dsp_phase (sinc_raw E rvoice.dsp t))
    (hC : ∀ hl, PlayedAs rvoice.dsp looping hl → ∀ t : DspState F,
      t.dsp_phase_index = fluid_phase_index t.dsp_phase →
      first_index rvoice.dsp hl + 2 < t.dsp_phase_index →
      t.dsp_phase_index + 2 = last_index rvoice.dsp looping →
      R hl t.dsp_phase (sinc_raw_last3 E rvoice.dsp (sinc_end_points E rvoice.dsp looping) t))
    (hD : ∀ hl, PlayedAs rvoice.dsp looping hl → ∀ t : DspState F,
      t.dsp_phase_index = fluid_phase_index t.dsp_phase →
      first_index rvoice.dsp hl + 2 < t.dsp_phase_index →
      t.dsp_phase_index + 1 = last_index rvoice.dsp looping →
      R hl t.dsp_phase (sinc_raw_last2 E rvoice.dsp (sinc_end_points E rvoice.dsp looping) t))
    (hE : ∀ hl, PlayedAs rvoice.dsp looping hl → ∀ t : DspState F,
      t.dsp_phase_index = fluid_phase_index t.dsp_phase →
      first_index rvoice.dsp hl + 2 < t.dsp_phase_index →
      t.dsp_phase_index = last_index rvoice.dsp looping →
      R hl t.dsp_phase (sinc_raw_last E rvoice.dsp (sinc_end_points E rvoice.dsp looping) t))
    (fuel : Nat) (out : RenderOut F)
    (h : fluid_rvoice_dsp_interpolate_7th_order E fuel rvoice buf0 looping = some out) :
    Traced rvoice.dsp looping (fluid_phase_incr rvoice.dsp.phase 0x80000000)
        (fluid_phase_set_float rvoice.dsp.phase_incr) R out ∧
      (looping = false → out.ret < E.FLUID_BUFSIZE →
        last_index rvoice.dsp looping < fluid_phase_index_round out.rvoice.dsp.phase) := by
  obtain ⟨hph, hincr, hlast, htrail, hloop, hfirst⟩ := hok
  simp only [fluid_rvoice_dsp_interpolate_7th_order, Option.map_eq_some'] at h
  obtain ⟨r, hr, rfl⟩ := h
  have he := end_index_last rvoice.dsp looping 3 3 rfl htrail hlast hloop
  have hfl : first_index rvoice.dsp rvoice.dsp.has_looped < 2 ^ 32 :=
    lt_of_le_of_lt hfirst (fluid_phase_index_lt _)
  have := sinc_while_traced hph hincr hlast hloop _ _ he hlead hA hA2 hA3
    (fun hl hpl t hi hf hle => hB hl hpl t hi hf (by omega))
    (fun hl hpl t hi hf hle => hC hl hpl t hi hf (by omega))
    (fun hl hpl t hi hf hle => hD hl hpl t hi hf (by omega))
    (fun hl hpl t hi hf hle => hE hl hpl t hi hf (by omega))
    fuel (sinc_vars_init E rvoice.dsp looping) _ r rfl
    (by
      simp only [sinc_vars_init, dsp_init, first_index] at hfl ⊢
      by_cases hsl : rvoice.dsp.has_looped = true
      · rw [if_pos hsl] at hfl ⊢
        rw [if_pos hsl]
        exact to_uint_of_lt _ hfl
      · rw [if_neg hsl] at hfl ⊢
        rw [if_neg hsl]
        exact to_uint_of_lt _ hfl)
    (by simp only [sinc_vars_init, dsp_init, sinc_start_points])
    (traceInv_init E rvoice looping _ _ buf0 R) (Or.inl rfl) (fun _ => hfirst) hr
  refine ⟨this.1.trace, fun h1 h2 => ?_⟩
  simp only [dsp_finish]
  rw [fluid_phase_index_round_unshift]
  exact this.2 h1 h2

theorem traceOk_returns (E : DspEnv F) (rvoice : fluid_rvoice_t F) (buf0 : Nat → ℚ)
    (looping : Bool) (ph0 incr trail : Nat) (hok : TraceOk rvoice.dsp looping ph0 incr trail) :
    Returns (fun fuel => fluid_rvoice_dsp_interpolate_linear E fuel rvoice buf0 looping) ∧
    Returns (fun fuel => fluid_rvoice_dsp_interpolate_4th_order E fuel rvoice buf0 looping) ∧
    Returns (fun fuel => fluid_rvoice_dsp_interpolate_7th_order E fuel rvoice buf0 looping) := by
  obtain ⟨_, _, hlast, _, hloop, _⟩ := hok
  cases looping with
  | false =>
    exact ⟨linear_render_nonlooping E rvoice buf0, cubic_render_nonlooping E rvoice buf0,
      sinc_render_nonlooping E rvoice buf0⟩
  | true =>
    have hl := hloop rfl
    have hle : rvoice.dsp.loopend ≤ 2 ^ 31 := by
      simp only [last_index, if_true] at hlast
      omega
    exact ⟨(linear_render_looping E rvoice buf0 hl hle).1,
      (cubic_render_looping E rvoice buf0 hl hle).1,
      (sinc_render_looping E rvoice buf0 hl hle).1⟩

theorem dsp_for_bufEq (E : DspEnv F) (idx : Nat → Nat) (incr : Nat) (amp_incr rate : ℚ)
    (cond : Nat → Bool) (raw : DspState F → ℚ) (hraw : BufFree raw) :
    ∀ (n : Nat) (s t : DspState F), BufEq s t →
      BufEq (dsp_for E idx incr amp_incr rate cond raw n s)
        (dsp_for E idx incr amp_incr rate cond raw n t) := by
  intro n
  induction n with
  | zero => intro s t h; simpa [dsp_for] using h
  | succ n ih =>
    intro s t h
    obtain ⟨b, rfl⟩ := h
    simp only [dsp_for]
    by_cases hc : s.dsp_i < E.FLUID_BUFSIZE ∧ cond s.dsp_phase_index = true
    · rw [if_pos hc, if_pos hc]
      apply ih
      rw [hraw s b]
      exact ⟨_, rfl⟩
    · rw [if_neg hc, if_neg hc]
      exact ⟨b, rfl⟩

theorem dsp_loop_bufEq (E : DspEnv F) (idx : Nat → Nat) (incr : Nat) (amp_incr rate : ℚ)
    (cond : Nat → Bool) (raw : DspState F → ℚ) (hraw : BufFree raw)
    (s t : DspState F) (h : BufEq s t) :
    BufEq (dsp_loop E idx incr amp_incr rate cond raw s)
      (dsp_loop E idx incr amp_incr rate cond raw t) := by
  have := dsp_for_bufEq E idx incr amp_incr rate cond raw hraw (E.FLUID_BUFSIZE - s.dsp_i) s t h
  obtain ⟨b, rfl⟩ := h
  exact this

theorem bufEq_fields (s t : DspState F) (h : BufEq s t) :
    t.dsp_i = s.dsp_i ∧ t.dsp_phase_index = s.dsp_phase_index ∧
      t.has_looped = s.has_looped ∧ t.dsp_phase = s.dsp_phase := by
  obtain ⟨b, rfl⟩ := h
  exact ⟨rfl, rfl, rfl, rfl⟩

theorem bufEq_wrap (v : fluid_rvoice_dsp_t) (c : Prop) [Decidable c] (s t : DspState F)
    (h : BufEq s t) :
    BufEq (if c then dsp_wrap v s else s) (if c then dsp_wrap v t else t) := by
  obtain ⟨b, rfl⟩ := h
  split
  · exact ⟨b, rfl⟩
  · exact ⟨b, rfl⟩

theorem bufEq_reindex (idxf : Nat → Nat) (s t : DspState F) (h : BufEq s t) :
    BufEq ({ s with dsp_phase_index := idxf s.dsp_phase } : DspState F)
      { t with dsp_phase_index := idxf t.dsp_phase } := by
  obtain ⟨b, rfl⟩ := h
  exact ⟨b, rfl⟩

theorem none_iter_bufEq (E : DspEnv F) (v : fluid_rvoice_dsp_t) (looping : Bool)
    (incr e : Nat) (s t : DspState F) (h : BufEq s t) :
    (none_iter E v looping incr e t).1 = (none_iter E v looping incr e s).1 ∧
      BufEq (none_iter E v looping incr e s).2 (none_iter E v looping incr e t).2 := by
  simp only [none_iter]
  have h1 := bufEq_reindex fluid_phase_index_round s t h
  generalize ({ s with dsp_phase_index := fluid_phase_index_round s.dsp_phase } : DspState F)
    = s1 at h1 ⊢
  generalize ({ t with dsp_phase_index := fluid_phase_index_round t.dsp_phase } : DspState F)
    = t1 at h1 ⊢
  have h2 := dsp_loop_bufEq E fluid_phase_index_round incr v.amp_incr v.output_rate
    (fun i => decide (i ≤ e)) (none_raw E v) (fun _ _ => rfl) s1 t1 h1
  generalize dsp_loop E fluid_phase_index_round incr v.amp_incr v.output_rate
    (fun i => decide (i ≤ e)) (none_raw E v) s1 = s2 at h2 ⊢
  generalize dsp_loop E fluid_phase_index_round incr v.amp_incr v.output_rate
    (fun i => decide (i ≤ e)) (none_raw E v) t1 = t2 at h2 ⊢
  by_cases c2 : looping = false
  · rw [if_pos c2, if_pos c2]
    exact ⟨rfl, h2⟩
  · rw [if_neg c2, if_neg c2, (bufEq_fields s2 t2 h2).2.1]
    have h3 := bufEq_wrap v (s2.dsp_phase_index > e) s2 t2 h2
    generalize (if s2.dsp_phase_index > e then dsp_wrap v s2 else s2) = s3 at h3 ⊢
    generalize (if s2.dsp_phase_index > e then dsp_wrap v t2 else t2) = t3 at h3 ⊢
    rw [(bufEq_fields s3 t3 h3).1]
    split
    · exact ⟨rfl, h3⟩
    · exact ⟨rfl, h3⟩

theorem linear_iter_bufEq (E : DspEnv F) (v : fluid_rvoice_dsp_t) (looping : Bool)
    (incr : Nat) (point : ℚ) (e : Nat) (s t : DspState F) (h : BufEq s t) :
    (linear_iter E v looping incr point e t).1 = (linear_iter E v looping incr point e s).1 ∧
      BufEq (linear_iter E v looping incr point e s).2
        (linear_iter E v looping incr point e t).2 := by
  simp only [linear_iter]
  have h1 := bufEq_reindex fluid_phase_index s t h
  generalize ({ s with dsp_phase_index := fluid_phase_index s.dsp_phase } : DspState F)
    = s1 at h1 ⊢
  generalize ({ t with dsp_phase_index := fluid_phase_index t.dsp_phase } : DspState F)
    = t1 at h1 ⊢
  have h2 := dsp_loop_bufEq E fluid_phase_index incr v.amp_incr v.output_rate
    (fun i => decide (i ≤ e)) (linear_raw E v) (fun _ _ => rfl) s1 t1 h1
  generalize dsp_loop E fluid_phase_index incr v.amp_incr v.output_rate
    (fun i => decide (i ≤ e)) (linear_raw E v) s1 = s2 at h2 ⊢
  generalize dsp_loop E fluid_phase_index incr v.amp_incr v.output_rate
    (fun i => decide (i ≤ e)) (linear_raw E v) t1 = t2 at h2 ⊢
  rw [(bufEq_fields s2 t2 h2).1]
  by_cases c1 : s2.dsp_i ≥ E.FLUID_BUFSIZE
  · rw [if_pos c1, if_pos c1]
    exact ⟨rfl, h2⟩
  · rw [if_neg c1, if_neg c1]
    have h3 := dsp_loop_bufEq E fluid_phase_index incr v.amp_incr v.output_rate
      (fun i => decide (i ≤ uint_add e 1)) (linear_raw_last E v point) (fun _ _ => rfl) s2 t2 h2
    generalize dsp_loop E fluid_phase_index incr v.amp_incr v.output_rate
      (fun i => decide (i ≤ uint_add e 1)) (linear_raw_last E v point) s2 = s3 at h3 ⊢
    generalize dsp_loop E fluid_phase_index incr v.amp_incr v.output_rate
      (fun i => decide (i ≤ uint_add e 1)) (linear_raw_last E v point) t2 = t3 at h3 ⊢
    by_cases c2 : looping = false
    · rw [if_pos c2, if_pos c2]
      exact ⟨rfl, h3⟩
    · rw [if_neg c2, if_neg c2, (bufEq_fields s3 t3 h3).2.1]
      have h4 := bufEq_wrap v (s3.dsp_phase_index > uint_add e 1) s3 t3 h3
      generalize (if s3.dsp_phase_index > uint_add e 1 then dsp_wrap v s3 else s3) = s4
        at h4 ⊢
      generalize (if s3.dsp_phase_index > uint_add e 1 then dsp_wrap v t3 else t3) = t4
        at h4 ⊢
      rw [(bufEq_fields s4 t4 h4).1]
      split
      · exact ⟨rfl, h4⟩
      · exact ⟨rfl, h4⟩

theorem cubic_iter_bufEq (E : DspEnv F) (v : fluid_rvoice_dsp_t) (looping : Bool)
    (incr : Nat) (ep1 ep2 : ℚ) (c : CubicVars) (s t : DspState F) (h : BufEq s t) :
    (cubic_iter E v looping incr ep1 ep2 c t).1 = (cubic_iter E v looping incr ep1 ep2 c s).1 ∧
      BufEq (cubic_iter E v looping incr ep1 ep2 c s).2
        (cubic_iter E v looping incr ep1 ep2 c t).2 := by
  simp only [cubic_iter]
  have h1 := bufEq_reindex fluid_phase_index s t h
  generalize ({ s with dsp_phase_index := fluid_phase_index s.dsp_phase } : DspState F)
    = s1 at h1 ⊢
  generalize ({ t with dsp_phase_index := fluid_phase_index t.dsp_phase } : DspState F)
    = t1 at h1 ⊢
  have h2 := dsp_loop_bufEq E fluid_phase_index incr v.amp_incr v.output_rate
    (fun i => decide (i = c.start_index)) (cubic_raw_first E v c.start_point)
    (fun _ _ => rfl) s1 t1 h1
  generalize dsp_loop E fluid_phase_index incr v.amp_incr v.output_rate
    (fun i => decide (i = c.start_index)) (cubic_raw_first E v c.start_point) s1 = s2 at h2 ⊢
  generalize dsp_loop E fluid_phase_index incr v.amp_incr v.output_rate
    (fun i => decide (i = c.start_index)) (cubic_raw_first E v c.start_point) t1 = t2 at h2 ⊢
  have h3 := dsp_loop_bufEq E fluid_phase_index incr v.amp_incr v.output_rate
    (fun i => decide (i ≤ c.end_index)) (cubic_raw E v) (fun _ _ => rfl) s2 t2 h2
  generalize dsp_loop E fluid_phase_index incr v.amp_incr v.output_rate
    (fun i => decide (i ≤ c.end_index)) (cubic_raw E v) s2 = s3 at h3 ⊢
  generalize dsp_loop E fluid_phase_index incr v.amp_incr v.output_rate
    (fun i => decide (i ≤ c.end_index)) (cubic_raw E v) t2 = t3 at h3 ⊢
  rw [(bufEq_fields s3 t3 h3).1]
  by_cases c1 : s3.dsp_i ≥ E.FLUID_BUFSIZE
  · rw [if_pos c1, if_pos c1]
    exact ⟨rfl, h3⟩
  · rw [if_neg c1, if_neg c1]
    have h4 := dsp_loop_bufEq E fluid_phase_index incr v.amp_incr v.output_rate
      (fun i => decide (i ≤ uint_add c.end_index 1)) (cubic_raw_last2 E v ep1)
      (fun _ _ => rfl) s3 t3 h3
    generalize dsp_loop E fluid_phase_index incr v.amp_incr v.output_rate
      (fun i => decide (i ≤ uint_add c.end_index 1)) (cubic_raw_last2 E v ep1) s3 = s4 at h4 ⊢
    generalize dsp_loop E fluid_phase_index incr v.amp_incr v.output_rate
      (fun i => decide (i ≤ uint_add c.end_index 1)) (cubic_raw_last2 E v ep1) t3 = t4 at h4 ⊢
    have h5 := dsp_loop_bufEq E fluid_phase_index incr v.amp_incr v.output_rate
      (fun i => decide (i ≤ uint_add (uint_add c.end_index 1) 1))
      (cubic_raw_last E v ep1 ep2) (fun _ _ => rfl) s4 t4 h4
    generalize dsp_loop E fluid_phase_index incr v.amp_incr v.output_rate
      (fun i => decide (i ≤ uint_add (uint_add c.end_index 1) 1))
      (cubic_raw_last E v ep1 ep2) s4 = s5 at h5 ⊢
    generalize dsp_loop E fluid_phase_index incr v.amp_incr v.output_rate
      (fun i => decide (i ≤ uint_add (uint_add c.end_index 1) 1))
      (cubic_raw_last E v ep1 ep2) t4 = t5 at h5 ⊢
    by_cases c2 : looping = false
    · rw [if_pos c2, if_pos c2]
      exact ⟨rfl, h5⟩
    · rw [if_neg c2, if_neg c2, (bufEq_fields s5 t5 h5).2.1, (bufEq_fields s5 t5 h5).2.2.1]
      have h6 := bufEq_wrap v
        (decide (s5.dsp_phase_index > uint_add (uint_add c.end_index 1) 1) = true) s5 t5 h5
      generalize (if decide (s5.dsp_phase_index > uint_add (uint_add c.end_index 1) 1) = true
        then dsp_wrap v s5 else s5) = s6 at h6 ⊢
      generalize (if decide (s5.dsp_phase_index > uint_add (uint_add c.end_index 1) 1) = true
        then dsp_wrap v t5 else t5) = t6 at h6 ⊢
      rw [(bufEq_fields s6 t6 h6).1]
      split
      · exact ⟨rfl, h6⟩
      · exact ⟨rfl, h6⟩

theorem sinc_iter_bufEq (E : DspEnv F) (v : fluid_rvoice_dsp_t) (looping : Bool)
    (incr : Nat) (ep : Points) (c : SincVars) (s t : DspState F) (h : BufEq s t) :
    (sinc_iter E v looping incr ep c t).1 = (sinc_iter E v looping incr ep c s).1 ∧
      BufEq (sinc_iter E v looping incr ep c s).2 (sinc_iter E v looping incr ep c t).2 := by
  simp only [sinc_iter]
  have h1 := bufEq_reindex fluid_phase_index s t h
  generalize ({ s with dsp_phase_index := fluid_phase_index s.dsp_phase } : DspState F)
    = s1 at h1 ⊢
  generalize ({ t with dsp_phase_index := fluid_phase_index t.dsp_phase } : DspState F)
    = t1 at h1 ⊢
  have h2 := dsp_loop_bufEq E fluid_phase_index incr v.amp_incr v.output_rate
    (fun i => decide (i = c.start_index)) (sinc_raw_first E v c.start_points)
    (fun _ _ => rfl) s1 t1 h1
  generalize dsp_loop E fluid_phase_index incr v.amp_incr v.output_rate
    (fun i => decide (i = c.start_index)) (sinc_raw_first E v c.start_points) s1 = s2 at h2 ⊢
  generalize dsp_loop E fluid_phase_index incr v.amp_incr v.output_rate
    (fun i => decide (i = c.start_index)) (sinc_raw_first E v c.start_points) t1 = t2 at h2 ⊢
  have h3 := dsp_loop_bufEq E fluid_phase_index incr v.amp_incr v.output_rate
    (fun i => decide (i = uint_add c.start_index 1)) (sinc_raw_first2 E v c.start_points)
    (fun _ _ => rfl) s2 t2 h2
  generalize dsp_loop E fluid_phase_index incr v.amp_incr v.output_rate
    (fun i => decide (i = uint_add c.start_index 1)) (sinc_raw_first2 E v c.start_points) s2
    = s3 at h3 ⊢
  generalize dsp_loop E fluid_phase_index incr v.amp_incr v.output_rate
    (fun i => decide (i = uint_add c.start_index 1)) (sinc_raw_first2 E v c.start_points) t2
    = t3 at h3 ⊢
  have h4 := dsp_loop_bufEq E fluid_phase_index incr v.amp_incr v.output_rate
    (fun i => decide (i = uint_add (uint_add c.start_index 1) 1))
    (sinc_raw_first3 E v c.start_points) (fun _ _ => rfl) s3 t3 h3
  generalize dsp_loop E fluid_phase_index incr v.amp_incr v.output_rate
    (fun i => decide (i = uint_add (uint_add c.start_index 1) 1))
    (sinc_raw_first3 E v c.start_points) s3 = s4 at h4 ⊢
  generalize dsp_loop E fluid_phase_index incr v.amp_incr v.output_rate
    (fun i => decide (i = uint_add (uint_add c.start_index 1) 1))
    (sinc_raw_first3 E v c.start_points) t3 = t4 at h4 ⊢
  have h5 := dsp_loop_bufEq E fluid_phase_index incr v.amp_incr v.output_rate
    (fun i => decide (i ≤ c.end_index)) (sinc_raw E v) (fun _ _ => rfl) s4 t4 h4
  generalize dsp_loop E fluid_phase_index incr v.amp_incr v.output_rate
    (fun i => decide (i ≤ c.end_index)) (sinc_raw E v) s4 = s5 at h5 ⊢
  generalize dsp_loop E fluid_phase_index incr v.amp_incr v.output_rate
    (fun i => decide (i ≤ c.end_index)) (sinc_raw E v) t4 = t5 at h5 ⊢
  rw [(bufEq_fields s5 t5 h5).1]
  by_cases c1 : s5.dsp_i ≥ E.FLUID_BUFSIZE
  · rw [if_pos c1, if_pos c1]
    exact ⟨rfl, h5⟩
  · rw [if_neg c1, if_neg c1]
    have h6 := dsp_loop_bufEq E fluid_phase_index incr v.amp_incr v.output_rate
      (fun i => decide (i ≤ uint_add c.end_index 1)) (sinc_raw_last3 E v ep)
      (fun _ _ => rfl) s5 t5 h5
    generalize dsp_loop E fluid_phase_index incr v.amp_incr v.output_rate
      (fun i => decide (i ≤ uint_add c.end_index 1)) (sinc_raw_last3 E v ep) s5 = s6 at h6 ⊢
    generalize dsp_loop E fluid_phase_index incr v.amp_incr v.output_rate
      (fun i => decide (i ≤ uint_add c.end_index 1)) (sinc_raw_last3 E v ep) t5 = t6 at h6 ⊢
    have h7 := dsp_loop_bufEq E fluid_phase_index incr v.amp_incr v.output_rate
      (fun i => decide (i ≤ uint_add (uint_add c.end_index 1) 1)) (sinc_raw_last2 E v ep)
      (fun _ _ => rfl) s6 t6 h6
    generalize dsp_loop E fluid_phase_index incr v.amp_incr v.output_rate
      (fun i => decide (i ≤ uint_add (uint_add c.end_index 1) 1)) (sinc_raw_last2 E v ep) s6
      = s7 at h7 ⊢
    generalize dsp_loop E fluid_phase_index incr v.amp_incr v.output_rate
      (fun i => decide (i ≤ uint_add (uint_add c.end_index 1) 1)) (sinc_raw_last2 E v ep) t6
      = t7 at h7 ⊢
    have h8 := dsp_loop_bufEq E fluid_phase_index incr v.amp_incr v.output_rate
      (fun i => decide (i ≤ uint_add (uint_add (uint_add c.end_index 1) 1) 1))
      (sinc_raw_last E v ep) (fun _ _ => rfl) s7 t7 h7
    generalize dsp_loop E fluid_phase_index incr v.amp_incr v.output_rate
      (fun i => decide (i ≤ uint_add (uint_add (uint_add c.end_index 1) 1) 1))
      (sinc_raw_last E v ep) s7 = s8 at h8 ⊢
    generalize dsp_loop E fluid_phase_index incr v.amp_incr v.output_rate
      (fun i => decide (i ≤ uint_add (uint_add (uint_add c.end_index 1) 1) 1))
      (sinc_raw_last E v ep) t7 = t8 at h8 ⊢
    by_cases c2 : looping = false
    · rw [if_pos c2, if_pos c2]
      exact ⟨rfl, h8⟩
    · rw [if_neg c2, if_neg c2, (bufEq_fields s8 t8 h8).2.1, (bufEq_fields s8 t8 h8).2.2.1]
      have h9 := bufEq_wrap v
        (decide (s8.dsp_phase_index > uint_add (uint_add (uint_add c.end_index 1) 1) 1) = true)
        s8 t8 h8
      generalize (if decide (s8.dsp_phase_index
          > uint_add (uint_add (uint_add c.end_index 1) 1) 1) = true
        then dsp_wrap v s8 else s8) = s9 at h9 ⊢
      generalize (if decide (s8.dsp_phase_index
          > uint_add (uint_add (uint_add c.end_index 1) 1) 1) = true
        then dsp_wrap v t8 else t8) = t9 at h9 ⊢
      rw [(bufEq_fields s9 t9 h9).1]
      split
      · exact ⟨rfl, h9⟩
      · exact ⟨rfl, h9⟩

theorem none_while_bufEq (E : DspEnv F) (v : fluid_rvoice_dsp_t) (looping : Bool)
    (incr e : Nat) : ∀ (fuel : Nat) (s t : DspState F), BufEq s t →
      (none_while E v looping incr e fuel s = none ∧
        none_while E v looping incr e fuel t = none) ∨
      ∃ r1 r2, none_while E v looping incr e fuel s = some r1 ∧
        none_while E v looping incr e fuel t = some r2 ∧ BufEq r1 r2 := by
  intro fuel
  induction fuel with
  | zero => intro s t _; left; exact ⟨rfl, rfl⟩
  | succ fuel ih =>
    intro s t h
    have hi := none_iter_bufEq E v looping incr e s t h
    simp only [none_while]
    rcases hs : none_iter E v looping incr e s with ⟨o1, s1⟩
    rcases ht : none_iter E v looping incr e t with ⟨o2, t1⟩
    rw [hs, ht] at hi
    dsimp only at hi ⊢
    obtain ⟨h1, h2⟩ := hi
    subst h1
    cases o2 with
    | none => exact Or.inr ⟨s1, t1, rfl, rfl, h2⟩
    | some u => exact ih s1 t1 h2

theorem linear_while_bufEq (E : DspEnv F) (v : fluid_rvoice_dsp_t) (looping : Bool)
    (incr : Nat) (point : ℚ) : ∀ (fuel e : Nat) (s t : DspState F), BufEq s t →
      (linear_while E v looping incr point fuel e s = none ∧
        linear_while E v looping incr point fuel e t = none) ∨
      ∃ r1 r2, linear_while E v looping incr point fuel e s = some r1 ∧
        linear_while E v looping incr point fuel e t = some r2 ∧ BufEq r1 r2 := by
  intro fuel
  induction fuel with
  | zero => intro e s t _; left; exact ⟨rfl, rfl⟩
  | succ fuel ih =>
    intro e s t h
    have hi := linear_iter_bufEq E v looping incr point e s t h
    simp only [linear_while]
    rcases hs : linear_iter E v looping incr point e s with ⟨o1, s1⟩
    rcases ht : linear_iter E v looping incr point e t with ⟨o2, t1⟩
    rw [hs, ht] at hi
    dsimp only at hi ⊢
    obtain ⟨h1, h2⟩ := hi
    subst h1
    cases o2 with
    | none => exact Or.inr ⟨s1, t1, rfl, rfl, h2⟩
    | some e1 => exact ih e1 s1 t1 h2

theorem cubic_while_bufEq (E : DspEnv F) (v : fluid_rvoice_dsp_t) (looping : Bool)
    (incr : Nat) (ep1 ep2 : ℚ) : ∀ (fuel : Nat) (c : CubicVars) (s t : DspState F), BufEq s t →
      (cubic_while E v looping incr ep1 ep2 fuel c s = none ∧
        cubic_while E v looping incr ep1 ep2 fuel c t = none) ∨
      ∃ r1 r2, cubic_while E v looping incr ep1 ep2 fuel c s = some r1 ∧
        cubic_while E v looping incr ep1 ep2 fuel c t = some r2 ∧ BufEq r1 r2 := by
  intro fuel
  induction fuel with
  | zero => intro c s t _; left; exact ⟨rfl, rfl⟩
  | succ fuel ih =>
    intro c s t h
    have hi := cubic_iter_bufEq E v looping incr ep1 ep2 c s t h
    simp only [cubic_while]
    rcases hs : cubic_iter E v looping incr ep1 ep2 c s with ⟨o1, s1⟩
    rcases ht : cubic_iter E v looping incr ep1 ep2 c t with ⟨o2, t1⟩
    rw [hs, ht] at hi
    dsimp only at hi ⊢
    obtain ⟨h1, h2⟩ := hi
    subst h1
    cases o2 with
    | none => exact Or.inr ⟨s1, t1, rfl, rfl, h2⟩
    | some c1 => exact ih c1 s1 t1 h2

theorem sinc_while_bufEq (E : DspEnv F) (v : fluid_rvoice_dsp_t) (looping : Bool)
    (incr : Nat) (ep : Points) : ∀ (fuel : Nat) (c : SincVars) (s t : DspState F), BufEq s t →
      (sinc_while E v looping incr ep fuel c s = none ∧
        sinc_while E v looping incr ep fuel c t = none) ∨
      ∃ r1 r2, sinc_while E v looping incr ep fuel c s = some r1 ∧
        sinc_while E v looping incr ep fuel c t = some r2 ∧ BufEq r1 r2 := by
  intro fuel
  induction fuel with
  | zero => intro c s t _; left; exact ⟨rfl, rfl⟩
  | succ fuel ih =>
    intro c s t h
    have hi := sinc_iter_bufEq E v looping incr ep c s t h
    simp only [sinc_while]
    rcases hs : sinc_iter E v looping incr ep c s with ⟨o1, s1⟩
    rcases ht : sinc_iter E v looping incr ep c t with ⟨o2, t1⟩
    rw [hs, ht] at hi
    dsimp only at hi ⊢
    obtain ⟨h1, h2⟩ := hi
    subst h1
    cases o2 with
    | none => exact Or.inr ⟨s1, t1, rfl, rfl, h2⟩
    | some c1 => exact ih c1 s1 t1 h2

theorem sameBut_of_bufEq (rvoice : fluid_rvoice_t F) (g : Nat → Nat)
    (a b : Option (DspState F))
    (h : (a = none ∧ b = none) ∨ ∃ r1 r2, a = some r1 ∧ b = some r2 ∧ BufEq r1 r2) :
    SameBut (a.map (fun s => dsp_finish rvoice (g s.dsp_phase) s))
      (b.map (fun s => dsp_finish rvoice (g s.dsp_phase) s)) := by
  rcases h with ⟨h1, h2⟩ | ⟨r1, r2, h1, h2, h3⟩
  · subst h1 h2
    exact Or.inl ⟨rfl, rfl⟩
  · subst h1 h2
    obtain ⟨b, rfl⟩ := h3
    exact Or.inr ⟨_, _, rfl, rfl, rfl, rfl, rfl, rfl⟩

theorem four_kernels_bufEq (E : DspEnv F) :
    four_kernels E (fun render => ∀ (rvoice : fluid_rvoice_t F) (buf1 buf2 : Nat → ℚ)
      (looping : Bool) (fuel : Nat),
      SameBut (render fuel rvoice buf1 looping) (render fuel rvoice buf2 looping)) := by
  refine ⟨?_, ?_, ?_, ?_⟩
  · intro rvoice buf1 buf2 looping fuel
    exact sameBut_of_bufEq rvoice id _ _
      (none_while_bufEq E rvoice.dsp looping _ _ fuel _ _ ⟨buf2, rfl⟩)
  · intro rvoice buf1 buf2 looping fuel
    exact sameBut_of_bufEq rvoice id _ _
      (linear_while_bufEq E rvoice.dsp looping _ _ fuel _ _ _ ⟨buf2, rfl⟩)
  · intro rvoice buf1 buf2 looping fuel
    exact sameBut_of_bufEq rvoice id _ _
      (cubic_while_bufEq E rvoice.dsp looping _ _ _ fuel _ _ _ ⟨buf2, rfl⟩)
  · intro rvoice buf1 buf2 looping fuel
    exact sameBut_of_bufEq rvoice (fun p => fluid_phase_decr p 0x80000000) _ _
      (sinc_while_bufEq E rvoice.dsp looping _ _ fuel _ _ _ ⟨buf2, rfl⟩)

theorem fieldsEq_eq (u w : fluid_rvoice_t F) (h : FieldsEq u w) : u = w := by
  obtain ⟨h1, h2, h3, h4, h5, h6, h7, h8, h9, h10, h11, h12, h13, h14⟩ := h
  obtain ⟨⟨a1, a2, a3, a4, a5, a6, a7, a8, a9, a10, ⟨d, d24⟩⟩, f1, f2⟩ := u
  obtain ⟨⟨b1, b2, b3, b4, b5, b6, b7, b8, b9, b10, ⟨e, e24⟩⟩, g1, g2⟩ := w
  simp only at h1 h2 h3 h4 h5 h6 h7 h8 h9 h10 h11 h12 h13 h14
  have hd : d = e := funext h11
  subst h1 h2 h3 h4 h5 h6 h7 h8 h9 h10 hd h12 h13 h14
  rfl

theorem stopsAtEnd_of_trace (E : DspEnv F) (v : fluid_rvoice_dsp_t) (ph0 incr : Nat)
    (out : RenderOut F) (R : Bool → Nat → ℚ → Prop)
    (hret : out.ret ≤ E.FLUID_BUFSIZE) (hw : out.wraps = 0)
    (htr : Traced v false ph0 incr R out)
    (hexit : out.ret < E.FLUID_BUFSIZE → v.end_ < fluid_phase_index (ph0 + out.ret * incr)) :
    StopsAtEnd E v ph0 incr out := by
  have hb : ∀ k, k < out.ret → fluid_phase_index (ph0 + k * incr) ≤ v.end_ := by
    intro k hk
    obtain ⟨p, w, hw1, hp, _, hle, _⟩ := htr k hk
    have hw0 : w = 0 := by omega
    subst hw0
    simp only [last_index, Bool.false_eq_true, if_false] at hle
    have hA : (k : Int) * (incr : Int) = ((k * incr : Nat) : Int) := by
      push_cast; rfl
    rw [hA] at hp
    generalize k * incr = A at hp ⊢
    simp only [Nat.cast_zero, zero_mul, sub_zero] at hp
    unfold fluid_phase_index at hle ⊢
    omega
  refine ⟨hret, hb, hexit, ?_, ?_⟩
  · intro n hn hleast
    have hle : out.ret ≤ n := by
      by_contra hc
      have := hb n (by omega)
      omega
    by_cases hlt : out.ret < E.FLUID_BUFSIZE
    · have h3 := hexit hlt
      have hge : n ≤ out.ret := by
        by_contra hc
        have := hleast _ (by omega : out.ret < n)
        omega
      omega
    · omega
  · intro hall
    by_contra hc
    have h3 := hexit (by omega)
    have := hall out.ret
    omega

theorem stored_phase_nonlooping (E : DspEnv F) (rvoice : fluid_rvoice_t F) (buf0 : Nat → ℚ)
    (out : RenderOut F) (hph : rvoice.dsp.phase < 2 ^ 64)
    (hp : RenderPost E rvoice buf0 out) (hw : out.wraps = 0) :
    out.rvoice.dsp.phase
      = (rvoice.dsp.phase + out.ret * fluid_phase_set_float rvoice.dsp.phase_incr)
        % 2 ^ 64 := by
  have h1 := hp.phase hph
  rw [hw] at h1
  have hA : (out.ret : Int) * (fluid_phase_set_float rvoice.dsp.phase_incr : Int)
      = ((out.ret * fluid_phase_set_float rvoice.dsp.phase_incr : Nat) : Int) := by
    push_cast; rfl
  rw [hA] at h1
  generalize out.ret * fluid_phase_set_float rvoice.dsp.phase_incr = A at h1 ⊢
  push_cast at h1
  omega

theorem linear_stops (E : DspEnv F) (rvoice : fluid_rvoice_t F) (buf0 : Nat → ℚ)
    (hok : TraceOk rvoice.dsp false rvoice.dsp.phase
      (fluid_phase_set_float rvoice.dsp.phase_incr) 1)
    (fuel : Nat) (out : RenderOut F)
    (h : fluid_rvoice_dsp_interpolate_linear E fuel rvoice buf0 false = some out) :
    StopsAtEnd E rvoice.dsp rvoice.dsp.phase (fluid_phase_set_float rvoice.dsp.phase_incr)
      out := by
  have hp := ((four_kernels_post E).2.1 rvoice buf0 false).2 fuel out h
  have hw := (four_kernels_nonlooping E).2.1 rvoice buf0 fuel out h
  have ht := linear_render_traced E rvoice buf0 false (fun _ _ _ => True) hok
    (fun _ _ _ _ _ _ => trivial) (fun _ _ _ _ _ _ => trivial) fuel out h
  refine stopsAtEnd_of_trace E rvoice.dsp _ _ out _ hp.ret_le hw ht.1 (fun hlt => ?_)
  have h1 := ht.2 rfl hlt
  rw [stored_phase_nonlooping E rvoice buf0 out hok.1 hp hw] at h1
  simp only [last_index, Bool.false_eq_true, if_false] at h1
  generalize out.ret * fluid_phase_set_float rvoice.dsp.phase_incr = A at h1 ⊢
  unfold fluid_phase_index at h1 ⊢
  omega

theorem cubic_stops (E : DspEnv F) (rvoice : fluid_rvoice_t F) (buf0 : Nat → ℚ)
    (hok : TraceOk rvoice.dsp false rvoice.dsp.phase
      (fluid_phase_set_float rvoice.dsp.phase_incr) 2)
    (hlead : LeadOk rvoice.dsp false 0)
    (fuel : Nat) (out : RenderOut F)
    (h : fluid_rvoice_dsp_interpolate_4th_order E fuel rvoice buf0 false = some out) :
    StopsAtEnd E rvoice.dsp rvoice.dsp.phase (fluid_phase_set_float rvoice.dsp.phase_incr)
      out := by
  have hp := ((four_kernels_post E).2.2.1 rvoice buf0 false).2 fuel out h
  have hw := (four_kernels_nonlooping E).2.2.1 rvoice buf0 fuel out h
  have ht := cubic_render_traced E rvoice buf0 false (fun _ _ _ => True) hok hlead
    (fun _ _ _ _ _ => trivial) (fun _ _ _ _ _ _ => trivial) (fun _ _ _ _ _ _ => trivial)
    (fun _ _ _ _ _ _ => trivial) fuel out h
  refine stopsAtEnd_of_trace E rvoice.dsp _ _ out _ hp.ret_le hw ht.1 (fun hlt => ?_)
  have h1 := ht.2 rfl hlt
  rw [stored_phase_nonlooping E rvoice buf0 out hok.1 hp hw] at h1
  simp only [last_index, Bool.false_eq_true, if_false] at h1
  generalize out.ret * fluid_phase_set_float rvoice.dsp.phase_incr = A at h1 ⊢
  unfold fluid_phase_index at h1 ⊢
  omega

theorem sinc_stops (E : DspEnv F) (rvoice : fluid_rvoice_t F) (buf0 : Nat → ℚ)
    (hph : rvoice.dsp.phase < 2 ^ 64)
    (hok : TraceOk rvoice.dsp false (fluid_phase_incr rvoice.dsp.phase 0x80000000)
      (fluid_phase_set_float rvoice.dsp.phase_incr) 3)
    (hlead : LeadOk rvoice.dsp false 2)
    (fuel : Nat) (out : RenderOut F)
    (h : fluid_rvoice_dsp_interpolate_7th_order E fuel rvoice buf0 false = some out) :
    StopsAtEnd E rvoice.dsp (fluid_phase_incr rvoice.dsp.phase 0x80000000)
      (fluid_phase_set_float rvoice.dsp.phase_incr) out := by
  have hp := ((four_kernels_post E).2.2.2 rvoice buf0 false).2 fuel out h
  have hw := (four_kernels_nonlooping E).2.2.2 rvoice buf0 fuel out h
  have ht := sinc_render_traced E rvoice buf0 false (fun _ _ _ => True) hok hlead
    (fun _ _ _ _ _ => trivial) (fun _ _ _ _ _ => trivial) (fun _ _ _ _ _ => trivial)
    (fun _ _ _ _ _ _ => trivial) (fun _ _ _ _ _ _ => trivial) (fun _ _ _ _ _ _ => trivial)
    (fun _ _ _ _ _ _ => trivial) fuel out h
  refine stopsAtEnd_of_trace E rvoice.dsp _ _ out _ hp.ret_le hw ht.1 (fun hlt => ?_)
  have h1 := ht.2 rfl hlt
  rw [stored_phase_nonlooping E rvoice buf0 out hph hp hw] at h1
  simp only [last_index, Bool.false_eq_true, if_false] at h1
  generalize out.ret * fluid_phase_set_float rvoice.dsp.phase_incr = A at h1 ⊢
  unfold fluid_phase_index_round at h1
  unfold fluid_phase_index fluid_phase_incr
  omega

end loops

/-! ## Lemmas on the system utilities -/

section syslemmas

theorem uint_sub_of_le (a b : Nat) (hb : b ≤ a) (ha : a < 2 ^ 32) : uint_sub a b = a - b := by
  unfold uint_sub
  omega

theorem fluid_align_ptr_eq (bits p k : Nat) (hk : 2 ^ k < 2 ^ 32) (hp : p + 2 ^ k ≤ 2 ^ bits) :
    fluid_align_ptr bits p (2 ^ k) = p + (2 ^ k - p % 2 ^ k) % 2 ^ k := by
  have hpos : 0 < 2 ^ k := Nat.two_pow_pos k
  have hm : p % 2 ^ k < 2 ^ k := Nat.mod_lt _ hpos
  simp only [fluid_align_ptr]
  rw [uint_sub_of_le _ 1 hpos hk, Nat.mod_eq_of_lt (by omega : p < 2 ^ bits)]
  simp only [Nat.and_pow_two_sub_one_eq_mod]
  rw [Nat.mod_eq_of_lt (by omega : p % 2 ^ k < 2 ^ 32), uint_sub_of_le _ _ (by omega) hk]
  have := Nat.mod_lt (2 ^ k - p % 2 ^ k) hpos
  exact Nat.mod_eq_of_lt (by omega)

theorem align_up_props (p a : Nat) (ha : 0 < a) :
    (p + (a - p % a) % a) % a = 0 ∧ p ≤ p + (a - p % a) % a ∧
      p + (a - p % a) % a < p + a ∧ (p % a = 0 → p + (a - p % a) % a = p) := by
  have hm : p % a < a := Nat.mod_lt _ ha
  have hlt := Nat.mod_lt (a - p % a) ha
  refine ⟨?_, by omega, by omega, fun h => ?_⟩
  · by_cases h0 : p % a = 0
    · rw [h0, Nat.sub_zero, Nat.mod_self, Nat.add_zero]
      exact h0
    · rw [Nat.mod_eq_of_lt (by omega : a - p % a < a)]
      have h1 : p + (a - p % a) = a * (p / a + 1) := by
        have := Nat.div_add_mod p a
        rw [Nat.mul_add, Nat.mul_one]
        omega
      rw [h1]
      exact Nat.mul_mod_right _ _
  · rw [h, Nat.sub_zero, Nat.mod_self, Nat.add_zero]

theorem profile_clear_loop_spec (n i : Nat) (data : Nat → fluid_profile_data_t) (j : Nat) :
    profile_clear_loop n i data j
      = if i ≤ j ∧ j < i + n then
          { data j with min := 10000000000, max := 0, total := 0, count := 0, n_voices := 0,
                        n_samples := 0 }
        else data j := by
  induction n generalizing i data with
  | zero =>
    simp only [profile_clear_loop]
    rw [if_neg (by omega)]
  | succ n ih =>
    simp only [profile_clear_loop]
    rw [ih]
    by_cases h1 : j = i
    · subst h1
      rw [if_neg (by omega), if_pos (by omega)]
      simp only [profile_clear_entry, if_true]
    · by_cases h2 : i ≤ j ∧ j < i + (n + 1)
      · rw [if_pos (by omega), if_pos h2]
        simp only [profile_clear_entry, if_neg h1]
      · rw [if_neg (by omega), if_neg h2]
        simp only [profile_clear_entry, if_neg h1]

theorem split_runs_nil (p : Nat → Bool) : split_runs p [] = [] := by
  simp [split_runs]

theorem split_runs_cons_sep (p : Nat → Bool) (c : Nat) (s : List Nat) (h : p c = true) :
    split_runs p (c :: s) = split_runs p s := by
  simp [split_runs, h]

theorem split_runs_seps (p : Nat → Bool) (pre s : List Nat) (h : ∀ x ∈ pre, p x = true) :
    split_runs p (pre ++ s) = split_runs p s := by
  induction pre with
  | nil => rfl
  | cons a pre ih =>
    rw [List.cons_append, split_runs_cons_sep p a _ (h a (List.mem_cons_self _ _))]
    exact ih (fun x hx => h x (List.mem_cons_of_mem _ hx))

theorem split_runs_first (p : Nat → Bool) (xs : List Nat) (sep : Nat) (as : List Nat)
    (h : ∀ x ∈ xs, p x = false) (hx : xs ≠ []) (hsep : p sep = true) :
    split_runs p (xs ++ sep :: as) = xs :: split_runs p as := by
  unfold split_runs
  rw [List.splitOnP_first p xs (fun x hx => by simp [h x hx]) sep hsep]
  cases xs with
  | nil => exact absurd rfl hx
  | cons a xs => simp

theorem split_runs_single (p : Nat → Bool) (xs : List Nat)
    (h : ∀ x ∈ xs, p x = false) (hx : xs ≠ []) : split_runs p xs = [xs] := by
  unfold split_runs
  rw [List.splitOnP_eq_single p xs (fun x hx => by simp [h x hx])]
  cases xs with
  | nil => exact absurd rfl hx
  | cons a xs => simp

theorem split_runs_all_seps (p : Nat → Bool) (pre : List Nat) (h : ∀ x ∈ pre, p x = true) :
    split_runs p pre = [] := by
  have := split_runs_seps p pre [] h
  rw [List.append_nil] at this
  rw [this, split_runs_nil]

theorem take_append_replicate {α : Type} (a : α) (X : List α) (n k : Nat) (hk : n ≤ k) :
    (X ++ List.replicate k a).take n = (X ++ List.replicate n a).take n := by
  induction X generalizing n k with
  | nil =>
    simp only [List.nil_append, List.take_replicate]
    rw [Nat.min_eq_left hk, Nat.min_self]
  | cons x X ih =>
    cases n with
    | zero => rfl
    | succ n =>
      simp only [List.cons_append, List.take_succ_cons]
      rw [ih n k (by omega), ← ih n (n + 1) (by omega)]

theorem delim_match_iff (c : Nat) (d : List Nat) : delim_match c d = true ↔ c ∈ cstr d 0 := by
  unfold cstr
  rw [List.drop_zero]
  induction d with
  | nil => simp [delim_match]
  | cons a d ih =>
    by_cases ha : a = 0
    · simp [delim_match, ha]
    · by_cases hc : c = a
      · simp [delim_match, ha, hc]
      · simp only [delim_match, if_neg ha, if_neg hc]
        rw [ih, List.takeWhile_cons_of_pos (by simpa using ha)]
        simp [hc]

theorem skip_delim_some (d l : List Nat) (s t : Nat) (h : skip_delim d l s = some t) :
    ∃ pre c post, l = pre ++ c :: post ∧ t = s + pre.length ∧ c ≠ 0 ∧
      delim_match c d = false ∧ ∀ x ∈ pre, x ≠ 0 ∧ delim_match x d = true := by
  induction l generalizing s with
  | nil => simp [skip_delim] at h
  | cons a l ih =>
    simp only [skip_delim] at h
    by_cases ha : a = 0
    · rw [if_pos ha] at h
      cases h
    · rw [if_neg ha] at h
      by_cases hm : delim_match a d = true
      · rw [if_pos hm] at h
        obtain ⟨pre, c, post, h1, h2, h3, h4, h5⟩ := ih (s + 1) h
        refine ⟨a :: pre, c, post, by rw [h1]; rfl, by simp only [List.length_cons]; omega,
          h3, h4, ?_⟩
        intro x hx
        rcases List.mem_cons.mp hx with hx | hx
        · subst hx
          exact ⟨ha, hm⟩
        · exact h5 x hx
      · rw [if_neg hm] at h
        cases h
        exact ⟨[], a, l, rfl, rfl, ha, by simpa using hm, fun x hx => by cases hx⟩

theorem skip_delim_none (d l : List Nat) (s : Nat) (h : skip_delim d l s = none) :
    ∀ x ∈ l.takeWhile (fun c => c ≠ 0), delim_match x d = true := by
  induction l generalizing s with
  | nil => simp
  | cons a l ih =>
    simp only [skip_delim] at h
    by_cases ha : a = 0
    · simp [ha]
    · rw [if_neg ha] at h
      by_cases hm : delim_match a d = true
      · rw [if_pos hm] at h
        rw [List.takeWhile_cons_of_pos (by simpa using ha)]
        intro x hx
        rcases List.mem_cons.mp hx with hx | hx
        · subst hx
          exact hm
        · exact ih (s + 1) h x hx
      · rw [if_neg hm] at h
        cases h

theorem find_delim_some (d l : List Nat) (s q : Nat) (h : find_delim d l s = some q) :
    ∃ mid e post, l = mid ++ e :: post ∧ q = s + mid.length ∧ e ≠ 0 ∧
      delim_match e d = true ∧ ∀ x ∈ mid, x ≠ 0 ∧ delim_match x d = false := by
  induction l generalizing s with
  | nil => simp [find_delim] at h
  | cons a l ih =>
    simp only [find_delim] at h
    by_cases ha : a = 0
    · rw [if_pos ha] at h
      cases h
    · rw [if_neg ha] at h
      by_cases hm : delim_match a d = true
      · rw [if_pos hm] at h
        cases h
        exact ⟨[], a, l, rfl, rfl, ha, hm, fun x hx => by cases hx⟩
      · rw [if_neg hm] at h
        obtain ⟨mid, e, post, h1, h2, h3, h4, h5⟩ := ih (s + 1) h
        refine ⟨a :: mid, e, post, by rw [h1]; rfl, by simp only [List.length_cons]; omega,
          h3, h4, ?_⟩
        intro x hx
        rcases List.mem_cons.mp hx with hx | hx
        · subst hx
          exact ⟨ha, by simpa using hm⟩
        · exact h5 x hx

theorem find_delim_none (d l : List Nat) (s : Nat) (h : find_delim d l s = none) :
    ∀ x ∈ l.takeWhile (fun c => c ≠ 0), delim_match x d = false := by
  induction l generalizing s with
  | nil => simp
  | cons a l ih =>
    simp only [find_delim] at h
    by_cases ha : a = 0
    · simp [ha]
    · rw [if_neg ha] at h
      by_cases hm : delim_match a d = true
      · rw [if_pos hm] at h
        cases h
      · rw [if_neg hm] at h
        rw [List.takeWhile_cons_of_pos (by simpa using ha)]
        intro x hx
        rcases List.mem_cons.mp hx with hx | hx
        · subst hx
          simpa using hm
        · exact ih (s + 1) h x hx

theorem takeWhile_nonzero_append (xs ys : List Nat) (h : ∀ x ∈ xs, x ≠ 0) :
    (xs ++ ys).takeWhile (fun c => c ≠ 0) = xs ++ ys.takeWhile (fun c => c ≠ 0) :=
  List.takeWhile_append_of_pos (fun a ha => by simpa using h a ha)

theorem drop_of_drop_append (mem : List Nat) (s : Nat) (xs ys : List Nat)
    (h : mem.drop s = xs ++ ys) : mem.drop (s + xs.length) = ys := by
  rw [← List.drop_drop, h, List.drop_left]

theorem set_length_mid (xs : List Nat) (e x : Nat) (ys : List Nat) :
    (xs ++ e :: ys).set xs.length x = xs ++ x :: ys := by
  induction xs with
  | nil => rfl
  | cons a xs ih => simp only [List.cons_append, List.length_cons, List.set_cons_succ, ih]

theorem strtok_cases (mem : List Nat) (s : Nat) (d : List Nat) (hd : d.headD 0 ≠ 0) :
    ((∀ x ∈ cstr mem s, delim_match x d = true) ∧
      fluid_strtok mem (some (some s)) (some d)
        = { token := none, str := some none, mem := mem }) ∨
    (∃ pre tok e post, mem.drop s = pre ++ tok ++ e :: post ∧
      (∀ x ∈ pre, x ≠ 0 ∧ delim_match x d = true) ∧ tok ≠ [] ∧
      (∀ x ∈ tok, x ≠ 0 ∧ delim_match x d = false) ∧ e ≠ 0 ∧ delim_match e d = true ∧
      fluid_strtok mem (some (some s)) (some d)
        = { token := some (s + pre.length)
            str := some (some (s + pre.length + tok.length + 1))
            mem := mem.set (s + pre.length + tok.length) 0 } ∧
      cstr (mem.set (s + pre.length + tok.length) 0) (s + pre.length) = tok ∧
      (mem.set (s + pre.length + tok.length) 0).drop (s + pre.length + tok.length + 1)
        = post) ∨
    (∃ pre tok, cstr mem s = pre ++ tok ∧ (∀ x ∈ pre, delim_match x d = true) ∧ tok ≠ [] ∧
      (∀ x ∈ tok, delim_match x d = false) ∧
      fluid_strtok mem (some (some s)) (some d)
        = { token := some (s + pre.length), str := some none, mem := mem } ∧
      cstr mem (s + pre.length) = tok) := by
  simp only [fluid_strtok, if_neg hd]
  cases hskip : skip_delim d (mem.drop s) s with
  | none => exact Or.inl ⟨skip_delim_none d _ s hskip, rfl⟩
  | some t =>
    obtain ⟨pre, c, post0, hl, ht, hc0, hcd, hpre⟩ := skip_delim_some d _ s t hskip
    subst ht
    have hdt : mem.drop (s + pre.length) = c :: post0 := drop_of_drop_append mem s pre _ hl
    have hdt1 : mem.drop (s + pre.length + 1) = post0 := by
      rw [← List.drop_drop, hdt]
      rfl
    simp only [hdt1]
    cases hfind : find_delim d post0 (s + pre.length + 1) with
    | none =>
      refine Or.inr (Or.inr ⟨pre, c :: post0.takeWhile (fun c => c ≠ 0), ?_,
        fun x hx => (hpre x hx).2, List.cons_ne_nil _ _, ?_, rfl, ?_⟩)
      · unfold cstr
        rw [hl, takeWhile_nonzero_append _ _ (fun x hx => (hpre x hx).1),
          List.takeWhile_cons_of_pos (by simpa using hc0)]
      · intro x hx
        rcases List.mem_cons.mp hx with hx | hx
        · subst hx
          exact hcd
        · exact find_delim_none d post0 _ hfind x hx
      · unfold cstr
        rw [hdt, List.takeWhile_cons_of_pos (by simpa using hc0)]
    | some q =>
      obtain ⟨mid, e, post, hp, hq, he0, hed, hmid⟩ := find_delim_some d post0 _ q hfind
      subst hq
      have hq1 : s + pre.length + 1 + mid.length = s + pre.length + (c :: mid).length := by
        simp only [List.length_cons]
        omega
      have htok : ∀ x ∈ c :: mid, x ≠ 0 ∧ delim_match x d = false := by
        intro x hx
        rcases List.mem_cons.mp hx with hx | hx
        · subst hx
          exact ⟨hc0, hcd⟩
        · exact hmid x hx
      refine Or.inr (Or.inl ⟨pre, c :: mid, e, post, ?_, hpre, List.cons_ne_nil _ _, htok, he0,
        hed, ?_, ?_, ?_⟩)
      · rw [hl, hp]
        simp
      · simp only [hq1]
      · unfold cstr
        rw [List.drop_set, if_neg (by omega), hdt, hp,
          (by omega : s + pre.length + (c :: mid).length - (s + pre.length) = (c :: mid).length),
          ← List.cons_append, set_length_mid, takeWhile_nonzero_append _ _ (fun x hx => (htok x hx).1)]
        simp
      · have h3 : mem.drop (s + pre.length + 1 + mid.length) = e :: post :=
          drop_of_drop_append mem _ mid _ (hdt1.trans hp)
        have h4 : mem.drop (s + pre.length + 1 + mid.length + 1) = post := by
          rw [← List.drop_drop, h3]
          rfl
        rw [List.drop_set_of_lt _ _ (by omega), ← hq1]
        exact h4

theorem strtok_calls_null (d : List Nat) (n : Nat) (mem : List Nat) :
    strtok_calls d n mem none = List.replicate n none := by
  induction n with
  | zero => rfl
  | succ n ih =>
    have h : fluid_strtok mem (some none) (some d)
        = { token := none, str := some none, mem := mem } := by
      by_cases hd : d.headD 0 = 0
      · simp only [fluid_strtok, if_pos hd]
      · simp only [fluid_strtok, if_neg hd]
    simp only [strtok_calls, h, Option.map_none', Option.join, Option.some_bind, id, ih,
      List.replicate_succ]

theorem strtok_calls_spec (d : List Nat) (hd : d.headD 0 ≠ 0) (m : Nat) :
    ∀ (mem : List Nat) (s : Nat), (mem.drop s).length ≤ m → ∀ n,
      strtok_calls d n mem (some s)
        = (((split_runs (fun c => delim_match c d) (cstr mem s)).map some)
            ++ List.replicate n none).take n := by
  induction m with
  | zero =>
    intro mem s hlen n
    cases n with
    | zero => rfl
    | succ n =>
      rcases strtok_cases mem s d hd with ⟨h1, h2⟩ | ⟨pre, tok, e, post, h1, _⟩ |
        ⟨pre, tok, h1, h2, h3, h4, h5, h6⟩
      · simp only [strtok_calls, h2, Option.map_none', Option.join, Option.some_bind, id,
          strtok_calls_null]
        rw [split_runs_all_seps _ _ h1]
        simp [List.replicate_succ]
      · rw [h1] at hlen
        simp at hlen
      · have : cstr mem s = [] := by
          unfold cstr
          rw [List.eq_nil_of_length_eq_zero (by omega : (mem.drop s).length = 0)]
          rfl
        rw [this] at h1
        have := List.append_eq_nil.mp h1.symm
        exact absurd this.2 h3
  | succ m ih =>
    intro mem s hlen n
    cases n with
    | zero => rfl
    | succ n =>
      rcases strtok_cases mem s d hd with ⟨h1, h2⟩ |
        ⟨pre, tok, e, post, h1, h2, h3, h4, h5, h6, h7, h8, h9⟩ |
        ⟨pre, tok, h1, h2, h3, h4, h5, h6⟩
      · simp only [strtok_calls, h2, Option.map_none', Option.join, Option.some_bind, id,
          strtok_calls_null]
        rw [split_runs_all_seps _ _ h1]
        simp [List.replicate_succ]
      · simp only [strtok_calls, h7, Option.map_some', Option.join, Option.some_bind, id]
        rw [h8, ih _ _ (by
          rw [h9]
          rw [h1] at hlen
          simp only [List.length_append, List.length_cons] at hlen
          omega) n]
        have hc : cstr mem s = pre ++ (tok ++ e :: post.takeWhile (fun c => c ≠ 0)) := by
          unfold cstr
          rw [h1, List.append_assoc, takeWhile_nonzero_append _ _ (fun x hx => (h2 x hx).1),
            takeWhile_nonzero_append _ _ (fun x hx => (h4 x hx).1),
            List.takeWhile_cons_of_pos (by simpa using h5)]
        have hc2 : cstr (mem.set (s + pre.length + tok.length) 0)
            (s + pre.length + tok.length + 1) = post.takeWhile (fun c => c ≠ 0) := by
          unfold cstr
          rw [h9]
        rw [hc, hc2, split_runs_seps _ _ _ (fun x hx => (h2 x hx).2),
          split_runs_first _ _ _ _ (fun x hx => (h4 x hx).2) h3 h6]
        simp only [List.map_cons, List.cons_append, List.take_succ_cons]
        rw [take_append_replicate none _ n (n + 1) (by omega)]
      · simp only [strtok_calls, h5, Option.map_some', Option.join, Option.some_bind, id,
          strtok_calls_null]
        rw [h6, h1, split_runs_seps _ _ _ h2, split_runs_single _ _ h4 h3]
        simp only [List.map_cons, List.map_nil, List.cons_append, List.nil_append,
          List.take_succ_cons]
        rw [List.take_replicate, Nat.min_eq_left (by omega)]

theorem delim_match_fun (d : List Nat) :
    (fun c => delim_match c d) = (fun c => decide (c ∈ cstr d 0)) := by
  funext c
  rw [Bool.eq_iff_iff]
  simp [delim_match_iff]

theorem strtok_calls_runs (mem : List Nat) (s : Nat) (d : List Nat) (hd : d.headD 0 ≠ 0)
    (k : Nat) :
    strtok_calls d ((split_runs (fun c => decide (c ∈ cstr d 0)) (cstr mem s)).length + k)
        mem (some s)
      = (split_runs (fun c => decide (c ∈ cstr d 0)) (cstr mem s)).map some
          ++ List.replicate k none := by
  rw [strtok_calls_spec d hd _ mem s (le_refl _), delim_match_fun]
  generalize split_runs (fun c => decide (c ∈ cstr d 0)) (cstr mem s) = runs
  have h := @List.take_append _ (runs.map some) (List.replicate (runs.length + k) none) k
  rw [List.length_map] at h
  rw [h, List.take_replicate, Nat.min_eq_left (by omega)]

theorem getD_of_drop (mem : List Nat) (i e : Nat) (post : List Nat)
    (h : mem.drop i = e :: post) : mem.getD i 0 = e := by
  induction mem generalizing i with
  | nil => simp at h
  | cons a mem ih =>
    cases i with
    | zero =>
      simp only [List.drop_zero, List.cons.injEq] at h
      simp [h.1]
    | succ i =>
      simp only [List.drop_succ_cons] at h
      simpa using ih i h

theorem strtok_token_valid (mem : List Nat) (str : Option (Option Nat))
    (delim : Option (List Nat)) (t : Nat)
    (h : (fluid_strtok mem str delim).token = some t) :
    ∃ s d, str = some (some s) ∧ delim = some d ∧ d.headD 0 ≠ 0 := by
  cases str with
  | none => cases h
  | some p =>
    cases delim with
    | none => cases h
    | some d =>
      by_cases hd : d.headD 0 = 0
      · simp only [fluid_strtok, if_pos hd] at h
        cases h
      · cases p with
        | none =>
          simp only [fluid_strtok, if_neg hd] at h
          cases h
        | some s => exact ⟨s, d, rfl, rfl, hd⟩

theorem strtok_null_str (mem : List Nat) (p : Option Nat) (d : List Nat) (hd : d.headD 0 ≠ 0)
    (h : (fluid_strtok mem (some p) (some d)).token = none) :
    (fluid_strtok mem (some p) (some d)).str = some none := by
  cases p with
  | none => simp only [fluid_strtok, if_neg hd]
  | some s =>
    rcases strtok_cases mem s d hd with ⟨_, h2⟩ | ⟨pre, tok, e, post, _, _, _, _, _, _, h7, _⟩ |
      ⟨pre, tok, _, _, _, _, h5, _⟩
    · rw [h2]
    · rw [h7] at h
      cases h
    · rw [h5] at h
      cases h

theorem parse_loop_append (pre : List Nat) (h : ∀ c ∈ pre, c ≠ 0) (v : parse_vars)
    (l : List Nat) : parse_loop v (pre ++ l) = parse_loop (pre.foldl parse_char v) l := by
  induction pre generalizing v with
  | nil => rfl
  | cons c pre ih =>
    simp only [List.cons_append, parse_loop, List.foldl_cons]
    rw [if_neg (h c (List.mem_cons_self _ _))]
    exact ih (fun x hx => h x (List.mem_cons_of_mem _ hx)) _

theorem buffer_strdup_eq (buffer : List Nat) (h : ∀ x ∈ buffer, x ≠ 0) :
    buffer_strdup buffer = buffer := by
  unfold buffer_strdup cstr
  rw [List.drop_zero, List.takeWhile_append_of_pos (fun a ha => by simpa using h a ha)]
  simp

theorem parse_char_blank (v : parse_vars) (c : Nat) (hs : v.state = .STATE_NORMAL)
    (h0 : c = 32 ∨ c = 9 ∨ c = 10 ∨ c = 0) :
    parse_char v c
      = if v.buffer.length = 0 then v
        else
          { v with
            max := if v.max ≤ v.argc then v.max + 10 else v.max
            argv := v.argv ++ [buffer_strdup v.buffer]
            argc := v.argc + 1
            buffer := [] } := by
  simp only [parse_char, hs, if_neg (by omega : ¬ c = 92), if_neg (by omega : ¬ c = 39),
    if_neg (by omega : ¬ c = 34), if_pos h0, parse_vars.length]

theorem parse_char_plain (v : parse_vars) (c : Nat) (hs : v.state = .STATE_NORMAL)
    (hc : is_plain c = true) (hb : is_blank c = false) :
    parse_char v c = { v with buffer := v.buffer ++ [c] } := by
  simp only [is_plain, decide_eq_true_eq] at hc
  obtain ⟨c0, c1, c2, c3, c4⟩ := hc
  simp only [is_blank, decide_eq_false_iff_not] at hb
  have h0 : ¬ (c = 32 ∨ c = 9 ∨ c = 10 ∨ c = 0) := by omega
  simp only [parse_char, hs, if_neg c1, if_neg c2, if_neg c3, if_neg h0]
  rw [if_neg (fun h => c4 h.1)]

theorem parse_loop_plain (l : List Nat) (hl : ∀ c ∈ l, is_plain c = true) :
    ∀ v : parse_vars, v.state = .STATE_NORMAL →
      (∀ x ∈ v.buffer, x ≠ 0 ∧ is_blank x = false) →
      (parse_loop v l).state = .STATE_NORMAL ∧
      (parse_loop v l).argv = v.argv ++ split_runs is_blank (v.buffer ++ l) ∧
      (parse_loop v l).argc
        = v.argc + (split_runs is_blank (v.buffer ++ l)).length := by
  induction l with
  | nil =>
    intro v hs hb
    have hpl : parse_loop v [] = parse_char v 0 := by
      simp only [parse_loop, hs, ne_eq, not_true_eq_false, if_false]
    rw [hpl, parse_char_blank v 0 hs (Or.inr (Or.inr (Or.inr rfl))), List.append_nil]
    by_cases hb0 : v.buffer = []
    · rw [if_pos (by rw [hb0]; rfl), hb0, split_runs_nil]
      exact ⟨hs, by simp, by simp⟩
    · have hlen : ¬ v.buffer.length = 0 := fun h => hb0 (List.eq_nil_of_length_eq_zero h)
      rw [if_neg hlen, split_runs_single _ _ (fun x hx => (hb x hx).2) hb0,
        buffer_strdup_eq _ (fun x hx => (hb x hx).1)]
      exact ⟨hs, rfl, rfl⟩
  | cons c l ih =>
    intro v hs hb
    have hc := hl c (List.mem_cons_self _ _)
    have c0 : c ≠ 0 := by
      simp only [is_plain, decide_eq_true_eq] at hc
      exact hc.1
    have hl1 : ∀ x ∈ l, is_plain x = true := fun x hx => hl x (List.mem_cons_of_mem _ hx)
    simp only [parse_loop, if_neg c0]
    by_cases hbl : is_blank c = true
    · have h0 : c = 32 ∨ c = 9 ∨ c = 10 ∨ c = 0 := by
        simp only [is_blank, decide_eq_true_eq] at hbl
        omega
      rw [parse_char_blank v c hs h0]
      by_cases hb0 : v.buffer = []
      · rw [if_pos (by rw [hb0]; rfl)]
        have := ih hl1 v hs hb
        rw [hb0, List.nil_append] at this ⊢
        rw [split_runs_cons_sep _ _ _ hbl]
        exact this
      · have hlen : ¬ v.buffer.length = 0 := fun h => hb0 (List.eq_nil_of_length_eq_zero h)
        rw [if_neg hlen, buffer_strdup_eq _ (fun x hx => (hb x hx).1)]
        have := ih hl1 { v with
            max := if v.max ≤ v.argc then v.max + 10 else v.max
            argv := v.argv ++ [v.buffer]
            argc := v.argc + 1
            buffer := [] } hs (fun x hx => by cases hx)
        simp only [List.nil_append] at this
        rw [split_runs_first _ _ _ _ (fun x hx => (hb x hx).2) hb0 hbl]
        refine ⟨this.1, ?_, ?_⟩
        · rw [this.2.1]
          simp
        · rw [this.2.2]
          simp only [List.length_cons]
          omega
    · have hbl1 : is_blank c = false := by simpa using hbl
      rw [parse_char_plain v c hs hc hbl1]
      have := ih hl1 { v with buffer := v.buffer ++ [c] } hs (fun x hx => by
        rcases List.mem_append.mp hx with hx | hx
        · exact hb x hx
        · rw [List.mem_singleton.mp hx]
          exact ⟨c0, hbl1⟩)
      simp only [List.append_assoc, List.singleton_append] at this
      exact this

theorem parse_loop_end (v : parse_vars) (h : v.state ≠ .STATE_NORMAL) :
    parse_loop v [] = v := by
  simp only [parse_loop, if_pos h]

theorem parse_loop_comment (l : List Nat) (v : parse_vars) (hs : v.state = .STATE_COMMENT) :
    parse_loop v l = v := by
  induction l with
  | nil => simp [parse_loop, hs]
  | cons c l ih =>
    simp only [parse_loop]
    by_cases hc : c = 0
    · simp [hc, hs]
    · rw [if_neg hc]
      have : parse_char v c = v := by simp only [parse_char, hs]
      rw [this]
      exact ih

theorem parse_loop_blanks (ws : List Nat) (hws : ∀ c ∈ ws, is_blank c = true)
    (v : parse_vars) (hs : v.state = .STATE_NORMAL) (hb : v.buffer = []) (l : List Nat) :
    parse_loop v (ws ++ l) = parse_loop v l := by
  induction ws with
  | nil => rfl
  | cons c ws ih =>
    have hc := hws c (List.mem_cons_self _ _)
    simp only [is_blank, decide_eq_true_eq] at hc
    have c0 : c ≠ 0 := by omega
    simp only [List.cons_append, parse_loop, if_neg c0]
    rw [parse_char_blank v c hs (by omega), if_pos (by rw [hb]; rfl)]
    exact ih (fun x hx => hws x (List.mem_cons_of_mem _ hx))

theorem parse_loop_single_quote (q : List Nat) (hq : ∀ c ∈ q, c ≠ 0 ∧ c ≠ 39)
    (v : parse_vars) (hs : v.state = .STATE_SINGLE_QUOTE) :
    (parse_loop v q).state = .STATE_SINGLE_QUOTE := by
  induction q generalizing v with
  | nil => simp [parse_loop, hs]
  | cons c q ih =>
    obtain ⟨c0, c1⟩ := hq c (List.mem_cons_self _ _)
    simp only [parse_loop, if_neg c0]
    exact ih (fun x hx => hq x (List.mem_cons_of_mem _ hx)) _
      (by simp only [parse_char, hs, if_neg c1])

theorem parse_loop_double_quote (q : List Nat) (hq : ∀ c ∈ q, c ≠ 0 ∧ c ≠ 34 ∧ c ≠ 92)
    (v : parse_vars) (hs : v.state = .STATE_DOUBLE_QUOTE) :
    (parse_loop v q).state = .STATE_DOUBLE_QUOTE := by
  induction q generalizing v with
  | nil => simp [parse_loop, hs]
  | cons c q ih =>
    obtain ⟨c0, c1, c2⟩ := hq c (List.mem_cons_self _ _)
    simp only [parse_loop, if_neg c0]
    exact ih (fun x hx => hq x (List.mem_cons_of_mem _ hx)) _
      (by simp only [parse_char, hs, if_neg c1, if_neg c2])

theorem parse_ret_true_iff (line : Option (List Nat)) :
    (fluid_shell_parse_argv_internal line).ret = true ↔
      ∃ l, line = some l ∧ l.headD 0 ≠ 0 ∧
        ((parse_loop parse_init l).state = .STATE_NORMAL
          ∨ (parse_loop parse_init l).state = .STATE_COMMENT) ∧
        0 < (parse_loop parse_init l).argc := by
  cases line with
  | none => simp [fluid_shell_parse_argv_internal]
  | some l =>
    by_cases h0 : l.headD 0 = 0
    · simp only [fluid_shell_parse_argv_internal, if_pos h0]
      constructor
      · intro h
        cases h
      · rintro ⟨l1, h1, h2, _⟩
        cases h1
        exact absurd h0 h2
    · by_cases hst : (parse_loop parse_init l).state ≠ .STATE_NORMAL
          ∧ (parse_loop parse_init l).state ≠ .STATE_COMMENT
      · simp only [fluid_shell_parse_argv_internal, if_neg h0, if_pos hst]
        constructor
        · intro h
          cases h
        · rintro ⟨l1, h1, _, h3, _⟩
          cases h1
          rcases h3 with h3 | h3
          · exact absurd h3 hst.1
          · exact absurd h3 hst.2
      · simp only [fluid_shell_parse_argv_internal, if_neg h0, if_neg hst, decide_eq_true_eq]
        constructor
        · intro h
          refine ⟨l, rfl, h0, ?_, h⟩
          by_contra hc
          exact hst ⟨fun h1 => hc (Or.inl h1), fun h1 => hc (Or.inr h1)⟩
        · rintro ⟨l1, h1, _, _, h4⟩
          cases h1
          exact h4

theorem parse_ret_false_of_state (l : List Nat)
    (h : (parse_loop parse_init l).state ≠ .STATE_NORMAL
      ∧ (parse_loop parse_init l).state ≠ .STATE_COMMENT) :
    (fluid_shell_parse_argv_internal (some l)).ret = false := by
  by_cases h0 : l.headD 0 = 0
  · simp only [fluid_shell_parse_argv_internal, if_pos h0]
  · simp only [fluid_shell_parse_argv_internal, if_neg h0, if_pos h]

theorem parse_ret_false_of_argc (l : List Nat) (h : (parse_loop parse_init l).argc = 0) :
    (fluid_shell_parse_argv_internal (some l)).ret = false := by
  by_cases h0 : l.headD 0 = 0
  · simp only [fluid_shell_parse_argv_internal, if_pos h0]
  · by_cases hst : (parse_loop parse_init l).state ≠ .STATE_NORMAL
        ∧ (parse_loop parse_init l).state ≠ .STATE_COMMENT
    · simp only [fluid_shell_parse_argv_internal, if_neg h0, if_pos hst]
    · simp only [fluid_shell_parse_argv_internal, if_neg h0, if_neg hst, h]
      rfl

theorem parse_char_length (v : parse_vars) (c m : Nat)
    (h : v.length + parse_pending v.state ≤ m) :
    (parse_char v c).length + parse_pending (parse_char v c).state ≤ m + 1 := by
  simp only [parse_vars.length] at h ⊢
  cases hst : v.state <;> rw [hst] at h <;> simp only [parse_char, hst] <;>
    (try split_ifs) <;>
    (try simp only [hst, parse_pending, List.length_append, List.length_cons,
      List.length_nil] at h ⊢) <;> omega

theorem parse_foldl_length (pre : List Nat) :
    ∀ (v : parse_vars) (m : Nat), v.length + parse_pending v.state ≤ m →
      (pre.foldl parse_char v).length + parse_pending (pre.foldl parse_char v).state
        ≤ m + pre.length := by
  induction pre with
  | nil => intro v m h; exact h
  | cons c pre ih =>
    intro v m h
    have := ih (parse_char v c) (m + 1) (parse_char_length v c m h)
    simp only [List.foldl_cons, List.length_cons]
    omega

theorem parse_scan_length (pre : List Nat) :
    (parse_scan pre).length + parse_pending (parse_scan pre).state ≤ pre.length := by
  have := parse_foldl_length pre parse_init 0 (by decide)
  simpa [parse_scan] using this

theorem parse_writes_bound (v : parse_vars) (c m : Nat)
    (h : v.length + parse_pending v.state ≤ m) : ∀ i ∈ parse_writes v c, i ≤ m := by
  intro i hi
  cases hst : v.state <;> rw [hst] at h <;>
    simp only [parse_writes, hst, parse_pending] at h hi <;>
    (try split_ifs at hi) <;> simp at hi <;> omega

theorem cstr_take (l : List Nat) (k : Nat) (hk : k ≤ (cstr l 0).length) :
    (cstr l 0).take k = l.take k := by
  unfold cstr at hk ⊢
  rw [List.drop_zero] at hk ⊢
  induction l generalizing k with
  | nil => simp
  | cons a l ih =>
    cases k with
    | zero => rfl
    | succ k =>
      by_cases ha : a = 0
      · rw [List.takeWhile_cons_of_neg (by simpa using ha)] at hk
        simp at hk
      · rw [List.takeWhile_cons_of_pos (by simpa using ha)] at hk ⊢
        simp only [List.length_cons] at hk
        simp only [List.take_succ_cons]
        rw [ih k (by omega)]

theorem cstr_nonzero (l : List Nat) (p : Nat) : ∀ c ∈ cstr l p, c ≠ 0 := by
  intro c hc
  have := List.mem_takeWhile_imp hc
  simpa using this

theorem parse_char_args (v : parse_vars) (c : Nat) (hb : ∀ x ∈ v.buffer, x ≠ 0)
    (ha : ∀ t ∈ v.argv, 1 ≤ t.length) (hc : v.argc = v.argv.length)
    (hcz : c ≠ 0 ∨ v.state = .STATE_NORMAL) :
    (∀ x ∈ (parse_char v c).buffer, x ≠ 0) ∧ (∀ t ∈ (parse_char v c).argv, 1 ≤ t.length) ∧
      (parse_char v c).argc = (parse_char v c).argv.length := by
  have happ : ∀ y, y ≠ 0 → ∀ x ∈ v.buffer ++ [y], x ≠ 0 := by
    intro y hy x hx
    rcases List.mem_append.mp hx with hx | hx
    · exact hb x hx
    · rw [List.mem_singleton.mp hx]
      exact hy
  cases hst : v.state
  · by_cases h0 : c = 32 ∨ c = 9 ∨ c = 10 ∨ c = 0
    · rw [parse_char_blank v c hst h0]
      by_cases hlen : v.buffer.length = 0
      · rw [if_pos hlen]
        exact ⟨hb, ha, hc⟩
      · rw [if_neg hlen, buffer_strdup_eq _ hb]
        refine ⟨fun x hx => (by cases hx), fun t ht => ?_, by simp [hc]⟩
        rcases List.mem_append.mp ht with ht | ht
        · exact ha t ht
        · rw [List.mem_singleton.mp ht]
          omega
    · have c0 : c ≠ 0 := fun h => h0 (Or.inr (Or.inr (Or.inr h)))
      simp only [parse_char, hst, if_neg h0]
      (try split_ifs) <;> first | exact ⟨hb, ha, hc⟩ | exact ⟨happ c c0, ha, hc⟩
  all_goals
    have c0 : c ≠ 0 := by
      rcases hcz with h | h
      · exact h
      · rw [hst] at h
        cases h
    simp only [parse_char, hst]
    (try split_ifs) <;> first
      | exact ⟨hb, ha, hc⟩
      | exact ⟨happ c c0, ha, hc⟩
      | exact ⟨fun x hx => by
          rcases List.mem_append.mp hx with hx | hx
          · exact happ 92 (by decide) x hx
          · rw [List.mem_singleton.mp hx]
            exact c0, ha, hc⟩

theorem parse_loop_args (l : List Nat) :
    ∀ v : parse_vars, (∀ x ∈ v.buffer, x ≠ 0) → (∀ t ∈ v.argv, 1 ≤ t.length) →
      v.argc = v.argv.length →
      (∀ t ∈ (parse_loop v l).argv, 1 ≤ t.length) ∧
        (parse_loop v l).argc = (parse_loop v l).argv.length := by
  induction l with
  | nil =>
    intro v hb ha hc
    simp only [parse_loop]
    by_cases hs : v.state ≠ .STATE_NORMAL
    · rw [if_pos hs]
      exact ⟨ha, hc⟩
    · rw [if_neg hs]
      exact (parse_char_args v 0 hb ha hc (Or.inr (by simpa using hs))).2
  | cons c l ih =>
    intro v hb ha hc
    simp only [parse_loop]
    by_cases hc0 : c = 0
    · rw [if_pos hc0]
      by_cases hs : v.state ≠ .STATE_NORMAL
      · rw [if_pos hs]
        exact ⟨ha, hc⟩
      · rw [if_neg hs]
        exact (parse_char_args v 0 hb ha hc (Or.inr (by simpa using hs))).2
    · rw [if_neg hc0]
      obtain ⟨h1, h2, h3⟩ := parse_char_args v c hb ha hc (Or.inl hc0)
      exact ih _ h1 h2 h3

theorem parse_char_quotes (v : parse_vars) (hs : v.state = .STATE_NORMAL) :
    parse_char (parse_char v 34) 34 = v ∧ parse_char (parse_char v 39) 39 = v := by
  constructor
  · have h1 : parse_char v 34 = { v with state := .STATE_DOUBLE_QUOTE } := by
      simp only [parse_char, hs, (by decide : ¬ (34 : Nat) = 92),
        (by decide : ¬ (34 : Nat) = 39), if_false, if_true]
    rw [h1]
    simp only [parse_char, (by decide : ¬ (34 : Nat) = 92), if_false, if_true]
    rw [← hs]
  · have h1 : parse_char v 39 = { v with state := .STATE_SINGLE_QUOTE } := by
      simp only [parse_char, hs, (by decide : ¬ (39 : Nat) = 92), if_false, if_true]
    rw [h1]
    simp only [parse_char, if_true]
    rw [← hs]

end syslemmas

/-! ## The claims -/

/-- C1: when the voice loops (`looping` true) and `loopstart < loopend`, each of the four
render functions terminates and every result reports exactly `FLUID_BUFSIZE` samples, for
every entry phase and every phase increment (`loopend` a non-negative `int`). -/
theorem c1_looping_renders_full_block {F : Type} (E : DspEnv F) (rvoice : fluid_rvoice_t F)
    (dsp_buf : Nat → ℚ) (hl : rvoice.dsp.loopstart < rvoice.dsp.loopend)
    (hle : rvoice.dsp.loopend < 2 ^ 31) :
    RendersFull E (fun fuel => fluid_rvoice_dsp_interpolate_none E fuel rvoice dsp_buf true) ∧
    RendersFull E (fun fuel => fluid_rvoice_dsp_interpolate_linear E fuel rvoice dsp_buf true) ∧
    RendersFull E
      (fun fuel => fluid_rvoice_dsp_interpolate_4th_order E fuel rvoice dsp_buf true) ∧
    RendersFull E
      (fun fuel => fluid_rvoice_dsp_interpolate_7th_order E fuel rvoice dsp_buf true) :=
  ⟨none_render_looping E rvoice dsp_buf hl (Nat.le_of_lt hle),
    linear_render_looping E rvoice dsp_buf hl (Nat.le_of_lt hle),
    cubic_render_looping E rvoice dsp_buf hl (Nat.le_of_lt hle),
    sinc_render_looping E rvoice dsp_buf hl (Nat.le_of_lt hle)⟩

theorem c1_looping_renders_full_block_witness :
    RendersFull exEnv (fun fuel => fluid_rvoice_dsp_interpolate_none exEnv fuel exVoice
      (fun _ => 0) true) ∧
    RendersFull exEnv (fun fuel => fluid_rvoice_dsp_interpolate_linear exEnv fuel exVoice
      (fun _ => 0) true) ∧
    RendersFull exEnv (fun fuel => fluid_rvoice_dsp_interpolate_4th_order exEnv fuel exVoice
      (fun _ => 0) true) ∧
    RendersFull exEnv (fun fuel => fluid_rvoice_dsp_interpolate_7th_order exEnv fuel exVoice
      (fun _ => 0) true) :=
  c1_looping_renders_full_block exEnv exVoice (fun _ => 0) (by decide) (by decide)

/-- C2: for each of the four render functions, every voice state and either value of
`looping`, the returned count is at most `FLUID_BUFSIZE`, no slot of the output buffer at
an index `≥ count` is changed, and every slot `i < count` holds the value written at
step `i` (the amplitude of that step times the filtered interpolated value); the call
returns whenever the voice does not loop or its loop is non-empty. -/
theorem c2_count_bounded_and_slots_written {F : Type} (E : DspEnv F)
    (rvoice : fluid_rvoice_t F) (buf0 : Nat → ℚ) (looping : Bool) :
    four_kernels E (fun render =>
      (LoopOk rvoice.dsp looping → Returns (fun fuel => render fuel rvoice buf0 looping)) ∧
      ∀ fuel out, render fuel rvoice buf0 looping = some out →
        0 ≤ out.ret ∧ out.ret ≤ E.FLUID_BUFSIZE ∧
        (∀ i, out.ret ≤ i → out.dsp_buf i = buf0 i) ∧
        out.raws.length = out.ret ∧
        ∀ i, i < out.ret → out.dsp_buf i
          = (rvoice.dsp.amp + (i : ℚ) * rvoice.dsp.amp_incr)
            * (cascade_run E rvoice.dsp.output_rate
                (rvoice.resonant_filter, rvoice.resonant_custom_filter) out.raws).2.getD i 0) :=
  four_kernels_mono E
    (fun _ h => ⟨(h rvoice buf0 looping).1, fun fuel out ho =>
      have hp := (h rvoice buf0 looping).2 fuel out ho
      ⟨Nat.zero_le _, hp.ret_le, hp.untouched, hp.raws_len, hp.written⟩⟩)
    (four_kernels_post E)

theorem c2_count_bounded_and_slots_written_witness :
    four_kernels exEnv (fun render =>
      (LoopOk exVoice.dsp false → Returns (fun fuel => render fuel exVoice (fun _ => 0) false)) ∧
      ∀ fuel out, render fuel exVoice (fun _ => 0) false = some out →
        0 ≤ out.ret ∧ out.ret ≤ exEnv.FLUID_BUFSIZE ∧
        (∀ i, out.ret ≤ i → out.dsp_buf i = (fun _ => 0) i) ∧
        out.raws.length = out.ret ∧
        ∀ i, i < out.ret → out.dsp_buf i
          = (exVoice.dsp.amp + (i : ℚ) * exVoice.dsp.amp_incr)
            * (cascade_run exEnv exVoice.dsp.output_rate
                (exVoice.resonant_filter, exVoice.resonant_custom_filter)
                out.raws).2.getD i 0) :=
  c2_count_bounded_and_slots_written exEnv exVoice (fun _ => 0) false

/-- C3: for the nearest-neighbour kernel with `looping` false, phase increment exactly
1.0, an entry phase of integer index `i0 ≤ end` and zero fraction, and both filters the
identity, `count = min(FLUID_BUFSIZE, end - i0 + 1)` and `dsp_buf[k] = (amp + k * amp_incr)
* data[i0 + k]` for every `k < count`, `data[i]` the value the sample accessor returns
at `i`; in particular the samples `[0, 100, 200, 300]` with `start = 0`, `end = 3`,
`amp = 1`, `amp_incr = 0` give the output `[0, 100, 200, 300]` and the count 4. -/
theorem c3_nearest_unity_pitch :
    (∀ {F : Type} (E : DspEnv F) (rvoice : fluid_rvoice_t F) (buf0 : Nat → ℚ)
      (fuel i0 : Nat),
      (∀ (f : F) (x r : ℚ), E.fluid_iir_filter_apply f x r = (f, x)) →
      rvoice.dsp.phase_incr = 1 → rvoice.dsp.phase = i0 * 2 ^ 32 →
      i0 ≤ rvoice.dsp.end_ → rvoice.dsp.end_ < 2 ^ 31 →
      ∃ out, fluid_rvoice_dsp_interpolate_none E (fuel + 1) rvoice buf0 false = some out ∧
        out.ret = min E.FLUID_BUFSIZE (rvoice.dsp.end_ - i0 + 1) ∧
        ∀ k, k < out.ret → out.dsp_buf k
          = (rvoice.dsp.amp + (k : ℚ) * rvoice.dsp.amp_incr)
            * dsp_data_at E rvoice.dsp (i0 + k)) ∧
    (∃ out, fluid_rvoice_dsp_interpolate_none exEnv 1 exVoice (fun _ => 0) false = some out ∧
      out.ret = 4 ∧ (List.range 4).map out.dsp_buf = [0, 100, 200, 300]) := by
  have general : ∀ {F : Type} (E : DspEnv F) (rvoice : fluid_rvoice_t F) (buf0 : Nat → ℚ)
      (fuel i0 : Nat),
      (∀ (f : F) (x r : ℚ), E.fluid_iir_filter_apply f x r = (f, x)) →
      rvoice.dsp.phase_incr = 1 → rvoice.dsp.phase = i0 * 2 ^ 32 →
      i0 ≤ rvoice.dsp.end_ → rvoice.dsp.end_ < 2 ^ 31 →
      ∃ out, fluid_rvoice_dsp_interpolate_none E (fuel + 1) rvoice buf0 false = some out ∧
        out.ret = min E.FLUID_BUFSIZE (rvoice.dsp.end_ - i0 + 1) ∧
        ∀ k, k < out.ret → out.dsp_buf k
          = (rvoice.dsp.amp + (k : ℚ) * rvoice.dsp.amp_incr)
            * dsp_data_at E rvoice.dsp (i0 + k) := by
    intro F E rvoice buf0 fuel i0 hid hinc hph hi0 hend
    have heq := none_render_nonlooping_eq E rvoice buf0 fuel
    have hpost := none_render_post E rvoice buf0 false (fuel + 1) _ heq
    have hinv := none_final_inv E rvoice buf0
    have hexit := none_final_exit E rvoice buf0
    rw [to_uint_of_lt _ (by omega), hinc, fluid_phase_set_float_one, hph] at hinv hexit
    have hbefore := hinv.before
    have hraws := hinv.raws
    simp only [fluid_phase_index_round_whole] at hbefore hraws hexit
    have hret : (none_final E rvoice buf0).dsp_i
        = min E.FLUID_BUFSIZE (rvoice.dsp.end_ - i0 + 1) := by
      have h1 := hexit.1
      have h2 := hexit.2
      have h3 : (none_final E rvoice buf0).dsp_i ≤ rvoice.dsp.end_ - i0 + 1 := by
        by_contra hc
        have := hbefore (rvoice.dsp.end_ - i0 + 1) (by omega)
        omega
      by_cases h4 : (none_final E rvoice buf0).dsp_i < E.FLUID_BUFSIZE
      · have := h2 h4
        omega
      · omega
    refine ⟨_, heq, hret, fun k hk => ?_⟩
    have hw := hpost.written k hk
    rw [cascade_run_id E _ hid] at hw
    rw [hw]
    simp only [dsp_finish] at hk ⊢
    rw [hraws]
    have hk2 : k < (List.range (none_final E rvoice buf0).dsp_i).length := by
      simpa using hk
    rw [List.getD_eq_getElem _ _ (by simpa using hk)]
    simp only [List.getElem_map, List.getElem_range]
    have : (i0 + k) % 2 ^ 32 = i0 + k := by
      apply Nat.mod_eq_of_lt
      omega
    rw [this]
  refine ⟨general, ?_⟩
  obtain ⟨out, ho, hret, hbuf⟩ := general exEnv exVoice (fun _ => 0) 0 0
    (fun _ _ _ => rfl) rfl rfl (by decide) (by decide)
  have hret4 : out.ret = 4 := by
    rw [hret]
    decide
  refine ⟨out, ho, hret4, ?_⟩
  have h0 := hbuf 0 (by omega)
  have h1 := hbuf 1 (by omega)
  have h2 := hbuf 2 (by omega)
  have h3 := hbuf 3 (by omega)
  simp only [List.range, List.range.loop, List.map_cons, List.map_nil, h0, h1, h2, h3]
  norm_num [exVoice, exEnv, dsp_data_at, fluid_rvoice_get_float_sample]

theorem c3_nearest_unity_pitch_witness :
    ∃ out, fluid_rvoice_dsp_interpolate_none exEnv (0 + 1) exVoice (fun _ => 0) false
        = some out ∧
      out.ret = min exEnv.FLUID_BUFSIZE (exVoice.dsp.end_ - 0 + 1) ∧
      ∀ k, k < out.ret → out.dsp_buf k
        = (exVoice.dsp.amp + (k : ℚ) * exVoice.dsp.amp_incr)
          * dsp_data_at exEnv exVoice.dsp (0 + k) :=
  c3_nearest_unity_pitch.1 exEnv exVoice (fun _ => 0) 0 0
    (fun _ _ _ => rfl) rfl rfl (by decide) (by decide)

/-- C4, as stated, fails for the linear kernel: with `loopstart = 0`, `loopend = 128`, entry
phase 0 and a phase increment of 2.0 the index reaches 128, past `loopend - 1`, with the
64th sample of the block; the call leaves the loop at "break out if buffer filled" with
the phase not reduced and `has_looped` unset. -/
theorem c4_counterexample :
    exSkipVoice.dsp.loopstart < exSkipVoice.dsp.loopend ∧
    (fluid_rvoice_dsp_interpolate_linear exEnv 1 exSkipVoice (fun _ => 0) true).map
        (fun o => (o.ret, fluid_phase_index o.rvoice.dsp.phase, o.rvoice.dsp.has_looped,
          o.wraps)) = some (64, 128, false, 0) ∧
    exSkipVoice.dsp.loopend - 1 < 128 := by
  decide!

/-- C4, amended: for each of the four render functions with `looping` true, every wrap
made in the call lowers the integer part of the phase by exactly `loopend - loopstart` and
leaves its fraction untouched, `has_looped` is set on return when a wrap was made (and
unchanged otherwise), and a wrap was made whenever the phase index (rounded for the
nearest-neighbour and 7th order kernels, truncated for the linear and cubic ones) is
past `loopend - 1` at a step `k < count`, for the nearest-neighbour kernel also at
`k = count`; the loop has more points than the kernel has trailing taps. -/
theorem c4_wrap_reduces_phase_and_marks_looped {F : Type} (E : DspEnv F) :
    WrapsWhenPast fluid_phase_index_round 0 true (fluid_rvoice_dsp_interpolate_none E) ∧
    WrapsWhenPast fluid_phase_index 1 false (fluid_rvoice_dsp_interpolate_linear E) ∧
    WrapsWhenPast fluid_phase_index 2 false (fluid_rvoice_dsp_interpolate_4th_order E) ∧
    WrapsWhenPast fluid_phase_index_round 3 false (fluid_rvoice_dsp_interpolate_7th_order E) :=
  ⟨none_wraps_when_past E, linear_wraps_when_past E, cubic_wraps_when_past E,
    sinc_wraps_when_past E⟩

theorem c4_wrap_reduces_phase_and_marks_looped_witness :
    Returns (fun fuel => fluid_rvoice_dsp_interpolate_linear exEnv fuel exSkipVoice
      (fun _ => 0) true) ∧
    ∀ fuel out, fluid_rvoice_dsp_interpolate_linear exEnv fuel exSkipVoice (fun _ => 0) true
        = some out →
      fluid_phase_fract out.rvoice.dsp.phase
        = fluid_phase_fract (exSkipVoice.dsp.phase
            + out.ret * fluid_phase_set_float exSkipVoice.dsp.phase_incr) ∧
      (fluid_phase_index out.rvoice.dsp.phase : Int)
        = ((fluid_phase_index (exSkipVoice.dsp.phase
              + out.ret * fluid_phase_set_float exSkipVoice.dsp.phase_incr) : Int)
            - (out.wraps : Int)
              * ((exSkipVoice.dsp.loopend : Int) - (exSkipVoice.dsp.loopstart : Int)))
          % 2 ^ 32 ∧
      (0 < out.wraps → out.rvoice.dsp.has_looped = true) ∧
      (out.wraps = 0 → out.rvoice.dsp.has_looped = exSkipVoice.dsp.has_looped) ∧
      ∀ k, (k < out.ret ∨ (false = true ∧ k = out.ret)) →
        exSkipVoice.dsp.loopend - 1 < fluid_phase_index (exSkipVoice.dsp.phase
          + k * fluid_phase_set_float exSkipVoice.dsp.phase_incr) →
        0 < out.wraps :=
  (c4_wrap_reduces_phase_and_marks_looped exEnv).2.1 exSkipVoice (fun _ => 0)
    (by decide) ⟨by decide, by decide, fun h => absurd h (by decide)⟩

/-- C5: for each of the four render functions the 64 bit phase stored on return equals
`(entry phase + count * phase_incr - k * (loopend - loopstart) * 2^32) mod 2^64` for a
natural number `k` (the number of wraps made), `phase_incr` the fixed-point increment; for
the 7th order kernel the half sample added on entry does not appear in the stored
phase. -/
theorem c5_stored_phase {F : Type} (E : DspEnv F) (rvoice : fluid_rvoice_t F)
    (buf0 : Nat → ℚ) (looping : Bool) (hph : rvoice.dsp.phase < 2 ^ 64) :
    four_kernels E (fun render =>
      (LoopOk rvoice.dsp looping → Returns (fun fuel => render fuel rvoice buf0 looping)) ∧
      ∀ fuel out, render fuel rvoice buf0 looping = some out →
        ∃ k : Nat, k = out.wraps ∧ (out.rvoice.dsp.phase : Int)
          = ((rvoice.dsp.phase : Int)
              + (out.ret : Int) * (fluid_phase_set_float rvoice.dsp.phase_incr : Int)
              - (k : Int) * (((rvoice.dsp.loopend : Int) - (rvoice.dsp.loopstart : Int))
                  * 2 ^ 32)) % 2 ^ 64) :=
  four_kernels_mono E
    (fun _ h => ⟨(h rvoice buf0 looping).1, fun fuel out ho =>
      ⟨out.wraps, rfl, ((h rvoice buf0 looping).2 fuel out ho).phase hph⟩⟩)
    (four_kernels_post E)

theorem c5_stored_phase_witness :
    four_kernels exEnv (fun render =>
      (LoopOk exVoice.dsp true → Returns (fun fuel => render fuel exVoice (fun _ => 0) true)) ∧
      ∀ fuel out, render fuel exVoice (fun _ => 0) true = some out →
        ∃ k : Nat, k = out.wraps ∧ (out.rvoice.dsp.phase : Int)
          = ((exVoice.dsp.phase : Int)
              + (out.ret : Int) * (fluid_phase_set_float exVoice.dsp.phase_incr : Int)
              - (k : Int) * (((exVoice.dsp.loopend : Int) - (exVoice.dsp.loopstart : Int))
                  * 2 ^ 32)) % 2 ^ 64) :=
  c5_stored_phase exEnv exVoice (fun _ => 0) true (by decide)

/-- C6: for each of the four render functions the amplitude stored back into the voice is
`amp_before + amp_incr * count`, `count` the returned sample count, in exact arithmetic. -/
theorem c6_stored_amplitude {F : Type} (E : DspEnv F) (rvoice : fluid_rvoice_t F)
    (buf0 : Nat → ℚ) (looping : Bool) :
    four_kernels E (fun render =>
      (LoopOk rvoice.dsp looping → Returns (fun fuel => render fuel rvoice buf0 looping)) ∧
      ∀ fuel out, render fuel rvoice buf0 looping = some out →
        out.rvoice.dsp.amp = rvoice.dsp.amp + rvoice.dsp.amp_incr * (out.ret : ℚ)) :=
  four_kernels_mono E
    (fun _ h => ⟨(h rvoice buf0 looping).1, fun fuel out ho => by
      rw [((h rvoice buf0 looping).2 fuel out ho).amp, mul_comm]⟩)
    (four_kernels_post E)

theorem c6_stored_amplitude_witness :
    four_kernels exEnv (fun render =>
      (LoopOk exVoice.dsp false → Returns (fun fuel => render fuel exVoice (fun _ => 0) false)) ∧
      ∀ fuel out, render fuel exVoice (fun _ => 0) false = some out →
        out.rvoice.dsp.amp = exVoice.dsp.amp + exVoice.dsp.amp_incr * (out.ret : ℚ)) :=
  c6_stored_amplitude exEnv exVoice (fun _ => 0) false

/-- C7: for each of the four render functions the interpolated values `raws` of the call,
one per written sample, go through the cascade in output order, the primary filter
`resonant_filter` first and the auxiliary filter `resonant_custom_filter` on its output;
slot `i < count` of the buffer holds `(amp_before + i * amp_incr)` times the filtered value
of step `i`, and the filters are left in the states the cascade ends in. -/
theorem c7_filters_before_gain {F : Type} (E : DspEnv F) (rvoice : fluid_rvoice_t F)
    (buf0 : Nat → ℚ) (looping : Bool) :
    (∀ (rate : ℚ) (f : F × F) (outs : List ℚ) (x : ℚ),
      cascade_step E rate (f, outs) x
        = (((E.fluid_iir_filter_apply f.1 x rate).1,
            (E.fluid_iir_filter_apply f.2 (E.fluid_iir_filter_apply f.1 x rate).2 rate).1),
           outs ++ [(E.fluid_iir_filter_apply f.2
              (E.fluid_iir_filter_apply f.1 x rate).2 rate).2])) ∧
    four_kernels E (fun render =>
      (LoopOk rvoice.dsp looping → Returns (fun fuel => render fuel rvoice buf0 looping)) ∧
      ∀ fuel out, render fuel rvoice buf0 looping = some out →
        out.raws.length = out.ret ∧
        (cascade_run E rvoice.dsp.output_rate
            (rvoice.resonant_filter, rvoice.resonant_custom_filter) out.raws).1
          = (out.rvoice.resonant_filter, out.rvoice.resonant_custom_filter) ∧
        (cascade_run E rvoice.dsp.output_rate
            (rvoice.resonant_filter, rvoice.resonant_custom_filter) out.raws).2.length
          = out.ret ∧
        ∀ i, i < out.ret → out.dsp_buf i
          = (rvoice.dsp.amp + (i : ℚ) * rvoice.dsp.amp_incr)
            * (cascade_run E rvoice.dsp.output_rate
                (rvoice.resonant_filter, rvoice.resonant_custom_filter) out.raws).2.getD i 0) :=
  ⟨fun _ _ _ _ => rfl,
    four_kernels_mono E
      (fun _ h => ⟨(h rvoice buf0 looping).1, fun fuel out ho =>
        have hp := (h rvoice buf0 looping).2 fuel out ho
        ⟨hp.raws_len, hp.filters, hp.outs_len, hp.written⟩⟩)
      (four_kernels_post E)⟩

theorem c7_filters_before_gain_witness :
    four_kernels exEnv (fun render =>
      (LoopOk exVoice.dsp true → Returns (fun fuel => render fuel exVoice (fun _ => 0) true)) ∧
      ∀ fuel out, render fuel exVoice (fun _ => 0) true = some out →
        out.raws.length = out.ret ∧
        (cascade_run exEnv exVoice.dsp.output_rate
            (exVoice.resonant_filter, exVoice.resonant_custom_filter) out.raws).1
          = (out.rvoice.resonant_filter, out.rvoice.resonant_custom_filter) ∧
        (cascade_run exEnv exVoice.dsp.output_rate
            (exVoice.resonant_filter, exVoice.resonant_custom_filter) out.raws).2.length
          = out.ret ∧
        ∀ i, i < out.ret → out.dsp_buf i
          = (exVoice.dsp.amp + (i : ℚ) * exVoice.dsp.amp_incr)
            * (cascade_run exEnv exVoice.dsp.output_rate
                (exVoice.resonant_filter, exVoice.resonant_custom_filter)
                out.raws).2.getD i 0) :=
  (c7_filters_before_gain exEnv exVoice (fun _ => 0) true).2

/-- C8, as stated, fails: the nearest-neighbour kernel, not looping, with `start = 0`,
`end = 3`, entry phase 0 and a phase increment of 5.0 stores a phase of index 5, past
`end + 1`; and looping over `[0, 4)` at a phase increment of 1.0 from the phase 3.5 it
stores the phase "minus one half", of truncated index `2^32 - 1`. -/
theorem c8_counterexample :
    (exFastVoice.dsp.start ≤ exFastVoice.dsp.end_ ∧ 0 < exFastVoice.dsp.phase_incr ∧
      exFastVoice.dsp.start ≤ fluid_phase_index exFastVoice.dsp.phase ∧
      fluid_phase_index exFastVoice.dsp.phase ≤ exFastVoice.dsp.end_ + 1 ∧
      (fluid_rvoice_dsp_interpolate_none exEnv 1 exFastVoice (fun _ => 0) false).map
        (fun o => fluid_phase_index o.rvoice.dsp.phase) = some 5 ∧
      ¬ 5 ≤ exFastVoice.dsp.end_ + 1) ∧
    (exHalfVoice.dsp.start ≤ exHalfVoice.dsp.end_ ∧ 0 < exHalfVoice.dsp.phase_incr ∧
      exHalfVoice.dsp.loopstart < exHalfVoice.dsp.loopend ∧
      exHalfVoice.dsp.loopend ≤ exHalfVoice.dsp.end_ + 1 ∧
      exHalfVoice.dsp.start ≤ fluid_phase_index exHalfVoice.dsp.phase ∧
      fluid_phase_index exHalfVoice.dsp.phase ≤ exHalfVoice.dsp.end_ + 1 ∧
      (fluid_rvoice_dsp_interpolate_none exEnv 64 exHalfVoice (fun _ => 0) true).map
        (fun o => fluid_phase_index o.rvoice.dsp.phase) = some 4294967295 ∧
      ¬ 4294967295 ≤ exHalfVoice.dsp.end_ + 1) := by
  decide!

/-- C8, amended: for each of the four render functions, if `end + 1` is an `int`, the
playback speed is at most 1.0, the sample has more points than the kernel has trailing
taps (0, 1, 2, 3) and the loop, when the voice loops or has looped, lies inside the
sample and has more points than that, then `start ≤ index ≤ end + 1` on entry gives
`start ≤ index ≤ end + 1` for the phase stored on return, `index` the index the kernel
works with: truncated for the linear and cubic kernels, rounded to nearest for the
nearest-neighbour and 7th order kernels; and the call returns. -/
theorem c8_phase_index_stays_in_range {F : Type} (E : DspEnv F) :
    KeepsRange fluid_phase_index_round 0 (fluid_rvoice_dsp_interpolate_none E) ∧
    KeepsRange fluid_phase_index 1 (fluid_rvoice_dsp_interpolate_linear E) ∧
    KeepsRange fluid_phase_index 2 (fluid_rvoice_dsp_interpolate_4th_order E) ∧
    KeepsRange fluid_phase_index_round 3 (fluid_rvoice_dsp_interpolate_7th_order E) :=
  ⟨none_keeps_range E, linear_keeps_range E, cubic_keeps_range E, sinc_keeps_range E⟩

theorem c8_phase_index_stays_in_range_witness :
    Returns (fun fuel => fluid_rvoice_dsp_interpolate_4th_order exEnv fuel exVoice
      (fun _ => 0) true) ∧
    ∀ fuel out, fluid_rvoice_dsp_interpolate_4th_order exEnv fuel exVoice (fun _ => 0) true
        = some out →
      out.rvoice.dsp.start ≤ fluid_phase_index out.rvoice.dsp.phase ∧
      fluid_phase_index out.rvoice.dsp.phase ≤ out.rvoice.dsp.end_ + 1 :=
  (c8_phase_index_stays_in_range exEnv).2.2.1 exVoice (fun _ => 0) true
    ⟨by decide, by decide, le_of_eq fluid_phase_set_float_one,
      fun _ => ⟨by decide, by decide, by decide⟩⟩
    (by decide) (by decide)

/-- C9: `has_looped` is monotonic under rendering: for each of the four render functions
and every input, if `has_looped` is set on entry it is set on return. -/
theorem c9_has_looped_monotonic {F : Type} (E : DspEnv F) (rvoice : fluid_rvoice_t F)
    (buf0 : Nat → ℚ) (looping : Bool) (hl : rvoice.dsp.has_looped = true) :
    four_kernels E (fun render =>
      (LoopOk rvoice.dsp looping → Returns (fun fuel => render fuel rvoice buf0 looping)) ∧
      ∀ fuel out, render fuel rvoice buf0 looping = some out →
        out.rvoice.dsp.has_looped = true) :=
  four_kernels_mono E
    (fun _ h => ⟨(h rvoice buf0 looping).1, fun fuel out ho => by
      rw [((h rvoice buf0 looping).2 fuel out ho).looped, hl]
      rfl⟩)
    (four_kernels_post E)

theorem c9_has_looped_monotonic_witness :
    four_kernels exEnv (fun render =>
      (LoopOk { exVoice.dsp with has_looped := true } true →
        Returns (fun fuel => render fuel { exVoice with dsp := { exVoice.dsp with
          has_looped := true } } (fun _ => 0) true)) ∧
      ∀ fuel out, render fuel { exVoice with dsp := { exVoice.dsp with
          has_looped := true } } (fun _ => 0) true = some out →
        out.rvoice.dsp.has_looped = true) :=
  c9_has_looped_monotonic exEnv
    { exVoice with dsp := { exVoice.dsp with has_looped := true } } (fun _ => 0) true rfl

/-- C10: for the nearest-neighbour kernel with `looping` false the call returns
`count = min(FLUID_BUFSIZE, n)`, `n` the least `k` whose round-to-nearest index of
`entry phase + k * phase_incr` is greater than `end` (and `count = FLUID_BUFSIZE` when
there is no such `k`): `count ≤ FLUID_BUFSIZE`, no `k < count` has its index past `end`,
and the index at `count` is past `end` when `count < FLUID_BUFSIZE`; the value
interpolated for sample `k` is the sample at that rounded index, and the call returns 0
when the entry phase already rounds past `end`. -/
theorem c10_nearest_count {F : Type} (E : DspEnv F) (rvoice : fluid_rvoice_t F)
    (buf0 : Nat → ℚ) (fuel : Nat) (hend : rvoice.dsp.end_ < 2 ^ 31) :
    ∃ out, fluid_rvoice_dsp_interpolate_none E (fuel + 1) rvoice buf0 false = some out ∧
      out.ret ≤ E.FLUID_BUFSIZE ∧
      (∀ k, k < out.ret → fluid_phase_index_round
        (rvoice.dsp.phase + k * fluid_phase_set_float rvoice.dsp.phase_incr)
          ≤ rvoice.dsp.end_) ∧
      (out.ret < E.FLUID_BUFSIZE → rvoice.dsp.end_ < fluid_phase_index_round
        (rvoice.dsp.phase + out.ret * fluid_phase_set_float rvoice.dsp.phase_incr)) ∧
      (∀ n, rvoice.dsp.end_ < fluid_phase_index_round
          (rvoice.dsp.phase + n * fluid_phase_set_float rvoice.dsp.phase_incr) →
        (∀ k, k < n → fluid_phase_index_round
          (rvoice.dsp.phase + k * fluid_phase_set_float rvoice.dsp.phase_incr)
            ≤ rvoice.dsp.end_) →
        out.ret = min E.FLUID_BUFSIZE n) ∧
      ((∀ k, fluid_phase_index_round
          (rvoice.dsp.phase + k * fluid_phase_set_float rvoice.dsp.phase_incr)
            ≤ rvoice.dsp.end_) → out.ret = E.FLUID_BUFSIZE) ∧
      out.raws = (List.range out.ret).map (fun k => dsp_data_at E rvoice.dsp
        (fluid_phase_index_round
          (rvoice.dsp.phase + k * fluid_phase_set_float rvoice.dsp.phase_incr))) ∧
      (rvoice.dsp.end_ < fluid_phase_index_round rvoice.dsp.phase → out.ret = 0) := by
  have hinv := none_final_inv E rvoice buf0
  have hexit := none_final_exit E rvoice buf0
  rw [to_uint_of_lt _ (by omega)] at hinv hexit
  have hb := hinv.before
  have h1 := hexit.1
  have h2 := hexit.2
  refine ⟨_, none_render_nonlooping_eq E rvoice buf0 fuel, h1, hb, h2, ?_, ?_,
    hinv.raws, fun h => ?_⟩
  · intro n hn hleast
    simp only [dsp_finish]
    have hle : (none_final E rvoice buf0).dsp_i ≤ n := by
      by_contra hc
      have := hb n (by omega)
      omega
    by_cases hlt : (none_final E rvoice buf0).dsp_i < E.FLUID_BUFSIZE
    · have h3 := h2 hlt
      have hge : n ≤ (none_final E rvoice buf0).dsp_i := by
        by_contra hc
        have := hleast _ (by omega : (none_final E rvoice buf0).dsp_i < n)
        omega
      omega
    · omega
  · intro hall
    simp only [dsp_finish]
    by_contra hc
    have h3 := h2 (by omega)
    have := hall (none_final E rvoice buf0).dsp_i
    omega
  · by_contra hne
    have := hb 0 (Nat.pos_of_ne_zero hne)
    simp only [Nat.zero_mul, Nat.add_zero] at this
    simp only [dsp_finish] at h
    omega

theorem c10_nearest_count_witness :
    ∃ out, fluid_rvoice_dsp_interpolate_none exEnv (0 + 1) exVoice (fun _ => 0) false
        = some out ∧
      out.ret ≤ exEnv.FLUID_BUFSIZE ∧
      (∀ k, k < out.ret → fluid_phase_index_round
        (exVoice.dsp.phase + k * fluid_phase_set_float exVoice.dsp.phase_incr)
          ≤ exVoice.dsp.end_) ∧
      (out.ret < exEnv.FLUID_BUFSIZE → exVoice.dsp.end_ < fluid_phase_index_round
        (exVoice.dsp.phase + out.ret * fluid_phase_set_float exVoice.dsp.phase_incr)) ∧
      (∀ n, exVoice.dsp.end_ < fluid_phase_index_round
          (exVoice.dsp.phase + n * fluid_phase_set_float exVoice.dsp.phase_incr) →
        (∀ k, k < n → fluid_phase_index_round
          (exVoice.dsp.phase + k * fluid_phase_set_float exVoice.dsp.phase_incr)
            ≤ exVoice.dsp.end_) →
        out.ret = min exEnv.FLUID_BUFSIZE n) ∧
      ((∀ k, fluid_phase_index_round
          (exVoice.dsp.phase + k * fluid_phase_set_float exVoice.dsp.phase_incr)
            ≤ exVoice.dsp.end_) → out.ret = exEnv.FLUID_BUFSIZE) ∧
      out.raws = (List.range out.ret).map (fun k => dsp_data_at exEnv exVoice.dsp
        (fluid_phase_index_round
          (exVoice.dsp.phase + k * fluid_phase_set_float exVoice.dsp.phase_incr))) ∧
      (exVoice.dsp.end_ < fluid_phase_index_round exVoice.dsp.phase → out.ret = 0) :=
  c10_nearest_count exEnv exVoice (fun _ => 0) 0 (by decide)

/-- C11, as stated, fails for a sample of one point: with `start = end = 0`, entered at
phase 0 with unit pitch, the index passes `end` at `k = 1`, so `min(FLUID_BUFSIZE, n)` is
1, but the linear kernel returns a full block of 64: its `end_index = end - 1` wraps
around as an `unsigned int` and every index is in range of its first loop. -/
theorem c11_counterexample :
    exPointVoice.dsp.start ≤ exPointVoice.dsp.end_ ∧
    fluid_phase_index (exPointVoice.dsp.phase
      + 0 * fluid_phase_set_float exPointVoice.dsp.phase_incr) ≤ exPointVoice.dsp.end_ ∧
    exPointVoice.dsp.end_ < fluid_phase_index (exPointVoice.dsp.phase
      + 1 * fluid_phase_set_float exPointVoice.dsp.phase_incr) ∧
    min exEnv.FLUID_BUFSIZE 1 = 1 ∧
    (fluid_rvoice_dsp_interpolate_linear exEnv 1 exPointVoice (fun _ => 0) false).map
      (fun o => o.ret) = some 64 := by
  decide!

/-- C11, amended: for the linear, cubic and 7th order kernels with `looping` false the call
returns `count = min(FLUID_BUFSIZE, n)`, `n` the least `k` such that the truncated index of
`entry phase + k * phase_incr` (for the 7th order kernel, of the entry phase plus half a
sample, `+ k * phase_incr`) is greater than `end`, and `count = FLUID_BUFSIZE` when there
is no such `k`, when the sample is long enough for the kernel: `end` is an `int` and at
least 1 for the linear kernel, at least 2 and at least `first` for the cubic one, at least
3 and at least `first + 2` for the 7th order one (`first` is `start`, or `loopstart` when
`has_looped` is set), the entry index is at least `first`, the entry phase is a 64 bit
value and `phase_incr` is at most `2^31` samples. -/
theorem c11_count_nonlooping {F : Type} (E : DspEnv F) (rvoice : fluid_rvoice_t F)
    (buf0 : Nat → ℚ) (hph : rvoice.dsp.phase < 2 ^ 64) :
    (TraceOk rvoice.dsp false rvoice.dsp.phase
        (fluid_phase_set_float rvoice.dsp.phase_incr) 1 →
      Returns (fun fuel => fluid_rvoice_dsp_interpolate_linear E fuel rvoice buf0 false) ∧
      ∀ fuel out, fluid_rvoice_dsp_interpolate_linear E fuel rvoice buf0 false = some out →
        StopsAtEnd E rvoice.dsp rvoice.dsp.phase
          (fluid_phase_set_float rvoice.dsp.phase_incr) out) ∧
    (TraceOk rvoice.dsp false rvoice.dsp.phase
        (fluid_phase_set_float rvoice.dsp.phase_incr) 2 →
      LeadOk rvoice.dsp false 0 →
      Returns (fun fuel => fluid_rvoice_dsp_interpolate_4th_order E fuel rvoice buf0 false) ∧
      ∀ fuel out, fluid_rvoice_dsp_interpolate_4th_order E fuel rvoice buf0 false = some out →
        StopsAtEnd E rvoice.dsp rvoice.dsp.phase
          (fluid_phase_set_float rvoice.dsp.phase_incr) out) ∧
    (TraceOk rvoice.dsp false (fluid_phase_incr rvoice.dsp.phase 0x80000000)
        (fluid_phase_set_float rvoice.dsp.phase_incr) 3 →
      LeadOk rvoice.dsp false 2 →
      Returns (fun fuel => fluid_rvoice_dsp_interpolate_7th_order E fuel rvoice buf0 false) ∧
      ∀ fuel out, fluid_rvoice_dsp_interpolate_7th_order E fuel rvoice buf0 false = some out →
        StopsAtEnd E rvoice.dsp (fluid_phase_incr rvoice.dsp.phase 0x80000000)
          (fluid_phase_set_float rvoice.dsp.phase_incr) out) :=
  ⟨fun hok => ⟨(traceOk_returns E rvoice buf0 false _ _ _ hok).1,
      fun fuel out h => linear_stops E rvoice buf0 hok fuel out h⟩,
    fun hok hlead => ⟨(traceOk_returns E rvoice buf0 false _ _ _ hok).2.1,
      fun fuel out h => cubic_stops E rvoice buf0 hok hlead fuel out h⟩,
    fun hok hlead => ⟨(traceOk_returns E rvoice buf0 false _ _ _ hok).2.2,
      fun fuel out h => sinc_stops E rvoice buf0 hph hok hlead fuel out h⟩⟩

theorem c11_count_nonlooping_witness :
    (Returns (fun fuel => fluid_rvoice_dsp_interpolate_linear exEnv fuel exRampVoice
        (fun _ => 0) false) ∧
      ∀ fuel out, fluid_rvoice_dsp_interpolate_linear exEnv fuel exRampVoice (fun _ => 0)
          false = some out →
        StopsAtEnd exEnv exRampVoice.dsp exRampVoice.dsp.phase
          (fluid_phase_set_float exRampVoice.dsp.phase_incr) out) ∧
    (Returns (fun fuel => fluid_rvoice_dsp_interpolate_4th_order exEnv fuel exRampVoice
        (fun _ => 0) false) ∧
      ∀ fuel out, fluid_rvoice_dsp_interpolate_4th_order exEnv fuel exRampVoice (fun _ => 0)
          false = some out →
        StopsAtEnd exEnv exRampVoice.dsp exRampVoice.dsp.phase
          (fluid_phase_set_float exRampVoice.dsp.phase_incr) out) ∧
    (Returns (fun fuel => fluid_rvoice_dsp_interpolate_7th_order exEnv fuel exRampVoice
        (fun _ => 0) false) ∧
      ∀ fuel out, fluid_rvoice_dsp_interpolate_7th_order exEnv fuel exRampVoice (fun _ => 0)
          false = some out →
        StopsAtEnd exEnv exRampVoice.dsp
          (fluid_phase_incr exRampVoice.dsp.phase 0x80000000)
          (fluid_phase_set_float exRampVoice.dsp.phase_incr) out) :=
  ⟨(c11_count_nonlooping exEnv exRampVoice (fun _ => 0) (by decide)).1
      ⟨by decide, le_trans (le_of_eq fluid_phase_set_float_one) (by decide), by decide,
        by decide, fun h => absurd h (by decide), by decide⟩,
    (c11_count_nonlooping exEnv exRampVoice (fun _ => 0) (by decide)).2.1
      ⟨by decide, le_trans (le_of_eq fluid_phase_set_float_one) (by decide), by decide,
        by decide, fun h => absurd h (by decide), by decide⟩
      (fun hl h => by
        rcases h with h | h
        · rw [h]; decide
        · exact absurd h.1 (by decide)),
    (c11_count_nonlooping exEnv exRampVoice (fun _ => 0) (by decide)).2.2
      ⟨by decide, le_trans (le_of_eq fluid_phase_set_float_one) (by decide), by decide,
        by decide, fun h => absurd h (by decide), by decide⟩
      (fun hl h => by
        rcases h with h | h
        · rw [h]; decide
        · exact absurd h.1 (by decide))⟩

/-- C18: frame condition of the four render functions: a call that returns leaves `start`,
`end`, `loopstart`, `loopend`, `phase_incr`, `amp_incr`, `output_rate` and the sample data
of the voice as they were on entry (only `phase`, `amp`, `has_looped` and the two filters
are written), and leaves the output buffer untouched past the returned count; the call
returns when the loop of the voice is usable. -/
theorem c18_frame_condition {F : Type} (E : DspEnv F) (rvoice : fluid_rvoice_t F)
    (buf0 : Nat → ℚ) (looping : Bool) :
    four_kernels E (fun render =>
      (LoopOk rvoice.dsp looping → Returns (fun fuel => render fuel rvoice buf0 looping)) ∧
      ∀ fuel out, render fuel rvoice buf0 looping = some out →
        FrameKept rvoice out.rvoice ∧ ∀ i, out.ret ≤ i → out.dsp_buf i = buf0 i) :=
  four_kernels_mono E
    (fun _ h => ⟨(h.1 rvoice buf0 looping).1, fun fuel out ho => by
      obtain ⟨ph, s, rfl⟩ := h.2 rvoice buf0 looping fuel out ho
      exact ⟨⟨rfl, rfl, rfl, rfl, rfl, rfl, rfl, rfl⟩,
        ((h.1 rvoice buf0 looping).2 fuel _ ho).untouched⟩⟩)
    (four_kernels_and E (four_kernels_post E) (four_kernels_finish E))

/-- C19: with `looping` false each of the four render functions returns, makes no wrap,
leaves `has_looped` as it was on entry, and stores the phase
`(entry phase + count * phase_incr) mod 2^64`, no loop length subtracted (`phase_incr`
the fixed-point increment, the entry phase a 64 bit value). -/
theorem c19_nonlooping_never_wraps {F : Type} (E : DspEnv F) (rvoice : fluid_rvoice_t F)
    (buf0 : Nat → ℚ) (hph : rvoice.dsp.phase < 2 ^ 64) :
    four_kernels E (fun render =>
      Returns (fun fuel => render fuel rvoice buf0 false) ∧
      ∀ fuel out, render fuel rvoice buf0 false = some out →
        out.wraps = 0 ∧ out.rvoice.dsp.has_looped = rvoice.dsp.has_looped ∧
        out.rvoice.dsp.phase
          = (rvoice.dsp.phase + out.ret * fluid_phase_set_float rvoice.dsp.phase_incr)
            % 2 ^ 64) :=
  four_kernels_mono E
    (fun _ h => ⟨(h.1 rvoice buf0 false).1 (Or.inl rfl), fun fuel out ho => by
      have hw := h.2 rvoice buf0 fuel out ho
      have hp := (h.1 rvoice buf0 false).2 fuel out ho
      refine ⟨hw, ?_, ?_⟩
      · rw [hp.looped, hw]
        simp
      · have h1 := hp.phase hph
        rw [hw] at h1
        have hA : (out.ret : Int) * (fluid_phase_set_float rvoice.dsp.phase_incr : Int)
            = ((out.ret * fluid_phase_set_float rvoice.dsp.phase_incr : Nat) : Int) := by
          push_cast; rfl
        rw [hA] at h1
        generalize out.ret * fluid_phase_set_float rvoice.dsp.phase_incr = A at h1 ⊢
        push_cast at h1
        omega⟩)
    (four_kernels_and E (four_kernels_post E) (four_kernels_nonlooping E))

theorem c19_nonlooping_never_wraps_witness :
    four_kernels exEnv (fun render =>
      Returns (fun fuel => render fuel exVoice (fun _ => 0) false) ∧
      ∀ fuel out, render fuel exVoice (fun _ => 0) false = some out →
        out.wraps = 0 ∧ out.rvoice.dsp.has_looped = exVoice.dsp.has_looped ∧
        out.rvoice.dsp.phase
          = (exVoice.dsp.phase + out.ret * fluid_phase_set_float exVoice.dsp.phase_incr)
            % 2 ^ 64) :=
  c19_nonlooping_never_wraps exEnv exVoice (fun _ => 0) (by decide)

/-- C20: determinism and non-interference of rendering: for each of the four render
functions, two calls on voices that are equal field by field, with the same `looping` flag
and the same fuel, into two output buffers of any contents, either both run out of fuel or
both return, and then the returned counts are equal, the voice states left behind are
equal, and the output blocks (the first `count` slots) are equal; the calls return when the
loop of the voice is usable. -/
theorem c20_determinism {F : Type} (E : DspEnv F) (u w : fluid_rvoice_t F)
    (buf1 buf2 : Nat → ℚ) (looping : Bool) (h : FieldsEq u w) :
    four_kernels E (fun render =>
      (LoopOk u.dsp looping → Returns (fun fuel => render fuel u buf1 looping) ∧
        Returns (fun fuel => render fuel w buf2 looping)) ∧
      ∀ fuel, (render fuel u buf1 looping = none ↔ render fuel w buf2 looping = none) ∧
        ∀ o1 o2, render fuel u buf1 looping = some o1 → render fuel w buf2 looping = some o2 →
          o1.ret = o2.ret ∧ o1.rvoice = o2.rvoice ∧
          ∀ i, i < o1.ret → o1.dsp_buf i = o2.dsp_buf i) := by
  have huw := fieldsEq_eq u w h
  subst huw
  refine four_kernels_mono E (fun render hr => ⟨fun hl => ?_, fun fuel => ?_⟩)
    (four_kernels_and E (four_kernels_post E) (four_kernels_bufEq E))
  · exact ⟨(hr.1 u buf1 looping).1 hl, (hr.1 u buf2 looping).1 hl⟩
  · rcases hr.2 u buf1 buf2 looping fuel with ⟨h1, h2⟩ | ⟨o1, o2, h1, h2, h3, h4, h5, _⟩
    · rw [h1, h2]
      exact ⟨Iff.rfl, fun _ _ hc => by cases hc⟩
    · rw [h1, h2]
      refine ⟨by simp, fun a b ha hb => ?_⟩
      cases ha
      cases hb
      refine ⟨h3, h4, fun i hi => ?_⟩
      rw [((hr.1 u buf1 looping).2 fuel o1 h1).written i hi,
        ((hr.1 u buf2 looping).2 fuel o2 h2).written i (by omega), h5]

theorem c20_determinism_witness :
    four_kernels exEnv (fun render =>
      (LoopOk exVoice.dsp true → Returns (fun fuel => render fuel exVoice (fun _ => 0) true) ∧
        Returns (fun fuel => render fuel exVoice (fun _ => 1) true)) ∧
      ∀ fuel, (render fuel exVoice (fun _ => 0) true = none
          ↔ render fuel exVoice (fun _ => 1) true = none) ∧
        ∀ o1 o2, render fuel exVoice (fun _ => 0) true = some o1 →
          render fuel exVoice (fun _ => 1) true = some o2 →
          o1.ret = o2.ret ∧ o1.rvoice = o2.rvoice ∧
          ∀ i, i < o1.ret → o1.dsp_buf i = o2.dsp_buf i) :=
  c20_determinism exEnv exVoice exVoice (fun _ => 0) (fun _ => 1) true
    ⟨rfl, rfl, rfl, rfl, rfl, rfl, rfl, rfl, rfl, rfl, fun _ => rfl, rfl, rfl, rfl⟩

/-- C21: `fluid_strtok` never returns an empty token: whenever it returns a token, that
token, read as a C string right after the call, has at least one character and holds no
character of the delimiter string. -/
theorem c21_strtok_token_nonempty (mem : List Nat) (str : Option (Option Nat))
    (delim : Option (List Nat)) (t : Nat)
    (h : (fluid_strtok mem str delim).token = some t) :
    1 ≤ (cstr (fluid_strtok mem str delim).mem t).length ∧
    ∀ d, delim = some d → ∀ c ∈ cstr (fluid_strtok mem str delim).mem t, c ∉ cstr d 0 := by
  obtain ⟨s, d, rfl, rfl, hd⟩ := strtok_token_valid mem str delim t h
  rcases strtok_cases mem s d hd with ⟨_, h2⟩ |
    ⟨pre, tok, e, post, _, _, h3, h4, _, _, h7, h8, _⟩ | ⟨pre, tok, _, _, h3, h4, h5, h6⟩
  · rw [h2] at h
    cases h
  · rw [h7] at h ⊢
    cases h
    simp only [h8]
    refine ⟨List.length_pos.mpr h3, fun d1 hd1 c hc hcd => ?_⟩
    cases hd1
    have := (delim_match_iff c d).mpr hcd
    rw [(h4 c hc).2] at this
    cases this
  · rw [h5] at h ⊢
    cases h
    simp only [h6]
    refine ⟨List.length_pos.mpr h3, fun d1 hd1 c hc hcd => ?_⟩
    cases hd1
    have := (delim_match_iff c d).mpr hcd
    rw [h4 c hc] at this
    cases this

theorem c21_strtok_token_nonempty_witness :
    1 ≤ (cstr (fluid_strtok exTokens (some (some 0)) (some [44])).mem 2).length ∧
    ∀ d, some [44] = some d →
      ∀ c ∈ cstr (fluid_strtok exTokens (some (some 0)) (some [44])).mem 2, c ∉ cstr d 0 :=
  c21_strtok_token_nonempty exTokens (some (some 0)) (some [44]) 2 (by decide)

/-- C22: for a source string at the address `s` and a non-empty delimiter string `d`,
calling `fluid_strtok` again and again on the same string pointer returns the maximal
non-empty runs of characters of the source that are no delimiters, in order (the source
split at every delimiter character, the empty pieces dropped), and then `NULL` at every
later call: the results of the first `L + k` calls are the `L` runs followed by `k` times
`NULL`. -/
theorem c22_strtok_token_sequence (mem : List Nat) (s : Nat) (d : List Nat)
    (hd : d.headD 0 ≠ 0) (k : Nat) :
    strtok_calls d ((split_runs (fun c => decide (c ∈ cstr d 0)) (cstr mem s)).length + k)
        mem (some s)
      = (split_runs (fun c => decide (c ∈ cstr d 0)) (cstr mem s)).map some
          ++ List.replicate k none :=
  strtok_calls_runs mem s d hd k

theorem c22_strtok_token_sequence_witness :
    strtok_calls [44]
        ((split_runs (fun c => decide (c ∈ cstr [44] 0)) (cstr exTokens 0)).length + 2)
        exTokens (some 0)
      = (split_runs (fun c => decide (c ∈ cstr [44] 0)) (cstr exTokens 0)).map some
          ++ List.replicate 2 none :=
  c22_strtok_token_sequence exTokens 0 [44] (by decide) 2

/-- C23, as stated, fails when the source ends in a delimiter: on the string `a,` with
the delimiter `,` the first call returns the token `a` and every later call returns
`NULL`, yet `*str` is not `NULL` after the first call: it points to the end of the
source, after the delimiter. -/
theorem c23_counterexample :
    (fluid_strtok exTrailingDelim (some (some 0)) (some [44])).token = some 0 ∧
    cstr (fluid_strtok exTrailingDelim (some (some 0)) (some [44])).mem 0 = [97] ∧
    (fluid_strtok exTrailingDelim (some (some 0)) (some [44])).str = some (some 2) ∧
    ∀ k, strtok_calls [44] (1 + k) exTrailingDelim (some 0)
      = some [97] :: List.replicate k none :=
  ⟨by decide, by decide, by decide, fun k => strtok_calls_runs exTrailingDelim 0 [44]
    (by decide) k⟩

/-- C23, amended: when `fluid_strtok` returns a token that runs to the end of the source
string (no delimiter character follows its first character), it sets `*str` to `NULL`;
when a delimiter follows the token, also when nothing but delimiters follow, it sets
`*str` to the address after the first such delimiter; and a call that returns `NULL`, as
the next call does after the final token, leaves `*str` at `NULL`. -/
theorem c23_strtok_final_pointer (mem : List Nat) (s : Nat) (d : List Nat) (t : Nat)
    (h : (fluid_strtok mem (some (some s)) (some d)).token = some t) :
    ((∀ c ∈ cstr mem t, c ∉ cstr d 0) →
      (fluid_strtok mem (some (some s)) (some d)).str = some none) ∧
    ((∃ c ∈ cstr mem t, c ∈ cstr d 0) → ∃ q, t < q ∧
      (fluid_strtok mem (some (some s)) (some d)).str = some (some q) ∧
      mem.getD (q - 1) 0 ∈ cstr d 0 ∧ (∀ c ∈ (mem.drop t).take (q - 1 - t), c ∉ cstr d 0)) ∧
    ((fluid_strtok (fluid_strtok mem (some (some s)) (some d)).mem
          (fluid_strtok mem (some (some s)) (some d)).str (some d)).token = none →
      (fluid_strtok (fluid_strtok mem (some (some s)) (some d)).mem
          (fluid_strtok mem (some (some s)) (some d)).str (some d)).str = some none) := by
  obtain ⟨s1, d1, h1, h2, hd⟩ := strtok_token_valid mem _ _ t h
  cases h1
  cases h2
  rcases strtok_cases mem s d hd with ⟨_, h2⟩ |
    ⟨pre, tok, e, post, h1, h2, h3, h4, h5, h6, h7, h8, h9⟩ | ⟨pre, tok, h1, h2, h3, h4, h5, h6⟩
  · rw [h2] at h
    cases h
  · rw [h7] at h ⊢
    cases h
    have hdt : mem.drop (s + pre.length) = tok ++ e :: post := by
      rw [List.append_assoc] at h1
      exact drop_of_drop_append mem s pre _ h1
    have hde : mem.drop (s + pre.length + tok.length) = e :: post :=
      drop_of_drop_append mem _ tok _ hdt
    have hcs : cstr mem (s + pre.length)
        = tok ++ e :: post.takeWhile (fun c => c ≠ 0) := by
      unfold cstr
      rw [hdt, takeWhile_nonzero_append _ _ (fun x hx => (h4 x hx).1),
        List.takeWhile_cons_of_pos (by simpa using h5)]
    refine ⟨fun hall => ?_, fun _ => ⟨s + pre.length + tok.length + 1, ?_, rfl, ?_, ?_⟩,
      fun hn => strtok_null_str _ _ d hd hn⟩
    · have := hall e (by rw [hcs]; simp)
      exact absurd ((delim_match_iff e d).mp h6) this
    · have := List.length_pos.mpr h3
      omega
    · rw [Nat.add_sub_cancel, getD_of_drop mem _ e post hde]
      exact (delim_match_iff e d).mp h6
    · intro c hc hcd
      rw [hdt, (by omega : s + pre.length + tok.length + 1 - 1 - (s + pre.length) = tok.length),
        List.take_left] at hc
      have := (delim_match_iff c d).mpr hcd
      rw [(h4 c hc).2] at this
      cases this
  · rw [h5] at h ⊢
    cases h
    refine ⟨fun _ => rfl, fun ⟨c, hc, hcd⟩ => ?_, fun hn => strtok_null_str _ _ d hd hn⟩
    rw [h6] at hc
    have := (delim_match_iff c d).mpr hcd
    rw [h4 c hc] at this
    cases this

theorem c23_strtok_final_pointer_witness :
    ((∀ c ∈ cstr exTrailingDelim 0, c ∉ cstr [44] 0) →
      (fluid_strtok exTrailingDelim (some (some 0)) (some [44])).str = some none) ∧
    ((∃ c ∈ cstr exTrailingDelim 0, c ∈ cstr [44] 0) → ∃ q, 0 < q ∧
      (fluid_strtok exTrailingDelim (some (some 0)) (some [44])).str = some (some q) ∧
      exTrailingDelim.getD (q - 1) 0 ∈ cstr [44] 0 ∧
      (∀ c ∈ (exTrailingDelim.drop 0).take (q - 1 - 0), c ∉ cstr [44] 0)) ∧
    ((fluid_strtok (fluid_strtok exTrailingDelim (some (some 0)) (some [44])).mem
          (fluid_strtok exTrailingDelim (some (some 0)) (some [44])).str (some [44])).token
        = none →
      (fluid_strtok (fluid_strtok exTrailingDelim (some (some 0)) (some [44])).mem
          (fluid_strtok exTrailingDelim (some (some 0)) (some [44])).str (some [44])).str
        = some none) :=
  c23_strtok_final_pointer exTrailingDelim 0 [44] 0 (by decide)

/-- C24: `fluid_strtok` rejects unusable arguments without touching its input: when `str`
is `NULL`, `delim` is `NULL` or the empty string, or `*str` is already `NULL`, it returns
`NULL` and leaves `*str` and the bytes of the memory as they were. -/
theorem c24_strtok_rejects_unusable (mem : List Nat) (str : Option (Option Nat))
    (delim : Option (List Nat))
    (h : str = none ∨ delim = none ∨ (∃ d, delim = some d ∧ d.headD 0 = 0) ∨ str = some none) :
    (fluid_strtok mem str delim).token = none ∧ (fluid_strtok mem str delim).str = str ∧
      (fluid_strtok mem str delim).mem = mem := by
  cases str with
  | none => exact ⟨rfl, rfl, rfl⟩
  | some p =>
    cases delim with
    | none => exact ⟨rfl, rfl, rfl⟩
    | some d =>
      by_cases hd : d.headD 0 = 0
      · simp only [fluid_strtok, if_pos hd, and_self]
      · rcases h with h | h | ⟨d1, h1, h2⟩ | h
        · cases h
        · cases h
        · cases h1
          exact absurd h2 hd
        · cases h
          simp only [fluid_strtok, if_neg hd, and_self]

theorem c24_strtok_rejects_unusable_witness :
    (fluid_strtok exTokens (some (some 0)) (some [])).token = none ∧
      (fluid_strtok exTokens (some (some 0)) (some [])).str = some (some 0) ∧
      (fluid_strtok exTokens (some (some 0)) (some [])).mem = exTokens :=
  c24_strtok_rejects_unusable exTokens (some (some 0)) (some [])
    (Or.inr (Or.inr (Or.inl ⟨[], rfl, rfl⟩)))

/-- C25: for an address `p` and an alignment `a = 2^k` that is an `unsigned int`, with
`p + a` an address (no overflow of `uintptr_t`), `fluid_align_ptr(p, a)` returns `r` with
`r mod a = 0` and `p ≤ r < p + a`; so `r = p` when `p` is aligned already. -/
theorem c25_align_ptr (bits p k : Nat) (hk : 2 ^ k < 2 ^ 32) (hp : p + 2 ^ k ≤ 2 ^ bits) :
    fluid_align_ptr bits p (2 ^ k) % 2 ^ k = 0 ∧ p ≤ fluid_align_ptr bits p (2 ^ k) ∧
      fluid_align_ptr bits p (2 ^ k) < p + 2 ^ k ∧
      (p % 2 ^ k = 0 → fluid_align_ptr bits p (2 ^ k) = p) := by
  rw [fluid_align_ptr_eq bits p k hk hp]
  exact align_up_props p (2 ^ k) (Nat.two_pow_pos k)

theorem c25_align_ptr_witness :
    fluid_align_ptr 64 1001 (2 ^ 6) % 2 ^ 6 = 0 ∧ 1001 ≤ fluid_align_ptr 64 1001 (2 ^ 6) ∧
      fluid_align_ptr 64 1001 (2 ^ 6) < 1001 + 2 ^ 6 ∧
      (1001 % 2 ^ 6 = 0 → fluid_align_ptr 64 1001 (2 ^ 6) = 1001) :=
  c25_align_ptr 64 1001 6 (by decide) (by decide)

/-- C26: `fluid_profile_start_stop` as a state machine on `fluid_profile_status`: with
`end_ticks > 0` and a status other than `PROFILE_START` it sets the status to
`PROFILE_START` and `fluid_profile_end_ticks` to `end_ticks`; with `end_ticks > 0` and the
status `PROFILE_START` it changes nothing (status, end ticks and every entry of the
profile data); with `end_ticks = 0` it sets the status to `PROFILE_STOP` and leaves the end
ticks and the profile data as they were. -/
theorem c26_profile_start_stop (g : profile_globals) (end_ticks : Nat) (clear_data : Int) :
    (0 < end_ticks → g.fluid_profile_status ≠ PROFILE_START →
      (fluid_profile_start_stop g end_ticks clear_data).fluid_profile_status = PROFILE_START ∧
      (fluid_profile_start_stop g end_ticks clear_data).fluid_profile_end_ticks = end_ticks) ∧
    (0 < end_ticks → g.fluid_profile_status = PROFILE_START →
      (fluid_profile_start_stop g end_ticks clear_data).fluid_profile_status
        = g.fluid_profile_status ∧
      (fluid_profile_start_stop g end_ticks clear_data).fluid_profile_end_ticks
        = g.fluid_profile_end_ticks ∧
      ∀ i, (fluid_profile_start_stop g end_ticks clear_data).fluid_profile_data i
        = g.fluid_profile_data i) ∧
    (end_ticks = 0 →
      (fluid_profile_start_stop g end_ticks clear_data).fluid_profile_status = PROFILE_STOP ∧
      (fluid_profile_start_stop g end_ticks clear_data).fluid_profile_end_ticks
        = g.fluid_profile_end_ticks ∧
      ∀ i, (fluid_profile_start_stop g end_ticks clear_data).fluid_profile_data i
        = g.fluid_profile_data i) := by
  refine ⟨fun h1 h2 => ?_, fun h1 h2 => ?_, fun h1 => ?_⟩
  · have h3 : end_ticks ≠ 0 := by omega
    simp only [fluid_profile_start_stop, if_pos h3, if_pos h2, and_self]
  · have h3 : end_ticks ≠ 0 := by omega
    simp only [fluid_profile_start_stop, if_pos h3, h2, ne_eq, not_true_eq_false, if_false,
      implies_true, and_self]
  · subst h1
    simp only [fluid_profile_start_stop, ne_eq, not_true_eq_false, if_false, implies_true,
      and_self]

theorem c26_profile_start_stop_witness :
    (fluid_profile_start_stop exProfile 50 0).fluid_profile_status = PROFILE_START ∧
    (fluid_profile_start_stop exProfile 50 0).fluid_profile_end_ticks = 50 :=
  (c26_profile_start_stop exProfile 50 0).1 (by decide) (by decide)

/-- C27: when `fluid_profile_start_stop` starts a measure (`end_ticks > 0`, status other
than `PROFILE_START`): with `clear_data = 0` every one of the `FLUID_PROFILE_NBR` entries
of `fluid_profile_data` is reset to `min = 1e10`, `max = 0`, `total = 0`, `count = 0`,
`n_voices = 0`, `n_samples = 0`, its description kept; with `clear_data` non-zero every
entry is left as it was. -/
theorem c27_profile_clear_data (g : profile_globals) (end_ticks : Nat) (clear_data : Int)
    (hstart : 0 < end_ticks) (hstatus : g.fluid_profile_status ≠ PROFILE_START) :
    (clear_data = 0 → ∀ i, i < FLUID_PROFILE_NBR →
      (fluid_profile_start_stop g end_ticks clear_data).fluid_profile_data i
        = { description := (g.fluid_profile_data i).description
            min := 10000000000, max := 0, total := 0, count := 0, n_voices := 0,
            n_samples := 0 }) ∧
    (clear_data ≠ 0 → ∀ i,
      (fluid_profile_start_stop g end_ticks clear_data).fluid_profile_data i
        = g.fluid_profile_data i) := by
  have h3 : end_ticks ≠ 0 := by omega
  refine ⟨fun h i hi => ?_, fun h i => ?_⟩
  · simp only [fluid_profile_start_stop, if_pos h3, if_pos hstatus, if_pos h]
    rw [profile_clear_loop_spec, if_pos (by omega)]
  · simp only [fluid_profile_start_stop, if_pos h3, if_pos hstatus, if_neg h]

theorem c27_profile_clear_data_witness :
    ((0 : Int) = 0 → ∀ i, i < FLUID_PROFILE_NBR →
      (fluid_profile_start_stop exProfile 50 0).fluid_profile_data i
        = { description := (exProfile.fluid_profile_data i).description
            min := 10000000000, max := 0, total := 0, count := 0, n_voices := 0,
            n_samples := 0 }) ∧
    ((0 : Int) ≠ 0 → ∀ i,
      (fluid_profile_start_stop exProfile 50 0).fluid_profile_data i
        = exProfile.fluid_profile_data i) :=
  c27_profile_clear_data exProfile 50 0 (by decide) (by decide)

/-- C29: for a non-empty command line without NUL, backslash, single quote, double quote
and hash, `fluid_shell_parse_argv_internal` (every allocation succeeding) stores in `argv`
the maximal runs of characters other than space, tab and newline, in order, stores their
number in `argc`, and returns `TRUE` exactly when there is such a run. -/
theorem c29_parse_plain_line (l : List Nat) (hne : l ≠ [])
    (hl : ∀ c ∈ l, is_plain c = true) :
    (fluid_shell_parse_argv_internal (some l)).argv = some (split_runs is_blank l) ∧
    (fluid_shell_parse_argv_internal (some l)).argc
      = some (split_runs is_blank l).length ∧
    ((fluid_shell_parse_argv_internal (some l)).ret = true ↔ split_runs is_blank l ≠ []) := by
  have h0 : ¬ l.headD 0 = 0 := by
    cases l with
    | nil => exact absurd rfl hne
    | cons c l =>
      have := hl c (List.mem_cons_self _ _)
      simp only [is_plain, decide_eq_true_eq] at this
      exact this.1
  obtain ⟨h1, h2', h3'⟩ := parse_loop_plain l hl parse_init rfl (fun x hx => by cases hx)
  have h2 : (parse_loop parse_init l).argv = split_runs is_blank l := h2'
  have h3 : (parse_loop parse_init l).argc = (split_runs is_blank l).length :=
    h3'.trans (Nat.zero_add _)
  have hst : ¬ ((parse_loop parse_init l).state ≠ .STATE_NORMAL
      ∧ (parse_loop parse_init l).state ≠ .STATE_COMMENT) := fun h => h.1 h1
  simp only [fluid_shell_parse_argv_internal, if_neg h0, if_neg hst, h2, h3,
    decide_eq_true_eq, true_and]
  exact List.length_pos

theorem c29_parse_plain_line_witness :
    (fluid_shell_parse_argv_internal (some exPlainLine)).argv
      = some (split_runs is_blank exPlainLine) ∧
    (fluid_shell_parse_argv_internal (some exPlainLine)).argc
      = some (split_runs is_blank exPlainLine).length ∧
    ((fluid_shell_parse_argv_internal (some exPlainLine)).ret = true
      ↔ split_runs is_blank exPlainLine ≠ []) :=
  c29_parse_plain_line exPlainLine (by decide) (by decide)

/-- C30: `fluid_shell_parse_argv_internal` (every allocation succeeding) returns `TRUE`
exactly when the line is not `NULL` and not empty, the scan ends in `STATE_NORMAL` or
`STATE_COMMENT`, and at least one argument was produced. So it returns `FALSE` for a
`NULL` or empty line; for a line of blanks only, or of blanks followed by a comment; and,
whatever the characters `pre` scanned before (ending in `STATE_NORMAL`, or in
`STATE_DOUBLE_QUOTE` for the backslash), for a line that ends inside a single-quoted
string that is not closed, inside a double-quoted string that is not closed, or directly
after a backslash that starts an escape. -/
theorem c30_parse_return_value :
    (∀ line, (fluid_shell_parse_argv_internal line).ret = true ↔
      ∃ l, line = some l ∧ l.headD 0 ≠ 0 ∧
        ((parse_loop parse_init l).state = .STATE_NORMAL
          ∨ (parse_loop parse_init l).state = .STATE_COMMENT) ∧
        0 < (parse_loop parse_init l).argc) ∧
    (fluid_shell_parse_argv_internal none).ret = false ∧
    (fluid_shell_parse_argv_internal (some [])).ret = false ∧
    (∀ ws, (∀ c ∈ ws, is_blank c = true) →
      (fluid_shell_parse_argv_internal (some ws)).ret = false) ∧
    (∀ ws rest, (∀ c ∈ ws, is_blank c = true) →
      (fluid_shell_parse_argv_internal (some (ws ++ 35 :: rest))).ret = false) ∧
    (∀ pre q, (∀ c ∈ pre, c ≠ 0) → (parse_scan pre).state = .STATE_NORMAL →
      (∀ c ∈ q, c ≠ 0 ∧ c ≠ 39) →
      (fluid_shell_parse_argv_internal (some (pre ++ 39 :: q))).ret = false) ∧
    (∀ pre q, (∀ c ∈ pre, c ≠ 0) → (parse_scan pre).state = .STATE_NORMAL →
      (∀ c ∈ q, c ≠ 0 ∧ c ≠ 34 ∧ c ≠ 92) →
      (fluid_shell_parse_argv_internal (some (pre ++ 34 :: q))).ret = false) ∧
    (∀ pre, (∀ c ∈ pre, c ≠ 0) →
      ((parse_scan pre).state = .STATE_NORMAL ∨ (parse_scan pre).state = .STATE_DOUBLE_QUOTE) →
      (fluid_shell_parse_argv_internal (some (pre ++ [92]))).ret = false) := by
  refine ⟨parse_ret_true_iff, rfl, rfl, fun ws hws => ?_, fun ws rest hws => ?_,
    fun pre q hpre hs hq => ?_, fun pre q hpre hs hq => ?_, fun pre hpre hs => ?_⟩
  · apply parse_ret_false_of_argc
    have := parse_loop_blanks ws hws parse_init rfl rfl []
    rw [List.append_nil] at this
    rw [this]
    rfl
  · apply parse_ret_false_of_argc
    rw [parse_loop_blanks ws hws parse_init rfl rfl]
    simp only [parse_loop, (by decide : ¬ (35 : Nat) = 0), if_false]
    rw [parse_loop_comment _ _ (by decide)]
    rfl
  · apply parse_ret_false_of_state
    rw [parse_loop_append pre hpre]
    simp only [parse_loop, (by decide : ¬ (39 : Nat) = 0), if_false]
    have h1 : (parse_char (pre.foldl parse_char parse_init) 39).state
        = .STATE_SINGLE_QUOTE := by
      unfold parse_scan at hs
      simp only [parse_char, hs, (by decide : ¬ (39 : Nat) = 92), if_false, if_true]
    rw [parse_loop_single_quote q hq _ h1]
    exact ⟨by decide, by decide⟩
  · apply parse_ret_false_of_state
    rw [parse_loop_append pre hpre]
    simp only [parse_loop, (by decide : ¬ (34 : Nat) = 0), if_false]
    have h1 : (parse_char (pre.foldl parse_char parse_init) 34).state
        = .STATE_DOUBLE_QUOTE := by
      unfold parse_scan at hs
      simp only [parse_char, hs, (by decide : ¬ (34 : Nat) = 92),
        (by decide : ¬ (34 : Nat) = 39), if_false, if_true]
    rw [parse_loop_double_quote q hq _ h1]
    exact ⟨by decide, by decide⟩
  · apply parse_ret_false_of_state
    rw [parse_loop_append pre hpre]
    unfold parse_scan at hs
    rcases hs with hs | hs
    · have h1 : (parse_char (pre.foldl parse_char parse_init) 92).state
          = .STATE_ESCAPE_NORMAL := by
        simp only [parse_char, hs, if_true]
      simp only [parse_loop, (by decide : ¬ (92 : Nat) = 0), if_false]
      rw [if_pos (by rw [h1]; decide), h1]
      exact ⟨by decide, by decide⟩
    · have h1 : (parse_char (pre.foldl parse_char parse_init) 92).state
          = .STATE_ESCAPE_DOUBLE_QUOTE := by
        simp only [parse_char, hs, if_true]
      simp only [parse_loop, (by decide : ¬ (92 : Nat) = 0), if_false]
      rw [if_pos (by rw [h1]; decide), h1]
      exact ⟨by decide, by decide⟩

theorem c30_parse_return_value_witness :
    (fluid_shell_parse_argv_internal (some ([97, 32] ++ 39 :: [98]))).ret = false :=
  c30_parse_return_value.2.2.2.2.2.1 [97, 32] [98] (by decide) (by decide) (by decide)

/-- C31: buffer safety of `fluid_shell_parse_argv_internal`. For a line of length `n`
(its characters up to the first NUL) and every number `k ≤ n` of characters consumed, the
variables of the scan are those after the first `k` characters, `length` is at most `k`
and `k` is at most `n`, and every index of `buffer` that the next step writes (for the
character at `k`, the terminator when `k = n`), the two writes of the double-quote escape
branch and the terminator of a stored argument among them, is below the `n + 1` bytes
allocated. -/
theorem c31_parse_buffer_safety (l : List Nat) (k : Nat) (hk : k ≤ (cstr l 0).length) :
    parse_loop parse_init l = parse_loop (parse_scan ((cstr l 0).take k)) (l.drop k) ∧
    (parse_scan ((cstr l 0).take k)).length ≤ k ∧ k ≤ (cstr l 0).length ∧
    ∀ i ∈ parse_writes (parse_scan ((cstr l 0).take k)) (l.getD k 0),
      i < (cstr l 0).length + 1 := by
  have hlen : ((cstr l 0).take k).length = k := by
    rw [List.length_take]
    omega
  have hinv := parse_scan_length ((cstr l 0).take k)
  rw [hlen] at hinv
  refine ⟨?_, by omega, hk, fun i hi => ?_⟩
  · have h1 := parse_loop_append ((cstr l 0).take k)
      (fun c hc => cstr_nonzero l 0 c (List.mem_of_mem_take hc)) parse_init (l.drop k)
    rw [cstr_take l k hk, List.take_append_drop] at h1
    rw [h1, cstr_take l k hk]
    rfl
  · have := parse_writes_bound _ (l.getD k 0) k hinv i hi
    omega

theorem c31_parse_buffer_safety_witness :
    parse_loop parse_init exEscapeLine
      = parse_loop (parse_scan ((cstr exEscapeLine 0).take 7)) (exEscapeLine.drop 7) ∧
    (parse_scan ((cstr exEscapeLine 0).take 7)).length ≤ 7 ∧
    7 ≤ (cstr exEscapeLine 0).length ∧
    ∀ i ∈ parse_writes (parse_scan ((cstr exEscapeLine 0).take 7)) (exEscapeLine.getD 7 0),
      i < (cstr exEscapeLine 0).length + 1 :=
  c31_parse_buffer_safety exEscapeLine 7 (by decide)

/-- C32: every argument produced by `fluid_shell_parse_argv_internal` is non-empty: each
string stored in `argv` has at least one character and `argc` is their number; an empty
quoted string, two double quotes or two single quotes met in `STATE_NORMAL`, leaves the
variables of the scan as they were, so alone between blanks it contributes no argument. -/
theorem c32_parse_arguments_nonempty :
    (∀ line args, (fluid_shell_parse_argv_internal line).argv = some args →
      (∀ t ∈ args, 1 ≤ t.length) ∧
      (fluid_shell_parse_argv_internal line).argc = some args.length) ∧
    (∀ pre rest, (∀ c ∈ pre, c ≠ 0) → (parse_scan pre).state = .STATE_NORMAL →
      parse_loop parse_init (pre ++ 34 :: 34 :: rest) = parse_loop parse_init (pre ++ rest) ∧
      parse_loop parse_init (pre ++ 39 :: 39 :: rest) = parse_loop parse_init (pre ++ rest)) ∧
    fluid_shell_parse_argv_internal (some exEmptyQuotes)
      = { ret := true, argc := some 2, argv := some [[97], [98]] } ∧
    fluid_shell_parse_argv_internal (some [34, 34])
      = { ret := false, argc := some 0, argv := some [] } := by
  refine ⟨fun line args h => ?_, fun pre rest hpre hs => ?_, by decide, by decide⟩
  · cases line with
    | none => cases h
    | some l =>
      have hinv := parse_loop_args l parse_init (fun x hx => by cases hx)
        (fun t ht => by cases ht) rfl
      by_cases h0 : l.headD 0 = 0
      · simp only [fluid_shell_parse_argv_internal, if_pos h0] at h
        cases h
      · by_cases hst : (parse_loop parse_init l).state ≠ .STATE_NORMAL
            ∧ (parse_loop parse_init l).state ≠ .STATE_COMMENT
        · simp only [fluid_shell_parse_argv_internal, if_neg h0, if_pos hst] at h
          cases h
        · simp only [fluid_shell_parse_argv_internal, if_neg h0, if_neg hst,
            Option.some.injEq] at h ⊢
          subst h
          exact ⟨hinv.1, hinv.2⟩
  · have hq := parse_char_quotes (pre.foldl parse_char parse_init) hs
    rw [parse_loop_append pre hpre, parse_loop_append pre hpre,
      parse_loop_append pre hpre]
    simp only [parse_loop, (by decide : ¬ (34 : Nat) = 0), (by decide : ¬ (39 : Nat) = 0),
      if_false, hq.1, hq.2, and_self]

theorem c32_parse_arguments_nonempty_witness :
    (∀ t ∈ [[97], [98]], 1 ≤ t.length) ∧
    (fluid_shell_parse_argv_internal (some exEmptyQuotes)).argc
      = some ([[97], [98]] : List (List Nat)).length :=
  c32_parse_arguments_nonempty.1 (some exEmptyQuotes) [[97], [98]] (by decide)

